import Mathlib

/-!
# todo-plus: cache-aside repositories

A shallow embedding of `internal/repository` (ListRepo, ItemRepo), `pkg/cache`
and the parts of `internal/entity` and `utils` they use.

Every call a repository makes on an injected collaborator (the two cache nodes,
the relational store) is a `Call`; a repository method is a `Prog`, the tree of
the calls it makes as a function of the answers it gets.  `Prog.run` executes a
program against a `Handler`, threading the collaborators' state and recording
the calls in order.  Logger calls have no effect on results and are left out.

Properties of a single method are stated for every handler.  Properties of
cache contents are stated on a `World`: `RedisCache` on a model of the two
nodes, next to a store, which is either arbitrary or the model `Postgres`.

The use cases (`internal/usecase`), the search adapters (`pkg/search`) and the
Kafka producer and consumer (`pkg/message_broker`) follow in the same manner,
as trees over the calls of their own collaborators; see the section on the
use-case layer.
-/

set_option autoImplicit false

/-! ## utils/error.go, database/sql -/

/-- Error values.  The first six are the sentinels of `utils/error.go`,
`sqlErrNoRows` is `sql.ErrNoRows`, `other` stands for any further error value
(connection failures, decoding errors, ...). -/
inductive Err where
  | ErrUserNotFound
  | ErrUserNotOwner
  | ErrListNotFound
  | ErrListEmptyRequest
  | ErrItemNotFound
  | ErrItemEmptyRequest
  | sqlErrNoRows
  | other (msg : String)
  deriving DecidableEq, Repr

/-! ## internal/entity -/

/-- The struct `entity.List`. -/
structure entity.List where
  Id : Int
  Title : String
  Description : String
  deriving DecidableEq, Repr

/-- The struct `entity.Item`. -/
structure entity.Item where
  Id : Int
  Title : String
  Description : String
  Done : Bool
  deriving DecidableEq, Repr

/-- The struct `entity.UpdateListInput`; a nil pointer is `none`. -/
structure entity.UpdateListInput where
  Title : Option String
  Description : Option String
  deriving DecidableEq, Repr

/-- The struct `entity.UpdateItemInput`; a nil pointer is `none`. -/
structure entity.UpdateItemInput where
  Title : Option String
  Description : Option String
  Done : Option Bool
  deriving DecidableEq, Repr

/-- Go zero value of `entity.List` (`var list entity.List`). -/
def entity.List.zero : entity.List := ⟨0, "", ""⟩

/-- Go zero value of `entity.Item` (`var item entity.Item`). -/
def entity.Item.zero : entity.Item := ⟨0, "", "", false⟩

/-! ## Values crossing the collaborator interfaces -/

/-- A value passed as a variadic SQL argument (`args ...interface{}`). -/
inductive Arg where
  | int (i : Int)
  | str (s : String)
  | bool (b : Bool)
  deriving DecidableEq, Repr

/-- The Go types of the destinations handed to `Get` and `Scan` and of the
values handed to `Set`. -/
inductive Ty where
  | int
  | list
  | lists
  | item
  | items
  deriving DecidableEq, Repr

/-- The values of each destination type. -/
@[reducible] def Ty.type : Ty → Type
  | .int => Int
  | .list => entity.List
  | .lists => List entity.List
  | .item => entity.Item
  | .items => List entity.Item

instance : (t : Ty) → DecidableEq t.type
  | .int => inferInstanceAs (DecidableEq Int)
  | .list => inferInstanceAs (DecidableEq entity.List)
  | .lists => inferInstanceAs (DecidableEq (List entity.List))
  | .item => inferInstanceAs (DecidableEq entity.Item)
  | .items => inferInstanceAs (DecidableEq (List entity.Item))

/-- The two nodes of `cache.Cache`. -/
inductive Node where
  | Master
  | Replica
  deriving DecidableEq, Repr

/-- What `cache.Interface.Get(ctx, key, dest)` leaves behind: the content of
`dest` after the call, the returned flag and the returned error. -/
structure GetResult (T : Type) where
  dest : T
  found : Bool
  err : Option Err

/-- What `QueryRow(...).Scan(dest...)` leaves behind: the content of the
destinations after the call and the returned error. -/
structure ScanResult (T : Type) where
  dest : T
  err : Option Err

/-- A result set `*sql.Rows` as the loop `for rows.Next() { rows.Scan(...) }`
sees it: the outcome of `Scan` into a fresh destination for each row that
`Next` delivers, in order, and the value of `rows.Err()` once `Next` has
returned false. -/
structure Rows (T : Type) where
  scans : List (Except Err T)
  err : Option Err

/-- A call on an injected collaborator.
`cacheGet/cacheSet/cacheDelete` are the methods of `cache.Interface` on the
given node, `beginTx` is `Transaction.BeginTx`, the `tx*` calls are methods of
the `*sqlx.Tx` it returned, `queryRow` is `Querier.QueryRow(..).Scan(..)`,
`query` is `Querier.Query` and `exec` is `Executer.Exec` followed by
`RowsAffected` on its result. -/
inductive Call where
  | cacheGet (node : Node) (key : String) (t : Ty) (dest : t.type)
  | cacheSet (node : Node) (key : String) (t : Ty) (value : t.type) (ttl : Nat)
  | cacheDelete (node : Node) (key : String)
  | beginTx
  | txQueryRow (query : String) (args : List Arg) (t : Ty) (dest : t.type)
  | txExec (query : String) (args : List Arg)
  | txCommit
  | txRollback
  | queryRow (query : String) (args : List Arg) (t : Ty) (dest : t.type)
  | query (query : String) (args : List Arg) (t : Ty)
  | exec (query : String) (args : List Arg)

/-- The type of the answer to each call.  For `exec` the outer error is the one
of `Exec`, the inner one that of `result.RowsAffected()`. -/
@[reducible] def Call.Resp : Call → Type
  | .cacheGet _ _ t _ => GetResult t.type
  | .cacheSet _ _ _ _ _ => Option Err
  | .cacheDelete _ _ => Option Err
  | .beginTx => Option Err
  | .txQueryRow _ _ t _ => ScanResult t.type
  | .txExec _ _ => Option Err
  | .txCommit => Option Err
  | .txRollback => Option Err
  | .queryRow _ _ t _ => ScanResult t.type
  | .query _ _ t => Except Err (Rows t.type)
  | .exec _ _ => Except Err (Except Err Int)

/-- A repository method as the tree of its collaborator calls.  `panic` is a
Go run-time panic (nil pointer dereference). -/
inductive Prog (α : Type) where
  | ret (a : α)
  | panic
  | call (c : Call) (k : c.Resp → Prog α)

/-- Sequencing of programs. -/
def Prog.bind {α β : Type} : Prog α → (α → Prog β) → Prog β
  | .ret a, f => f a
  | .panic, _ => .panic
  | .call c k, f => .call c (fun r => (k r).bind f)

instance : Monad Prog where
  pure := Prog.ret
  bind := Prog.bind

/-- A single collaborator call as a program. -/
def Prog.perform (c : Call) : Prog c.Resp := .call c .ret

/-- The collaborators: how each call is answered in a state and the state it
leaves. -/
structure Handler (σ : Type) where
  resp : (c : Call) → σ → c.Resp × σ

/-- Outcome of running a program: the returned value (`none` after a panic),
the collaborators' final state and the calls made, in order. -/
structure Run (α σ : Type) where
  result : Option α
  state : σ
  trace : List Call

/-- Run a program against the collaborators. -/
def Prog.run {α σ : Type} (h : Handler σ) : Prog α → σ → Run α σ
  | .ret a, s => ⟨some a, s, []⟩
  | .panic, s => ⟨none, s, []⟩
  | .call c k, s =>
    let r := h.resp c s
    let rest := (k r.1).run h r.2
    ⟨rest.result, rest.state, c :: rest.trace⟩

/-! ## fmt.Sprintf with one `%d` verb -/

/-- Substitute the decimal digits `d` for each `%d` of a format string. -/
def sprintfChars (d : List Char) : List Char → List Char
  | [] => []
  | '%' :: 'd' :: rest => d ++ sprintfChars d rest
  | c :: rest => c :: sprintfChars d rest

/-- `fmt.Sprintf(pattern, n)` for a pattern whose only verbs are `%d`. -/
def Sprintf (pattern : String) (n : Int) : String :=
  ⟨sprintfChars (toString n).data pattern.data⟩

/-! ## internal/repository/cache_keys.go, tables.go -/

def patternListById : String := "list_by_id:%d"
def patternUserLists : String := "user_lists:%d"
def patternItemById : String := "item_by_id:%d"
def patternListItems : String := "list_items:%d"

/-- A `time.Duration`, in nanoseconds. -/
def time.Minute : Nat := 60 * 1000000000

/-- The struct `cacheKey`. -/
structure cacheKey where
  Pattern : String
  TTL : Nat

def cacheKeyListById : cacheKey := ⟨patternListById, time.Minute * 5⟩
def cacheKeyUserLists : cacheKey := ⟨patternUserLists, time.Minute * 5⟩
def cacheKeyItemById : cacheKey := ⟨patternItemById, time.Minute * 5⟩
def cacheKeyListItems : cacheKey := ⟨patternListItems, time.Minute * 5⟩

def UsersTable : String := "users"
def ListsTable : String := "lists"
def ItemsTable : String := "items"
def UsersListsTable : String := "users_lists"
def ListsItemsTable : String := "lists_items"

/-! ## utils/sql.go -/

/-- CreatePlaceholders: `$1, $2, ..., $count`. -/
def CreatePlaceholders (count : Nat) : String :=
  String.intercalate ", " ((List.range count).map fun i => Sprintf "$%d" (i + 1))

/-- ConvertToInterfaceSlice. -/
def ConvertToInterfaceSlice (ids : List Int) : List Arg :=
  ids.map Arg.int

/-! ## internal/repository/list.go -/

/-- The loop `for rows.Next() { var x T; if err := rows.Scan(..); err != nil
{ return nil, err }; xs = append(xs, x) }`: the slice after the loop, or the
first scan error. -/
def scanAll {T : Type} : List (Except Err T) → List T → Except Err (List T)
  | [], acc => .ok acc
  | .error e :: _, _ => .error e
  | .ok x :: rest, acc => scanAll rest (acc ++ [x])

/-- Statement text of the entity insert in CreateUserList. -/
def ListRepo.sqlInsertList : String :=
  "\n\t\tINSERT INTO " ++ ListsTable ++ " (title, description)\n\t\tVALUES ($1, $2)\n\t\tRETURNING id"

/-- Statement text of the ownership-join insert in CreateUserList. -/
def ListRepo.sqlLinkUser : String :=
  "\n\t\tINSERT INTO " ++ UsersListsTable ++ " (user_id, list_id)\n\t\tVALUES ($1, $2)"

/-- Statement text of the join query in GetAllUserLists. -/
def ListRepo.sqlGetAllUserLists : String :=
  "\n\t\tSELECT l.id, l.title, l.description\n\t\tFROM " ++ ListsTable ++ " l\n\t\tJOIN "
    ++ UsersListsTable ++ " ul ON l.id = ul.list_id\n\t\tWHERE ul.user_id = $1"

/-- Statement text of the query in GetOneById. -/
def ListRepo.sqlGetOneById : String :=
  "SELECT id, title, description FROM " ++ ListsTable ++ " WHERE id = $1"

/-- Statement text of the query in GetManyByIds for `n` ids. -/
def ListRepo.sqlGetManyByIds (n : Nat) : String :=
  "SELECT id, title, description FROM " ++ ListsTable ++ " WHERE id IN (" ++ CreatePlaceholders n ++ ")"

/-- Statement text of the statement in DeleteOneById. -/
def ListRepo.sqlDeleteOneById : String :=
  "DELETE FROM " ++ ListsTable ++ " WHERE id = $1"

/-- Statement text of the query in IsUserOwnerOfList. -/
def ListRepo.sqlIsUserOwnerOfList : String :=
  "SELECT 1 FROM " ++ UsersListsTable ++ " WHERE user_id = $1 AND list_id = $2"

/-- ListRepo.CreateUserList.  Returns `(id, err)` and the content of `*list`
after the call. -/
def ListRepo.CreateUserList (userId : Int) (list : entity.List) :
    Prog ((Int × Option Err) × entity.List) := do
  let err ← Prog.perform .beginTx
  if let some e := err then
    return ((0, some e), list)
  let r ← Prog.perform (.txQueryRow ListRepo.sqlInsertList [.str list.Title, .str list.Description] .int 0)
  let listId : Int := r.dest
  if let some e := r.err then
    let _ ← Prog.perform .txRollback
    return ((0, some e), list)
  let err ← Prog.perform (.txExec ListRepo.sqlLinkUser [.int userId, .int listId])
  if let some e := err then
    let _ ← Prog.perform .txRollback
    return ((0, some e), list)
  let err ← Prog.perform .txCommit
  if let some e := err then
    return ((0, some e), list)
  let list := { list with Id := listId }
  let listCacheKey := Sprintf cacheKeyListById.Pattern listId
  let userListsCacheKey := Sprintf cacheKeyUserLists.Pattern userId
  let _ ← Prog.perform (.cacheSet .Master listCacheKey .list list cacheKeyListById.TTL)
  let _ ← Prog.perform (.cacheDelete .Master userListsCacheKey)
  return ((listId, none), list)

/-- ListRepo.GetAllUserLists.  A nil slice is `none`. -/
def ListRepo.GetAllUserLists (userId : Int) :
    Prog (Option (List entity.List) × Option Err) := do
  let lists : List entity.List := []
  let userListsCacheKey := Sprintf cacheKeyUserLists.Pattern userId
  let g ← Prog.perform (.cacheGet .Replica userListsCacheKey .lists lists)
  let lists := g.dest
  if g.err.isNone && g.found then
    return (some lists, none)
  match ← Prog.perform (.query ListRepo.sqlGetAllUserLists [.int userId] .list) with
  | .error err => return (none, some err)
  | .ok rows =>
    match scanAll rows.scans lists with
    | .error err => return (none, some err)
    | .ok lists =>
      if let some err := rows.err then
        return (none, some err)
      let _ ← Prog.perform (.cacheSet .Master userListsCacheKey .lists lists cacheKeyUserLists.TTL)
      return (some lists, none)

/-- ListRepo.GetOneById. -/
def ListRepo.GetOneById (listId : Int) : Prog (entity.List × Option Err) := do
  let list := entity.List.zero
  let listCacheKey := Sprintf cacheKeyListById.Pattern listId
  let g ← Prog.perform (.cacheGet .Replica listCacheKey .list list)
  let list := g.dest
  if g.err.isNone && g.found then
    return (list, none)
  let r ← Prog.perform (.queryRow ListRepo.sqlGetOneById [.int listId] .list list)
  let list := r.dest
  if let some err := r.err then
    if err = .sqlErrNoRows then
      return (list, some .ErrListNotFound)
    return (list, some err)
  let _ ← Prog.perform (.cacheSet .Master listCacheKey .list list cacheKeyListById.TTL)
  return (list, none)

/-- ListRepo.GetManyByIds.  A nil slice is `none`. -/
def ListRepo.GetManyByIds (listIds : List Int) :
    Prog (Option (List entity.List) × Option Err) := do
  let lists : List entity.List := []
  if listIds.length = 0 then
    return (some [], none)
  match ← Prog.perform (.query (ListRepo.sqlGetManyByIds listIds.length)
      (ConvertToInterfaceSlice listIds) .list) with
  | .error err => return (none, some err)
  | .ok rows =>
    match scanAll rows.scans lists with
    | .error err => return (none, some err)
    | .ok lists => return (some lists, none)

/-- The statement text and arguments UpdateOneById builds for a list, or
`none` when no field is set (`len(setClauses) == 0`). -/
def ListRepo.buildUpdate (listId : Int) (newTodoInput : entity.UpdateListInput) :
    Option (String × List Arg) := Id.run do
  let mut query := "UPDATE " ++ ListsTable ++ " SET "
  let mut args : List Arg := []
  let mut setClauses : List String := []
  let mut argIndex : Int := 1
  if let some title := newTodoInput.Title then
    setClauses := setClauses ++ [Sprintf "title = $%d" argIndex]
    args := args ++ [.str title]
    argIndex := argIndex + 1
  if let some description := newTodoInput.Description then
    setClauses := setClauses ++ [Sprintf "description = $%d" argIndex]
    args := args ++ [.str description]
    argIndex := argIndex + 1
  if setClauses.length = 0 then
    return none
  query := query ++ String.intercalate ", " setClauses
  query := query ++ Sprintf " WHERE id = $%d" argIndex
  args := args ++ [.int listId]
  return some (query, args)

/-- ListRepo.UpdateOneById.  `userId` is the pointer argument, `none` for
nil; dereferencing nil panics. -/
def ListRepo.UpdateOneById (userId : Option Int) (listId : Int)
    (newTodoInput : entity.UpdateListInput) : Prog (Option Err) := do
  let some (query, args) := ListRepo.buildUpdate listId newTodoInput
    | return some .ErrItemEmptyRequest
  match ← Prog.perform (.exec query args) with
  | .error err => return some err
  | .ok (.error err) => return some err
  | .ok (.ok rowsAffected) =>
    if rowsAffected = 0 then
      return some .ErrListNotFound
    let listCacheKey := Sprintf cacheKeyListById.Pattern listId
    let some uid := userId
      | Prog.panic
    let userListsCacheKey := Sprintf cacheKeyUserLists.Pattern uid
    let _ ← Prog.perform (.cacheDelete .Master listCacheKey)
    let _ ← Prog.perform (.cacheDelete .Master userListsCacheKey)
    return none

/-- ListRepo.DeleteOneById.  `userId` is the pointer argument, `none` for
nil. -/
def ListRepo.DeleteOneById (userId : Option Int) (listId : Int) : Prog (Option Err) := do
  match ← Prog.perform (.exec ListRepo.sqlDeleteOneById [.int listId]) with
  | .error err => return some err
  | .ok (.error err) => return some err
  | .ok (.ok rowsAffected) =>
    if rowsAffected = 0 then
      return some .ErrListNotFound
    let listCacheKey := Sprintf cacheKeyListById.Pattern listId
    let _ ← Prog.perform (.cacheDelete .Master listCacheKey)
    if let some uid := userId then
      let userListsCacheKey := Sprintf cacheKeyUserLists.Pattern uid
      let _ ← Prog.perform (.cacheDelete .Master userListsCacheKey)
    return none

/-- ListRepo.IsUserOwnerOfList. -/
def ListRepo.IsUserOwnerOfList (userId listId : Int) : Prog (Option Err) := do
  let r ← Prog.perform (.queryRow ListRepo.sqlIsUserOwnerOfList [.int userId, .int listId] .int 0)
  if let some err := r.err then
    if err = .sqlErrNoRows then
      return some .ErrUserNotOwner
    return some err
  return none

/-! ## internal/repository/item.go -/

/-- Statement text of the entity insert in CreateListItem. -/
def ItemRepo.sqlInsertItem : String :=
  "INSERT INTO " ++ ItemsTable ++ " (title, description) VALUES ($1, $2) RETURNING id"

/-- Statement text of the ownership-join insert in CreateListItem. -/
def ItemRepo.sqlLinkList : String :=
  "INSERT INTO " ++ ListsItemsTable ++ " (list_id, item_id) VALUES ($1, $2)"

/-- Statement text of the join query in GetAllListItems. -/
def ItemRepo.sqlGetAllListItems : String :=
  "\n\t\tSELECT i.id, i.title, i.description, i.done\n\t\tFROM " ++ ItemsTable ++ " i\n\t\tJOIN "
    ++ ListsItemsTable ++ " li ON i.id = li.item_id\n\t\tWHERE li.list_id = $1"

/-- Statement text of the query in GetOneById. -/
def ItemRepo.sqlGetOneById : String :=
  "SELECT id, title, description, done FROM " ++ ItemsTable ++ " WHERE id = $1"

/-- Statement text of the query in GetManyByIds for `n` ids. -/
def ItemRepo.sqlGetManyByIds (n : Nat) : String :=
  "SELECT id, title, description, done FROM " ++ ItemsTable ++ " WHERE id IN ("
    ++ CreatePlaceholders n ++ ")"

/-- Statement text of the statement in DeleteOneById. -/
def ItemRepo.sqlDeleteOneById : String :=
  "DELETE FROM " ++ ItemsTable ++ " WHERE id = $1"

/-- Statement text of the query in IsUserOwnerOfItem. -/
def ItemRepo.sqlIsUserOwnerOfItem : String :=
  "\n\t\tSELECT 1\n\t\tFROM " ++ ListsItemsTable ++ " li\n\t\tJOIN " ++ UsersListsTable
    ++ " ul \n\t\tON li.list_id = ul.list_id \n\t\tWHERE ul.user_id = $1 AND li.item_id = $2"

/-- ItemRepo.CreateListItem.  Returns `(id, err)` and the content of `*item`
after the call. -/
def ItemRepo.CreateListItem (listId : Int) (item : entity.Item) :
    Prog ((Int × Option Err) × entity.Item) := do
  let err ← Prog.perform .beginTx
  if let some e := err then
    return ((0, some e), item)
  let r ← Prog.perform (.txQueryRow ItemRepo.sqlInsertItem [.str item.Title, .str item.Description] .int 0)
  let itemId : Int := r.dest
  if let some e := r.err then
    let _ ← Prog.perform .txRollback
    return ((0, some e), item)
  let err ← Prog.perform (.txExec ItemRepo.sqlLinkList [.int listId, .int itemId])
  if let some e := err then
    let _ ← Prog.perform .txRollback
    return ((0, some e), item)
  let err ← Prog.perform .txCommit
  if let some e := err then
    return ((0, some e), item)
  let item := { item with Id := itemId }
  let itemCacheKey := Sprintf cacheKeyItemById.Pattern itemId
  let listItemsCacheKey := Sprintf cacheKeyListItems.Pattern listId
  let _ ← Prog.perform (.cacheSet .Master itemCacheKey .item item cacheKeyItemById.TTL)
  let _ ← Prog.perform (.cacheDelete .Master listItemsCacheKey)
  return ((itemId, none), item)

/-- ItemRepo.GetAllListItems.  A nil slice is `none`. -/
def ItemRepo.GetAllListItems (listId : Int) :
    Prog (Option (List entity.Item) × Option Err) := do
  let items : List entity.Item := []
  let cacheKey := Sprintf cacheKeyListItems.Pattern listId
  let g ← Prog.perform (.cacheGet .Replica cacheKey .items items)
  let items := g.dest
  if g.err.isNone && g.found then
    return (some items, none)
  match ← Prog.perform (.query ItemRepo.sqlGetAllListItems [.int listId] .item) with
  | .error err => return (none, some err)
  | .ok rows =>
    match scanAll rows.scans items with
    | .error err => return (none, some err)
    | .ok items =>
      if let some err := rows.err then
        return (none, some err)
      let _ ← Prog.perform (.cacheSet .Master cacheKey .items items cacheKeyListItems.TTL)
      return (some items, none)

/-- ItemRepo.GetOneById. -/
def ItemRepo.GetOneById (itemId : Int) : Prog (entity.Item × Option Err) := do
  let item := entity.Item.zero
  let cacheKey := Sprintf cacheKeyItemById.Pattern itemId
  let g ← Prog.perform (.cacheGet .Replica cacheKey .item item)
  let item := g.dest
  if g.err.isNone && g.found then
    return (item, none)
  let r ← Prog.perform (.queryRow ItemRepo.sqlGetOneById [.int itemId] .item item)
  let item := r.dest
  if let some err := r.err then
    if err = .sqlErrNoRows then
      return (item, some .ErrItemNotFound)
    return (item, some err)
  let _ ← Prog.perform (.cacheSet .Master cacheKey .item item cacheKeyItemById.TTL)
  return (item, none)

/-- ItemRepo.GetManyByIds.  A nil slice is `none`. -/
def ItemRepo.GetManyByIds (itemIds : List Int) :
    Prog (Option (List entity.Item) × Option Err) := do
  let items : List entity.Item := []
  if itemIds.length = 0 then
    return (some [], none)
  match ← Prog.perform (.query (ItemRepo.sqlGetManyByIds itemIds.length)
      (ConvertToInterfaceSlice itemIds) .item) with
  | .error err => return (none, some err)
  | .ok rows =>
    match scanAll rows.scans items with
    | .error err => return (none, some err)
    | .ok items => return (some items, none)

/-- The statement text and arguments UpdateOneById builds for an item, or
`none` when no field is set (`len(setClauses) == 0`). -/
def ItemRepo.buildUpdate (itemId : Int) (input : entity.UpdateItemInput) :
    Option (String × List Arg) := Id.run do
  let mut query := "UPDATE " ++ ItemsTable ++ " SET "
  let mut args : List Arg := []
  let mut setClauses : List String := []
  let mut argIndex : Int := 1
  if let some title := input.Title then
    setClauses := setClauses ++ [Sprintf "title = $%d" argIndex]
    args := args ++ [.str title]
    argIndex := argIndex + 1
  if let some description := input.Description then
    setClauses := setClauses ++ [Sprintf "description = $%d" argIndex]
    args := args ++ [.str description]
    argIndex := argIndex + 1
  if let some done := input.Done then
    setClauses := setClauses ++ [Sprintf "done = $%d" argIndex]
    args := args ++ [.bool done]
    argIndex := argIndex + 1
  if setClauses.length = 0 then
    return none
  query := query ++ String.intercalate ", " setClauses
  query := query ++ Sprintf " WHERE id = $%d" argIndex
  args := args ++ [.int itemId]
  return some (query, args)

/-- ItemRepo.UpdateOneById.  `listId` is the pointer argument, `none` for
nil; dereferencing nil panics. -/
def ItemRepo.UpdateOneById (listId : Option Int) (itemId : Int)
    (input : entity.UpdateItemInput) : Prog (Option Err) := do
  let some (query, args) := ItemRepo.buildUpdate itemId input
    | return some .ErrItemEmptyRequest
  match ← Prog.perform (.exec query args) with
  | .error err => return some err
  | .ok (.error err) => return some err
  | .ok (.ok rowsAffected) =>
    if rowsAffected = 0 then
      return some .ErrItemNotFound
    let itemCacheKey := Sprintf cacheKeyItemById.Pattern itemId
    let some lid := listId
      | Prog.panic
    let listItemsCacheKey := Sprintf cacheKeyListItems.Pattern lid
    let _ ← Prog.perform (.cacheDelete .Master itemCacheKey)
    let _ ← Prog.perform (.cacheDelete .Master listItemsCacheKey)
    return none

/-- ItemRepo.DeleteOneById.  `listId` is the pointer argument, `none` for
nil. -/
def ItemRepo.DeleteOneById (listId : Option Int) (itemId : Int) : Prog (Option Err) := do
  match ← Prog.perform (.exec ItemRepo.sqlDeleteOneById [.int itemId]) with
  | .error err => return some err
  | .ok (.error err) => return some err
  | .ok (.ok rowsAffected) =>
    if rowsAffected = 0 then
      return some .ErrItemNotFound
    let itemCacheKey := Sprintf cacheKeyItemById.Pattern itemId
    let _ ← Prog.perform (.cacheDelete .Master itemCacheKey)
    if let some lid := listId then
      let listItemsCacheKey := Sprintf cacheKeyListItems.Pattern lid
      let _ ← Prog.perform (.cacheDelete .Master listItemsCacheKey)
    return none

/-- ItemRepo.IsUserOwnerOfItem. -/
def ItemRepo.IsUserOwnerOfItem (userId itemId : Int) : Prog (Option Err) := do
  let r ← Prog.perform (.queryRow ItemRepo.sqlIsUserOwnerOfItem [.int userId, .int itemId] .int 0)
  if let some err := r.err then
    if err = .sqlErrNoRows then
      return some .ErrUserNotOwner
    return some err
  return none

/-! ## Observing runs -/

/-- The answer the collaborators give to a call in a state. -/
def Handler.answer {σ : Type} (h : Handler σ) (c : Call) (s : σ) : c.Resp :=
  (h.resp c s).1

/-- The collaborators' state after a call made in a state. -/
def Handler.after {σ : Type} (h : Handler σ) (c : Call) (s : σ) : σ :=
  (h.resp c s).2

/-- Calls on a cache node. -/
def Call.isCache : Call → Bool
  | .cacheGet _ _ _ _ => true
  | .cacheSet _ _ _ _ _ => true
  | .cacheDelete _ _ => true
  | _ => false

/-- Cache writes: `Set` and `Delete` on either node. -/
def Call.isCacheWrite : Call → Bool
  | .cacheSet _ _ _ _ _ => true
  | .cacheDelete _ _ => true
  | _ => false

/-- `Set` and `Delete` on the master node. -/
def Call.isMasterWrite : Call → Bool
  | .cacheSet .Master _ _ _ _ => true
  | .cacheDelete .Master _ => true
  | _ => false

/-- Calls on the relational store. -/
def Call.isStore : Call → Bool
  | .cacheGet _ _ _ _ => false
  | .cacheSet _ _ _ _ _ => false
  | .cacheDelete _ _ => false
  | _ => true

/-- Collaborators with fixed answers, in the manner of `MockCache` and sqlmock
in the repository tests: each method answers the same way whenever called. -/
structure Mock where
  get : Node → (t : Ty) → t.type → GetResult t.type
  set : Node → Option Err
  delete : Node → Option Err
  begin : Option Err
  txQueryRow : (t : Ty) → t.type → ScanResult t.type
  txExec : Option Err
  commit : Option Err
  rollback : Option Err
  queryRow : (t : Ty) → t.type → ScanResult t.type
  query : (t : Ty) → Except Err (Rows t.type)
  exec : Except Err (Except Err Int)

/-- The handler of a mock; it has no state. -/
def Mock.handler (m : Mock) : Handler Unit where
  resp c s :=
    match c with
    | .cacheGet node _ t d => (m.get node t d, s)
    | .cacheSet node _ _ _ _ => (m.set node, s)
    | .cacheDelete node _ => (m.delete node, s)
    | .beginTx => (m.begin, s)
    | .txQueryRow _ _ t d => (m.txQueryRow t d, s)
    | .txExec _ _ => (m.txExec, s)
    | .txCommit => (m.commit, s)
    | .txRollback => (m.rollback, s)
    | .queryRow _ _ t d => (m.queryRow t d, s)
    | .query _ _ t => (m.query t, s)
    | .exec _ _ => (m.exec, s)

/-- A mock on which every cache read misses, every statement succeeds without
rows (one row affected by `Exec`, generated id 1) and every cache write
succeeds. -/
def Mock.quiet : Mock where
  get _ _ d := ⟨d, false, none⟩
  set _ := none
  delete _ := none
  begin := none
  txQueryRow t d :=
    match t, d with
    | .int, _ => ⟨(1 : Int), none⟩
    | _, d => ⟨d, none⟩
  txExec := none
  commit := none
  rollback := none
  queryRow _ d := ⟨d, some .sqlErrNoRows⟩
  query _ := .ok ⟨[], none⟩
  exec := .ok (.ok 1)

/-! ## Repository operations as data -/

/-- A call of a ListRepo or ItemRepo method with its arguments. -/
inductive Op where
  | CreateUserList (userId : Int) (list : entity.List)
  | GetAllUserLists (userId : Int)
  | ListGetOneById (listId : Int)
  | ListGetManyByIds (listIds : List Int)
  | ListUpdateOneById (userId : Option Int) (listId : Int) (input : entity.UpdateListInput)
  | ListDeleteOneById (userId : Option Int) (listId : Int)
  | IsUserOwnerOfList (userId listId : Int)
  | CreateListItem (listId : Int) (item : entity.Item)
  | GetAllListItems (listId : Int)
  | ItemGetOneById (itemId : Int)
  | ItemGetManyByIds (itemIds : List Int)
  | ItemUpdateOneById (listId : Option Int) (itemId : Int) (input : entity.UpdateItemInput)
  | ItemDeleteOneById (listId : Option Int) (itemId : Int)
  | IsUserOwnerOfItem (userId itemId : Int)

/-- The type of what each method returns. -/
@[reducible] def Op.Res : Op → Type
  | .CreateUserList _ _ => (Int × Option Err) × entity.List
  | .GetAllUserLists _ => Option (List entity.List) × Option Err
  | .ListGetOneById _ => entity.List × Option Err
  | .ListGetManyByIds _ => Option (List entity.List) × Option Err
  | .ListUpdateOneById _ _ _ => Option Err
  | .ListDeleteOneById _ _ => Option Err
  | .IsUserOwnerOfList _ _ => Option Err
  | .CreateListItem _ _ => (Int × Option Err) × entity.Item
  | .GetAllListItems _ => Option (List entity.Item) × Option Err
  | .ItemGetOneById _ => entity.Item × Option Err
  | .ItemGetManyByIds _ => Option (List entity.Item) × Option Err
  | .ItemUpdateOneById _ _ _ => Option Err
  | .ItemDeleteOneById _ _ => Option Err
  | .IsUserOwnerOfItem _ _ => Option Err

/-- The method an operation calls. -/
def Op.prog : (op : Op) → Prog op.Res
  | .CreateUserList userId list => ListRepo.CreateUserList userId list
  | .GetAllUserLists userId => ListRepo.GetAllUserLists userId
  | .ListGetOneById listId => ListRepo.GetOneById listId
  | .ListGetManyByIds listIds => ListRepo.GetManyByIds listIds
  | .ListUpdateOneById userId listId input => ListRepo.UpdateOneById userId listId input
  | .ListDeleteOneById userId listId => ListRepo.DeleteOneById userId listId
  | .IsUserOwnerOfList userId listId => ListRepo.IsUserOwnerOfList userId listId
  | .CreateListItem listId item => ItemRepo.CreateListItem listId item
  | .GetAllListItems listId => ItemRepo.GetAllListItems listId
  | .ItemGetOneById itemId => ItemRepo.GetOneById itemId
  | .ItemGetManyByIds itemIds => ItemRepo.GetManyByIds itemIds
  | .ItemUpdateOneById listId itemId input => ItemRepo.UpdateOneById listId itemId input
  | .ItemDeleteOneById listId itemId => ItemRepo.DeleteOneById listId itemId
  | .IsUserOwnerOfItem userId itemId => ItemRepo.IsUserOwnerOfItem userId itemId

/-- A program that never looks at the answer to a `Set` or `Delete` on the
master node: after such a call it continues the same way whatever the answer. -/
inductive Prog.Oblivious {α : Type} : Prog α → Prop where
  | ret (a : α) : Prog.Oblivious (.ret a)
  | panic : Prog.Oblivious .panic
  | call (c : Call) (k : c.Resp → Prog α) (hk : ∀ r, Prog.Oblivious (k r))
      (hw : c.isMasterWrite = true → ∀ r r2, k r = k r2) : Prog.Oblivious (.call c k)

/-! ## pkg/cache/redis.go on a model of a Redis node -/

/-- A stored JSON document: what `json.Marshal` makes of a value handed to
`Set`, kept with its shape. -/
inductive Doc where
  | int (v : Int)
  | list (v : entity.List)
  | lists (v : List entity.List)
  | item (v : entity.Item)
  | items (v : List entity.Item)
  deriving DecidableEq, Repr

/-- Model of `json.Marshal` on the values the repositories cache. -/
def json.Marshal : (t : Ty) → t.type → Doc
  | .int, v => .int v
  | .list, v => .list v
  | .lists, v => .lists v
  | .item, v => .item v
  | .items, v => .items v

/-- Model of `json.Unmarshal(doc, &dest)` on the documents the repositories
write: a document marshalled from a value of the destination's type decodes to
that value.  A document of another shape is answered with an error and an
untouched destination, as encoding/json does for a shape it cannot decode at
all (an array for a struct, an object for a slice).  Text that decodes in part
before failing is outside this model; `Mock.halfDecoded` gives such an
answer. -/
def json.Unmarshal : (t : Ty) → Doc → t.type → t.type × Option Err
  | .int, .int v, _ => (v, none)
  | .list, .list v, _ => (v, none)
  | .lists, .lists v, _ => (v, none)
  | .item, .item v, _ => (v, none)
  | .items, .items v, _ => (v, none)
  | _, _, dest => (dest, some (.other "json: cannot unmarshal"))

/-- The content of a Redis node.  Expiry is not modelled: an entry stays until
it is overwritten or deleted. -/
abbrev Redis := String → Option Doc

/-- A node without entries. -/
def Redis.empty : Redis := fun _ => none

/-- The node after the command `SET key doc`. -/
def Redis.set (client : Redis) (key : String) (doc : Doc) : Redis :=
  fun k => if k = key then some doc else client k

/-- The node after the command `DEL key`. -/
def Redis.del (client : Redis) (key : String) : Redis :=
  fun k => if k = key then none else client k

/-- RedisCache.Get on a reachable node: `client.Get` answers `redis.Nil` for an
absent key and the stored document otherwise. -/
def RedisCache.Get (client : Redis) (key : String) (t : Ty) (dest : t.type) :
    GetResult t.type :=
  match client key with
  | none => ⟨dest, false, none⟩
  | some val =>
    match json.Unmarshal t val dest with
    | (dest, some err) => ⟨dest, false, some err⟩
    | (dest, none) => ⟨dest, true, none⟩

/-- RedisCache.Set on a reachable node; the returned node is the one after the
call. -/
def RedisCache.Set (client : Redis) (key : String) (t : Ty) (value : t.type) (_ttl : Nat) :
    Option Err × Redis :=
  (none, client.set key (json.Marshal t value))

/-- RedisCache.Delete on a reachable node; the returned node is the one after
the call. -/
def RedisCache.Delete (client : Redis) (key : String) : Option Err × Redis :=
  (none, client.del key)

/-- The content of a node after the `Set` and `Delete` calls a trace makes on
it. -/
def Redis.afterWrites (node : Node) : List Call → Redis → Redis
  | [], r => r
  | .cacheSet n key t value ttl :: rest, r =>
    Redis.afterWrites node rest (if n = node then (RedisCache.Set r key t value ttl).2 else r)
  | .cacheDelete n key :: rest, r =>
    Redis.afterWrites node rest (if n = node then (RedisCache.Delete r key).2 else r)
  | _ :: rest, r => Redis.afterWrites node rest r

/-! ## A model of the relational store

The schema (the migrations) is not among the sources, and the store itself is
an external collaborator.  The model below is the store the statements of the
two repositories are written for: tables `lists` and `items` with a generated
primary key `id`, join tables `users_lists` and `lists_items` whose rows
reference them and disappear with the referenced list or item, and a `done`
column that an insert without a value sets to false.  The `users` table is not
modelled. -/

/-- Modelled from the spec: the schema, missing from the sources.  The rows of
the four tables the repositories name, in storage order: the entities of the
two kinds and the ownership edges user-list and list-item as join rows
(owner id, entity id). -/
structure Tables where
  lists : List entity.List
  users_lists : List (Int × Int)
  items : List entity.Item
  lists_items : List (Int × Int)

/-- Modelled from the spec: the relational store, an external collaborator
reached through `QueryRow/Query/Exec/BeginTx`.  Committed rows, the working
copy of the open transaction if there is one, and the last values of the two
id sequences. -/
structure Postgres where
  tables : Tables
  tx : Option Tables
  lists_id_seq : Int
  items_id_seq : Int

/-- The statements the repositories issue; the flags of an update say which
columns its SET clause names. -/
inductive Stmt where
  | InsertList
  | LinkUser
  | GetAllUserLists
  | ListGetOneById
  | ListGetManyByIds
  | ListUpdate (title description : Bool)
  | ListDelete
  | IsUserOwnerOfList
  | InsertItem
  | LinkList
  | GetAllListItems
  | ItemGetOneById
  | ItemGetManyByIds
  | ItemUpdate (title description done : Bool)
  | ItemDelete
  | IsUserOwnerOfItem
  deriving DecidableEq, Repr

/-- Text of the list update naming the flagged columns, as UpdateOneById
builds it. -/
def ListRepo.updateText (title description : Bool) : Option String :=
  (ListRepo.buildUpdate 0
    ⟨if title then some "" else none, if description then some "" else none⟩).map Prod.fst

/-- Text of the item update naming the flagged columns, as UpdateOneById
builds it. -/
def ItemRepo.updateText (title description done : Bool) : Option String :=
  (ItemRepo.buildUpdate 0
    ⟨if title then some "" else none, if description then some "" else none,
     if done then some false else none⟩).map Prod.fst

/-- Which statement a text with `nargs` arguments is. -/
def Stmt.recognize (query : String) (nargs : Nat) : Option Stmt :=
  if query = ListRepo.sqlInsertList then some .InsertList
  else if query = ListRepo.sqlLinkUser then some .LinkUser
  else if query = ListRepo.sqlGetAllUserLists then some .GetAllUserLists
  else if query = ListRepo.sqlGetOneById then some .ListGetOneById
  else if query = ListRepo.sqlDeleteOneById then some .ListDelete
  else if query = ListRepo.sqlIsUserOwnerOfList then some .IsUserOwnerOfList
  else if query = ItemRepo.sqlInsertItem then some .InsertItem
  else if query = ItemRepo.sqlLinkList then some .LinkList
  else if query = ItemRepo.sqlGetAllListItems then some .GetAllListItems
  else if query = ItemRepo.sqlGetOneById then some .ItemGetOneById
  else if query = ItemRepo.sqlDeleteOneById then some .ItemDelete
  else if query = ItemRepo.sqlIsUserOwnerOfItem then some .IsUserOwnerOfItem
  else if ListRepo.updateText true false = some query then some (.ListUpdate true false)
  else if ListRepo.updateText false true = some query then some (.ListUpdate false true)
  else if ListRepo.updateText true true = some query then some (.ListUpdate true true)
  else if ItemRepo.updateText true false false = some query then some (.ItemUpdate true false false)
  else if ItemRepo.updateText false true false = some query then some (.ItemUpdate false true false)
  else if ItemRepo.updateText true true false = some query then some (.ItemUpdate true true false)
  else if ItemRepo.updateText false false true = some query then some (.ItemUpdate false false true)
  else if ItemRepo.updateText true false true = some query then some (.ItemUpdate true false true)
  else if ItemRepo.updateText false true true = some query then some (.ItemUpdate false true true)
  else if ItemRepo.updateText true true true = some query then some (.ItemUpdate true true true)
  else if query = ListRepo.sqlGetManyByIds nargs then some .ListGetManyByIds
  else if query = ItemRepo.sqlGetManyByIds nargs then some .ItemGetManyByIds
  else none

/-- The error of a statement the store rejects. -/
def Postgres.rejected : Err := .other "pq: statement rejected"

/-- Read the argument of a flagged text column off the argument list. -/
def takeStr (flag : Bool) (args : List Arg) : Option (Option String × List Arg) :=
  if flag then
    match args with
    | .str s :: rest => some (some s, rest)
    | _ => none
  else some (none, args)

/-- Read the argument of a flagged boolean column off the argument list. -/
def takeBool (flag : Bool) (args : List Arg) : Option (Option Bool × List Arg) :=
  if flag then
    match args with
    | .bool b :: rest => some (some b, rest)
    | _ => none
  else some (none, args)

/-- The row of `lists` with the given id. -/
def Tables.listById (tb : Tables) (id : Int) : Option entity.List :=
  tb.lists.find? fun l => l.Id = id

/-- The row of `items` with the given id. -/
def Tables.itemById (tb : Tables) (id : Int) : Option entity.Item :=
  tb.items.find? fun i => i.Id = id

/-- Rows of `rows JOIN links ON id = links.2 WHERE links.1 = owner`, one per
matching pair, in the order of `rows`. -/
def joinRows {α : Type} (key : α → Int) (rows : List α) (links : List (Int × Int))
    (owner : Int) : List α :=
  rows.flatMap fun r => (links.filter fun j => j.2 = key r && j.1 = owner).map fun _ => r

/-- Rows of `lists JOIN users_lists ON id = list_id WHERE user_id = userId`. -/
def Tables.userLists (tb : Tables) (userId : Int) : List entity.List :=
  joinRows (fun l => l.Id) tb.lists tb.users_lists userId

/-- Rows of `items JOIN lists_items ON id = item_id WHERE list_id = listId`.
A row of `lists_items` is kept as (list_id, item_id). -/
def Tables.listItems (tb : Tables) (listId : Int) : List entity.Item :=
  joinRows (fun i => i.Id) tb.items tb.lists_items listId

/-- The store's answer to `Querier.QueryRow(query, args...).Scan(dest...)`. -/
def Postgres.queryRow (db : Postgres) (query : String) (args : List Arg) :
    (t : Ty) → t.type → ScanResult t.type
  | .list, dest =>
    match Stmt.recognize query args.length, args with
    | some .ListGetOneById, [.int id] =>
      match db.tables.listById id with
      | some row => ⟨row, none⟩
      | none => ⟨dest, some .sqlErrNoRows⟩
    | _, _ => ⟨dest, some Postgres.rejected⟩
  | .item, dest =>
    match Stmt.recognize query args.length, args with
    | some .ItemGetOneById, [.int id] =>
      match db.tables.itemById id with
      | some row => ⟨row, none⟩
      | none => ⟨dest, some .sqlErrNoRows⟩
    | _, _ => ⟨dest, some Postgres.rejected⟩
  | .int, dest =>
    match Stmt.recognize query args.length, args with
    | some .IsUserOwnerOfList, [.int userId, .int listId] =>
      if db.tables.users_lists.any fun ul => ul.1 = userId && ul.2 = listId then ⟨(1 : Int), none⟩
      else ⟨dest, some .sqlErrNoRows⟩
    | some .IsUserOwnerOfItem, [.int userId, .int itemId] =>
      if db.tables.lists_items.any fun li =>
          li.2 = itemId && db.tables.users_lists.any fun ul => ul.2 = li.1 && ul.1 = userId
      then ⟨(1 : Int), none⟩
      else ⟨dest, some .sqlErrNoRows⟩
    | _, _ => ⟨dest, some Postgres.rejected⟩
  | .lists, dest => ⟨dest, some Postgres.rejected⟩
  | .items, dest => ⟨dest, some Postgres.rejected⟩

/-- The ids of an argument list made by ConvertToInterfaceSlice. -/
def argInts : List Arg → Option (List Int)
  | [] => some []
  | .int i :: rest => (argInts rest).map fun is => i :: is
  | _ :: _ => none

/-- The store's answer to `Querier.Query(query, args...)`, rows scanned into
destinations of type `t`. -/
def Postgres.query (db : Postgres) (query : String) (args : List Arg) :
    (t : Ty) → Except Err (Rows t.type)
  | .list =>
    match Stmt.recognize query args.length, args with
    | some .GetAllUserLists, [.int userId] =>
      .ok ⟨(db.tables.userLists userId).map .ok, none⟩
    | some .ListGetManyByIds, args =>
      match argInts args with
      | some ids => .ok ⟨(db.tables.lists.filter fun l => ids.contains l.Id).map .ok, none⟩
      | none => .error Postgres.rejected
    | _, _ => .error Postgres.rejected
  | .item =>
    match Stmt.recognize query args.length, args with
    | some .GetAllListItems, [.int listId] =>
      .ok ⟨(db.tables.listItems listId).map .ok, none⟩
    | some .ItemGetManyByIds, args =>
      match argInts args with
      | some ids => .ok ⟨(db.tables.items.filter fun i => ids.contains i.Id).map .ok, none⟩
      | none => .error Postgres.rejected
    | _, _ => .error Postgres.rejected
  | _ => .error Postgres.rejected

/-- The arguments of a list update with the flagged columns: new title, new
description, id. -/
def listUpdateArgs (title description : Bool) (args : List Arg) :
    Option (Option String × Option String × Int) :=
  match takeStr title args with
  | none => none
  | some (t, rest) =>
    match takeStr description rest with
    | none => none
    | some (d, rest) =>
      match rest with
      | [.int id] => some (t, d, id)
      | _ => none

/-- The arguments of an item update with the flagged columns: new title, new
description, new done flag, id. -/
def itemUpdateArgs (title description done : Bool) (args : List Arg) :
    Option (Option String × Option String × Option Bool × Int) :=
  match takeStr title args with
  | none => none
  | some (t, rest) =>
    match takeStr description rest with
    | none => none
    | some (d, rest) =>
      match takeBool done rest with
      | none => none
      | some (dn, rest) =>
        match rest with
        | [.int id] => some (t, d, dn, id)
        | _ => none

/-- The store's answer to `Executer.Exec(query, args...)` followed by
`RowsAffected`, and the store after the statement (autocommit). -/
def Postgres.exec (db : Postgres) (query : String) (args : List Arg) :
    Except Err (Except Err Int) × Postgres :=
  match Stmt.recognize query args.length, args with
  | some .ListDelete, [.int id] =>
    (.ok (.ok ((db.tables.lists.filter fun l => l.Id = id).length : Int)),
     { db with tables :=
        { db.tables with
          lists := db.tables.lists.filter fun l => ¬ l.Id = id
          users_lists := db.tables.users_lists.filter fun ul => ¬ ul.2 = id
          lists_items := db.tables.lists_items.filter fun li => ¬ li.1 = id } })
  | some .ItemDelete, [.int id] =>
    (.ok (.ok ((db.tables.items.filter fun i => i.Id = id).length : Int)),
     { db with tables :=
        { db.tables with
          items := db.tables.items.filter fun i => ¬ i.Id = id
          lists_items := db.tables.lists_items.filter fun li => ¬ li.2 = id } })
  | some (.ListUpdate title description), args =>
    match listUpdateArgs title description args with
    | some (t, d, id) =>
      (.ok (.ok ((db.tables.lists.filter fun l => l.Id = id).length : Int)),
       { db with tables :=
          { db.tables with
            lists := db.tables.lists.map fun l =>
              if l.Id = id then
                { l with Title := t.getD l.Title, Description := d.getD l.Description }
              else l } })
    | none => (.error Postgres.rejected, db)
  | some (.ItemUpdate title description done), args =>
    match itemUpdateArgs title description done args with
    | some (t, d, dn, id) =>
      (.ok (.ok ((db.tables.items.filter fun i => i.Id = id).length : Int)),
       { db with tables :=
          { db.tables with
            items := db.tables.items.map fun i =>
              if i.Id = id then
                { i with Title := t.getD i.Title, Description := d.getD i.Description,
                         Done := dn.getD i.Done }
              else i } })
    | none => (.error Postgres.rejected, db)
  | _, _ => (.error Postgres.rejected, db)

/-- The store's answer to `Transaction.BeginTx`. -/
def Postgres.beginTx (db : Postgres) : Option Err × Postgres :=
  (none, { db with tx := some db.tables })

/-- The store's answer to `tx.QueryRow(query, args...).Scan(&id)`: the insert
of a list or item row returning its generated id. -/
def Postgres.txQueryRow (db : Postgres) (query : String) (args : List Arg) :
    (t : Ty) → t.type → ScanResult t.type × Postgres
  | .int, dest =>
    match db.tx, Stmt.recognize query args.length, args with
    | some tb, some .InsertList, [.str title, .str description] =>
      let id := db.lists_id_seq + 1
      if tb.lists.any fun l => l.Id = id then
        (⟨dest, some Postgres.rejected⟩, { db with lists_id_seq := id })
      else
        (⟨id, none⟩,
         { db with lists_id_seq := id
                   tx := some { tb with lists := tb.lists ++ [⟨id, title, description⟩] } })
    | some tb, some .InsertItem, [.str title, .str description] =>
      let id := db.items_id_seq + 1
      if tb.items.any fun i => i.Id = id then
        (⟨dest, some Postgres.rejected⟩, { db with items_id_seq := id })
      else
        (⟨id, none⟩,
         { db with items_id_seq := id
                   tx := some { tb with items := tb.items ++ [⟨id, title, description, false⟩] } })
    | _, _, _ => (⟨dest, some Postgres.rejected⟩, db)
  | _, dest => (⟨dest, some Postgres.rejected⟩, db)

/-- The store's answer to `tx.Exec(query, args...)`: the insert of a join
row, rejected when the row it references does not exist. -/
def Postgres.txExec (db : Postgres) (query : String) (args : List Arg) :
    Option Err × Postgres :=
  match db.tx, Stmt.recognize query args.length, args with
  | some tb, some .LinkUser, [.int userId, .int listId] =>
    if tb.lists.any fun l => l.Id = listId then
      (none, { db with tx := some { tb with users_lists := tb.users_lists ++ [(userId, listId)] } })
    else (some Postgres.rejected, db)
  | some tb, some .LinkList, [.int listId, .int itemId] =>
    if (tb.lists.any fun l => l.Id = listId) && (tb.items.any fun i => i.Id = itemId) then
      (none, { db with tx := some { tb with lists_items := tb.lists_items ++ [(listId, itemId)] } })
    else (some Postgres.rejected, db)
  | _, _, _ => (some Postgres.rejected, db)

/-- The store's answer to `tx.Commit()`. -/
def Postgres.txCommit (db : Postgres) : Option Err × Postgres :=
  match db.tx with
  | some tb => (none, { db with tables := tb, tx := none })
  | none => (some Postgres.rejected, db)

/-- The store's answer to `tx.Rollback()`. -/
def Postgres.txRollback (db : Postgres) : Option Err × Postgres :=
  (none, { db with tx := none })

/-- The store as a collaborator. -/
def Postgres.handler : Handler Postgres where
  resp c db :=
    match c with
    | .beginTx => db.beginTx
    | .txQueryRow query args t dest => db.txQueryRow query args t dest
    | .txExec query args => db.txExec query args
    | .txCommit => db.txCommit
    | .txRollback => db.txRollback
    | .queryRow query args t dest => (db.queryRow query args t dest, db)
    | .query query args t => (db.query query args t, db)
    | .exec query args => db.exec query args
    | .cacheGet _ _ _ dest => (⟨dest, false, some Postgres.rejected⟩, db)
    | .cacheSet _ _ _ _ _ => (some Postgres.rejected, db)
    | .cacheDelete _ _ => (some Postgres.rejected, db)

/-! ## The world: store, master node, replica node -/

/-- The state of the three collaborators, for a store with states `σ`. -/
structure World (σ : Type) where
  db : σ
  master : Redis
  replica : Redis

/-- The content of a node. -/
def World.node {σ : Type} (w : World σ) : Node → Redis
  | .Master => w.master
  | .Replica => w.replica

/-- Replace the content of a node. -/
def World.setNode {σ : Type} (w : World σ) : Node → Redis → World σ
  | .Master, r => { w with master := r }
  | .Replica, r => { w with replica := r }

/-- The collaborators of a deployment whose cache calls all succeed:
`RedisCache` on the two nodes, and the given store for every other call. -/
def World.handler {σ : Type} (store : Handler σ) : Handler (World σ) where
  resp c w :=
    match c with
    | .cacheGet node key t dest => (RedisCache.Get (w.node node) key t dest, w)
    | .cacheSet node key t value ttl =>
      let r := RedisCache.Set (w.node node) key t value ttl
      (r.1, w.setNode node r.2)
    | .cacheDelete node key =>
      let r := RedisCache.Delete (w.node node) key
      (r.1, w.setNode node r.2)
    | .beginTx => let r := store.resp .beginTx w.db; (r.1, { w with db := r.2 })
    | .txQueryRow query args t dest =>
      let r := store.resp (.txQueryRow query args t dest) w.db
      (r.1, { w with db := r.2 })
    | .txExec query args =>
      let r := store.resp (.txExec query args) w.db
      (r.1, { w with db := r.2 })
    | .txCommit => let r := store.resp .txCommit w.db; (r.1, { w with db := r.2 })
    | .txRollback => let r := store.resp .txRollback w.db; (r.1, { w with db := r.2 })
    | .queryRow query args t dest =>
      let r := store.resp (.queryRow query args t dest) w.db
      (r.1, { w with db := r.2 })
    | .query query args t =>
      let r := store.resp (.query query args t) w.db
      (r.1, { w with db := r.2 })
    | .exec query args =>
      let r := store.resp (.exec query args) w.db
      (r.1, { w with db := r.2 })

/-- Replication: the replica takes over the content of the master. -/
def World.replicate {σ : Type} (w : World σ) : World σ :=
  { w with replica := w.master }

/-- The world on a cold cache: same store, both nodes empty. -/
def World.cold {σ : Type} (w : World σ) : World σ :=
  { w with master := Redis.empty, replica := Redis.empty }

/-- One repository operation on the world with the model store, followed by
replication. -/
def Op.step (op : Op) (w : World Postgres) : World Postgres :=
  (op.prog.run (World.handler Postgres.handler) w).state.replicate

/-- The worlds reachable from a store and an empty cache by operations that
satisfy `ok` in the world they are applied to. -/
inductive World.Reachable (ok : World Postgres → Op → Prop) (db0 : Postgres) :
    World Postgres → Prop where
  | init : World.Reachable ok db0 ⟨db0, Redis.empty, Redis.empty⟩
  | step (w : World Postgres) (op : Op) (hw : World.Reachable ok db0 w) (hop : ok w op) :
      World.Reachable ok db0 (op.step w)

/-! ## Cache-store consistency -/

/-- Referential integrity of the join tables: a row of `users_lists` names an
existing list, a row of `lists_items` an existing item. -/
structure Tables.Integrity (tb : Tables) : Prop where
  users_lists : ∀ ul ∈ tb.users_lists, ∃ l ∈ tb.lists, l.Id = ul.2
  lists_items : ∀ li ∈ tb.lists_items, ∃ i ∈ tb.items, i.Id = li.2

/-- Every entry of a node under one of the four key patterns is what the
store holds now: the row with that id, or the rows of the join for that
owner. -/
structure Tables.Cached (tb : Tables) (m : Redis) : Prop where
  listById : ∀ id doc, m (Sprintf cacheKeyListById.Pattern id) = some doc →
    ∃ l, doc = .list l ∧ tb.listById id = some l
  userLists : ∀ u doc, m (Sprintf cacheKeyUserLists.Pattern u) = some doc →
    doc = .lists (tb.userLists u)
  itemById : ∀ id doc, m (Sprintf cacheKeyItemById.Pattern id) = some doc →
    ∃ i, doc = .item i ∧ tb.itemById id = some i
  listItems : ∀ l doc, m (Sprintf cacheKeyListItems.Pattern l) = some doc →
    doc = .items (tb.listItems l)

/-- A world whose replica mirrors the master, whose store has referential
integrity and whose cache entries are what the store holds. -/
structure World.Consistent (w : World Postgres) : Prop where
  replica : w.replica = w.master
  integrity : w.db.tables.Integrity
  cached : w.db.tables.Cached w.master

/-- The operations that name the owner the way the use cases do: an update
or delete is given the only user of the list (the only list of the item), an
update is never given nil, a deleted list holds no item, and an item is created
with `Done` false. -/
def Op.Owned (w : World Postgres) : Op → Prop
  | .ListUpdateOneById userId listId _ =>
    ∃ u, userId = some u ∧ ∀ ul ∈ w.db.tables.users_lists, ul.2 = listId → ul.1 = u
  | .ListDeleteOneById userId listId =>
    (∀ ul ∈ w.db.tables.users_lists, ul.2 = listId → userId = some ul.1) ∧
    (∀ li ∈ w.db.tables.lists_items, ¬ li.1 = listId)
  | .CreateListItem _ item => item.Done = false
  | .ItemUpdateOneById listId itemId _ =>
    ∃ l, listId = some l ∧ ∀ li ∈ w.db.tables.lists_items, li.2 = itemId → li.1 = l
  | .ItemDeleteOneById listId itemId =>
    ∀ li ∈ w.db.tables.lists_items, li.2 = itemId → listId = some li.1
  | _ => True

/-- The number a list of decimal digit characters stands for. -/
def digitsValue (cs : List Char) : Nat :=
  cs.foldl (fun acc c => 10 * acc + (c.toNat - 48)) 0

/-- The integer a decimal rendering stands for. -/
def intValue : List Char → Int
  | '-' :: rest => - (digitsValue rest : Int)
  | cs => (digitsValue cs : Int)

/-! ## Scenarios -/

/-- An empty store. -/
def Postgres.empty : Postgres := ⟨⟨[], [], [], []⟩, none, 0, 0⟩

/-- The world after user 1 has created the list `Groceries` (which gets id 1)
and has read all their lists once, on an empty store and cache. -/
def World.groceries : World Postgres :=
  (Op.GetAllUserLists 1).step
    ((Op.CreateUserList 1 ⟨0, "Groceries", ""⟩).step ⟨Postgres.empty, Redis.empty, Redis.empty⟩)

/-- The world after user 1 has then renamed list 1 to `Food` and read it. -/
def World.renamed : World Postgres :=
  (Op.ListGetOneById 1).step
    ((Op.ListUpdateOneById (some 1) 1 ⟨some "Food", none⟩).step World.groceries)

/-- A replica that holds list 5 under its key. -/
def Mock.hitList : Mock :=
  { Mock.quiet with
    get := fun _ t d =>
      match t, d with
      | .list, _ => ⟨⟨5, "Groceries", "weekly"⟩, true, none⟩
      | _, d => ⟨d, false, none⟩ }

/-- A store whose UPDATE and DELETE affect no row. -/
def Mock.zeroRows : Mock :=
  { Mock.quiet with exec := .ok (.ok 0) }

/-- A store that accepts the entity insert and rejects the ownership-join
insert with `sql.ErrTxDone`. -/
def Mock.linkFails : Mock :=
  { Mock.quiet with
    txExec := some (.other "sql: transaction has already been committed or rolled back") }

/-- A master node on which every `Set` and `Delete` fails. -/
def Mock.masterDown : Mock :=
  { Mock.quiet with
    set := fun node =>
      match node with
      | .Master => some (.other "redis: connection refused")
      | .Replica => none
    delete := fun node =>
      match node with
      | .Master => some (.other "redis: connection refused")
      | .Replica => none }

/-- A replica whose entry under `user_lists:{id}` is the JSON text
`[{"id":7,"title":"x","description":""},{"id":"y"}]`: `json.Unmarshal` decodes
the first element, leaves the second at its zero value because a string is not
an int, and returns an UnmarshalTypeError, so `RedisCache.Get` returns
`(false, err)` with two elements in the destination. -/
def Mock.halfDecoded : Mock :=
  { Mock.quiet with
    get := fun _ t d =>
      match t, d with
      | .lists, _ =>
        ⟨[⟨7, "x", ""⟩, ⟨0, "", ""⟩], false,
          some (.other "json: cannot unmarshal string into Go struct field List.id of type int")⟩
      | _, d => ⟨d, false, none⟩ }

/-! ## Routing of cache calls -/

/-- The routing `cache.Cache` is built for: `Get` goes to the replica, `Set`
and `Delete` go to the master.  Calls on the store are not concerned. -/
def Call.routed : Call → Bool
  | .cacheGet .Master _ _ _ => false
  | .cacheSet .Replica _ _ _ _ => false
  | .cacheDelete .Replica _ => false
  | _ => true

/-- A program all of whose calls are routed, whatever the answers. -/
inductive Prog.Routed {α : Type} : Prog α → Prop where
  | ret (a : α) : Prog.Routed (.ret a)
  | panic : Prog.Routed .panic
  | call (c : Call) (k : c.Resp → Prog α) (hc : c.routed = true)
      (hk : ∀ r, Prog.Routed (k r)) : Prog.Routed (.call c k)

/-! # The use-case layer and its collaborators

`internal/usecase` sees its collaborators through interfaces
(`repository.List`, `repository.Item`, `search.List`, `search.Item`,
`messagebroker.Producer`).  A call on one of them is a `Port`, a use-case method
is a `UseCase`: the tree of its port calls.  The adapters behind the ports
(`pkg/search`, `pkg/message_broker`) are trees over the calls of their client
libraries, and `wire` puts the layers together.
-/

/-- A method as the tree of the calls it makes on its collaborators, for calls
`C` answered in `R c`.  `panic` is a Go run-time panic. -/
inductive CallTree (C : Type) (R : C → Type) (α : Type) where
  | ret (a : α)
  | panic
  | call (c : C) (k : R c → CallTree C R α)

/-- Sequencing of trees. -/
def CallTree.bind {C : Type} {R : C → Type} {α β : Type} :
    CallTree C R α → (α → CallTree C R β) → CallTree C R β
  | .ret a, f => f a
  | .panic, _ => .panic
  | .call c k, f => .call c (fun r => (k r).bind f)

instance {C : Type} {R : C → Type} : Monad (CallTree C R) where
  pure := CallTree.ret
  bind := CallTree.bind

/-- A single call as a tree. -/
def CallTree.perform {C : Type} {R : C → Type} (c : C) : CallTree C R (R c) := .call c .ret

/-- Collaborators of a tree: the answer to each call in a state, `none` when
the callee panics, and the state the call leaves. -/
structure CallTree.Handler (C : Type) (R : C → Type) (σ : Type) where
  resp : (c : C) → σ → Option (R c) × σ

/-- Collaborators that always answer. -/
def CallTree.Handler.total {C : Type} {R : C → Type} {σ : Type}
    (f : (c : C) → σ → R c × σ) : CallTree.Handler C R σ where
  resp c s := (some (f c s).1, (f c s).2)

/-- Outcome of running a tree: the returned value (`none` after a panic, the
method's own or a callee's), the collaborators' final state and the calls made,
in order, each with its answer (`none` when the callee panicked). -/
structure CallTree.Run (C : Type) (R : C → Type) (α σ : Type) where
  result : Option α
  state : σ
  trace : List ((c : C) × Option (R c))

/-- The calls made in a run, in order. -/
def CallTree.Run.calls {C : Type} {R : C → Type} {α σ : Type} (r : CallTree.Run C R α σ) :
    List C :=
  r.trace.map (·.1)

/-- Run a tree against its collaborators.  A panic in a callee ends the run. -/
def CallTree.run {C : Type} {R : C → Type} {α σ : Type} (h : CallTree.Handler C R σ) :
    CallTree C R α → σ → CallTree.Run C R α σ
  | .ret a, s => ⟨some a, s, []⟩
  | .panic, s => ⟨none, s, []⟩
  | .call c k, s =>
    match h.resp c s with
    | (none, s1) => ⟨none, s1, [⟨c, none⟩]⟩
    | (some r, s1) =>
      let rest := (k r).run h s1
      ⟨rest.result, rest.state, ⟨c, some r⟩ :: rest.trace⟩

/-! ## internal/entity: events -/

/-- The event struct entity.ListCreatedEvent. -/
structure entity.ListCreatedEvent where
  UserId : Int
  List : entity.List
  deriving DecidableEq, Repr

/-- The event struct entity.ListUpdatedEvent. -/
structure entity.ListUpdatedEvent where
  UserId : Int
  ListId : Int
  deriving DecidableEq, Repr

/-- The event struct entity.ListDeletedEvent. -/
structure entity.ListDeletedEvent where
  ListId : Int
  deriving DecidableEq, Repr

/-- The event struct entity.ItemCreatedEvent. -/
structure entity.ItemCreatedEvent where
  UserId : Int
  ListId : Int
  Item : entity.Item
  deriving DecidableEq, Repr

/-- The event struct entity.ItemUpdatedEvent. -/
structure entity.ItemUpdatedEvent where
  UserId : Int
  ListId : Int
  ItemId : Int
  deriving DecidableEq, Repr

/-- The event struct entity.ItemDeletedEvent. -/
structure entity.ItemDeletedEvent where
  ItemId : Int
  deriving DecidableEq, Repr

/-! ## The ports of the use cases -/

/-- A call of a method of `messagebroker.Producer` with its arguments.  For the
two Created events the entity is the content of the pointer argument. -/
inductive Publish where
  | ListCreatedEvent (userId : Int) (list : entity.List)
  | ListUpdatedEvent (userId listId : Int)
  | ListDeletedEvent (listId : Int)
  | ItemCreatedEvent (userId listId : Int) (item : entity.Item)
  | ItemUpdatedEvent (userId listId itemId : Int)
  | ItemDeletedEvent (itemId : Int)
  deriving DecidableEq, Repr

/-- A call a use case makes on an injected collaborator: a method of
`repository.List` or `repository.Item` (`repo`), a method of `search.List` or
`search.Item`, or the statement `go uc.brokerProducer.Publish...(...)`, which
starts the producer method in a goroutine of its own and yields nothing. -/
inductive Port where
  | repo (op : Op)
  | ListSearchIds (userId : Int) (searchText : String)
  | ListIndex (userId : Int) (list : entity.List)
  | ListDelete (listId : Int)
  | ItemSearchIds (userId : Int) (listId : Option Int) (done : Option Bool) (searchText : String)
  | ItemIndex (userId listId : Int) (item : entity.Item)
  | ItemDelete (itemId : Int)
  | go (p : Publish)

/-- The type of the answer to each port call.  An id slice is `none` when
nil. -/
@[reducible] def Port.Resp : Port → Type
  | .repo op => op.Res
  | .ListSearchIds _ _ => Option (List Int) × Option Err
  | .ListIndex _ _ => Option Err
  | .ListDelete _ => Option Err
  | .ItemSearchIds _ _ _ _ => Option (List Int) × Option Err
  | .ItemIndex _ _ _ => Option Err
  | .ItemDelete _ => Option Err
  | .go _ => Unit

/-- A use-case method: the tree of its port calls. -/
abbrev UseCase (α : Type) : Type := CallTree Port Port.Resp α

/-- A single port call as a use-case step. -/
def Port.call (c : Port) : UseCase c.Resp := CallTree.perform c

/-- The producer call a port call hands over, if it is a `go` statement. -/
def Port.published : Port → Option Publish
  | .go p => some p
  | _ => none

/-! ## internal/usecase/list.go

Logger calls are left out.  A method that takes a pointer also returns the
content behind it after the call. -/

/-- ListUseCase.Create.  The goroutine reads `*list` when it runs; no caller
writes to it after Create has returned, so the event carries the content at the
`go` statement. -/
def ListUseCase.Create (userId : Int) (list : entity.List) :
    UseCase ((Int × Option Err) × entity.List) := do
  let ((listId, err), list) ← Port.call (.repo (.CreateUserList userId list))
  if let some e := err then
    return ((0, some e), list)
  Port.call (.go (.ListCreatedEvent userId list))
  return ((listId, none), list)

/-- ListUseCase.GetAll. -/
def ListUseCase.GetAll (userId : Int) : UseCase (Option (List entity.List) × Option Err) :=
  Port.call (.repo (.GetAllUserLists userId))

/-- ListUseCase.GetOneById. -/
def ListUseCase.GetOneById (userId listId : Int) : UseCase (entity.List × Option Err) := do
  let err ← Port.call (.repo (.IsUserOwnerOfList userId listId))
  if let some e := err then
    return (entity.List.zero, some e)
  Port.call (.repo (.ListGetOneById listId))

/-- ListUseCase.UpdateOneById. -/
def ListUseCase.UpdateOneById (userId listId : Int) (newTodoInput : entity.UpdateListInput) :
    UseCase (Option Err) := do
  let err ← Port.call (.repo (.IsUserOwnerOfList userId listId))
  if let some e := err then
    return some e
  let err ← Port.call (.repo (.ListUpdateOneById (some userId) listId newTodoInput))
  if let some e := err then
    return some e
  Port.call (.go (.ListUpdatedEvent userId listId))
  return none

/-- ListUseCase.DeleteOneById. -/
def ListUseCase.DeleteOneById (userId listId : Int) : UseCase (Option Err) := do
  let err ← Port.call (.repo (.IsUserOwnerOfList userId listId))
  if let some e := err then
    return some e
  let err ← Port.call (.repo (.ListDeleteOneById (some userId) listId))
  if let some e := err then
    return some e
  Port.call (.go (.ListDeletedEvent listId))
  return none

/-- ListUseCase.DeleteOneByAdmin. -/
def ListUseCase.DeleteOneByAdmin (listId : Int) : UseCase (Option Err) := do
  let err ← Port.call (.repo (.ListDeleteOneById none listId))
  if let some e := err then
    return some e
  Port.call (.go (.ListDeletedEvent listId))
  return none

/-- ListUseCase.Search. -/
def ListUseCase.Search (userId : Int) (searchText : String) :
    UseCase (Option (List entity.List) × Option Err) := do
  let (listIds, err) ← Port.call (.ListSearchIds userId searchText)
  if let some e := err then
    return (some [], some e)
  Port.call (.repo (.ListGetManyByIds (listIds.getD [])))

/-- ListUseCase.HandleCreated. -/
def ListUseCase.HandleCreated (message : entity.ListCreatedEvent) : UseCase (Option Err) := do
  let err ← Port.call (.ListIndex message.UserId message.List)
  if let some e := err then
    return some e
  return none

/-- ListUseCase.HandleUpdated. -/
def ListUseCase.HandleUpdated (message : entity.ListUpdatedEvent) : UseCase (Option Err) := do
  let (list, err) ← Port.call (.repo (.ListGetOneById message.ListId))
  if let some e := err then
    return some e
  let err ← Port.call (.ListIndex message.UserId list)
  if let some e := err then
    return some e
  return none

/-- ListUseCase.HandleDeleted. -/
def ListUseCase.HandleDeleted (message : entity.ListDeletedEvent) : UseCase (Option Err) := do
  let err ← Port.call (.ListDelete message.ListId)
  if let some e := err then
    return some e
  return none

/-! ## internal/usecase/item.go -/

/-- ItemUseCase.Create. -/
def ItemUseCase.Create (userId listId : Int) (item : entity.Item) :
    UseCase ((Int × Option Err) × entity.Item) := do
  let err ← Port.call (.repo (.IsUserOwnerOfList userId listId))
  if let some e := err then
    return ((0, some e), item)
  let ((itemId, err), item) ← Port.call (.repo (.CreateListItem listId item))
  if let some e := err then
    return ((0, some e), item)
  Port.call (.go (.ItemCreatedEvent userId listId item))
  return ((itemId, none), item)

/-- ItemUseCase.GetAll. -/
def ItemUseCase.GetAll (userId listId : Int) : UseCase (Option (List entity.Item) × Option Err) := do
  let err ← Port.call (.repo (.IsUserOwnerOfList userId listId))
  if let some e := err then
    return (some [], some e)
  Port.call (.repo (.GetAllListItems listId))

/-- ItemUseCase.GetOneById. -/
def ItemUseCase.GetOneById (userId itemId : Int) : UseCase (entity.Item × Option Err) := do
  let err ← Port.call (.repo (.IsUserOwnerOfItem userId itemId))
  if let some e := err then
    return (entity.Item.zero, some e)
  Port.call (.repo (.ItemGetOneById itemId))

/-- ItemUseCase.UpdateOneById. -/
def ItemUseCase.UpdateOneById (userId listId itemId : Int) (input : entity.UpdateItemInput) :
    UseCase (Option Err) := do
  let err ← Port.call (.repo (.IsUserOwnerOfItem userId itemId))
  if let some e := err then
    return some e
  let err ← Port.call (.repo (.ItemUpdateOneById (some listId) itemId input))
  if let some e := err then
    return some e
  Port.call (.go (.ItemUpdatedEvent userId listId itemId))
  return none

/-- ItemUseCase.DeleteOneById. -/
def ItemUseCase.DeleteOneById (userId listId itemId : Int) : UseCase (Option Err) := do
  let err ← Port.call (.repo (.IsUserOwnerOfItem userId itemId))
  if let some e := err then
    return some e
  let err ← Port.call (.repo (.ItemDeleteOneById (some listId) itemId))
  if let some e := err then
    return some e
  Port.call (.go (.ItemDeletedEvent itemId))
  return none

/-- ItemUseCase.DeleteOneByAdmin. -/
def ItemUseCase.DeleteOneByAdmin (itemId : Int) : UseCase (Option Err) := do
  let err ← Port.call (.repo (.ItemDeleteOneById none itemId))
  if let some e := err then
    return some e
  Port.call (.go (.ItemDeletedEvent itemId))
  return none

/-- ItemUseCase.Search. -/
def ItemUseCase.Search (userId : Int) (listId : Option Int) (done : Option Bool)
    (searchText : String) : UseCase (Option (List entity.Item) × Option Err) := do
  let (itemIds, err) ← Port.call (.ItemSearchIds userId listId done searchText)
  if let some e := err then
    return (some [], some e)
  Port.call (.repo (.ItemGetManyByIds (itemIds.getD [])))

/-- ItemUseCase.HandleCreated. -/
def ItemUseCase.HandleCreated (message : entity.ItemCreatedEvent) : UseCase (Option Err) := do
  let err ← Port.call (.ItemIndex message.UserId message.ListId message.Item)
  if let some e := err then
    return some e
  return none

/-- ItemUseCase.HandleUpdated. -/
def ItemUseCase.HandleUpdated (message : entity.ItemUpdatedEvent) : UseCase (Option Err) := do
  let (item, err) ← Port.call (.repo (.ItemGetOneById message.ItemId))
  if let some e := err then
    return some e
  let err ← Port.call (.ItemIndex message.UserId message.ListId item)
  if let some e := err then
    return some e
  return none

/-- ItemUseCase.HandleDeleted. -/
def ItemUseCase.HandleDeleted (message : entity.ItemDeletedEvent) : UseCase (Option Err) := do
  let err ← Port.call (.ItemDelete message.ItemId)
  if let some e := err then
    return some e
  return none

/-! ## JSON values -/

/-- A JSON value, as `encoding/json` encodes a Go value and as it decodes into
`interface{}`: `null` is the nil interface, an object is a
`map[string]interface{}`, an array a `[]interface{}`.  Numbers are integers
here; the members of an object are listed in key order, the order in which
`encoding/json` writes a map. -/
inductive JSON where
  | null
  | bool (b : Bool)
  | num (n : Int)
  | str (s : String)
  | arr (items : List JSON)
  | obj (members : List (String × JSON))

/-- A byte slice or stream read through `encoding/json`: the JSON value it
spells, or `none` when it is not JSON text. -/
abbrev Bytes : Type := Option JSON

/-- The index expression `m[key]` on a `map[string]interface{}`: the nil
interface when the key is absent. -/
def JSON.index (m : List (String × JSON)) (key : String) : JSON :=
  (m.lookup key).getD .null

/-- The member `key` of a JSON value, when the value is an object that has
it. -/
def JSON.member (v : JSON) (key : String) : Option JSON :=
  match v with
  | .obj m => m.lookup key
  | _ => none

/-- Decoding of a stream into a nil `map[string]interface{}` with
`json.NewDecoder(body).Decode(&result)`: an object fills the map, `null`
leaves it nil (no key), anything else is an error. -/
def json.DecodeMap : Bytes → Except Err (List (String × JSON))
  | some (.obj m) => .ok m
  | some .null => .ok []
  | some _ => .error (.other "json: cannot unmarshal into Go value of type map[string]interface {}")
  | none => .error (.other "invalid character looking for beginning of value")

/-- The text `err.Error()` of an error value. -/
def Err.Error : Err → String
  | .ErrUserNotFound => "user not found"
  | .ErrUserNotOwner => "user is not the owner"
  | .ErrListNotFound => "list not found"
  | .ErrListEmptyRequest => "list update structure has no values"
  | .ErrItemNotFound => "item not found"
  | .ErrItemEmptyRequest => "item update structure has no values"
  | .sqlErrNoRows => "sql: no rows in result set"
  | .other msg => msg

/-- The error `fmt.Errorf(text + ": %w", err)`: a new error value with the
wrapped error's text appended. -/
def Errorf (text : String) (err : Err) : Err := .other (text ++ ": " ++ err.Error)

/-- Go's `strconv.Atoi`: an optional sign followed by decimal digits, within the
range of a 64-bit `int`. -/
def strconv.Atoi (s : String) : Option Int :=
  let signed : Bool × List Char :=
    match s.data with
    | '-' :: rest => (true, rest)
    | '+' :: rest => (false, rest)
    | rest => (false, rest)
  if signed.2.isEmpty || !signed.2.all Char.isDigit then none
  else
    let v : Int := if signed.1 then -(digitsValue signed.2 : Int) else (digitsValue signed.2 : Int)
    if -(2 ^ 63 : Int) ≤ v ∧ v < 2 ^ 63 then some v else none

/-! ## The Elasticsearch client as the adapters use it -/

/-- A request the adapters make through `*elasticsearch.Client`: `Search` with
`WithIndex`, `WithBody` and `WithTrackTotalHits`; `Index` with
`WithDocumentID` and `WithRefresh`; `Delete`. -/
inductive esapi.Request where
  | Search (index : String) (body : Bytes) (trackTotalHits : Bool)
  | Index (index : String) (body : Bytes) (documentID : String) (refresh : String)
  | Delete (index : String) (documentID : String)

/-- An `*esapi.Response`: the HTTP status and the body seen through
`encoding/json`. -/
structure esapi.Response where
  StatusCode : Nat
  Body : Bytes

/-- The method `IsError` of `esapi.Response`: the status is above 299. -/
def esapi.Response.IsError (res : esapi.Response) : Bool := decide (res.StatusCode > 299)

/-- The method `String` of `esapi.Response`, of which only the status is
rendered here; the status text and the body follow it in the library. -/
def esapi.Response.String (res : esapi.Response) : String :=
  "[" ++ toString res.StatusCode ++ "]"

/-- The answer of the client to a request: a transport error or a response. -/
@[reducible] def esapi.Request.Resp (_ : esapi.Request) : Type := Except Err esapi.Response

/-- A method of a search adapter: the tree of its client requests. -/
abbrev SearchAdapter (α : Type) : Type := CallTree esapi.Request esapi.Request.Resp α

/-- A single client request as an adapter step. -/
def esapi.Request.call (c : esapi.Request) : SearchAdapter c.Resp := CallTree.perform c

/-! ## pkg/search/list.go -/

def listIndexName : String := "lists"
def itemIndexName : String := "items"

/-- The map `searchQuery` that ListSearch.SearchIds builds. -/
def ListSearch.searchQuery (userId : Int) (searchText : String) : JSON :=
  .obj [
    ("_source", .arr [.str "id"]),
    ("query", .obj [
      ("bool", .obj [
        ("filter", .arr [
          .obj [("term", .obj [("userId", .num userId)])]]),
        ("must", .arr [
          .obj [("multi_match", .obj [
            ("fields", .arr [.str "title^2", .str "description"]),
            ("fuzziness", .str "AUTO"),
            ("query", .str searchText)])]])])])]

/-- The loop over `hits` in ListSearch.SearchIds; `none` when a type assertion
without `ok` fails (`hit.(map[string]interface{})` on a hit that is no
object). -/
def ListSearch.collectIds : List JSON → List Int → Option (List Int)
  | [], ids => some ids
  | .obj hit :: hits, ids =>
    match JSON.index hit "_source" with
    | .obj source =>
      match JSON.index source "id" with
      | .num v => ListSearch.collectIds hits (ids ++ [v])
      | .str v =>
        match strconv.Atoi v with
        | some id => ListSearch.collectIds hits (ids ++ [id])
        | none => ListSearch.collectIds hits ids
      | _ => ListSearch.collectIds hits ids
    | _ => ListSearch.collectIds hits ids
  | _ :: _, _ => none

/-- A Go slice built by `append` from `var ids []int`: nil when nothing was
appended. -/
def sliceOf {T : Type} (xs : List T) : Option (List T) :=
  if xs.isEmpty then none else some xs

/-- What both SearchIds methods do with a response, given their loop over the
hits. -/
def readHits (collect : List JSON → List Int → Option (List Int))
    (answer : Except Err esapi.Response) : SearchAdapter (Option (List Int) × Option Err) :=
  match answer with
  | .error err => return (none, some (Errorf "error executing search query" err))
  | .ok res =>
    if res.IsError then
      return (none, some (.other ("error response from Elasticsearch: " ++ res.String)))
    else
      match json.DecodeMap res.Body with
      | .error err => return (none, some (Errorf "error parsing the search response" err))
      | .ok result =>
        match JSON.index result "hits" with
        | .obj outer =>
          match JSON.index outer "hits" with
          | .arr hits =>
            match collect hits [] with
            | some ids => return (sliceOf ids, none)
            | none => .panic
          | _ => return (none, some (.other "error parsing hits from search response"))
        | _ => .panic

/-- ListSearch.SearchIds.  Encoding the query cannot fail. -/
def ListSearch.SearchIds (userId : Int) (searchText : String) :
    SearchAdapter (Option (List Int) × Option Err) := do
  let searchQuery := ListSearch.searchQuery userId searchText
  let answer ← esapi.Request.call (.Search listIndexName (some searchQuery) true)
  readHits ListSearch.collectIds answer

/-- What Index and Delete of both adapters do with the answer to their
request. -/
def checkAnswer (text : String) (answer : Except Err esapi.Response) : Option Err :=
  match answer with
  | .error err => some (Errorf text err)
  | .ok res =>
    if res.IsError then some (.other ("error response from Elasticsearch: " ++ res.String))
    else none

/-- The map `document` that ListSearch.Index builds. -/
def ListSearch.document (userId : Int) (list : entity.List) : JSON :=
  .obj [
    ("description", .str list.Description),
    ("id", .num list.Id),
    ("title", .str list.Title),
    ("userId", .num userId)]

/-- ListSearch.Index.  Marshalling the document cannot fail. -/
def ListSearch.Index (userId : Int) (list : entity.List) : SearchAdapter (Option Err) := do
  let data : Bytes := some (ListSearch.document userId list)
  let answer ← esapi.Request.call (.Index listIndexName data (Sprintf "%d" list.Id) "true")
  return checkAnswer "error indexing document" answer

/-- ListSearch.Delete. -/
def ListSearch.Delete (listId : Int) : SearchAdapter (Option Err) := do
  let listIdStr := Sprintf "%d" listId
  let answer ← esapi.Request.call (.Delete listIndexName listIdStr)
  return checkAnswer "error deleting document" answer

/-! ## pkg/search/item.go -/

/-- The filter list of ItemSearch.SearchIds after the two conditional
appends. -/
def ItemSearch.filter (userId : Int) (listId : Option Int) (done : Option Bool) : List JSON :=
  let filter : List JSON := [.obj [("term", .obj [("userId", .num userId)])]]
  let filter :=
    match listId with
    | some listId => filter ++ [.obj [("term", .obj [("listId", .num listId)])]]
    | none => filter
  let filter :=
    match done with
    | some done => filter ++ [.obj [("term", .obj [("done", .bool done)])]]
    | none => filter
  filter

/-- The map `body` that ItemSearch.SearchIds builds. -/
def ItemSearch.body (userId : Int) (listId : Option Int) (done : Option Bool)
    (searchText : String) : JSON :=
  .obj [
    ("_source", .arr [.str "id"]),
    ("query", .obj [
      ("bool", .obj [
        ("filter", .arr (ItemSearch.filter userId listId done)),
        ("must", .arr [
          .obj [("multi_match", .obj [
            ("fields", .arr [.str "title^2", .str "description"]),
            ("fuzziness", .str "AUTO"),
            ("query", .str searchText)])]])])])]

/-- The loop over `hits` in ItemSearch.SearchIds; `none` when
`hit.(map[string]interface{})` fails. -/
def ItemSearch.collectIds : List JSON → List Int → Option (List Int)
  | [], ids => some ids
  | .obj hit :: hits, ids =>
    match JSON.index hit "_source" with
    | .obj source =>
      match JSON.index source "id" with
      | .num idFloat => ItemSearch.collectIds hits (ids ++ [idFloat])
      | _ => ItemSearch.collectIds hits ids
    | _ => ItemSearch.collectIds hits ids
  | _ :: _, _ => none

/-- ItemSearch.SearchIds.  Encoding the body cannot fail. -/
def ItemSearch.SearchIds (userId : Int) (listId : Option Int) (done : Option Bool)
    (searchText : String) : SearchAdapter (Option (List Int) × Option Err) := do
  let body := ItemSearch.body userId listId done searchText
  let answer ← esapi.Request.call (.Search itemIndexName (some body) true)
  readHits ItemSearch.collectIds answer

/-- The map `document` that ItemSearch.Index builds. -/
def ItemSearch.document (userId listId : Int) (item : entity.Item) : JSON :=
  .obj [
    ("description", .str item.Description),
    ("done", .bool item.Done),
    ("id", .num item.Id),
    ("listId", .num listId),
    ("title", .str item.Title),
    ("userId", .num userId)]

/-- ItemSearch.Index.  Marshalling the document cannot fail. -/
def ItemSearch.Index (userId listId : Int) (item : entity.Item) : SearchAdapter (Option Err) := do
  let data : Bytes := some (ItemSearch.document userId listId item)
  let answer ← esapi.Request.call (.Index itemIndexName data (Sprintf "%d" item.Id) "true")
  return checkAnswer "error indexing document" answer

/-- ItemSearch.Delete. -/
def ItemSearch.Delete (itemId : Int) : SearchAdapter (Option Err) := do
  let itemIdStr := Sprintf "%d" itemId
  let answer ← esapi.Request.call (.Delete itemIndexName itemIdStr)
  return checkAnswer "error deleting document" answer

/-! ## A model of the search engine

The engine is not part of the repository.  The model keeps, per index, the
documents by id and answers the document APIs with the status codes the
Elasticsearch reference gives for them; every request reaches the engine. -/

/-- The content of the engine: index name, document id, document. -/
abbrev Elastic : Type := String → String → Option JSON

/-- An engine without documents. -/
def Elastic.empty : Elastic := fun _ _ => none

/-- The engine after a document is put under an id. -/
def Elastic.put (es : Elastic) (index id : String) (doc : JSON) : Elastic :=
  fun i d => if i = index ∧ d = id then some doc else es i d

/-- The engine after the document under an id is removed. -/
def Elastic.remove (es : Elastic) (index id : String) : Elastic :=
  fun i d => if i = index ∧ d = id then none else es i d

/-- The hit the engine reports for a stored document when the request asks for
the `id` field as `_source`. -/
def Elastic.hit (es : Elastic) (index id : String) : JSON :=
  .obj [
    ("_id", .str id),
    ("_index", .str index),
    ("_source", .obj (match (es index id).bind (JSON.member · "id") with
      | some v => [("id", v)]
      | none => []))]

/-- The engine's answers.  `Index` stores the document: 201 when the id was
free, 200 when it replaced a document, 400 when the body is not JSON.
`Delete` removes the document: 200 when there was one, 404 (`not_found`) when
there was none.  `Search` answers 200 with the hits for the ids that
`matching` selects; how a query selects documents is left open. -/
def Elastic.handler (matching : Elastic → String → Bytes → List String) :
    CallTree.Handler esapi.Request esapi.Request.Resp Elastic :=
  CallTree.Handler.total fun c es =>
    match c with
    | .Search index body _ =>
      (.ok ⟨200, some (.obj [("hits", .obj [
          ("hits", .arr ((matching es index body).map (es.hit index)))])])⟩, es)
    | .Index index body documentID _ =>
      match body with
      | none => (.ok ⟨400, some (.obj [("error", .str "parse_exception")])⟩, es)
      | some doc =>
        (.ok ⟨if (es index documentID).isSome then 200 else 201,
            some (.obj [("_id", .str documentID),
              ("result", .str (if (es index documentID).isSome then "updated" else "created"))])⟩,
          es.put index documentID doc)
    | .Delete index documentID =>
      if (es index documentID).isSome then
        (.ok ⟨200, some (.obj [("_id", .str documentID), ("result", .str "deleted")])⟩,
          es.remove index documentID)
      else
        (.ok ⟨404, some (.obj [("_id", .str documentID), ("result", .str "not_found")])⟩, es)

/-! ## pkg/message_broker/kafka.go -/

def ListCreatedTopic : String := "list_created"
def ListUpdatedTopic : String := "list_updated"
def ListDeletedTopic : String := "list_deleted"
def ItemCreatedTopic : String := "item_created"
def ItemUpdatedTopic : String := "item_updated"
def ItemDeletedTopic : String := "item_deleted"

/-- What `json.Marshal` makes of an entity.List (field tags `id`, `title`,
`description`, in declaration order). -/
def entity.List.json (list : entity.List) : JSON :=
  .obj [("id", .num list.Id), ("title", .str list.Title), ("description", .str list.Description)]

/-- What `json.Marshal` makes of an entity.Item. -/
def entity.Item.json (item : entity.Item) : JSON :=
  .obj [("id", .num item.Id), ("title", .str item.Title),
    ("description", .str item.Description), ("done", .bool item.Done)]

/-- What `json.Marshal` makes of an entity.ListCreatedEvent. -/
def entity.ListCreatedEvent.json (m : entity.ListCreatedEvent) : JSON :=
  .obj [("user_id", .num m.UserId), ("list", m.List.json)]

/-- What `json.Marshal` makes of an entity.ListUpdatedEvent. -/
def entity.ListUpdatedEvent.json (m : entity.ListUpdatedEvent) : JSON :=
  .obj [("user_id", .num m.UserId), ("list_id", .num m.ListId)]

/-- What `json.Marshal` makes of an entity.ListDeletedEvent. -/
def entity.ListDeletedEvent.json (m : entity.ListDeletedEvent) : JSON :=
  .obj [("list_id", .num m.ListId)]

/-- What `json.Marshal` makes of an entity.ItemCreatedEvent. -/
def entity.ItemCreatedEvent.json (m : entity.ItemCreatedEvent) : JSON :=
  .obj [("user_id", .num m.UserId), ("list_id", .num m.ListId), ("item", m.Item.json)]

/-- What `json.Marshal` makes of an entity.ItemUpdatedEvent. -/
def entity.ItemUpdatedEvent.json (m : entity.ItemUpdatedEvent) : JSON :=
  .obj [("user_id", .num m.UserId), ("list_id", .num m.ListId), ("item_id", .num m.ItemId)]

/-- What `json.Marshal` makes of an entity.ItemDeletedEvent. -/
def entity.ItemDeletedEvent.json (m : entity.ItemDeletedEvent) : JSON :=
  .obj [("item_id", .num m.ItemId)]

/-- The `sarama.ProducerMessage` handed to `SyncProducer.SendMessage`. -/
structure sarama.ProducerMessage where
  Topic : String
  Value : Bytes

/-- The answer of `SendMessage`, of which the producer reads the error. -/
@[reducible] def sarama.ProducerMessage.Resp (_ : sarama.ProducerMessage) : Type := Option Err

/-- A method of KafkaProducer: the tree of its `SendMessage` calls. -/
abbrev Sending (α : Type) : Type := CallTree sarama.ProducerMessage sarama.ProducerMessage.Resp α

/-- KafkaProducer.Publish. -/
def KafkaProducer.Publish (topic : String) (message : Bytes) : Sending (Option Err) := do
  let msg : sarama.ProducerMessage := ⟨topic, message⟩
  let err ← (CallTree.perform msg : Sending (Option Err))
  if let some e := err then
    return some e
  return none

/-- KafkaProducer.PublishListCreatedEvent.  Marshalling the message cannot
fail; a publish error is logged. -/
def KafkaProducer.PublishListCreatedEvent (userId : Int) (list : entity.List) : Sending Unit := do
  let message : entity.ListCreatedEvent := ⟨userId, list⟩
  let _ ← KafkaProducer.Publish ListCreatedTopic (some message.json)
  return ()

/-- KafkaProducer.PublishListUpdatedEvent. -/
def KafkaProducer.PublishListUpdatedEvent (userId listId : Int) : Sending Unit := do
  let message : entity.ListUpdatedEvent := ⟨userId, listId⟩
  let _ ← KafkaProducer.Publish ListUpdatedTopic (some message.json)
  return ()

/-- KafkaProducer.PublishListDeletedEvent. -/
def KafkaProducer.PublishListDeletedEvent (listId : Int) : Sending Unit := do
  let message : entity.ListDeletedEvent := ⟨listId⟩
  let _ ← KafkaProducer.Publish ListDeletedTopic (some message.json)
  return ()

/-- KafkaProducer.PublishItemCreatedEvent. -/
def KafkaProducer.PublishItemCreatedEvent (userId listId : Int) (item : entity.Item) :
    Sending Unit := do
  let message : entity.ItemCreatedEvent := ⟨userId, listId, item⟩
  let _ ← KafkaProducer.Publish ItemCreatedTopic (some message.json)
  return ()

/-- KafkaProducer.PublishItemUpdatedEvent. -/
def KafkaProducer.PublishItemUpdatedEvent (userId listId itemId : Int) : Sending Unit := do
  let message : entity.ItemUpdatedEvent := ⟨userId, listId, itemId⟩
  let _ ← KafkaProducer.Publish ItemUpdatedTopic (some message.json)
  return ()

/-- KafkaProducer.PublishItemDeletedEvent. -/
def KafkaProducer.PublishItemDeletedEvent (itemId : Int) : Sending Unit := do
  let message : entity.ItemDeletedEvent := ⟨itemId⟩
  let _ ← KafkaProducer.Publish ItemDeletedTopic (some message.json)
  return ()

/-- The KafkaProducer method behind each call on `messagebroker.Producer`. -/
def Publish.send : Publish → Sending Unit
  | .ListCreatedEvent userId list => KafkaProducer.PublishListCreatedEvent userId list
  | .ListUpdatedEvent userId listId => KafkaProducer.PublishListUpdatedEvent userId listId
  | .ListDeletedEvent listId => KafkaProducer.PublishListDeletedEvent listId
  | .ItemCreatedEvent userId listId item => KafkaProducer.PublishItemCreatedEvent userId listId item
  | .ItemUpdatedEvent userId listId itemId =>
    KafkaProducer.PublishItemUpdatedEvent userId listId itemId
  | .ItemDeletedEvent itemId => KafkaProducer.PublishItemDeletedEvent itemId

/-- A broker client whose `SendMessage` answers `err` every time; its state is
the list of messages it was handed. -/
def sarama.answering (err : Option Err) :
    CallTree.Handler sarama.ProducerMessage sarama.ProducerMessage.Resp
      (List sarama.ProducerMessage) :=
  CallTree.Handler.total fun msg sent => (err, sent ++ [msg])

/-! ## KafkaConsumer.Subscribe -/

/-- `sarama.OffsetNewest`. -/
def sarama.OffsetNewest : Int := -1

/-- A `*sarama.ConsumerMessage`, of which the loop reads `Value`. -/
structure sarama.ConsumerMessage where
  Value : Bytes
  Offset : Int

/-- A call Subscribe makes: `Partitions` and `ConsumePartition` on the
`sarama.Consumer`, and the `go` statement that starts the loop on a partition
consumer (named by a handle). -/
inductive sarama.ConsumerCall where
  | Partitions (topic : String)
  | ConsumePartition (topic : String) (partition : Int) (offset : Int)
  | go (pc : Nat)

/-- The type of the answer to each of these calls. -/
@[reducible] def sarama.ConsumerCall.Resp : sarama.ConsumerCall → Type
  | .Partitions _ => Except Err (List Int)
  | .ConsumePartition _ _ _ => Except Err Nat
  | .go _ => Unit

/-- KafkaConsumer.Subscribe up to its goroutines. -/
abbrev Subscribing (α : Type) : Type := CallTree sarama.ConsumerCall sarama.ConsumerCall.Resp α

/-- A single consumer call as a step of Subscribe. -/
def sarama.ConsumerCall.call (c : sarama.ConsumerCall) : Subscribing c.Resp := CallTree.perform c

/-- The loop `for _, partition := range partitionList` of Subscribe. -/
def KafkaConsumer.subscribeEach (topic : String) : List Int → Subscribing (Option Err)
  | [] => return none
  | partition :: rest => do
    match ← sarama.ConsumerCall.call (.ConsumePartition topic partition sarama.OffsetNewest) with
    | .error err => return some err
    | .ok pc =>
      sarama.ConsumerCall.call (.go pc)
      KafkaConsumer.subscribeEach topic rest

/-- KafkaConsumer.Subscribe. -/
def KafkaConsumer.Subscribe (topic : String) : Subscribing (Option Err) := do
  match ← sarama.ConsumerCall.call (.Partitions topic) with
  | .error err => return some err
  | .ok partitionList => KafkaConsumer.subscribeEach topic partitionList

/-- The answer of the handler function to `handler(message.Value)`. -/
@[reducible] def handlerResp (_ : Bytes) : Type := Option Err

/-- The goroutine Subscribe starts on a partition consumer: the tree of its
calls of the handler function. -/
abbrev Consuming (α : Type) : Type := CallTree Bytes handlerResp α

/-- The body of that goroutine, `for message := range pc.Messages()`, over the
messages the channel delivers until it is closed.  It returns the lines it
logged; the deferred `pc.Close()` is left out. -/
def KafkaConsumer.loop (topic : String) :
    List sarama.ConsumerMessage → List String → Consuming (List String)
  | [], logged => return logged
  | message :: rest, logged => do
    let err ← (CallTree.perform message.Value : Consuming (Option Err))
    match err with
    | some e =>
      KafkaConsumer.loop topic rest
        (logged ++ ["error handling message from topic " ++ topic ++ ": " ++ e.Error])
    | none => KafkaConsumer.loop topic rest logged

/-! ## The layers put together -/

/-- The state of a deployment: the collaborators of the repositories, the
search engine and the message broker. -/
structure Deployment (σ τ β : Type) where
  world : σ
  engine : τ
  broker : β

/-- The ports as `app` wires them: ListRepo and ItemRepo on their collaborators,
ListSearch and ItemSearch on the client of the search engine, KafkaProducer on
the broker client.  The goroutine a `go` statement starts touches the broker
client only; it is run here at the statement. -/
def wire {σ τ β : Type} (repo : Handler σ)
    (client : CallTree.Handler esapi.Request esapi.Request.Resp τ)
    (producer : CallTree.Handler sarama.ProducerMessage sarama.ProducerMessage.Resp β) :
    CallTree.Handler Port Port.Resp (Deployment σ τ β) where
  resp c d :=
    match c with
    | .repo op =>
      let r := op.prog.run repo d.world
      (r.result, { d with world := r.state })
    | .ListSearchIds userId searchText =>
      let r := (ListSearch.SearchIds userId searchText).run client d.engine
      (r.result, { d with engine := r.state })
    | .ListIndex userId list =>
      let r := (ListSearch.Index userId list).run client d.engine
      (r.result, { d with engine := r.state })
    | .ListDelete listId =>
      let r := (ListSearch.Delete listId).run client d.engine
      (r.result, { d with engine := r.state })
    | .ItemSearchIds userId listId done searchText =>
      let r := (ItemSearch.SearchIds userId listId done searchText).run client d.engine
      (r.result, { d with engine := r.state })
    | .ItemIndex userId listId item =>
      let r := (ItemSearch.Index userId listId item).run client d.engine
      (r.result, { d with engine := r.state })
    | .ItemDelete itemId =>
      let r := (ItemSearch.Delete itemId).run client d.engine
      (r.result, { d with engine := r.state })
    | .go p =>
      let r := p.send.run producer d.broker
      (r.result, { d with broker := r.state })

/-- A query evaluation that selects no document. -/
def Elastic.noMatch : Elastic → String → Bytes → List String := fun _ _ _ => []

/-- The deployment on the model store, two Redis nodes, the model engine with a
given query evaluation, and a broker client whose `SendMessage` answers `err`
and keeps the messages it was handed. -/
def Deployment.handler (matching : Elastic → String → Bytes → List String) (err : Option Err) :
    CallTree.Handler Port Port.Resp
      (Deployment (World Postgres) Elastic (List sarama.ProducerMessage)) :=
  wire (World.handler Postgres.handler) (Elastic.handler matching) (sarama.answering err)

/-- The deployment in which user 1 owns the list `Groceries` (id 1); the engine
is empty and nothing was published. -/
def Deployment.groceries : Deployment (World Postgres) Elastic (List sarama.ProducerMessage) :=
  ⟨World.groceries, Elastic.empty, []⟩

/-- The producer calls a use-case run handed over with `go`, in order. -/
def CallTree.Run.published {α σ : Type} (r : CallTree.Run Port Port.Resp α σ) : List Publish :=
  r.calls.filterMap Port.published

/-- The messages a producer method hands to `SendMessage`. -/
def Publish.sent (p : Publish) : List sarama.ProducerMessage :=
  (p.send.run (sarama.answering none) []).state

/-- A query evaluation that selects document `7` of an index that holds it. -/
def Elastic.selects7 : Elastic → String → Bytes → List String :=
  fun es index _ => if (es index "7").isSome then ["7"] else []

/-- A deployment whose engine holds a document for list 7 of user 1 while the
store holds no list: the list is gone from the store and its Deleted event has
not reached the engine. -/
def Deployment.staleIndex : Deployment (World Postgres) Elastic (List sarama.ProducerMessage) :=
  ⟨⟨Postgres.empty, Redis.empty, Redis.empty⟩,
   Elastic.empty.put "lists" "7" (ListSearch.document 1 ⟨7, "Groceries", ""⟩), []⟩

/-- A handler function that fails on the message `2` and counts its calls. -/
def failsOnTwo : (c : Bytes) → Nat → handlerResp c × Nat :=
  fun c n =>
    match c with
    | some (.num 2) => (some (.other "cannot handle 2"), n + 1)
    | _ => (none, n + 1)

/-- The world right after user 1 has created the list `Groceries` (which gets
id 1) on an empty store and cache, the replica having caught up. -/
def World.created : World Postgres :=
  (Op.CreateUserList 1 ⟨0, "Groceries", ""⟩).step ⟨Postgres.empty, Redis.empty, Redis.empty⟩

/-! ## The HTTP layer

The handlers of `internal/middleware` and `internal/controller/http/v1` read a
request through a `*gin.Context` and answer through it.  Of the context the
model keeps what they read: headers, path and query parameters, the body, and
the keys set with `c.Set`.  Calls of the logger are left out. -/

/-- A value stored in the keys of a context (`interface{}`): an `int`, or a
value of another type. -/
inductive gin.Any where
  | int (n : Int)
  | other (text : String)
  deriving DecidableEq, Repr

/-- The request side of a `*gin.Context`.  `GetHeader`, `Param` and `Query`
yield the empty string for a name that is absent; `Body` is the first JSON
value of the request body, `none` when the body does not start with one. -/
structure gin.Context where
  GetHeader : String → String
  Param : String → String
  Query : String → String
  Body : Bytes
  Keys : String → Option gin.Any

/-- The call `c.Set(key, value)`. -/
def gin.Context.Set (c : gin.Context) (key : String) (value : gin.Any) : gin.Context :=
  { c with Keys := fun k => if k = key then some value else c.Keys k }

/-- What a handler has done when it returns: it called `c.Next()` with the
keys as they were then, or it wrote a response with a status code and a JSON
body, aborting the chain (`c.Abort`, `c.AbortWithStatusJSON`) or not. -/
inductive gin.Outcome where
  | Next (keys : String → Option gin.Any)
  | Respond (code : Int) (body : JSON) (aborted : Bool)

/-- Whether the handlers after this one run: gin runs them when the handler
called `c.Next()` and when it returned without aborting. -/
def gin.Outcome.runsNext : gin.Outcome → Bool
  | .Next _ => true
  | .Respond _ _ aborted => !aborted

/-- The status code and body written, if a response was written. -/
def gin.Outcome.written : gin.Outcome → Option (Int × JSON)
  | .Next _ => none
  | .Respond code body _ => some (code, body)

def http.StatusOK : Int := 200
def http.StatusBadRequest : Int := 400
def http.StatusUnauthorized : Int := 401
def http.StatusNotFound : Int := 404
def http.StatusInternalServerError : Int := 500

/-! ## utils/response.go -/

def utils.statusOk : String := "ok"
def utils.statusError : String := "error"

/-- What `json.Marshal` makes of a `utils.ErrorResponse`; `errors` is the map
as a list of its entries in key order, left out when empty (`omitempty`). -/
def utils.ErrorResponse.json (status message : String) (errors : List (String × String)) : JSON :=
  .obj ([("status", .str status), ("message", .str message)] ++
    if errors.isEmpty then [] else [("errors", .obj (errors.map fun kv => (kv.1, .str kv.2)))])

/-- What `json.Marshal` makes of a `utils.SuccessResponse`; `data` is the
encoding of the value held, `none` for the nil interface, which is left out
(`omitempty`). -/
def utils.SuccessResponse.json (status message : String) (data : Option JSON) : JSON :=
  .obj ([("status", .str status), ("message", .str message)] ++
    match data with
    | none => []
    | some d => [("data", d)])

/-- The function utils.NewErrorResponse: `c.AbortWithStatusJSON`. -/
def utils.NewErrorResponse (statusCode : Int) (message : String)
    (errors : List (String × String)) : gin.Outcome :=
  .Respond statusCode (utils.ErrorResponse.json utils.statusError message errors) true

/-- The function utils.NewSuccessResponse: `c.JSON`. -/
def utils.NewSuccessResponse (statusCode : Int) (message : String) (data : Option JSON) :
    gin.Outcome :=
  .Respond statusCode (utils.SuccessResponse.json utils.statusOk message data) false

/-! ## The use cases as seen from the handlers -/

/-- A call a middleware, a controller or a consumer handler makes on an
injected collaborator: a method of `usecase.Auth`, `usecase.List` or
`usecase.Item`, or a counter of the metrics. -/
inductive Service where
  | ParseToken (accessToken : String)
  | ListGetOneById (userId listId : Int)
  | ListUpdateOneById (userId listId : Int) (input : entity.UpdateListInput)
  | ListDeleteOneById (userId listId : Int)
  | ItemGetOneById (userId itemId : Int)
  | ItemUpdateOneById (userId listId itemId : Int) (input : entity.UpdateItemInput)
  | ItemDeleteOneById (userId listId itemId : Int)
  | ListHandleCreated (message : entity.ListCreatedEvent)
  | ListHandleUpdated (message : entity.ListUpdatedEvent)
  | ListHandleDeleted (message : entity.ListDeletedEvent)
  | ItemHandleCreated (message : entity.ItemCreatedEvent)
  | ItemHandleUpdated (message : entity.ItemUpdatedEvent)
  | ItemHandleDeleted (message : entity.ItemDeletedEvent)
  | IncrementDeletedLists
  | IncrementDeletedItems
  deriving DecidableEq, Repr

/-- The type of what each of these calls returns. -/
@[reducible] def Service.Resp : Service → Type
  | .ParseToken _ => Int × Option Err
  | .ListGetOneById _ _ => entity.List × Option Err
  | .ListUpdateOneById _ _ _ => Option Err
  | .ListDeleteOneById _ _ => Option Err
  | .ItemGetOneById _ _ => entity.Item × Option Err
  | .ItemUpdateOneById _ _ _ _ => Option Err
  | .ItemDeleteOneById _ _ _ => Option Err
  | .ListHandleCreated _ => Option Err
  | .ListHandleUpdated _ => Option Err
  | .ListHandleDeleted _ => Option Err
  | .ItemHandleCreated _ => Option Err
  | .ItemHandleUpdated _ => Option Err
  | .ItemHandleDeleted _ => Option Err
  | .IncrementDeletedLists => Unit
  | .IncrementDeletedItems => Unit

/-- A handler of the HTTP layer or of the consumer: the tree of its calls. -/
abbrev Controller (α : Type) : Type := CallTree Service Service.Resp α

/-- A single call as a step of a handler. -/
def Service.call (c : Service) : Controller c.Resp := CallTree.perform c

/-! ## pkg/app_auth and middleware.AppAuth -/

def appauth.PrivateAccess : String := "private"
def appauth.PublicAccess : String := "public"

/-- The struct `appauth.AppAuth`. -/
structure appauth.AppAuth where
  appId : String
  appKey : String
  privateAppId : String
  privateAppKey : String
  deriving DecidableEq, Repr

/-- The constructor appauth.New. -/
def appauth.New (appId appKey privateAppId privateAppKey : String) : appauth.AppAuth :=
  ⟨appId, appKey, privateAppId, privateAppKey⟩

/-- AppAuth.Validate. -/
def appauth.AppAuth.Validate (a : appauth.AppAuth) (appId appKey accessType : String) : Bool :=
  if accessType = appauth.PrivateAccess then
    a.privateAppId == appId && a.privateAppKey == appKey
  else if accessType = appauth.PublicAccess then
    a.appId == appId && a.appKey == appKey
  else
    false

def middleware.HeaderAppID : String := "appId"
def middleware.HeaderAppKey : String := "appKey"

/-- The handler middleware.AppAuth(accessType, appAuth) returns; `Validate` is
the method of the `appAuth.Interface` value it was given. -/
def middleware.AppAuth (accessType : String) (Validate : String → String → String → Bool)
    (c : gin.Context) : gin.Outcome :=
  let appId := c.GetHeader middleware.HeaderAppID
  let appKey := c.GetHeader middleware.HeaderAppKey
  if appId = "" || appKey = "" then
    .Respond http.StatusUnauthorized
      (.obj [("error", .str "Unauthorized: Empty appId or appKey")]) true
  else if Validate appId appKey accessType then
    .Next c.Keys
  else
    .Respond http.StatusUnauthorized
      (.obj [("error", .str "Unauthorized: Invalid appId or appKey")]) true

/-! ## middleware.Authentication -/

/-- The pieces of a text between the occurrences of a separator character:
one more piece than there are occurrences. -/
def strings.splitChars (sep : Char) : List Char → List (List Char)
  | [] => [[]]
  | c :: cs =>
    if c = sep then [] :: strings.splitChars sep cs
    else
      match strings.splitChars sep cs with
      | [] => [[c]]
      | p :: ps => (c :: p) :: ps

/-- Go's `strings.Split(s, sep)` for a separator of one character. -/
def strings.Split (s : String) (sep : Char) : List String :=
  (strings.splitChars sep s.data).map String.mk

def middleware.AuthorizationHeader : String := "Authorization"
def middleware.UserIdCtx : String := "userId"

/-- The handler middleware.Authentication(authUseCase, logger) returns. -/
def middleware.Authentication (c : gin.Context) : Controller gin.Outcome := do
  let header := c.GetHeader middleware.AuthorizationHeader
  if header = "" then
    return utils.NewErrorResponse http.StatusUnauthorized "Unauthorized"
      [("token", "empty auth header")]
  let headerParts := strings.Split header ' '
  match headerParts with
  | [_, token] =>
    let (userId, err) ← Service.call (.ParseToken token)
    if let some e := err then
      return utils.NewErrorResponse http.StatusUnauthorized "Unauthorized"
        [("token", e.Error)]
    return .Next (c.Set middleware.UserIdCtx (.int userId)).Keys
  | _ =>
    return utils.NewErrorResponse http.StatusUnauthorized "Unauthorized"
      [("token", "invalid auth header")]

/-- The function middleware.GetUserId. -/
def middleware.GetUserId (c : gin.Context) : Int × Option Err :=
  match c.Keys middleware.UserIdCtx with
  | none => (0, some (.other "user id not found"))
  | some (.int userIdInt) => (userIdInt, none)
  | some _ => (0, some (.other "invalid userId"))

/-! ## The update statement in the words of the specification -/

/-- The statement the specification describes for an update that sets the
given columns: `UPDATE <table> SET `, one clause `<column> = $k` per column,
numbered from 1 and joined by `, `, then ` WHERE id = $(n+1)`. -/
def Spec.updateStatement (table : String) (columns : List String) : String :=
  "UPDATE " ++ table ++ " SET "
    ++ String.intercalate ", "
        (columns.enum.map fun kc => kc.2 ++ " = $" ++ toString (kc.1 + 1))
    ++ " WHERE id = $" ++ toString (columns.length + 1)

/-- The columns of the non-nil fields of a list update, in the order title,
description. -/
def Spec.listColumns (input : entity.UpdateListInput) : List String :=
  (if input.Title.isSome then ["title"] else [])
    ++ (if input.Description.isSome then ["description"] else [])

/-- The pointed-to values of the non-nil fields of a list update, in the same
order. -/
def Spec.listValues (input : entity.UpdateListInput) : List Arg :=
  input.Title.toList.map Arg.str ++ input.Description.toList.map Arg.str

/-- The columns of the non-nil fields of an item update, in the order title,
description, done. -/
def Spec.itemColumns (input : entity.UpdateItemInput) : List String :=
  (if input.Title.isSome then ["title"] else [])
    ++ (if input.Description.isSome then ["description"] else [])
    ++ (if input.Done.isSome then ["done"] else [])

/-- The pointed-to values of the non-nil fields of an item update, in the same
order. -/
def Spec.itemValues (input : entity.UpdateItemInput) : List Arg :=
  input.Title.toList.map Arg.str ++ input.Description.toList.map Arg.str
    ++ input.Done.toList.map Arg.bool

/-- The placeholder list the specification describes: `$1, $2, ..., $n`. -/
def Spec.placeholders (n : Nat) : String :=
  String.intercalate ", " ((List.range n).map fun i => "$" ++ toString (i + 1))

/-- The world after user 1 has created the list `Groceries` (id 1) and the item
`Milk` (id 1) in it, on an empty store and cache. -/
def World.milk : World Postgres :=
  (Op.CreateListItem 1 ⟨0, "Milk", "", false⟩).step World.created

/-- The deployment on that world; the engine is empty and nothing was
published. -/
def Deployment.milk : Deployment (World Postgres) Elastic (List sarama.ProducerMessage) :=
  ⟨World.milk, Elastic.empty, []⟩

/-- A client of the search engine that answers every request the same way. -/
def esapi.answering (answer : Except Err esapi.Response) :
    CallTree.Handler esapi.Request esapi.Request.Resp Unit :=
  CallTree.Handler.total fun _ s => (answer, s)

/-! ## internal/entity: validation of update inputs -/

/-- UpdateListInput.Validate. -/
def entity.UpdateListInput.Validate (i : entity.UpdateListInput) : Option Err :=
  if i.Title = none ∧ i.Description = none then some .ErrListEmptyRequest
  else none

/-- UpdateItemInput.Validate. -/
def entity.UpdateItemInput.Validate (i : entity.UpdateItemInput) : Option Err :=
  if i.Title = none ∧ i.Description = none ∧ i.Done = none then some .ErrItemEmptyRequest
  else none

/-! ## Decoding JSON into structs

`encoding/json` decodes a value into a destination that already holds a value:
`null` leaves a non-pointer destination as it is and makes a pointer nil; an
object sets the fields its keys name, in the order of the keys, and skips the
keys that name no field; a value of the wrong kind is an error.  A key names
the field whose tag it equals, also when the two differ in the case of ASCII
letters only.  The text of an error names the kind of the value and the Go
type, not the field. -/

/-- The kind of a JSON value, as error texts name it. -/
def JSON.kind : JSON → String
  | .null => "null"
  | .bool _ => "bool"
  | .num _ => "number"
  | .str _ => "string"
  | .arr _ => "array"
  | .obj _ => "object"

/-- The `*json.UnmarshalTypeError` for a value of the wrong kind. -/
def json.UnmarshalTypeError (v : JSON) (type : String) : Err :=
  .other ("json: cannot unmarshal " ++ v.kind ++ " into Go value of type " ++ type)

/-- Whether a key of an object names the field with the tag `name`. -/
def json.names (key name : String) : Bool :=
  key = name || key.data.map Char.toLower = name.data.map Char.toLower

/-- Decoding into an `int`. -/
def json.intoInt (cur : Int) (v : JSON) : Except Err Int :=
  match v with
  | .null => .ok cur
  | .num n => .ok n
  | _ => .error (json.UnmarshalTypeError v "int")

/-- Decoding into a `string`. -/
def json.intoString (cur : String) (v : JSON) : Except Err String :=
  match v with
  | .null => .ok cur
  | .str s => .ok s
  | _ => .error (json.UnmarshalTypeError v "string")

/-- Decoding into a `bool`. -/
def json.intoBool (cur : Bool) (v : JSON) : Except Err Bool :=
  match v with
  | .null => .ok cur
  | .bool b => .ok b
  | _ => .error (json.UnmarshalTypeError v "bool")

/-- Decoding into a `*string`. -/
def json.intoStringPtr (v : JSON) : Except Err (Option String) :=
  match v with
  | .null => .ok none
  | .str s => .ok (some s)
  | _ => .error (json.UnmarshalTypeError v "string")

/-- Decoding into a `*bool`. -/
def json.intoBoolPtr (v : JSON) : Except Err (Option Bool) :=
  match v with
  | .null => .ok none
  | .bool b => .ok (some b)
  | _ => .error (json.UnmarshalTypeError v "bool")

/-- Decoding into a struct: `set` decodes the value of one key into the field
the key names. -/
def json.intoStruct {T : Type} (type : String) (set : T → String → JSON → Except Err T)
    (cur : T) (v : JSON) : Except Err T :=
  match v with
  | .null => .ok cur
  | .obj members => members.foldlM (fun acc kv => set acc kv.1 kv.2) cur
  | _ => .error (json.UnmarshalTypeError v type)

/-- `json.Unmarshal(data, &dest)` and `json.NewDecoder(body).Decode(&dest)` for
a struct destination. -/
def json.UnmarshalBytes {T : Type} (into : T → JSON → Except Err T) (dest : T)
    (data : Bytes) : Except Err T :=
  match data with
  | none => .error (.other "invalid character looking for beginning of value")
  | some v => into dest v

/-- Decoding into an entity.List. -/
def entity.List.into : entity.List → JSON → Except Err entity.List :=
  json.intoStruct "entity.List" fun cur key v =>
    if json.names key "id" then do
      let n ← json.intoInt cur.Id v
      return { cur with Id := n }
    else if json.names key "title" then do
      let s ← json.intoString cur.Title v
      return { cur with Title := s }
    else if json.names key "description" then do
      let s ← json.intoString cur.Description v
      return { cur with Description := s }
    else return cur

/-- Decoding into an entity.Item. -/
def entity.Item.into : entity.Item → JSON → Except Err entity.Item :=
  json.intoStruct "entity.Item" fun cur key v =>
    if json.names key "id" then do
      let n ← json.intoInt cur.Id v
      return { cur with Id := n }
    else if json.names key "title" then do
      let s ← json.intoString cur.Title v
      return { cur with Title := s }
    else if json.names key "description" then do
      let s ← json.intoString cur.Description v
      return { cur with Description := s }
    else if json.names key "done" then do
      let b ← json.intoBool cur.Done v
      return { cur with Done := b }
    else return cur

/-- Decoding into an entity.UpdateListInput. -/
def entity.UpdateListInput.into :
    entity.UpdateListInput → JSON → Except Err entity.UpdateListInput :=
  json.intoStruct "entity.UpdateListInput" fun cur key v =>
    if json.names key "title" then do
      let s ← json.intoStringPtr v
      return { cur with Title := s }
    else if json.names key "description" then do
      let s ← json.intoStringPtr v
      return { cur with Description := s }
    else return cur

/-- Decoding into an entity.UpdateItemInput. -/
def entity.UpdateItemInput.into :
    entity.UpdateItemInput → JSON → Except Err entity.UpdateItemInput :=
  json.intoStruct "entity.UpdateItemInput" fun cur key v =>
    if json.names key "title" then do
      let s ← json.intoStringPtr v
      return { cur with Title := s }
    else if json.names key "description" then do
      let s ← json.intoStringPtr v
      return { cur with Description := s }
    else if json.names key "done" then do
      let b ← json.intoBoolPtr v
      return { cur with Done := b }
    else return cur

/-- Decoding into an entity.ListCreatedEvent. -/
def entity.ListCreatedEvent.into :
    entity.ListCreatedEvent → JSON → Except Err entity.ListCreatedEvent :=
  json.intoStruct "entity.ListCreatedEvent" fun cur key v =>
    if json.names key "user_id" then do
      let n ← json.intoInt cur.UserId v
      return { cur with UserId := n }
    else if json.names key "list" then do
      let l ← entity.List.into cur.List v
      return { cur with List := l }
    else return cur

/-- Decoding into an entity.ListUpdatedEvent. -/
def entity.ListUpdatedEvent.into :
    entity.ListUpdatedEvent → JSON → Except Err entity.ListUpdatedEvent :=
  json.intoStruct "entity.ListUpdatedEvent" fun cur key v =>
    if json.names key "user_id" then do
      let n ← json.intoInt cur.UserId v
      return { cur with UserId := n }
    else if json.names key "list_id" then do
      let n ← json.intoInt cur.ListId v
      return { cur with ListId := n }
    else return cur

/-- Decoding into an entity.ListDeletedEvent. -/
def entity.ListDeletedEvent.into :
    entity.ListDeletedEvent → JSON → Except Err entity.ListDeletedEvent :=
  json.intoStruct "entity.ListDeletedEvent" fun cur key v =>
    if json.names key "list_id" then do
      let n ← json.intoInt cur.ListId v
      return { cur with ListId := n }
    else return cur

/-- Decoding into an entity.ItemCreatedEvent. -/
def entity.ItemCreatedEvent.into :
    entity.ItemCreatedEvent → JSON → Except Err entity.ItemCreatedEvent :=
  json.intoStruct "entity.ItemCreatedEvent" fun cur key v =>
    if json.names key "user_id" then do
      let n ← json.intoInt cur.UserId v
      return { cur with UserId := n }
    else if json.names key "list_id" then do
      let n ← json.intoInt cur.ListId v
      return { cur with ListId := n }
    else if json.names key "item" then do
      let i ← entity.Item.into cur.Item v
      return { cur with Item := i }
    else return cur

/-- Decoding into an entity.ItemUpdatedEvent. -/
def entity.ItemUpdatedEvent.into :
    entity.ItemUpdatedEvent → JSON → Except Err entity.ItemUpdatedEvent :=
  json.intoStruct "entity.ItemUpdatedEvent" fun cur key v =>
    if json.names key "user_id" then do
      let n ← json.intoInt cur.UserId v
      return { cur with UserId := n }
    else if json.names key "list_id" then do
      let n ← json.intoInt cur.ListId v
      return { cur with ListId := n }
    else if json.names key "item_id" then do
      let n ← json.intoInt cur.ItemId v
      return { cur with ItemId := n }
    else return cur

/-- Decoding into an entity.ItemDeletedEvent. -/
def entity.ItemDeletedEvent.into :
    entity.ItemDeletedEvent → JSON → Except Err entity.ItemDeletedEvent :=
  json.intoStruct "entity.ItemDeletedEvent" fun cur key v =>
    if json.names key "item_id" then do
      let n ← json.intoInt cur.ItemId v
      return { cur with ItemId := n }
    else return cur

/-! ## utils/query_params.go -/

/-- The function utils.ParseRequiredParamAsInt. -/
def utils.ParseRequiredParamAsInt (c : gin.Context) (key : String) : Int × Option Err :=
  let param := c.Query key
  if param = "" then (0, some (.other (key ++ " must be provided")))
  else
    match strconv.Atoi param with
    | none => (0, some (.other (key ++ " must be a valid integer")))
    | some value => (value, none)

/-! ## internal/controller/http/v1 -/

/-- The call `c.BindJSON(&obj)` for a struct without binding tags. -/
def gin.Context.BindJSON {T : Type} (c : gin.Context) (into : T → JSON → Except Err T)
    (obj : T) : Except Err T :=
  json.UnmarshalBytes into obj c.Body

/-- Handler.GetListById. -/
def v1.Handler.GetListById (c : gin.Context) : Controller gin.Outcome := do
  let (userId, err) := middleware.GetUserId c
  if err.isSome then
    return utils.NewErrorResponse http.StatusUnauthorized "Unauthorized"
      [("auth", "User authentication failed or user not logged in")]
  let some listId := strconv.Atoi (c.Param "id")
    | return utils.NewErrorResponse http.StatusBadRequest "Invalid listId param"
        [("param", "listId must be a valid integer")]
  let (list, err) ← Service.call (.ListGetOneById userId listId)
  if let some e := err then
    if e = .ErrUserNotOwner || e = .ErrListNotFound then
      return utils.NewErrorResponse http.StatusNotFound "List not found"
        [("listId", "The requested list does not exist")]
    return utils.NewErrorResponse http.StatusInternalServerError "Failed to retrieve list"
      [("database", "Error during list retrieval")]
  return utils.NewSuccessResponse http.StatusOK "List retrieved successfully" (some list.json)

/-- Handler.UpdateList. -/
def v1.Handler.UpdateList (c : gin.Context) : Controller gin.Outcome := do
  let (userId, err) := middleware.GetUserId c
  if err.isSome then
    return utils.NewErrorResponse http.StatusUnauthorized "Unauthorized"
      [("auth", "User authentication failed or user not logged in")]
  let some listId := strconv.Atoi (c.Param "id")
    | return utils.NewErrorResponse http.StatusBadRequest "Invalid listId param"
        [("param", "listId must be a valid integer")]
  match c.BindJSON entity.UpdateListInput.into ⟨none, none⟩ with
  | .error _ =>
    return utils.NewErrorResponse http.StatusBadRequest "Invalid input"
      [("body", "Invalid or malformed JSON")]
  | .ok newTodoInput =>
    if let some e := newTodoInput.Validate then
      return utils.NewErrorResponse http.StatusBadRequest "Validation failed"
        [("validation", e.Error)]
    let err ← Service.call (.ListUpdateOneById userId listId newTodoInput)
    if let some e := err then
      if e = .ErrUserNotOwner || e = .ErrListNotFound then
        return utils.NewErrorResponse http.StatusNotFound "List not found"
          [("listId", "The requested list does not exist")]
      return utils.NewErrorResponse http.StatusInternalServerError "Failed to update list"
        [("database", "Error during list update")]
    return utils.NewSuccessResponse http.StatusOK "List updated successfully" none

/-- Handler.DeleteList. -/
def v1.Handler.DeleteList (c : gin.Context) : Controller gin.Outcome := do
  let (userId, err) := middleware.GetUserId c
  if err.isSome then
    return utils.NewErrorResponse http.StatusUnauthorized "Unauthorized"
      [("auth", "User authentication failed or user not logged in")]
  let some listId := strconv.Atoi (c.Param "id")
    | return utils.NewErrorResponse http.StatusBadRequest "Invalid listId param"
        [("param", "listId must be a valid integer")]
  let err ← Service.call (.ListDeleteOneById userId listId)
  if let some e := err then
    if e = .ErrUserNotOwner || e = .ErrListNotFound then
      return utils.NewErrorResponse http.StatusNotFound "List not found"
        [("listId", "The requested list does not exist")]
    return utils.NewErrorResponse http.StatusInternalServerError "Failed to delete list"
      [("database", "Error during list deletion")]
  Service.call .IncrementDeletedLists
  return utils.NewSuccessResponse http.StatusOK "List deleted successfully" none

/-- Handler.GetItemById. -/
def v1.Handler.GetItemById (c : gin.Context) : Controller gin.Outcome := do
  let (userId, err) := middleware.GetUserId c
  if err.isSome then
    return utils.NewErrorResponse http.StatusUnauthorized "Unauthorized"
      [("auth", "User authentication failed or user not logged in")]
  let some itemId := strconv.Atoi (c.Param "id")
    | return utils.NewErrorResponse http.StatusBadRequest "Invalid itemId param"
        [("param", "itemId must be a valid integer")]
  let (item, err) ← Service.call (.ItemGetOneById userId itemId)
  if let some e := err then
    if e = .ErrUserNotOwner || e = .ErrItemNotFound then
      return utils.NewErrorResponse http.StatusNotFound "Item not found"
        [("itemId", "The requested item does not exist")]
    return utils.NewErrorResponse http.StatusInternalServerError "Failed to retrieve item"
      [("database", "Error during item retrieval")]
  return utils.NewSuccessResponse http.StatusOK "Item retrieved successfully" (some item.json)

/-- Handler.UpdateItem. -/
def v1.Handler.UpdateItem (c : gin.Context) : Controller gin.Outcome := do
  let (userId, err) := middleware.GetUserId c
  if err.isSome then
    return utils.NewErrorResponse http.StatusUnauthorized "Unauthorized"
      [("auth", "User authentication failed or user not logged in")]
  let some itemId := strconv.Atoi (c.Param "id")
    | return utils.NewErrorResponse http.StatusBadRequest "Invalid itemId param"
        [("param", "itemId must be a valid integer")]
  let (listId, err) := utils.ParseRequiredParamAsInt c "list_id"
  if err.isSome then
    return utils.NewErrorResponse http.StatusBadRequest "Invalid listId param"
      [("param", "listId must be a valid integer")]
  match c.BindJSON entity.UpdateItemInput.into ⟨none, none, none⟩ with
  | .error _ =>
    return utils.NewErrorResponse http.StatusBadRequest "Invalid input"
      [("body", "Invalid or malformed JSON")]
  | .ok input =>
    if let some e := input.Validate then
      return utils.NewErrorResponse http.StatusBadRequest "Validation failed"
        [("validation", e.Error)]
    let err ← Service.call (.ItemUpdateOneById userId listId itemId input)
    if let some e := err then
      if e = .ErrUserNotOwner || e = .ErrItemNotFound then
        return utils.NewErrorResponse http.StatusNotFound "Item not found"
          [("itemId", "The requested item does not exist")]
      return utils.NewErrorResponse http.StatusInternalServerError "Failed to update item"
        [("database", "Error during item update")]
    return utils.NewSuccessResponse http.StatusOK "Item updated successfully" none

/-- Handler.DeleteItem. -/
def v1.Handler.DeleteItem (c : gin.Context) : Controller gin.Outcome := do
  let (userId, err) := middleware.GetUserId c
  if err.isSome then
    return utils.NewErrorResponse http.StatusUnauthorized "Unauthorized"
      [("auth", "User authentication failed or user not logged in")]
  let some itemId := strconv.Atoi (c.Param "id")
    | return utils.NewErrorResponse http.StatusBadRequest "Invalid itemId param"
        [("param", "itemId must be a valid integer")]
  let (listId, err) := utils.ParseRequiredParamAsInt c "list_id"
  if err.isSome then
    return utils.NewErrorResponse http.StatusBadRequest "Invalid listId param"
      [("param", "listId must be a valid integer")]
  let err ← Service.call (.ItemDeleteOneById userId listId itemId)
  if let some e := err then
    if e = .ErrUserNotOwner || e = .ErrItemNotFound then
      return utils.NewErrorResponse http.StatusNotFound "Item not found"
        [("itemId", "The requested item does not exist")]
    return utils.NewErrorResponse http.StatusInternalServerError "Failed to delete item"
      [("database", "Error during item deletion")]
  Service.call .IncrementDeletedItems
  return utils.NewSuccessResponse http.StatusOK "Item deleted successfully" none

/-- Use cases that answer every call with the error `e` (and the zero value),
and count nothing. -/
def Service.failing (e : Err) : CallTree.Handler Service Service.Resp Unit :=
  CallTree.Handler.total fun c s =>
    match c with
    | .ParseToken _ => ((0, some e), s)
    | .ListGetOneById _ _ => ((entity.List.zero, some e), s)
    | .ListUpdateOneById _ _ _ => (some e, s)
    | .ListDeleteOneById _ _ => (some e, s)
    | .ItemGetOneById _ _ => ((entity.Item.zero, some e), s)
    | .ItemUpdateOneById _ _ _ _ => (some e, s)
    | .ItemDeleteOneById _ _ _ => (some e, s)
    | .ListHandleCreated _ => (some e, s)
    | .ListHandleUpdated _ => (some e, s)
    | .ListHandleDeleted _ => (some e, s)
    | .ItemHandleCreated _ => (some e, s)
    | .ItemHandleUpdated _ => (some e, s)
    | .ItemHandleDeleted _ => (some e, s)
    | .IncrementDeletedLists => ((), s)
    | .IncrementDeletedItems => ((), s)

/-- A request of user 1 on the entity 5 of list 3 that sets a title. -/
def gin.Context.sample : gin.Context where
  GetHeader := fun _ => ""
  Param := fun k => if k = "id" then "5" else ""
  Query := fun k => if k = "list_id" then "3" else ""
  Body := some (.obj [("title", .str "Oat milk")])
  Keys := fun k => if k = "userId" then some (.int 1) else none

/-! ## internal/consumer -/

/-- Consumer.handleListCreated. -/
def Consumer.handleListCreated (msgBytes : Bytes) : Controller (Option Err) := do
  match json.UnmarshalBytes entity.ListCreatedEvent.into ⟨0, entity.List.zero⟩ msgBytes with
  | .error err => return some err
  | .ok message =>
    let err ← Service.call (.ListHandleCreated message)
    if let some e := err then
      return some e
    return none

/-- Consumer.handleListUpdated. -/
def Consumer.handleListUpdated (msgBytes : Bytes) : Controller (Option Err) := do
  match json.UnmarshalBytes entity.ListUpdatedEvent.into ⟨0, 0⟩ msgBytes with
  | .error err => return some err
  | .ok message =>
    let err ← Service.call (.ListHandleUpdated message)
    if let some e := err then
      return some e
    return none

/-- Consumer.handleListDeleted. -/
def Consumer.handleListDeleted (msgBytes : Bytes) : Controller (Option Err) := do
  match json.UnmarshalBytes entity.ListDeletedEvent.into ⟨0⟩ msgBytes with
  | .error err => return some err
  | .ok message =>
    let err ← Service.call (.ListHandleDeleted message)
    if let some e := err then
      return some e
    return none

/-- Consumer.handleItemCreated. -/
def Consumer.handleItemCreated (msgBytes : Bytes) : Controller (Option Err) := do
  match json.UnmarshalBytes entity.ItemCreatedEvent.into ⟨0, 0, entity.Item.zero⟩ msgBytes with
  | .error err => return some err
  | .ok message =>
    let err ← Service.call (.ItemHandleCreated message)
    if let some e := err then
      return some e
    return none

/-- Consumer.handleItemUpdated. -/
def Consumer.handleItemUpdated (msgBytes : Bytes) : Controller (Option Err) := do
  match json.UnmarshalBytes entity.ItemUpdatedEvent.into ⟨0, 0, 0⟩ msgBytes with
  | .error err => return some err
  | .ok message =>
    let err ← Service.call (.ItemHandleUpdated message)
    if let some e := err then
      return some e
    return none

/-- Consumer.handleItemDeleted. -/
def Consumer.handleItemDeleted (msgBytes : Bytes) : Controller (Option Err) := do
  match json.UnmarshalBytes entity.ItemDeletedEvent.into ⟨0⟩ msgBytes with
  | .error err => return some err
  | .ok message =>
    let err ← Service.call (.ItemHandleDeleted message)
    if let some e := err then
      return some e
    return none

/-- The methods of Consumer that Init hands to Subscribe as handler
functions. -/
inductive Consumer.Method where
  | handleListCreated
  | handleListUpdated
  | handleListDeleted
  | handleItemCreated
  | handleItemUpdated
  | handleItemDeleted
  deriving DecidableEq, Repr

/-- The handler function a method value is. -/
def Consumer.Method.handle : Consumer.Method → Bytes → Controller (Option Err)
  | .handleListCreated => Consumer.handleListCreated
  | .handleListUpdated => Consumer.handleListUpdated
  | .handleListDeleted => Consumer.handleListDeleted
  | .handleItemCreated => Consumer.handleItemCreated
  | .handleItemUpdated => Consumer.handleItemUpdated
  | .handleItemDeleted => Consumer.handleItemDeleted

/-- The call `c.brokerConsumer.Subscribe(topic, handler)`. -/
structure messagebroker.Subscribe where
  topic : String
  handler : Consumer.Method
  deriving DecidableEq, Repr

/-- The answer of Subscribe. -/
@[reducible] def messagebroker.Subscribe.Resp (_ : messagebroker.Subscribe) : Type := Option Err

/-- A single Subscribe call as a step of Init. -/
def messagebroker.Subscribe.call (topic : String) (handler : Consumer.Method) :
    CallTree messagebroker.Subscribe messagebroker.Subscribe.Resp (Option Err) :=
  CallTree.perform ⟨topic, handler⟩

/-- Consumer.Init. -/
def Consumer.Init : CallTree messagebroker.Subscribe messagebroker.Subscribe.Resp (Option Err) := do
  if let some err ← messagebroker.Subscribe.call ListCreatedTopic .handleListCreated then
    return some (Errorf ("failed to subscribe to " ++ ListCreatedTopic) err)
  if let some err ← messagebroker.Subscribe.call ListUpdatedTopic .handleListUpdated then
    return some (Errorf ("failed to subscribe to " ++ ListUpdatedTopic) err)
  if let some err ← messagebroker.Subscribe.call ListDeletedTopic .handleListDeleted then
    return some (Errorf ("failed to subscribe to " ++ ListDeletedTopic) err)
  if let some err ← messagebroker.Subscribe.call ItemCreatedTopic .handleItemCreated then
    return some (Errorf ("failed to subscribe to " ++ ItemCreatedTopic) err)
  if let some err ← messagebroker.Subscribe.call ItemUpdatedTopic .handleItemUpdated then
    return some (Errorf ("failed to subscribe to " ++ ItemUpdatedTopic) err)
  if let some err ← messagebroker.Subscribe.call ItemDeletedTopic .handleItemDeleted then
    return some (Errorf ("failed to subscribe to " ++ ItemDeletedTopic) err)
  return none

/-- The handlers subscribed to a topic by a run of Init in which every
Subscribe succeeds. -/
def Consumer.subscribed (topic : String) : List Consumer.Method :=
  (((Consumer.Init.run (CallTree.Handler.total fun _ s => (none, s)) ()).calls.filter
    fun c => c.topic = topic).map fun c => c.handler)

/-! # Theorems -/

/-! ## Shared lemmas -/

theorem Prog.pure_eq {α : Type} (a : α) : (pure a : Prog α) = Prog.ret a := rfl

theorem Prog.bind_eq {α β : Type} (x : Prog α) (f : α → Prog β) : x >>= f = x.bind f := rfl

theorem Sprintf_listById (n : Int) :
    Sprintf cacheKeyListById.Pattern n = "list_by_id:" ++ toString n := by
  apply String.ext
  simp [Sprintf, cacheKeyListById, patternListById, sprintfChars]

theorem Sprintf_userLists (n : Int) :
    Sprintf cacheKeyUserLists.Pattern n = "user_lists:" ++ toString n := by
  apply String.ext
  simp [Sprintf, cacheKeyUserLists, patternUserLists, sprintfChars]

theorem Sprintf_itemById (n : Int) :
    Sprintf cacheKeyItemById.Pattern n = "item_by_id:" ++ toString n := by
  apply String.ext
  simp [Sprintf, cacheKeyItemById, patternItemById, sprintfChars]

theorem Sprintf_listItems (n : Int) :
    Sprintf cacheKeyListItems.Pattern n = "list_items:" ++ toString n := by
  apply String.ext
  simp [Sprintf, cacheKeyListItems, patternListItems, sprintfChars]

theorem scanAll_ok {T : Type} (rows acc : List T) :
    scanAll (rows.map Except.ok) acc = .ok (acc ++ rows) := by
  induction rows generalizing acc with
  | nil => simp [scanAll]
  | cons x xs ih => simp [scanAll, ih]

theorem scanAll_error {T : Type} (pre : List T) (e : Err) (rest : List (Except Err T))
    (acc : List T) : scanAll (pre.map Except.ok ++ .error e :: rest) acc = .error e := by
  induction pre generalizing acc with
  | nil => simp [scanAll]
  | cons x xs ih => simp [scanAll, ih]


theorem Redis.set_apply (m : Redis) (key : String) (doc : Doc) (k : String) :
    m.set key doc k = if k = key then some doc else m k := rfl

theorem Redis.del_apply (m : Redis) (key : String) (k : String) :
    m.del key k = if k = key then none else m k := rfl


/-! ## Cache keys -/

theorem digitChar_toNat (m : Nat) (hm : m < 10) : (Nat.digitChar m).toNat - 48 = m := by
  interval_cases m <;> rfl

theorem digitChar_ne_minus (m : Nat) (hm : m < 10) : Nat.digitChar m ≠ '-' := by
  interval_cases m <;> decide

theorem foldl_toDigitsCore (fuel n : Nat) (ds : List Char) (hn : n < fuel) :
    (Nat.toDigitsCore 10 fuel n ds).foldl (fun acc c => 10 * acc + (c.toNat - 48)) 0
      = ds.foldl (fun acc c => 10 * acc + (c.toNat - 48)) n := by
  induction fuel generalizing n ds with
  | zero => omega
  | succ fuel ih =>
    simp only [Nat.toDigitsCore]
    split
    · rename_i h0
      have h1 : n < 10 := by omega
      simp [digitChar_toNat n h1, Nat.mod_eq_of_lt h1]
    · rename_i h0
      rw [ih (n / 10) _ (by omega)]
      simp only [List.foldl_cons, digitChar_toNat (n % 10) (Nat.mod_lt _ (by decide))]
      congr 1
      omega

theorem digitsValue_repr (n : Nat) : digitsValue (Nat.repr n).data = n := by
  have := foldl_toDigitsCore (n + 1) n [] (by omega)
  simpa [digitsValue, Nat.repr, Nat.toDigits, List.asString] using this

theorem toDigitsCore_head (fuel n : Nat) (ds : List Char) :
    ∃ m, m < 10 ∧ ∃ tl, Nat.toDigitsCore 10 (fuel + 1) n ds = Nat.digitChar m :: tl := by
  induction fuel generalizing n ds with
  | zero =>
    refine ⟨n % 10, Nat.mod_lt _ (by decide), ds, ?_⟩
    simp [Nat.toDigitsCore]
  | succ fuel ih =>
    rw [Nat.toDigitsCore]
    split
    · exact ⟨n % 10, Nat.mod_lt _ (by decide), ds, rfl⟩
    · exact ih _ _

theorem intValue_toString (i : Int) : intValue (toString i).data = i := by
  cases i with
  | ofNat n =>
    show intValue (Nat.repr n).data = _
    obtain ⟨m, hm, tl, h⟩ := toDigitsCore_head n n []
    have hd : (Nat.repr n).data = Nat.digitChar m :: tl := by
      simp [Nat.repr, Nat.toDigits, h, List.asString]
    have hv := digitsValue_repr n
    rw [hd] at hv ⊢
    have hne := digitChar_ne_minus m hm
    unfold intValue
    split
    · rename_i heq
      simp at heq
      exact absurd heq.1 hne
    · simp [hv]
  | negSucc n =>
    show intValue ("-" ++ Nat.repr (n + 1)).data = _
    simp [intValue, digitsValue_repr, Int.negSucc_eq]

theorem toString_int_injective (a b : Int) (h : toString a = toString b) : a = b := by
  have := congrArg (fun s => intValue s.data) h
  simpa [intValue_toString] using this

theorem key_eq_iff (p q : String) (a b : Int) (hl : p.length = q.length) :
    p ++ toString a = q ++ toString b ↔ p = q ∧ a = b := by
  constructor
  · intro h
    have hd := congrArg String.data h
    simp only [String.data_append] at hd
    have hl2 : p.data.length = q.data.length := hl
    have := List.append_inj hd hl2
    exact ⟨String.ext this.1, toString_int_injective a b (String.ext this.2)⟩
  · rintro ⟨rfl, rfl⟩
    rfl

theorem keyListById_inj (a b : Int) :
    Sprintf cacheKeyListById.Pattern a = Sprintf cacheKeyListById.Pattern b ↔ a = b := by
  rw [Sprintf_listById, Sprintf_listById, key_eq_iff _ _ _ _ rfl]
  simp

theorem keyUserLists_inj (a b : Int) :
    Sprintf cacheKeyUserLists.Pattern a = Sprintf cacheKeyUserLists.Pattern b ↔ a = b := by
  rw [Sprintf_userLists, Sprintf_userLists, key_eq_iff _ _ _ _ rfl]
  simp

theorem keyItemById_inj (a b : Int) :
    Sprintf cacheKeyItemById.Pattern a = Sprintf cacheKeyItemById.Pattern b ↔ a = b := by
  rw [Sprintf_itemById, Sprintf_itemById, key_eq_iff _ _ _ _ rfl]
  simp

theorem keyListItems_inj (a b : Int) :
    Sprintf cacheKeyListItems.Pattern a = Sprintf cacheKeyListItems.Pattern b ↔ a = b := by
  rw [Sprintf_listItems, Sprintf_listItems, key_eq_iff _ _ _ _ rfl]
  simp

theorem keyListById_ne_UserLists (a b : Int) :
    Sprintf cacheKeyListById.Pattern a ≠ Sprintf cacheKeyUserLists.Pattern b := by
  rw [Sprintf_listById, Sprintf_userLists, Ne, key_eq_iff _ _ _ _ (by decide)]
  simp

theorem keyListById_ne_ItemById (a b : Int) :
    Sprintf cacheKeyListById.Pattern a ≠ Sprintf cacheKeyItemById.Pattern b := by
  rw [Sprintf_listById, Sprintf_itemById, Ne, key_eq_iff _ _ _ _ (by decide)]
  simp

theorem keyListById_ne_ListItems (a b : Int) :
    Sprintf cacheKeyListById.Pattern a ≠ Sprintf cacheKeyListItems.Pattern b := by
  rw [Sprintf_listById, Sprintf_listItems, Ne, key_eq_iff _ _ _ _ (by decide)]
  simp

theorem keyUserLists_ne_ListById (a b : Int) :
    Sprintf cacheKeyUserLists.Pattern a ≠ Sprintf cacheKeyListById.Pattern b := by
  rw [Sprintf_userLists, Sprintf_listById, Ne, key_eq_iff _ _ _ _ (by decide)]
  simp

theorem keyUserLists_ne_ItemById (a b : Int) :
    Sprintf cacheKeyUserLists.Pattern a ≠ Sprintf cacheKeyItemById.Pattern b := by
  rw [Sprintf_userLists, Sprintf_itemById, Ne, key_eq_iff _ _ _ _ (by decide)]
  simp

theorem keyUserLists_ne_ListItems (a b : Int) :
    Sprintf cacheKeyUserLists.Pattern a ≠ Sprintf cacheKeyListItems.Pattern b := by
  rw [Sprintf_userLists, Sprintf_listItems, Ne, key_eq_iff _ _ _ _ (by decide)]
  simp

theorem keyItemById_ne_ListById (a b : Int) :
    Sprintf cacheKeyItemById.Pattern a ≠ Sprintf cacheKeyListById.Pattern b := by
  rw [Sprintf_itemById, Sprintf_listById, Ne, key_eq_iff _ _ _ _ (by decide)]
  simp

theorem keyItemById_ne_UserLists (a b : Int) :
    Sprintf cacheKeyItemById.Pattern a ≠ Sprintf cacheKeyUserLists.Pattern b := by
  rw [Sprintf_itemById, Sprintf_userLists, Ne, key_eq_iff _ _ _ _ (by decide)]
  simp

theorem keyItemById_ne_ListItems (a b : Int) :
    Sprintf cacheKeyItemById.Pattern a ≠ Sprintf cacheKeyListItems.Pattern b := by
  rw [Sprintf_itemById, Sprintf_listItems, Ne, key_eq_iff _ _ _ _ (by decide)]
  simp

theorem keyListItems_ne_ListById (a b : Int) :
    Sprintf cacheKeyListItems.Pattern a ≠ Sprintf cacheKeyListById.Pattern b := by
  rw [Sprintf_listItems, Sprintf_listById, Ne, key_eq_iff _ _ _ _ (by decide)]
  simp

theorem keyListItems_ne_UserLists (a b : Int) :
    Sprintf cacheKeyListItems.Pattern a ≠ Sprintf cacheKeyUserLists.Pattern b := by
  rw [Sprintf_listItems, Sprintf_userLists, Ne, key_eq_iff _ _ _ _ (by decide)]
  simp

theorem keyListItems_ne_ItemById (a b : Int) :
    Sprintf cacheKeyListItems.Pattern a ≠ Sprintf cacheKeyItemById.Pattern b := by
  rw [Sprintf_listItems, Sprintf_itemById, Ne, key_eq_iff _ _ _ _ (by decide)]
  simp

/-! ## Rows and joins -/

theorem find_map_other {α : Type} (key : α → Int) (f : α → α) (rows : List α) (id other : Int)
    (hkey : ∀ r, key (f r) = key r) (hf : ∀ r, ¬ key r = id → f r = r) (hne : ¬ other = id) :
    (rows.map f).find? (fun r => key r = other) = rows.find? (fun r => key r = other) := by
  induction rows with
  | nil => rfl
  | cons r rs ih =>
    simp only [List.map_cons, List.find?_cons, hkey]
    by_cases h : key r = other
    · have : ¬ key r = id := fun h2 => hne (h ▸ h2)
      simp [h, hf r this]
    · simp [h, ih]

theorem find_filter_other {α : Type} (key : α → Int) (rows : List α) (id other : Int)
    (hne : ¬ other = id) :
    (rows.filter fun r => ¬ key r = id).find? (fun r => key r = other)
      = rows.find? (fun r => key r = other) := by
  induction rows with
  | nil => rfl
  | cons r rs ih =>
    by_cases h : key r = id
    · have hno : ¬ key r = other := fun h2 => hne (h2 ▸ h)
      rw [List.filter_cons_of_neg (by simpa using h), List.find?_cons_of_neg _ (by simpa using hno)]
      exact ih
    · rw [List.filter_cons_of_pos (by simpa using h)]
      simp only [List.find?_cons, ih]

theorem find_append_new {α : Type} (key : α → Int) (rows : List α) (new : α)
    (hfresh : ∀ r ∈ rows, ¬ key r = key new) (other : Int) :
    (rows ++ [new]).find? (fun r => key r = other)
      = if other = key new then some new else rows.find? (fun r => key r = other) := by
  rw [List.find?_append]
  by_cases h : other = key new
  · subst h
    have : rows.find? (fun r => key r = key new) = none := by
      simp only [List.find?_eq_none, decide_eq_true_eq]
      exact hfresh
    simp [this]
  · have : ¬ key new = other := fun h2 => h h2.symm
    simp [h, this]

theorem joinRows_map_other {α : Type} (key : α → Int) (f : α → α) (rows : List α)
    (links : List (Int × Int)) (id owner other : Int)
    (hkey : ∀ r, key (f r) = key r) (hf : ∀ r, ¬ key r = id → f r = r)
    (hown : ∀ j ∈ links, j.2 = id → j.1 = owner) (hne : ¬ other = owner) :
    joinRows key (rows.map f) links other = joinRows key rows links other := by
  unfold joinRows
  induction rows with
  | nil => rfl
  | cons r rs ih =>
    simp only [List.map_cons, List.flatMap_cons, hkey, ih]
    congr 1
    by_cases h : key r = id
    · have : links.filter (fun j => j.2 = key r && j.1 = other) = [] := by
        simp only [List.filter_eq_nil_iff, Bool.and_eq_true, decide_eq_true_eq, not_and]
        intro j hj hj2 hj1
        exact hne (hj1 ▸ hown j hj (hj2.trans h))
      simp [this]
    · rw [hf r h]

theorem joinRows_delete {α : Type} (key : α → Int) (rows : List α)
    (links : List (Int × Int)) (id other : Int)
    (hown : ∀ j ∈ links, j.2 = id → ¬ j.1 = other) :
    joinRows key (rows.filter fun r => ¬ key r = id) (links.filter fun j => ¬ j.2 = id) other
      = joinRows key rows links other := by
  unfold joinRows
  induction rows with
  | nil => rfl
  | cons r rs ih =>
    by_cases h : key r = id
    · have hnil : links.filter (fun j => j.2 = key r && j.1 = other) = [] := by
        simp only [List.filter_eq_nil_iff, Bool.and_eq_true, decide_eq_true_eq, not_and]
        intro j hj hj2 hj1
        exact hown j hj (hj2.trans h) hj1
      rw [List.filter_cons_of_neg (by simpa using h), List.flatMap_cons, hnil, ih]
      rfl
    · rw [List.filter_cons_of_pos (by simpa using h), List.flatMap_cons, List.flatMap_cons, ih]
      congr 2
      rw [List.filter_filter]
      apply List.filter_congr
      intro j _
      by_cases h2 : j.2 = key r
      · have h3 : ¬ j.2 = id := fun h3 => h (h2.symm.trans h3)
        simp [h2, h3, h]
      · simp [h2]

theorem joinRows_insert_other {α : Type} (key : α → Int) (rows : List α)
    (links : List (Int × Int)) (new : α) (owner other : Int)
    (hfresh : ∀ r ∈ rows, ¬ key r = key new) (hlinks : ∀ j ∈ links, ¬ j.2 = key new)
    (hne : ¬ other = owner) :
    joinRows key (rows ++ [new]) (links ++ [(owner, key new)]) other
      = joinRows key rows links other := by
  unfold joinRows
  have hnew : (links ++ [(owner, key new)]).filter (fun j => j.2 = key new && j.1 = other) = [] := by
    simp only [List.filter_eq_nil_iff, Bool.and_eq_true, decide_eq_true_eq, not_and,
      List.mem_append, List.mem_singleton]
    rintro j (hj | rfl) hj2 hj1
    · exact hlinks j hj hj2
    · exact hne hj1.symm
  simp only [List.flatMap_append, List.flatMap_cons, List.flatMap_nil, hnew, List.map_nil,
    List.append_nil]
  apply List.flatMap_congr
  intro r hr
  congr 1
  rw [List.filter_append]
  have : [(owner, key new)].filter (fun j => j.2 = key r && j.1 = other) = [] := by
    simp only [List.filter_eq_nil_iff, List.mem_singleton, Bool.and_eq_true, decide_eq_true_eq,
      not_and]
    rintro j rfl hj2 _
    exact hfresh r hr hj2.symm
  simp [this]

theorem filter_not_eq_self {α : Type} (p : α → Prop) [DecidablePred p] (xs : List α)
    (h : ∀ x ∈ xs, ¬ p x) : (xs.filter fun x => ¬ p x) = xs := by
  rw [List.filter_eq_self]
  intro x hx
  simpa using h x hx

theorem map_eq_self_of_absent {α : Type} (key : α → Int) (f : α → α) (rows : List α) (n : Int)
    (hf : ∀ r, ¬ key r = n → f r = r) (habs : (rows.filter fun r => key r = n).length = 0) :
    rows.map f = rows := by
  have h0 : ∀ r ∈ rows, ¬ key r = n := by
    have := List.length_eq_zero.mp habs
    simpa [List.filter_eq_nil_iff] using this
  induction rows with
  | nil => rfl
  | cons r rs ih =>
    rw [List.map_cons, hf r (h0 r (List.mem_cons_self _ _)),
      ih (by
        have := List.length_eq_zero.mp habs
        rw [List.filter_eq_nil_iff] at this
        apply List.length_eq_zero.mpr
        rw [List.filter_eq_nil_iff]
        intro a ha
        exact this a (List.mem_cons_of_mem _ ha))
      (fun a ha => h0 a (List.mem_cons_of_mem _ ha))]

/-! ## The model store on the repositories' statements -/

theorem Postgres.queryRow_listGetOneById (db : Postgres) (id : Int) (dest : entity.List) :
    db.queryRow ListRepo.sqlGetOneById [.int id] .list dest
      = match db.tables.listById id with
        | some row => ⟨row, none⟩
        | none => ⟨dest, some .sqlErrNoRows⟩ := rfl

theorem Postgres.queryRow_itemGetOneById (db : Postgres) (id : Int) (dest : entity.Item) :
    db.queryRow ItemRepo.sqlGetOneById [.int id] .item dest
      = match db.tables.itemById id with
        | some row => ⟨row, none⟩
        | none => ⟨dest, some .sqlErrNoRows⟩ := rfl

theorem Postgres.query_getAllUserLists (db : Postgres) (u : Int) :
    db.query ListRepo.sqlGetAllUserLists [.int u] .list
      = .ok ⟨(db.tables.userLists u).map .ok, none⟩ := rfl

theorem Postgres.query_getAllListItems (db : Postgres) (l : Int) :
    db.query ItemRepo.sqlGetAllListItems [.int l] .item
      = .ok ⟨(db.tables.listItems l).map .ok, none⟩ := rfl

theorem Postgres.exec_listDelete (db : Postgres) (id : Int) :
    db.exec ListRepo.sqlDeleteOneById [.int id]
      = (.ok (.ok ((db.tables.lists.filter fun l => l.Id = id).length : Int)),
         { db with tables :=
            { db.tables with
              lists := db.tables.lists.filter fun l => ¬ l.Id = id
              users_lists := db.tables.users_lists.filter fun ul => ¬ ul.2 = id
              lists_items := db.tables.lists_items.filter fun li => ¬ li.1 = id } }) := rfl

theorem Postgres.exec_itemDelete (db : Postgres) (id : Int) :
    db.exec ItemRepo.sqlDeleteOneById [.int id]
      = (.ok (.ok ((db.tables.items.filter fun i => i.Id = id).length : Int)),
         { db with tables :=
            { db.tables with
              items := db.tables.items.filter fun i => ¬ i.Id = id
              lists_items := db.tables.lists_items.filter fun li => ¬ li.2 = id } }) := rfl

theorem Postgres.txQueryRow_insertList (tables tb : Tables) (seqL seqI : Int)
    (title description : String) (dest : Int) :
    (Postgres.mk tables (some tb) seqL seqI).txQueryRow ListRepo.sqlInsertList
        [.str title, .str description] .int dest
      = if tb.lists.any fun l => l.Id = seqL + 1 then
          (⟨dest, some Postgres.rejected⟩, Postgres.mk tables (some tb) (seqL + 1) seqI)
        else
          (⟨seqL + 1, none⟩,
           Postgres.mk tables
             (some { tb with lists := tb.lists ++ [⟨seqL + 1, title, description⟩] })
             (seqL + 1) seqI) := rfl

theorem Postgres.txExec_linkUser (tables tb : Tables) (seqL seqI : Int) (u l : Int) :
    (Postgres.mk tables (some tb) seqL seqI).txExec ListRepo.sqlLinkUser [.int u, .int l]
      = if tb.lists.any fun r => r.Id = l then
          (none, Postgres.mk tables
            (some { tb with users_lists := tb.users_lists ++ [(u, l)] }) seqL seqI)
        else (some Postgres.rejected, Postgres.mk tables (some tb) seqL seqI) := rfl

theorem Postgres.txQueryRow_insertItem (tables tb : Tables) (seqL seqI : Int)
    (title description : String) (dest : Int) :
    (Postgres.mk tables (some tb) seqL seqI).txQueryRow ItemRepo.sqlInsertItem
        [.str title, .str description] .int dest
      = if tb.items.any fun i => i.Id = seqI + 1 then
          (⟨dest, some Postgres.rejected⟩, Postgres.mk tables (some tb) seqL (seqI + 1))
        else
          (⟨seqI + 1, none⟩,
           Postgres.mk tables
             (some { tb with items := tb.items ++ [⟨seqI + 1, title, description, false⟩] })
             seqL (seqI + 1)) := rfl

theorem Postgres.txExec_linkList (tables tb : Tables) (seqL seqI : Int) (l i : Int) :
    (Postgres.mk tables (some tb) seqL seqI).txExec ItemRepo.sqlLinkList [.int l, .int i]
      = if (tb.lists.any fun r => r.Id = l) && (tb.items.any fun r => r.Id = i) then
          (none, Postgres.mk tables
            (some { tb with lists_items := tb.lists_items ++ [(l, i)] }) seqL seqI)
        else (some Postgres.rejected, Postgres.mk tables (some tb) seqL seqI) := rfl

theorem Postgres.txCommit_open (tables tb : Tables) (seqL seqI : Int) :
    (Postgres.mk tables (some tb) seqL seqI).txCommit
      = (none, Postgres.mk tb none seqL seqI) := rfl

theorem Postgres.exec_listUpdate (db : Postgres) (id : Int) (input : entity.UpdateListInput)
    (q : String) (args : List Arg) (hb : ListRepo.buildUpdate id input = some (q, args)) :
    db.exec q args
      = (.ok (.ok ((db.tables.lists.filter fun l => l.Id = id).length : Int)),
         { db with tables :=
            { db.tables with
              lists := db.tables.lists.map fun l =>
                if l.Id = id then
                  { l with Title := input.Title.getD l.Title,
                           Description := input.Description.getD l.Description }
                else l } }) := by
  rcases input with ⟨_ | t, _ | d⟩ <;> simp [ListRepo.buildUpdate, Id.run] at hb <;>
    obtain ⟨rfl, rfl⟩ := hb <;> rfl

theorem Postgres.exec_itemUpdate (db : Postgres) (id : Int) (input : entity.UpdateItemInput)
    (q : String) (args : List Arg) (hb : ItemRepo.buildUpdate id input = some (q, args)) :
    db.exec q args
      = (.ok (.ok ((db.tables.items.filter fun i => i.Id = id).length : Int)),
         { db with tables :=
            { db.tables with
              items := db.tables.items.map fun i =>
                if i.Id = id then
                  { i with Title := input.Title.getD i.Title,
                           Description := input.Description.getD i.Description,
                           Done := input.Done.getD i.Done }
                else i } }) := by
  rcases input with ⟨_ | t, _ | d, _ | dn⟩ <;> simp [ItemRepo.buildUpdate, Id.run] at hb <;>
    obtain ⟨rfl, rfl⟩ := hb <;> rfl

theorem World.resp_cacheGet {σ : Type} (store : Handler σ) (w : World σ) (n : Node) (k : String)
    (t : Ty) (d : t.type) :
    (World.handler store).resp (.cacheGet n k t d) w = (RedisCache.Get (w.node n) k t d, w) := rfl

theorem World.resp_cacheSet {σ : Type} (store : Handler σ) (w : World σ) (n : Node) (k : String)
    (t : Ty) (v : t.type) (ttl : Nat) :
    (World.handler store).resp (.cacheSet n k t v ttl) w
      = (none, w.setNode n ((w.node n).set k (json.Marshal t v))) := rfl

theorem World.resp_cacheDelete {σ : Type} (store : Handler σ) (w : World σ) (n : Node)
    (k : String) :
    (World.handler store).resp (.cacheDelete n k) w = (none, w.setNode n ((w.node n).del k)) := rfl

theorem World.resp_queryRow (w : World Postgres) (q : String) (a : List Arg) (t : Ty)
    (d : t.type) :
    (World.handler Postgres.handler).resp (.queryRow q a t d) w = (w.db.queryRow q a t d, w) := rfl

theorem World.resp_query (w : World Postgres) (q : String) (a : List Arg) (t : Ty) :
    (World.handler Postgres.handler).resp (.query q a t) w = (w.db.query q a t, w) := rfl

theorem World.resp_exec (w : World Postgres) (q : String) (a : List Arg) :
    (World.handler Postgres.handler).resp (.exec q a) w
      = ((w.db.exec q a).1, { w with db := (w.db.exec q a).2 }) := rfl

theorem World.resp_beginTx (w : World Postgres) :
    (World.handler Postgres.handler).resp .beginTx w
      = (none, { w with db := { w.db with tx := some w.db.tables } }) := rfl

theorem World.resp_txQueryRow (w : World Postgres) (q : String) (a : List Arg) (t : Ty)
    (d : t.type) :
    (World.handler Postgres.handler).resp (.txQueryRow q a t d) w
      = ((w.db.txQueryRow q a t d).1, { w with db := (w.db.txQueryRow q a t d).2 }) := rfl

theorem World.resp_txExec (w : World Postgres) (q : String) (a : List Arg) :
    (World.handler Postgres.handler).resp (.txExec q a) w
      = ((w.db.txExec q a).1, { w with db := (w.db.txExec q a).2 }) := rfl

theorem World.resp_txCommit (w : World Postgres) :
    (World.handler Postgres.handler).resp .txCommit w
      = (w.db.txCommit.1, { w with db := w.db.txCommit.2 }) := rfl

theorem World.resp_txRollback (w : World Postgres) :
    (World.handler Postgres.handler).resp .txRollback w
      = (none, { w with db := { w.db with tx := none } }) := rfl

theorem Tables.Cached.frame {tb tb2 : Tables} {m m2 : Redis} (h : tb.Cached m)
    (hL : ∀ id doc, m2 (Sprintf cacheKeyListById.Pattern id) = some doc →
      (m (Sprintf cacheKeyListById.Pattern id) = some doc ∧ tb2.listById id = tb.listById id) ∨
      ∃ l, doc = .list l ∧ tb2.listById id = some l)
    (hU : ∀ u doc, m2 (Sprintf cacheKeyUserLists.Pattern u) = some doc →
      (m (Sprintf cacheKeyUserLists.Pattern u) = some doc ∧ tb2.userLists u = tb.userLists u) ∨
      doc = .lists (tb2.userLists u))
    (hI : ∀ id doc, m2 (Sprintf cacheKeyItemById.Pattern id) = some doc →
      (m (Sprintf cacheKeyItemById.Pattern id) = some doc ∧ tb2.itemById id = tb.itemById id) ∨
      ∃ i, doc = .item i ∧ tb2.itemById id = some i)
    (hLI : ∀ l doc, m2 (Sprintf cacheKeyListItems.Pattern l) = some doc →
      (m (Sprintf cacheKeyListItems.Pattern l) = some doc ∧ tb2.listItems l = tb.listItems l) ∨
      doc = .items (tb2.listItems l)) :
    tb2.Cached m2 := by
  constructor
  · intro id doc hd
    rcases hL id doc hd with ⟨h1, h2⟩ | h3
    · rw [h2]
      exact h.listById id doc h1
    · exact h3
  · intro u doc hd
    rcases hU u doc hd with ⟨h1, h2⟩ | h3
    · rw [h2]
      exact h.userLists u doc h1
    · exact h3
  · intro id doc hd
    rcases hI id doc hd with ⟨h1, h2⟩ | h3
    · rw [h2]
      exact h.itemById id doc h1
    · exact h3
  · intro l doc hd
    rcases hLI l doc hd with ⟨h1, h2⟩ | h3
    · rw [h2]
      exact h.listItems l doc h1
    · exact h3

theorem Tables.Cached.set_listById {tb : Tables} {m : Redis} (h : tb.Cached m) (id : Int)
    (row : entity.List) (hrow : tb.listById id = some row) :
    tb.Cached (m.set (Sprintf cacheKeyListById.Pattern id) (.list row)) := by
  refine h.frame ?_ ?_ ?_ ?_ <;> intro k doc hd
  · by_cases hk : k = id
    · subst hk
      simp [Redis.set_apply] at hd
      exact .inr ⟨row, hd.symm, hrow⟩
    · simp [Redis.set_apply, keyListById_inj, hk] at hd
      exact .inl ⟨hd, rfl⟩
  · simp [Redis.set_apply, keyUserLists_ne_ListById] at hd
    exact .inl ⟨hd, rfl⟩
  · simp [Redis.set_apply, keyItemById_ne_ListById] at hd
    exact .inl ⟨hd, rfl⟩
  · simp [Redis.set_apply, keyListItems_ne_ListById] at hd
    exact .inl ⟨hd, rfl⟩

theorem Tables.Cached.set_userLists {tb : Tables} {m : Redis} (h : tb.Cached m) (u : Int) :
    tb.Cached (m.set (Sprintf cacheKeyUserLists.Pattern u) (.lists (tb.userLists u))) := by
  refine h.frame ?_ ?_ ?_ ?_ <;> intro k doc hd
  · simp [Redis.set_apply, keyListById_ne_UserLists] at hd
    exact .inl ⟨hd, rfl⟩
  · by_cases hk : k = u
    · subst hk
      simp [Redis.set_apply] at hd
      exact .inr hd.symm
    · simp [Redis.set_apply, keyUserLists_inj, hk] at hd
      exact .inl ⟨hd, rfl⟩
  · simp [Redis.set_apply, keyItemById_ne_UserLists] at hd
    exact .inl ⟨hd, rfl⟩
  · simp [Redis.set_apply, keyListItems_ne_UserLists] at hd
    exact .inl ⟨hd, rfl⟩

theorem Tables.Cached.set_itemById {tb : Tables} {m : Redis} (h : tb.Cached m) (id : Int)
    (row : entity.Item) (hrow : tb.itemById id = some row) :
    tb.Cached (m.set (Sprintf cacheKeyItemById.Pattern id) (.item row)) := by
  refine h.frame ?_ ?_ ?_ ?_ <;> intro k doc hd
  · simp [Redis.set_apply, keyListById_ne_ItemById] at hd
    exact .inl ⟨hd, rfl⟩
  · simp [Redis.set_apply, keyUserLists_ne_ItemById] at hd
    exact .inl ⟨hd, rfl⟩
  · by_cases hk : k = id
    · subst hk
      simp [Redis.set_apply] at hd
      exact .inr ⟨row, hd.symm, hrow⟩
    · simp [Redis.set_apply, keyItemById_inj, hk] at hd
      exact .inl ⟨hd, rfl⟩
  · simp [Redis.set_apply, keyListItems_ne_ItemById] at hd
    exact .inl ⟨hd, rfl⟩

theorem Tables.Cached.set_listItems {tb : Tables} {m : Redis} (h : tb.Cached m) (l : Int) :
    tb.Cached (m.set (Sprintf cacheKeyListItems.Pattern l) (.items (tb.listItems l))) := by
  refine h.frame ?_ ?_ ?_ ?_ <;> intro k doc hd
  · simp [Redis.set_apply, keyListById_ne_ListItems] at hd
    exact .inl ⟨hd, rfl⟩
  · simp [Redis.set_apply, keyUserLists_ne_ListItems] at hd
    exact .inl ⟨hd, rfl⟩
  · simp [Redis.set_apply, keyItemById_ne_ListItems] at hd
    exact .inl ⟨hd, rfl⟩
  · by_cases hk : k = l
    · subst hk
      simp [Redis.set_apply] at hd
      exact .inr hd.symm
    · simp [Redis.set_apply, keyListItems_inj, hk] at hd
      exact .inl ⟨hd, rfl⟩

theorem Tables.Cached.del {tb : Tables} {m : Redis} (h : tb.Cached m) (key : String) :
    tb.Cached (m.del key) := by
  refine h.frame ?_ ?_ ?_ ?_ <;> intro k doc hd <;> rw [Redis.del_apply] at hd <;>
    split at hd <;> first | exact absurd hd (by simp) | exact .inl ⟨hd, rfl⟩

theorem scanAll_nil {T : Type} (rows : List T) : scanAll (rows.map Except.ok) [] = .ok rows := by
  simpa using scanAll_ok rows []

/-! ## Every operation keeps the world consistent -/

theorem consistent_step_ListGetOneById (w : World Postgres) (id : Int) (hw : w.Consistent) :
    ((Op.ListGetOneById id).step w).Consistent := by
  obtain ⟨hrep, hint, hc⟩ := hw
  simp only [Op.step, Op.prog, ListRepo.GetOneById, Prog.perform, Prog.bind_eq, Prog.pure_eq,
    Prog.bind, Prog.run, World.resp_cacheGet, World.node, RedisCache.Get, hrep]
  cases hm : w.master (Sprintf cacheKeyListById.Pattern id) with
  | some doc =>
    obtain ⟨l, rfl, hl⟩ := hc.listById id doc hm
    simp only [json.Unmarshal, Option.isNone_none, Bool.and_self, ↓reduceIte, Prog.run,
      World.replicate]
    exact ⟨rfl, hint, hc⟩
  | none =>
    simp only [Bool.and_false, Option.isNone_none, Bool.false_eq_true, ↓reduceIte, Prog.run,
      World.resp_queryRow, Postgres.queryRow_listGetOneById]
    cases hr : w.db.tables.listById id with
    | none =>
      simp only [↓reduceIte, Prog.run, World.replicate]
      exact ⟨rfl, hint, hc⟩
    | some row =>
      simp only [Prog.run, World.resp_cacheSet, World.replicate, World.setNode, World.node,
        json.Marshal]
      exact ⟨rfl, hint, hc.set_listById id row hr⟩

theorem consistent_step_ItemGetOneById (w : World Postgres) (id : Int) (hw : w.Consistent) :
    ((Op.ItemGetOneById id).step w).Consistent := by
  obtain ⟨hrep, hint, hc⟩ := hw
  simp only [Op.step, Op.prog, ItemRepo.GetOneById, Prog.perform, Prog.bind_eq, Prog.pure_eq,
    Prog.bind, Prog.run, World.resp_cacheGet, World.node, RedisCache.Get, hrep]
  cases hm : w.master (Sprintf cacheKeyItemById.Pattern id) with
  | some doc =>
    obtain ⟨l, rfl, hl⟩ := hc.itemById id doc hm
    simp only [json.Unmarshal, Option.isNone_none, Bool.and_self, ↓reduceIte, Prog.run,
      World.replicate]
    exact ⟨rfl, hint, hc⟩
  | none =>
    simp only [Bool.and_false, Option.isNone_none, Bool.false_eq_true, ↓reduceIte, Prog.run,
      World.resp_queryRow, Postgres.queryRow_itemGetOneById]
    cases hr : w.db.tables.itemById id with
    | none =>
      simp only [↓reduceIte, Prog.run, World.replicate]
      exact ⟨rfl, hint, hc⟩
    | some row =>
      simp only [Prog.run, World.resp_cacheSet, World.replicate, World.setNode, World.node,
        json.Marshal]
      exact ⟨rfl, hint, hc.set_itemById id row hr⟩

theorem consistent_step_GetAllUserLists (w : World Postgres) (u : Int) (hw : w.Consistent) :
    ((Op.GetAllUserLists u).step w).Consistent := by
  obtain ⟨hrep, hint, hc⟩ := hw
  simp only [Op.step, Op.prog, ListRepo.GetAllUserLists, Prog.perform, Prog.bind_eq,
    Prog.pure_eq, Prog.bind, Prog.run, World.resp_cacheGet, World.node, RedisCache.Get, hrep]
  cases hm : w.master (Sprintf cacheKeyUserLists.Pattern u) with
  | some doc =>
    obtain rfl := hc.userLists u doc hm
    simp only [json.Unmarshal, Option.isNone_none, Bool.and_self, ↓reduceIte, Prog.run,
      World.replicate]
    exact ⟨rfl, hint, hc⟩
  | none =>
    simp only [Bool.and_false, Option.isNone_none, Bool.false_eq_true, ↓reduceIte, Prog.run,
      World.resp_query, Postgres.query_getAllUserLists, scanAll_nil, Prog.bind,
      World.resp_cacheSet, World.replicate, World.setNode, World.node, json.Marshal]
    exact ⟨rfl, hint, hc.set_userLists u⟩

theorem consistent_step_GetAllListItems (w : World Postgres) (l : Int) (hw : w.Consistent) :
    ((Op.GetAllListItems l).step w).Consistent := by
  obtain ⟨hrep, hint, hc⟩ := hw
  simp only [Op.step, Op.prog, ItemRepo.GetAllListItems, Prog.perform, Prog.bind_eq,
    Prog.pure_eq, Prog.bind, Prog.run, World.resp_cacheGet, World.node, RedisCache.Get, hrep]
  cases hm : w.master (Sprintf cacheKeyListItems.Pattern l) with
  | some doc =>
    obtain rfl := hc.listItems l doc hm
    simp only [json.Unmarshal, Option.isNone_none, Bool.and_self, ↓reduceIte, Prog.run,
      World.replicate]
    exact ⟨rfl, hint, hc⟩
  | none =>
    simp only [Bool.and_false, Option.isNone_none, Bool.false_eq_true, ↓reduceIte, Prog.run,
      World.resp_query, Postgres.query_getAllListItems, scanAll_nil, Prog.bind,
      World.resp_cacheSet, World.replicate, World.setNode, World.node, json.Marshal]
    exact ⟨rfl, hint, hc.set_listItems l⟩

theorem consistent_step_ListGetManyByIds (w : World Postgres) (ids : List Int)
    (hw : w.Consistent) : ((Op.ListGetManyByIds ids).step w).Consistent := by
  obtain ⟨hrep, hint, hc⟩ := hw
  simp only [Op.step, Op.prog, ListRepo.GetManyByIds, Prog.perform, Prog.bind_eq, Prog.pure_eq,
    Prog.bind]
  split
  · exact ⟨rfl, hint, hc⟩
  · simp only [Prog.run, World.resp_query, Prog.bind]
    generalize w.db.query _ _ _ = r
    rcases r with e | rows
    · exact ⟨rfl, hint, hc⟩
    · simp only []
      cases scanAll rows.scans [] <;> exact ⟨rfl, hint, hc⟩

theorem consistent_step_ItemGetManyByIds (w : World Postgres) (ids : List Int)
    (hw : w.Consistent) : ((Op.ItemGetManyByIds ids).step w).Consistent := by
  obtain ⟨hrep, hint, hc⟩ := hw
  simp only [Op.step, Op.prog, ItemRepo.GetManyByIds, Prog.perform, Prog.bind_eq, Prog.pure_eq,
    Prog.bind]
  split
  · exact ⟨rfl, hint, hc⟩
  · simp only [Prog.run, World.resp_query, Prog.bind]
    generalize w.db.query _ _ _ = r
    rcases r with e | rows
    · exact ⟨rfl, hint, hc⟩
    · simp only []
      cases scanAll rows.scans [] <;> exact ⟨rfl, hint, hc⟩

theorem consistent_step_IsUserOwnerOfList (w : World Postgres) (u l : Int)
    (hw : w.Consistent) : ((Op.IsUserOwnerOfList u l).step w).Consistent := by
  obtain ⟨hrep, hint, hc⟩ := hw
  simp only [Op.step, Op.prog, ListRepo.IsUserOwnerOfList, Prog.perform, Prog.bind_eq,
    Prog.pure_eq, Prog.bind, Prog.run, World.resp_queryRow]
  generalize w.db.queryRow _ _ _ _ = r
  rcases r with ⟨d, _ | e⟩
  · exact ⟨rfl, hint, hc⟩
  · simp only []
    split <;> exact ⟨rfl, hint, hc⟩

theorem consistent_step_IsUserOwnerOfItem (w : World Postgres) (u l : Int)
    (hw : w.Consistent) : ((Op.IsUserOwnerOfItem u l).step w).Consistent := by
  obtain ⟨hrep, hint, hc⟩ := hw
  simp only [Op.step, Op.prog, ItemRepo.IsUserOwnerOfItem, Prog.perform, Prog.bind_eq,
    Prog.pure_eq, Prog.bind, Prog.run, World.resp_queryRow]
  generalize w.db.queryRow _ _ _ _ = r
  rcases r with ⟨d, _ | e⟩
  · exact ⟨rfl, hint, hc⟩
  · simp only []
    split <;> exact ⟨rfl, hint, hc⟩

theorem consistent_step_ListUpdateOneById (w : World Postgres) (o : Option Int) (id : Int)
    (input : entity.UpdateListInput) (hw : w.Consistent)
    (hop : Op.Owned w (.ListUpdateOneById o id input)) :
    ((Op.ListUpdateOneById o id input).step w).Consistent := by
  obtain ⟨hrep, hint, hc⟩ := hw
  obtain ⟨u, rfl, hown⟩ := hop
  simp only [Op.step, Op.prog, ListRepo.UpdateOneById, Prog.perform, Prog.bind_eq, Prog.pure_eq,
    Prog.bind]
  cases hb : ListRepo.buildUpdate id input with
  | none => exact ⟨rfl, hint, hc⟩
  | some qa =>
    obtain ⟨q, args⟩ := qa
    simp only [Prog.run, Prog.bind, World.resp_exec, Postgres.exec_listUpdate _ _ _ _ _ hb]
    have hkey : ∀ r : entity.List, (fun l : entity.List => l.Id)
        (if r.Id = id then { r with Title := input.Title.getD r.Title,
                                    Description := input.Description.getD r.Description }
         else r) = r.Id := by
      intro r
      split <;> rfl
    have hf : ∀ r : entity.List, ¬ r.Id = id →
        (if r.Id = id then { r with Title := input.Title.getD r.Title,
                                    Description := input.Description.getD r.Description }
         else r) = r := by
      intro r hr
      simp [hr]
    by_cases hz : ((w.db.tables.lists.filter fun l => l.Id = id).length : Int) = 0
    · simp only [hz, ↓reduceIte, Prog.run, World.replicate]
      have hlen : (w.db.tables.lists.filter fun l => l.Id = id).length = 0 := by exact_mod_cast hz
      rw [map_eq_self_of_absent (fun l : entity.List => l.Id) _ _ id hf hlen]
      exact ⟨rfl, hint, hc⟩
    · simp only [hz, ↓reduceIte, Prog.run, World.resp_cacheDelete, World.replicate,
        World.setNode, World.node]
      refine ⟨rfl, ⟨?_, hint.lists_items⟩, ?_⟩
      · intro ul hul
        obtain ⟨l, hl, hlid⟩ := hint.users_lists ul hul
        exact ⟨_, List.mem_map_of_mem _ hl, (hkey l).trans hlid⟩
      · refine hc.frame ?_ ?_ ?_ ?_ <;> intro k doc hd
        · simp only [Redis.del_apply, keyListById_ne_UserLists, keyListById_inj, ↓reduceIte] at hd
          split at hd
          · exact absurd hd (by simp)
          · rename_i hk
            exact .inl ⟨hd, find_map_other (fun l : entity.List => l.Id) _ _ id k hkey hf hk⟩
        · simp only [Redis.del_apply, keyUserLists_ne_ListById, keyUserLists_inj, ↓reduceIte] at hd
          split at hd
          · exact absurd hd (by simp)
          · rename_i hk
            exact .inl ⟨hd, joinRows_map_other (fun l : entity.List => l.Id) _ _ _ id u k hkey hf
              hown hk⟩
        · simp only [Redis.del_apply, keyItemById_ne_ListById, keyItemById_ne_UserLists,
            ↓reduceIte] at hd
          exact .inl ⟨hd, rfl⟩
        · simp only [Redis.del_apply, keyListItems_ne_ListById, keyListItems_ne_UserLists,
            ↓reduceIte] at hd
          exact .inl ⟨hd, rfl⟩

theorem consistent_step_ItemUpdateOneById (w : World Postgres) (o : Option Int) (id : Int)
    (input : entity.UpdateItemInput) (hw : w.Consistent)
    (hop : Op.Owned w (.ItemUpdateOneById o id input)) :
    ((Op.ItemUpdateOneById o id input).step w).Consistent := by
  obtain ⟨hrep, hint, hc⟩ := hw
  obtain ⟨u, rfl, hown⟩ := hop
  simp only [Op.step, Op.prog, ItemRepo.UpdateOneById, Prog.perform, Prog.bind_eq, Prog.pure_eq,
    Prog.bind]
  cases hb : ItemRepo.buildUpdate id input with
  | none => exact ⟨rfl, hint, hc⟩
  | some qa =>
    obtain ⟨q, args⟩ := qa
    simp only [Prog.run, Prog.bind, World.resp_exec, Postgres.exec_itemUpdate _ _ _ _ _ hb]
    have hkey : ∀ r : entity.Item, (fun i : entity.Item => i.Id)
        (if r.Id = id then { r with Title := input.Title.getD r.Title,
                                    Description := input.Description.getD r.Description,
                                    Done := input.Done.getD r.Done }
         else r) = r.Id := by
      intro r
      split <;> rfl
    have hf : ∀ r : entity.Item, ¬ r.Id = id →
        (if r.Id = id then { r with Title := input.Title.getD r.Title,
                                    Description := input.Description.getD r.Description,
                                    Done := input.Done.getD r.Done }
         else r) = r := by
      intro r hr
      simp [hr]
    by_cases hz : ((w.db.tables.items.filter fun i => i.Id = id).length : Int) = 0
    · simp only [hz, ↓reduceIte, Prog.run, World.replicate]
      have hlen : (w.db.tables.items.filter fun i => i.Id = id).length = 0 := by exact_mod_cast hz
      rw [map_eq_self_of_absent (fun i : entity.Item => i.Id) _ _ id hf hlen]
      exact ⟨rfl, hint, hc⟩
    · simp only [hz, ↓reduceIte, Prog.run, World.resp_cacheDelete, World.replicate,
        World.setNode, World.node]
      refine ⟨rfl, ⟨hint.users_lists, ?_⟩, ?_⟩
      · intro li hli
        obtain ⟨i, hi, hiid⟩ := hint.lists_items li hli
        exact ⟨_, List.mem_map_of_mem _ hi, (hkey i).trans hiid⟩
      · refine hc.frame ?_ ?_ ?_ ?_ <;> intro k doc hd
        · simp only [Redis.del_apply, keyListById_ne_ItemById, keyListById_ne_ListItems,
            ↓reduceIte] at hd
          exact .inl ⟨hd, rfl⟩
        · simp only [Redis.del_apply, keyUserLists_ne_ItemById, keyUserLists_ne_ListItems,
            ↓reduceIte] at hd
          exact .inl ⟨hd, rfl⟩
        · simp only [Redis.del_apply, keyItemById_ne_ListItems, keyItemById_inj, ↓reduceIte] at hd
          split at hd
          · exact absurd hd (by simp)
          · rename_i hk
            exact .inl ⟨hd, find_map_other (fun i : entity.Item => i.Id) _ _ id k hkey hf hk⟩
        · simp only [Redis.del_apply, keyListItems_ne_ItemById, keyListItems_inj, ↓reduceIte] at hd
          split at hd
          · exact absurd hd (by simp)
          · rename_i hk
            exact .inl ⟨hd, joinRows_map_other (fun i : entity.Item => i.Id) _ _ _ id u k hkey hf
              hown hk⟩

theorem consistent_step_ListDeleteOneById (w : World Postgres) (o : Option Int) (id : Int)
    (hw : w.Consistent) (hop : Op.Owned w (.ListDeleteOneById o id)) :
    ((Op.ListDeleteOneById o id).step w).Consistent := by
  obtain ⟨hrep, hint, hc⟩ := hw
  obtain ⟨hown, hitems⟩ := hop
  simp only [Op.step, Op.prog, ListRepo.DeleteOneById, Prog.perform, Prog.bind_eq, Prog.pure_eq,
    Prog.bind, Prog.run, World.resp_exec, Postgres.exec_listDelete]
  rw [filter_not_eq_self (fun li : Int × Int => li.1 = id) _ hitems]
  have hint2 : Tables.Integrity
      { w.db.tables with
        lists := w.db.tables.lists.filter fun l => ¬ l.Id = id
        users_lists := w.db.tables.users_lists.filter fun ul => ¬ ul.2 = id } := by
    refine ⟨?_, hint.lists_items⟩
    intro ul hul
    simp only [List.mem_filter, decide_eq_true_eq] at hul
    obtain ⟨l, hl, hlid⟩ := hint.users_lists ul hul.1
    refine ⟨l, ?_, hlid⟩
    simp only [List.mem_filter, decide_eq_true_eq]
    exact ⟨hl, fun h => hul.2 (hlid.symm.trans h)⟩
  by_cases hz : ((w.db.tables.lists.filter fun l => l.Id = id).length : Int) = 0
  · simp only [hz, ↓reduceIte, Prog.run, World.replicate]
    have hlen : (w.db.tables.lists.filter fun l => l.Id = id).length = 0 := by exact_mod_cast hz
    have hnone : ∀ l ∈ w.db.tables.lists, ¬ l.Id = id := by
      have := List.length_eq_zero.mp hlen
      simpa [List.filter_eq_nil_iff] using this
    rw [filter_not_eq_self (fun l : entity.List => l.Id = id) _ hnone,
      filter_not_eq_self (fun ul : Int × Int => ul.2 = id) _ (by
        intro ul hul h
        obtain ⟨l, hl, hlid⟩ := hint.users_lists ul hul
        exact hnone l hl (hlid.trans h))]
    exact ⟨rfl, hint, hc⟩
  · have hframe : ∀ m2 : Redis,
        (∀ k, m2 k = none ∨ m2 k = w.master k) →
        m2 (Sprintf cacheKeyListById.Pattern id) = none →
        (∀ u, o = some u → m2 (Sprintf cacheKeyUserLists.Pattern u) = none) →
        Tables.Cached
          { w.db.tables with
            lists := w.db.tables.lists.filter fun l => ¬ l.Id = id
            users_lists := w.db.tables.users_lists.filter fun ul => ¬ ul.2 = id } m2 := by
      intro m2 hsub hdel hdelu
      refine hc.frame ?_ ?_ ?_ ?_ <;> intro k doc hd
      · rcases hsub (Sprintf cacheKeyListById.Pattern k) with h0 | h0
        · rw [h0] at hd
          exact absurd hd (by simp)
        · have hk : ¬ k = id := fun h => by
            rw [h, hdel] at hd
            exact absurd hd (by simp)
          exact .inl ⟨h0 ▸ hd, find_filter_other (fun l : entity.List => l.Id) _ id k hk⟩
      · rcases hsub (Sprintf cacheKeyUserLists.Pattern k) with h0 | h0
        · rw [h0] at hd
          exact absurd hd (by simp)
        · refine .inl ⟨h0 ▸ hd, joinRows_delete (fun l : entity.List => l.Id) _ _ id k ?_⟩
          intro j hj hj2 hj1
          have := hdelu j.1 (hown j hj hj2)
          rw [hj1, hd] at this
          exact absurd this (by simp)
      · rcases hsub (Sprintf cacheKeyItemById.Pattern k) with h0 | h0
        · rw [h0] at hd
          exact absurd hd (by simp)
        · exact .inl ⟨h0 ▸ hd, rfl⟩
      · rcases hsub (Sprintf cacheKeyListItems.Pattern k) with h0 | h0
        · rw [h0] at hd
          exact absurd hd (by simp)
        · exact .inl ⟨h0 ▸ hd, rfl⟩
    simp only [hz, ↓reduceIte, Prog.run, Prog.bind, World.resp_cacheDelete, World.setNode,
      World.node]
    cases o with
    | none =>
      simp only [Prog.run, World.replicate]
      refine ⟨rfl, hint2, hframe _ ?_ ?_ ?_⟩
      · intro k
        simp only [Redis.del_apply]
        split
        · exact .inl rfl
        · exact .inr rfl
      · simp [Redis.del_apply]
      · intro u hu
        exact absurd hu (by simp)
    | some u =>
      simp only [Prog.run, Prog.bind, World.resp_cacheDelete, World.setNode, World.node,
        World.replicate]
      refine ⟨rfl, hint2, hframe _ ?_ ?_ ?_⟩
      · intro k
        simp only [Redis.del_apply]
        split
        · exact .inl rfl
        · split
          · exact .inl rfl
          · exact .inr rfl
      · simp [Redis.del_apply]
      · intro u2 hu
        obtain rfl : u = u2 := by simpa using hu
        simp [Redis.del_apply]

theorem consistent_step_ItemDeleteOneById (w : World Postgres) (o : Option Int) (id : Int)
    (hw : w.Consistent) (hop : Op.Owned w (.ItemDeleteOneById o id)) :
    ((Op.ItemDeleteOneById o id).step w).Consistent := by
  obtain ⟨hrep, hint, hc⟩ := hw
  have hown : ∀ li ∈ w.db.tables.lists_items, li.2 = id → o = some li.1 := hop
  simp only [Op.step, Op.prog, ItemRepo.DeleteOneById, Prog.perform, Prog.bind_eq, Prog.pure_eq,
    Prog.bind, Prog.run, World.resp_exec, Postgres.exec_itemDelete]
  have hint2 : Tables.Integrity
      { w.db.tables with
        items := w.db.tables.items.filter fun i => ¬ i.Id = id
        lists_items := w.db.tables.lists_items.filter fun li => ¬ li.2 = id } := by
    refine ⟨hint.users_lists, ?_⟩
    intro li hli
    simp only [List.mem_filter, decide_eq_true_eq] at hli
    obtain ⟨i, hi, hiid⟩ := hint.lists_items li hli.1
    refine ⟨i, ?_, hiid⟩
    simp only [List.mem_filter, decide_eq_true_eq]
    exact ⟨hi, fun h => hli.2 (hiid.symm.trans h)⟩
  by_cases hz : ((w.db.tables.items.filter fun i => i.Id = id).length : Int) = 0
  · simp only [hz, ↓reduceIte, Prog.run, World.replicate]
    have hlen : (w.db.tables.items.filter fun i => i.Id = id).length = 0 := by exact_mod_cast hz
    have hnone : ∀ i ∈ w.db.tables.items, ¬ i.Id = id := by
      have := List.length_eq_zero.mp hlen
      simpa [List.filter_eq_nil_iff] using this
    rw [filter_not_eq_self (fun i : entity.Item => i.Id = id) _ hnone,
      filter_not_eq_self (fun li : Int × Int => li.2 = id) _ (by
        intro li hli h
        obtain ⟨i, hi, hiid⟩ := hint.lists_items li hli
        exact hnone i hi (hiid.trans h))]
    exact ⟨rfl, hint, hc⟩
  · have hframe : ∀ m2 : Redis,
        (∀ k, m2 k = none ∨ m2 k = w.master k) →
        m2 (Sprintf cacheKeyItemById.Pattern id) = none →
        (∀ l, o = some l → m2 (Sprintf cacheKeyListItems.Pattern l) = none) →
        Tables.Cached
          { w.db.tables with
            items := w.db.tables.items.filter fun i => ¬ i.Id = id
            lists_items := w.db.tables.lists_items.filter fun li => ¬ li.2 = id } m2 := by
      intro m2 hsub hdel hdelu
      refine hc.frame ?_ ?_ ?_ ?_ <;> intro k doc hd
      · rcases hsub (Sprintf cacheKeyListById.Pattern k) with h0 | h0
        · rw [h0] at hd
          exact absurd hd (by simp)
        · exact .inl ⟨h0 ▸ hd, rfl⟩
      · rcases hsub (Sprintf cacheKeyUserLists.Pattern k) with h0 | h0
        · rw [h0] at hd
          exact absurd hd (by simp)
        · exact .inl ⟨h0 ▸ hd, rfl⟩
      · rcases hsub (Sprintf cacheKeyItemById.Pattern k) with h0 | h0
        · rw [h0] at hd
          exact absurd hd (by simp)
        · have hk : ¬ k = id := fun h => by
            rw [h, hdel] at hd
            exact absurd hd (by simp)
          exact .inl ⟨h0 ▸ hd, find_filter_other (fun i : entity.Item => i.Id) _ id k hk⟩
      · rcases hsub (Sprintf cacheKeyListItems.Pattern k) with h0 | h0
        · rw [h0] at hd
          exact absurd hd (by simp)
        · refine .inl ⟨h0 ▸ hd, joinRows_delete (fun i : entity.Item => i.Id) _ _ id k ?_⟩
          intro j hj hj2 hj1
          have := hdelu j.1 (hown j hj hj2)
          rw [hj1, hd] at this
          exact absurd this (by simp)
    simp only [hz, ↓reduceIte, Prog.run, Prog.bind, World.resp_cacheDelete, World.setNode,
      World.node]
    cases o with
    | none =>
      simp only [Prog.run, World.replicate]
      refine ⟨rfl, hint2, hframe _ ?_ ?_ ?_⟩
      · intro k
        simp only [Redis.del_apply]
        split
        · exact .inl rfl
        · exact .inr rfl
      · simp [Redis.del_apply]
      · intro u hu
        exact absurd hu (by simp)
    | some u =>
      simp only [Prog.run, Prog.bind, World.resp_cacheDelete, World.setNode, World.node,
        World.replicate]
      refine ⟨rfl, hint2, hframe _ ?_ ?_ ?_⟩
      · intro k
        simp only [Redis.del_apply]
        split
        · exact .inl rfl
        · split
          · exact .inl rfl
          · exact .inr rfl
      · simp [Redis.del_apply]
      · intro u2 hu
        obtain rfl : u = u2 := by simpa using hu
        simp [Redis.del_apply]

theorem consistent_step_CreateUserList (w : World Postgres) (u : Int) (list : entity.List)
    (hw : w.Consistent) : ((Op.CreateUserList u list).step w).Consistent := by
  obtain ⟨hrep, hint, hc⟩ := hw
  simp only [Op.step, Op.prog, ListRepo.CreateUserList, Prog.perform, Prog.bind_eq, Prog.pure_eq,
    Prog.bind, Prog.run, World.resp_beginTx, World.resp_txQueryRow,
    Postgres.txQueryRow_insertList]
  by_cases hany : (w.db.tables.lists.any fun l => l.Id = w.db.lists_id_seq + 1) = true
  · simp only [hany, ↓reduceIte, Prog.run, Prog.bind, World.resp_txRollback, World.replicate]
    exact ⟨rfl, hint, hc⟩
  · have hfresh : ∀ r ∈ w.db.tables.lists, ¬ r.Id = w.db.lists_id_seq + 1 := by
      simpa using hany
    have hlinks : ∀ j ∈ w.db.tables.users_lists, ¬ j.2 = w.db.lists_id_seq + 1 := by
      intro j hj h
      obtain ⟨l, hl, hlid⟩ := hint.users_lists j hj
      exact hfresh l hl (hlid.trans h)
    simp only [hany, Bool.false_eq_true, ↓reduceIte, Prog.run, Prog.bind, World.resp_txExec,
      Postgres.txExec_linkUser, List.any_append, List.any_cons, decide_True, Bool.true_or,
      Bool.or_true, World.resp_txCommit, Postgres.txCommit_open, World.resp_cacheSet,
      World.resp_cacheDelete, World.setNode, World.node, World.replicate, json.Marshal]
    refine ⟨rfl, ⟨?_, hint.lists_items⟩, ?_⟩
    · intro ul hul
      simp only [List.mem_append, List.mem_singleton] at hul ⊢
      rcases hul with hul | rfl
      · obtain ⟨l, hl, hlid⟩ := hint.users_lists ul hul
        exact ⟨l, .inl hl, hlid⟩
      · exact ⟨_, .inr rfl, rfl⟩
    · refine hc.frame ?_ ?_ ?_ ?_ <;> intro k doc hd
      · simp only [Redis.del_apply, Redis.set_apply, keyListById_ne_UserLists, keyListById_inj,
          ↓reduceIte] at hd
        have hfind := find_append_new (fun l : entity.List => l.Id) w.db.tables.lists
          ⟨w.db.lists_id_seq + 1, list.Title, list.Description⟩ hfresh k
        split at hd
        · rename_i hk
          refine .inr ⟨_, (Option.some.inj hd).symm, ?_⟩
          simpa [Tables.listById, hk] using hfind
        · rename_i hk
          refine .inl ⟨hd, ?_⟩
          simpa [Tables.listById, hk] using hfind
      · simp only [Redis.del_apply, Redis.set_apply, keyUserLists_ne_ListById, keyUserLists_inj,
          ↓reduceIte] at hd
        split at hd
        · exact absurd hd (by simp)
        · rename_i hk
          exact .inl ⟨hd, joinRows_insert_other (fun l : entity.List => l.Id) _ _
            ⟨w.db.lists_id_seq + 1, list.Title, list.Description⟩ u k hfresh hlinks hk⟩
      · simp only [Redis.del_apply, Redis.set_apply, keyItemById_ne_ListById,
          keyItemById_ne_UserLists, ↓reduceIte] at hd
        exact .inl ⟨hd, rfl⟩
      · simp only [Redis.del_apply, Redis.set_apply, keyListItems_ne_ListById,
          keyListItems_ne_UserLists, ↓reduceIte] at hd
        exact .inl ⟨hd, rfl⟩

theorem consistent_step_CreateListItem (w : World Postgres) (l : Int) (item : entity.Item)
    (hw : w.Consistent) (hop : Op.Owned w (.CreateListItem l item)) :
    ((Op.CreateListItem l item).step w).Consistent := by
  obtain ⟨hrep, hint, hc⟩ := hw
  have hdone : item.Done = false := hop
  simp only [Op.step, Op.prog, ItemRepo.CreateListItem, Prog.perform, Prog.bind_eq, Prog.pure_eq,
    Prog.bind, Prog.run, World.resp_beginTx, World.resp_txQueryRow,
    Postgres.txQueryRow_insertItem]
  by_cases hany : (w.db.tables.items.any fun i => i.Id = w.db.items_id_seq + 1) = true
  · simp only [hany, ↓reduceIte, Prog.run, Prog.bind, World.resp_txRollback, World.replicate]
    exact ⟨rfl, hint, hc⟩
  · have hfresh : ∀ r ∈ w.db.tables.items, ¬ r.Id = w.db.items_id_seq + 1 := by
      simpa using hany
    have hlinks : ∀ j ∈ w.db.tables.lists_items, ¬ j.2 = w.db.items_id_seq + 1 := by
      intro j hj h
      obtain ⟨i, hi, hiid⟩ := hint.lists_items j hj
      exact hfresh i hi (hiid.trans h)
    simp only [hany, Bool.false_eq_true, ↓reduceIte, Prog.run, Prog.bind, World.resp_txExec,
      Postgres.txExec_linkList, List.any_append, List.any_cons, decide_True, Bool.true_or,
      Bool.or_true, Bool.and_true]
    by_cases hlist : (w.db.tables.lists.any fun r => r.Id = l) = true
    · simp only [hany, Bool.false_eq_true, hlist, ↓reduceIte, Prog.run, Prog.bind,
        World.resp_txCommit, Postgres.txCommit_open, World.resp_cacheSet, World.resp_cacheDelete, World.setNode,
        World.node, World.replicate, json.Marshal]
      refine ⟨rfl, ⟨hint.users_lists, ?_⟩, ?_⟩
      · intro li hli
        simp only [List.mem_append, List.mem_singleton] at hli ⊢
        rcases hli with hli | rfl
        · obtain ⟨i, hi, hiid⟩ := hint.lists_items li hli
          exact ⟨i, .inl hi, hiid⟩
        · exact ⟨_, .inr rfl, rfl⟩
      · refine hc.frame ?_ ?_ ?_ ?_ <;> intro k doc hd
        · simp only [Redis.del_apply, Redis.set_apply, keyListById_ne_ItemById,
            keyListById_ne_ListItems, ↓reduceIte] at hd
          exact .inl ⟨hd, rfl⟩
        · simp only [Redis.del_apply, Redis.set_apply, keyUserLists_ne_ItemById,
            keyUserLists_ne_ListItems, ↓reduceIte] at hd
          exact .inl ⟨hd, rfl⟩
        · simp only [Redis.del_apply, Redis.set_apply, keyItemById_ne_ListItems, keyItemById_inj,
            ↓reduceIte] at hd
          have hfind := find_append_new (fun i : entity.Item => i.Id) w.db.tables.items
            ⟨w.db.items_id_seq + 1, item.Title, item.Description, false⟩ hfresh k
          split at hd
          · rename_i hk
            refine .inr ⟨_, (Option.some.inj hd).symm, ?_⟩
            simpa [Tables.itemById, hk, hdone] using hfind
          · rename_i hk
            refine .inl ⟨hd, ?_⟩
            simpa [Tables.itemById, hk] using hfind
        · simp only [Redis.del_apply, Redis.set_apply, keyListItems_ne_ItemById,
            keyListItems_inj, ↓reduceIte] at hd
          split at hd
          · exact absurd hd (by simp)
          · rename_i hk
            exact .inl ⟨hd, joinRows_insert_other (fun i : entity.Item => i.Id) _ _
              ⟨w.db.items_id_seq + 1, item.Title, item.Description, false⟩ l k hfresh hlinks hk⟩
    · simp only [hany, hlist, Bool.false_eq_true, ↓reduceIte, Prog.run, Prog.bind,
        World.resp_txRollback, World.replicate]
      exact ⟨rfl, hint, hc⟩

theorem consistent_step (w : World Postgres) (op : Op) (hw : w.Consistent)
    (hop : Op.Owned w op) : (op.step w).Consistent := by
  cases op with
  | CreateUserList u l => exact consistent_step_CreateUserList w u l hw
  | GetAllUserLists u => exact consistent_step_GetAllUserLists w u hw
  | ListGetOneById i => exact consistent_step_ListGetOneById w i hw
  | ListGetManyByIds is => exact consistent_step_ListGetManyByIds w is hw
  | ListUpdateOneById o i x => exact consistent_step_ListUpdateOneById w o i x hw hop
  | ListDeleteOneById o i => exact consistent_step_ListDeleteOneById w o i hw hop
  | IsUserOwnerOfList u i => exact consistent_step_IsUserOwnerOfList w u i hw
  | CreateListItem l i => exact consistent_step_CreateListItem w l i hw hop
  | GetAllListItems l => exact consistent_step_GetAllListItems w l hw
  | ItemGetOneById i => exact consistent_step_ItemGetOneById w i hw
  | ItemGetManyByIds is => exact consistent_step_ItemGetManyByIds w is hw
  | ItemUpdateOneById o i x => exact consistent_step_ItemUpdateOneById w o i x hw hop
  | ItemDeleteOneById o i => exact consistent_step_ItemDeleteOneById w o i hw hop
  | IsUserOwnerOfItem u i => exact consistent_step_IsUserOwnerOfItem w u i hw

theorem consistent_of_reachable (db0 : Postgres) (h0 : db0.tables.Integrity)
    (w : World Postgres) (hw : World.Reachable Op.Owned db0 w) : w.Consistent := by
  induction hw with
  | init =>
    refine ⟨rfl, h0, ?_⟩
    constructor <;> intro k doc hd <;> exact absurd hd (by simp [Redis.empty])
  | step w op _ hop ih => exact consistent_step w op ih hop

/-! ## C1 -/

theorem World.run_node {σ α : Type} (store : Handler σ) (p : Prog α) (w : World σ) (n : Node) :
    (p.run (World.handler store) w).state.node n
      = Redis.afterWrites n (p.run (World.handler store) w).trace (w.node n) := by
  induction p generalizing w with
  | ret a => simp [Prog.run, Redis.afterWrites]
  | panic => simp [Prog.run, Redis.afterWrites]
  | call c k ih =>
    simp only [Prog.run]
    rw [ih]
    cases c with
    | cacheSet node key t v ttl =>
      cases node <;> cases n <;>
        simp [Redis.afterWrites, World.handler, World.setNode, World.node]
    | cacheDelete node key =>
      cases node <;> cases n <;>
        simp [Redis.afterWrites, World.handler, World.setNode, World.node]
    | _ => cases n <;> rfl

theorem World.run_master {σ α : Type} (store : Handler σ) (p : Prog α) (w : World σ) :
    (p.run (World.handler store) w).state.master
      = Redis.afterWrites .Master (p.run (World.handler store) w).trace w.master :=
  World.run_node store p w .Master

/-- C1 as stated fails: in the world where list 1 belongs to user 1 and the
master holds `[Groceries]` under `user_lists:1`, DeleteOneById with a nil owner
(what DeleteOneByAdmin passes) succeeds, the store then has no list for user 1,
and `user_lists:1` on the master still holds its pre-mutation value. -/
theorem admin_delete_keeps_owner_collection :
    (1, 1) ∈ World.groceries.db.tables.users_lists ∧
    World.groceries.master "user_lists:1" = some (.lists [⟨1, "Groceries", ""⟩]) ∧
    ((ListRepo.DeleteOneById none 1).run (World.handler Postgres.handler)
        World.groceries).result = some none ∧
    ((ListRepo.DeleteOneById none 1).run (World.handler Postgres.handler)
        World.groceries).state.db.tables.userLists 1 = [] ∧
    ((ListRepo.DeleteOneById none 1).run (World.handler Postgres.handler)
        World.groceries).state.master "user_lists:1" = some (.lists [⟨1, "Groceries", ""⟩]) := by
  decide

/-- C1 (amended): for any store, when the cache calls succeed, a successful
mutation leaves the master as follows.  CreateUserList / CreateListItem: the
by-id key of the new id holds the new entity and the collection key of the
owner passed is absent.  UpdateOneById succeeds only with a non-nil owner, and
then the by-id key and the collection key of the owner passed are absent.
DeleteOneById: the by-id key is absent; with a non-nil owner the collection key
of that owner is absent; with a nil owner every other key, owner-collection keys
included, holds what it held before. -/
theorem mutation_invalidates_passed_keys {σ : Type} (store : Handler σ) (w : World σ)
    (owner id : Int) :
    (∀ list newId after,
      ((ListRepo.CreateUserList owner list).run (World.handler store) w).result
        = some ((newId, none), after) →
      ((ListRepo.CreateUserList owner list).run (World.handler store) w).state.master
          (Sprintf cacheKeyListById.Pattern newId) = some (.list { list with Id := newId }) ∧
      ((ListRepo.CreateUserList owner list).run (World.handler store) w).state.master
          (Sprintf cacheKeyUserLists.Pattern owner) = none) ∧
    (∀ item newId after,
      ((ItemRepo.CreateListItem owner item).run (World.handler store) w).result
        = some ((newId, none), after) →
      ((ItemRepo.CreateListItem owner item).run (World.handler store) w).state.master
          (Sprintf cacheKeyItemById.Pattern newId) = some (.item { item with Id := newId }) ∧
      ((ItemRepo.CreateListItem owner item).run (World.handler store) w).state.master
          (Sprintf cacheKeyListItems.Pattern owner) = none) ∧
    (∀ o input,
      ((ListRepo.UpdateOneById o id input).run (World.handler store) w).result = some none →
      o ≠ none ∧
      ((ListRepo.UpdateOneById o id input).run (World.handler store) w).state.master
          (Sprintf cacheKeyListById.Pattern id) = none ∧
      ∀ u, o = some u →
        ((ListRepo.UpdateOneById o id input).run (World.handler store) w).state.master
          (Sprintf cacheKeyUserLists.Pattern u) = none) ∧
    (∀ o input,
      ((ItemRepo.UpdateOneById o id input).run (World.handler store) w).result = some none →
      o ≠ none ∧
      ((ItemRepo.UpdateOneById o id input).run (World.handler store) w).state.master
          (Sprintf cacheKeyItemById.Pattern id) = none ∧
      ∀ l, o = some l →
        ((ItemRepo.UpdateOneById o id input).run (World.handler store) w).state.master
          (Sprintf cacheKeyListItems.Pattern l) = none) ∧
    (∀ o,
      ((ListRepo.DeleteOneById o id).run (World.handler store) w).result = some none →
      ((ListRepo.DeleteOneById o id).run (World.handler store) w).state.master
          (Sprintf cacheKeyListById.Pattern id) = none ∧
      (∀ u, o = some u →
        ((ListRepo.DeleteOneById o id).run (World.handler store) w).state.master
          (Sprintf cacheKeyUserLists.Pattern u) = none) ∧
      (o = none → ∀ key, key ≠ Sprintf cacheKeyListById.Pattern id →
        ((ListRepo.DeleteOneById o id).run (World.handler store) w).state.master key
          = w.master key)) ∧
    (∀ o,
      ((ItemRepo.DeleteOneById o id).run (World.handler store) w).result = some none →
      ((ItemRepo.DeleteOneById o id).run (World.handler store) w).state.master
          (Sprintf cacheKeyItemById.Pattern id) = none ∧
      (∀ l, o = some l →
        ((ItemRepo.DeleteOneById o id).run (World.handler store) w).state.master
          (Sprintf cacheKeyListItems.Pattern l) = none) ∧
      (o = none → ∀ key, key ≠ Sprintf cacheKeyItemById.Pattern id →
        ((ItemRepo.DeleteOneById o id).run (World.handler store) w).state.master key
          = w.master key)) := by
  simp only [World.run_master]
  generalize World.handler store = h
  refine ⟨?_, ?_, ?_, ?_, ?_, ?_⟩
  · intro list newId after
    simp only [ListRepo.CreateUserList, Prog.perform, Prog.bind_eq, Prog.pure_eq, Prog.bind,
      Prog.run]
    generalize h.resp _ w = r1
    obtain ⟨_ | e, s1⟩ := r1 <;> simp only [Prog.run, Prog.bind]
    swap
    · simp
    generalize h.resp _ s1 = r2
    obtain ⟨⟨d, _ | e⟩, s2⟩ := r2 <;> simp only [Prog.run, Prog.bind]
    swap
    · simp
    generalize h.resp _ s2 = r3
    obtain ⟨_ | e, s3⟩ := r3 <;> simp only [Prog.run, Prog.bind]
    swap
    · simp
    generalize h.resp _ s3 = r4
    obtain ⟨_ | e, s4⟩ := r4 <;> simp only [Prog.run, Prog.bind]
    swap
    · simp
    intro hr
    simp at hr
    obtain ⟨rfl, rfl⟩ := hr
    simp [Redis.afterWrites, RedisCache.Set, RedisCache.Delete, Redis.set_apply, Redis.del_apply,
      keyListById_ne_UserLists, json.Marshal]
  · intro item newId after
    simp only [ItemRepo.CreateListItem, Prog.perform, Prog.bind_eq, Prog.pure_eq, Prog.bind,
      Prog.run]
    generalize h.resp _ w = r1
    obtain ⟨_ | e, s1⟩ := r1 <;> simp only [Prog.run, Prog.bind]
    swap
    · simp
    generalize h.resp _ s1 = r2
    obtain ⟨⟨d, _ | e⟩, s2⟩ := r2 <;> simp only [Prog.run, Prog.bind]
    swap
    · simp
    generalize h.resp _ s2 = r3
    obtain ⟨_ | e, s3⟩ := r3 <;> simp only [Prog.run, Prog.bind]
    swap
    · simp
    generalize h.resp _ s3 = r4
    obtain ⟨_ | e, s4⟩ := r4 <;> simp only [Prog.run, Prog.bind]
    swap
    · simp
    intro hr
    simp at hr
    obtain ⟨rfl, rfl⟩ := hr
    simp [Redis.afterWrites, RedisCache.Set, RedisCache.Delete, Redis.set_apply, Redis.del_apply,
      keyItemById_ne_ListItems, json.Marshal]
  · intro o input
    simp only [ListRepo.UpdateOneById, Prog.perform, Prog.bind_eq, Prog.pure_eq, Prog.bind,
      Prog.run]
    cases ListRepo.buildUpdate id input with
    | none => simp [Prog.run]
    | some qa =>
      simp only [Prog.run, Prog.bind]
      generalize h.resp _ w = r1
      obtain ⟨_ | _ | n, s1⟩ := r1 <;> simp only [Prog.run, Prog.bind]
      · simp
      · simp
      by_cases hn : n = 0
      · simp [hn, Prog.run]
      cases o with
      | none => simp [hn, Prog.run, Prog.bind]
      | some u =>
        simp [hn, Prog.run, Prog.bind, Redis.afterWrites, RedisCache.Delete, Redis.del_apply]
  · intro o input
    simp only [ItemRepo.UpdateOneById, Prog.perform, Prog.bind_eq, Prog.pure_eq, Prog.bind,
      Prog.run]
    cases ItemRepo.buildUpdate id input with
    | none => simp [Prog.run]
    | some qa =>
      simp only [Prog.run, Prog.bind]
      generalize h.resp _ w = r1
      obtain ⟨_ | _ | n, s1⟩ := r1 <;> simp only [Prog.run, Prog.bind]
      · simp
      · simp
      by_cases hn : n = 0
      · simp [hn, Prog.run]
      cases o with
      | none => simp [hn, Prog.run, Prog.bind]
      | some u =>
        simp [hn, Prog.run, Prog.bind, Redis.afterWrites, RedisCache.Delete, Redis.del_apply]
  · intro o
    simp only [ListRepo.DeleteOneById, Prog.perform, Prog.bind_eq, Prog.pure_eq, Prog.bind,
      Prog.run]
    generalize h.resp _ w = r1
    obtain ⟨_ | _ | n, s1⟩ := r1 <;> simp only [Prog.run, Prog.bind]
    · simp
    · simp
    by_cases hn : n = 0
    · simp [hn, Prog.run]
    cases o with
    | none =>
      simp [hn, Prog.run, Prog.bind, Redis.afterWrites, RedisCache.Delete, Redis.del_apply]
      intro key hk
      simp [hk]
    | some u =>
      simp [hn, Prog.run, Prog.bind, Redis.afterWrites, RedisCache.Delete, Redis.del_apply]
  · intro o
    simp only [ItemRepo.DeleteOneById, Prog.perform, Prog.bind_eq, Prog.pure_eq, Prog.bind,
      Prog.run]
    generalize h.resp _ w = r1
    obtain ⟨_ | _ | n, s1⟩ := r1 <;> simp only [Prog.run, Prog.bind]
    · simp
    · simp
    by_cases hn : n = 0
    · simp [hn, Prog.run]
    cases o with
    | none =>
      simp [hn, Prog.run, Prog.bind, Redis.afterWrites, RedisCache.Delete, Redis.del_apply]
      intro key hk
      simp [hk]
    | some u =>
      simp [hn, Prog.run, Prog.bind, Redis.afterWrites, RedisCache.Delete, Redis.del_apply]

/-- Witness of C1 (amended): user 1 deletes their list 1 in the world where
`user_lists:1` is cached. -/
theorem mutation_invalidates_passed_keys_witness :
    ((ListRepo.DeleteOneById (some 1) 1).run (World.handler Postgres.handler)
        World.groceries).result = some none ∧
    ((ListRepo.DeleteOneById (some 1) 1).run (World.handler Postgres.handler)
        World.groceries).state.master "list_by_id:1" = none ∧
    ((ListRepo.DeleteOneById (some 1) 1).run (World.handler Postgres.handler)
        World.groceries).state.master "user_lists:1" = none :=
  ⟨by decide,
   ((mutation_invalidates_passed_keys Postgres.handler World.groceries 1 1).2.2.2.2.1 (some 1)
      (by decide)).1,
   ((mutation_invalidates_passed_keys Postgres.handler World.groceries 1 1).2.2.2.2.1 (some 1)
      (by decide)).2.1 1 rfl⟩

/-! ## C2 -/

/-- C2 as stated fails: from an empty store and cache, user 1 creates a list,
reads all their lists (which caches them), and the list is deleted with a nil
owner.  The next GetAllUserLists for user 1 is answered from the cache and
returns the deleted list, while the same read from the store returns no
list. -/
theorem stale_collection_after_admin_delete :
    World.Reachable (fun _ _ => True) Postgres.empty
      ((Op.ListDeleteOneById none 1).step World.groceries) ∧
    ((ListRepo.GetAllUserLists 1).run (World.handler Postgres.handler)
        ((Op.ListDeleteOneById none 1).step World.groceries)).trace
      = [.cacheGet .Replica "user_lists:1" .lists []] ∧
    ((ListRepo.GetAllUserLists 1).run (World.handler Postgres.handler)
        ((Op.ListDeleteOneById none 1).step World.groceries)).result
      = some (some [⟨1, "Groceries", ""⟩], none) ∧
    ((ListRepo.GetAllUserLists 1).run (World.handler Postgres.handler)
        ((Op.ListDeleteOneById none 1).step World.groceries).cold).result
      = some (some [], none) :=
  ⟨.step _ _ (.step _ _ (.step _ _ .init trivial) trivial) trivial, rfl, by decide, by decide⟩

/-- C2 (amended): take a store with referential integrity and an empty cache,
let the replica mirror the master after every operation, and apply any sequence
of ListRepo / ItemRepo operations in which every update or delete is given the
only owner of the entity (never nil for an update), a deleted list holds no
item, and items are created with `Done` false (`Op.Owned`).  In every world so
reached, a GetOneById, GetAllUserLists or GetAllListItems whose key the
replica holds makes the replica `Get` as its only call and returns what the
same call returns on a cold cache, that is, from the store. -/
theorem cached_reads_match_store (db0 : Postgres) (h0 : db0.tables.Integrity)
    (w : World Postgres) (hw : World.Reachable Op.Owned db0 w) (id : Int) :
    (w.replica (Sprintf cacheKeyListById.Pattern id) ≠ none →
      ((ListRepo.GetOneById id).run (World.handler Postgres.handler) w).trace
        = [.cacheGet .Replica (Sprintf cacheKeyListById.Pattern id) .list entity.List.zero] ∧
      ((ListRepo.GetOneById id).run (World.handler Postgres.handler) w).result
        = ((ListRepo.GetOneById id).run (World.handler Postgres.handler) w.cold).result) ∧
    (w.replica (Sprintf cacheKeyUserLists.Pattern id) ≠ none →
      ((ListRepo.GetAllUserLists id).run (World.handler Postgres.handler) w).trace
        = [.cacheGet .Replica (Sprintf cacheKeyUserLists.Pattern id) .lists []] ∧
      ((ListRepo.GetAllUserLists id).run (World.handler Postgres.handler) w).result
        = ((ListRepo.GetAllUserLists id).run (World.handler Postgres.handler) w.cold).result) ∧
    (w.replica (Sprintf cacheKeyItemById.Pattern id) ≠ none →
      ((ItemRepo.GetOneById id).run (World.handler Postgres.handler) w).trace
        = [.cacheGet .Replica (Sprintf cacheKeyItemById.Pattern id) .item entity.Item.zero] ∧
      ((ItemRepo.GetOneById id).run (World.handler Postgres.handler) w).result
        = ((ItemRepo.GetOneById id).run (World.handler Postgres.handler) w.cold).result) ∧
    (w.replica (Sprintf cacheKeyListItems.Pattern id) ≠ none →
      ((ItemRepo.GetAllListItems id).run (World.handler Postgres.handler) w).trace
        = [.cacheGet .Replica (Sprintf cacheKeyListItems.Pattern id) .items []] ∧
      ((ItemRepo.GetAllListItems id).run (World.handler Postgres.handler) w).result
        = ((ItemRepo.GetAllListItems id).run (World.handler Postgres.handler) w.cold).result) := by
  obtain ⟨hrep, _, hc⟩ := consistent_of_reachable db0 h0 w hw
  rw [hrep]
  refine ⟨?_, ?_, ?_, ?_⟩ <;> intro hne
  · cases hm : w.master (Sprintf cacheKeyListById.Pattern id) with
    | none => exact absurd hm hne
    | some doc =>
      obtain ⟨l, rfl, hl⟩ := hc.listById id doc hm
      simp [ListRepo.GetOneById, Prog.perform, Prog.bind_eq, Prog.pure_eq, Prog.bind, Prog.run,
        World.resp_cacheGet, World.node, RedisCache.Get, hrep, hm, json.Unmarshal, World.cold,
        Redis.empty, World.resp_queryRow, Postgres.queryRow_listGetOneById, hl]
  · cases hm : w.master (Sprintf cacheKeyUserLists.Pattern id) with
    | none => exact absurd hm hne
    | some doc =>
      obtain rfl := hc.userLists id doc hm
      simp [ListRepo.GetAllUserLists, Prog.perform, Prog.bind_eq, Prog.pure_eq, Prog.bind,
        Prog.run, World.resp_cacheGet, World.node, RedisCache.Get, hrep, hm, json.Unmarshal,
        World.cold, Redis.empty, World.resp_query, Postgres.query_getAllUserLists, scanAll_nil]
  · cases hm : w.master (Sprintf cacheKeyItemById.Pattern id) with
    | none => exact absurd hm hne
    | some doc =>
      obtain ⟨l, rfl, hl⟩ := hc.itemById id doc hm
      simp [ItemRepo.GetOneById, Prog.perform, Prog.bind_eq, Prog.pure_eq, Prog.bind, Prog.run,
        World.resp_cacheGet, World.node, RedisCache.Get, hrep, hm, json.Unmarshal, World.cold,
        Redis.empty, World.resp_queryRow, Postgres.queryRow_itemGetOneById, hl]
  · cases hm : w.master (Sprintf cacheKeyListItems.Pattern id) with
    | none => exact absurd hm hne
    | some doc =>
      obtain rfl := hc.listItems id doc hm
      simp [ItemRepo.GetAllListItems, Prog.perform, Prog.bind_eq, Prog.pure_eq, Prog.bind,
        Prog.run, World.resp_cacheGet, World.node, RedisCache.Get, hrep, hm, json.Unmarshal,
        World.cold, Redis.empty, World.resp_query, Postgres.query_getAllListItems, scanAll_nil]

/-- Witness of C2 (amended): after user 1 has created list 1, renamed it to
`Food` and read it, the cached read of list 1 returns the renamed row. -/
theorem cached_reads_match_store_witness :
    World.renamed.replica "list_by_id:1" = some (.list ⟨1, "Food", ""⟩) ∧
    ((ListRepo.GetOneById 1).run (World.handler Postgres.handler) World.renamed).trace
      = [.cacheGet .Replica "list_by_id:1" .list entity.List.zero] ∧
    ((ListRepo.GetOneById 1).run (World.handler Postgres.handler) World.renamed).result
      = ((ListRepo.GetOneById 1).run (World.handler Postgres.handler) World.renamed.cold).result :=
  ⟨by decide,
   (cached_reads_match_store Postgres.empty ⟨by simp [Postgres.empty], by simp [Postgres.empty]⟩
      World.renamed
      (.step _ _ (.step _ _ (.step _ _ (.step _ _ .init trivial) trivial)
        ⟨1, rfl, by decide⟩) trivial)
      1).1 (by decide)⟩
/-! ## C3 -/

/-- C3: GetOneById of both repositories is cache-aside on the key
`list_by_id:{id}` / `item_by_id:{id}`.  When the replica answers a hit, the
cached entity is returned and the replica `Get` is the only call.  When it
answers a miss, the store is queried next; `sql.ErrNoRows` gives
ErrListNotFound / ErrItemNotFound and no further call (no cache write), and a
found row is returned after one `Set` of that row on the master under the same
key with a TTL of five minutes. -/
theorem getOneById_cache_aside {σ : Type} (h : Handler σ) (s : σ) (id : Int) :
    (let key := Sprintf cacheKeyListById.Pattern id
     let get := Call.cacheGet .Replica key .list entity.List.zero
     let g := h.answer get s
     let sel := Call.queryRow "SELECT id, title, description FROM lists WHERE id = $1"
       [.int id] .list g.dest
     let q := h.answer sel (h.after get s)
     let r := (ListRepo.GetOneById id).run h s
     key = "list_by_id:" ++ toString id ∧
     (g.err = none → g.found = true → r.result = some (g.dest, none) ∧ r.trace = [get]) ∧
     (g.err = none → g.found = false → q.err = some .sqlErrNoRows →
        r.result = some (q.dest, some .ErrListNotFound) ∧ r.trace = [get, sel]) ∧
     (g.err = none → g.found = false → q.err = none →
        r.result = some (q.dest, none) ∧
        r.trace = [get, sel, .cacheSet .Master key .list q.dest (5 * 60 * 1000000000)])) ∧
    (let key := Sprintf cacheKeyItemById.Pattern id
     let get := Call.cacheGet .Replica key .item entity.Item.zero
     let g := h.answer get s
     let sel := Call.queryRow "SELECT id, title, description, done FROM items WHERE id = $1"
       [.int id] .item g.dest
     let q := h.answer sel (h.after get s)
     let r := (ItemRepo.GetOneById id).run h s
     key = "item_by_id:" ++ toString id ∧
     (g.err = none → g.found = true → r.result = some (g.dest, none) ∧ r.trace = [get]) ∧
     (g.err = none → g.found = false → q.err = some .sqlErrNoRows →
        r.result = some (q.dest, some .ErrItemNotFound) ∧ r.trace = [get, sel]) ∧
     (g.err = none → g.found = false → q.err = none →
        r.result = some (q.dest, none) ∧
        r.trace = [get, sel, .cacheSet .Master key .item q.dest (5 * 60 * 1000000000)])) := by
  constructor
  · refine ⟨Sprintf_listById id, ?_⟩
    simp only [ListRepo.GetOneById, Prog.perform, Prog.bind_eq, Prog.pure_eq, Prog.bind, Prog.run,
      Handler.answer, Handler.after, cacheKeyListById, ListRepo.sqlGetOneById, ListsTable,
      time.Minute]
    generalize Sprintf patternListById id = key
    refine ⟨?_, ?_, ?_⟩ <;> intros <;> simp_all [Prog.run]
  · refine ⟨Sprintf_itemById id, ?_⟩
    simp only [ItemRepo.GetOneById, Prog.perform, Prog.bind_eq, Prog.pure_eq, Prog.bind, Prog.run,
      Handler.answer, Handler.after, cacheKeyItemById, ItemRepo.sqlGetOneById, ItemsTable,
      time.Minute]
    generalize Sprintf patternItemById id = key
    refine ⟨?_, ?_, ?_⟩ <;> intros <;> simp_all [Prog.run]

/-- Witness of C3: a replica hit on list 5. -/
theorem getOneById_cache_aside_witness :
    ((ListRepo.GetOneById 5).run Mock.hitList.handler ()).result
        = some (⟨5, "Groceries", "weekly"⟩, none) ∧
    ((ListRepo.GetOneById 5).run Mock.hitList.handler ()).trace
        = [.cacheGet .Replica (Sprintf cacheKeyListById.Pattern 5) .list entity.List.zero] :=
  (getOneById_cache_aside Mock.hitList.handler () 5).1.2.1 rfl rfl

/-! ## C4 -/

/-- C4: GetAllUserLists and GetAllListItems are cache-aside on the key
`user_lists:{userId}` / `list_items:{listId}`.  A replica hit is returned with
no other call.  On a miss (absent key, destination untouched) the store is
queried next: rows that all scan are returned in row order as a non-nil slice,
empty when there are none, after one `Set` of that slice on the master under
the same key with a TTL of five minutes; a failing query, a failing scan or a
failing row iteration gives a nil slice with that error and no further call. -/
theorem getAll_cache_aside {σ : Type} (h : Handler σ) (s : σ) (id : Int) :
    (let key := Sprintf cacheKeyUserLists.Pattern id
     let get := Call.cacheGet .Replica key .lists []
     let g := h.answer get s
     let sel := Call.query ListRepo.sqlGetAllUserLists [.int id] .list
     let q := h.answer sel (h.after get s)
     let r := (ListRepo.GetAllUserLists id).run h s
     key = "user_lists:" ++ toString id ∧
     (g.err = none → g.found = true → r.result = some (some g.dest, none) ∧ r.trace = [get]) ∧
     (g.err = none → g.found = false → g.dest = [] →
        (∀ rows : List entity.List, q = .ok ⟨rows.map .ok, none⟩ →
          r.result = some (some rows, none) ∧
          r.trace = [get, sel, .cacheSet .Master key .lists rows (5 * 60 * 1000000000)]) ∧
        (∀ e, q = .error e → r.result = some (none, some e) ∧ r.trace = [get, sel]) ∧
        (∀ (pre : List entity.List) e rest ie, q = .ok ⟨pre.map .ok ++ .error e :: rest, ie⟩ →
          r.result = some (none, some e) ∧ r.trace = [get, sel]) ∧
        (∀ (rows : List entity.List) e, q = .ok ⟨rows.map .ok, some e⟩ →
          r.result = some (none, some e) ∧ r.trace = [get, sel]))) ∧
    (let key := Sprintf cacheKeyListItems.Pattern id
     let get := Call.cacheGet .Replica key .items []
     let g := h.answer get s
     let sel := Call.query ItemRepo.sqlGetAllListItems [.int id] .item
     let q := h.answer sel (h.after get s)
     let r := (ItemRepo.GetAllListItems id).run h s
     key = "list_items:" ++ toString id ∧
     (g.err = none → g.found = true → r.result = some (some g.dest, none) ∧ r.trace = [get]) ∧
     (g.err = none → g.found = false → g.dest = [] →
        (∀ rows : List entity.Item, q = .ok ⟨rows.map .ok, none⟩ →
          r.result = some (some rows, none) ∧
          r.trace = [get, sel, .cacheSet .Master key .items rows (5 * 60 * 1000000000)]) ∧
        (∀ e, q = .error e → r.result = some (none, some e) ∧ r.trace = [get, sel]) ∧
        (∀ (pre : List entity.Item) e rest ie, q = .ok ⟨pre.map .ok ++ .error e :: rest, ie⟩ →
          r.result = some (none, some e) ∧ r.trace = [get, sel]) ∧
        (∀ (rows : List entity.Item) e, q = .ok ⟨rows.map .ok, some e⟩ →
          r.result = some (none, some e) ∧ r.trace = [get, sel]))) := by
  constructor
  · refine ⟨Sprintf_userLists id, ?_⟩
    simp only [ListRepo.GetAllUserLists, Prog.perform, Prog.bind_eq, Prog.pure_eq, Prog.bind,
      Prog.run, Handler.answer, Handler.after, cacheKeyUserLists, time.Minute]
    generalize Sprintf patternUserLists id = key
    refine ⟨?_, ?_⟩
    · intros; simp_all [Prog.run]
    · intro hg hf hd
      refine ⟨?_, ?_, ?_, ?_⟩ <;> intros <;>
        simp_all [Prog.run, Prog.bind, scanAll_ok, scanAll_error]
  · refine ⟨Sprintf_listItems id, ?_⟩
    simp only [ItemRepo.GetAllListItems, Prog.perform, Prog.bind_eq, Prog.pure_eq, Prog.bind,
      Prog.run, Handler.answer, Handler.after, cacheKeyListItems, time.Minute]
    generalize Sprintf patternListItems id = key
    refine ⟨?_, ?_⟩
    · intros; simp_all [Prog.run]
    · intro hg hf hd
      refine ⟨?_, ?_, ?_, ?_⟩ <;> intros <;>
        simp_all [Prog.run, Prog.bind, scanAll_ok, scanAll_error]

/-- Witness of C4: on a miss, an owner without rows gets an empty non-nil
slice, which is cached. -/
theorem getAll_cache_aside_witness :
    ((ListRepo.GetAllUserLists 123).run Mock.quiet.handler ()).result = some (some [], none) ∧
    ((ListRepo.GetAllUserLists 123).run Mock.quiet.handler ()).trace
      = [.cacheGet .Replica (Sprintf cacheKeyUserLists.Pattern 123) .lists [],
         .query ListRepo.sqlGetAllUserLists [.int 123] .list,
         .cacheSet .Master (Sprintf cacheKeyUserLists.Pattern 123) .lists []
           (5 * 60 * 1000000000)] :=
  ((getAll_cache_aside Mock.quiet.handler () 123).1.2.2 rfl rfl rfl).1 [] rfl

/-! ## C5 -/

/-- C5: when the UPDATE or DELETE statement reports zero affected rows,
UpdateOneById (with at least one field set, so that a statement is built) and
DeleteOneById return ErrListNotFound / ErrItemNotFound and the statement is the
only call made: no cache `Set` or `Delete`.  This holds for every owner
argument, nil included. -/
theorem zero_rows_not_found {σ : Type} (h : Handler σ) (s : σ) (owner : Option Int) (id : Int) :
    (∀ input : entity.UpdateListInput, input.Title ≠ none ∨ input.Description ≠ none →
      ∃ query args, ListRepo.buildUpdate id input = some (query, args) ∧
        (h.answer (.exec query args) s = .ok (.ok 0) →
          ((ListRepo.UpdateOneById owner id input).run h s).result = some (some .ErrListNotFound) ∧
          ((ListRepo.UpdateOneById owner id input).run h s).trace = [.exec query args])) ∧
    (∀ input : entity.UpdateItemInput,
      input.Title ≠ none ∨ input.Description ≠ none ∨ input.Done ≠ none →
      ∃ query args, ItemRepo.buildUpdate id input = some (query, args) ∧
        (h.answer (.exec query args) s = .ok (.ok 0) →
          ((ItemRepo.UpdateOneById owner id input).run h s).result = some (some .ErrItemNotFound) ∧
          ((ItemRepo.UpdateOneById owner id input).run h s).trace = [.exec query args])) ∧
    (h.answer (.exec "DELETE FROM lists WHERE id = $1" [.int id]) s = .ok (.ok 0) →
      ((ListRepo.DeleteOneById owner id).run h s).result = some (some .ErrListNotFound) ∧
      ((ListRepo.DeleteOneById owner id).run h s).trace
        = [.exec "DELETE FROM lists WHERE id = $1" [.int id]]) ∧
    (h.answer (.exec "DELETE FROM items WHERE id = $1" [.int id]) s = .ok (.ok 0) →
      ((ItemRepo.DeleteOneById owner id).run h s).result = some (some .ErrItemNotFound) ∧
      ((ItemRepo.DeleteOneById owner id).run h s).trace
        = [.exec "DELETE FROM items WHERE id = $1" [.int id]]) := by
  refine ⟨?_, ?_, ?_, ?_⟩
  · intro input hne
    cases hb : ListRepo.buildUpdate id input with
    | none =>
      exfalso
      rcases input with ⟨_ | t, _ | d⟩ <;> simp_all [ListRepo.buildUpdate, Id.run]
    | some qa =>
      obtain ⟨query, args⟩ := qa
      refine ⟨query, args, rfl, fun hz => ?_⟩
      simp only [ListRepo.UpdateOneById, hb, Prog.perform, Prog.bind_eq, Prog.pure_eq, Prog.bind,
        Prog.run, Handler.answer] at hz ⊢
      simp [hz, Prog.bind, Prog.run]
  · intro input hne
    cases hb : ItemRepo.buildUpdate id input with
    | none =>
      exfalso
      rcases input with ⟨_ | t, _ | d, _ | dn⟩ <;> simp_all [ItemRepo.buildUpdate, Id.run]
    | some qa =>
      obtain ⟨query, args⟩ := qa
      refine ⟨query, args, rfl, fun hz => ?_⟩
      simp only [ItemRepo.UpdateOneById, hb, Prog.perform, Prog.bind_eq, Prog.pure_eq, Prog.bind,
        Prog.run, Handler.answer] at hz ⊢
      simp [hz, Prog.bind, Prog.run]
  · intro hz
    simp only [ListRepo.DeleteOneById, ListRepo.sqlDeleteOneById, ListsTable, Prog.perform,
      Prog.bind_eq, Prog.pure_eq, Prog.bind, Prog.run, Handler.answer] at hz ⊢
    simp [hz, Prog.bind, Prog.run]
  · intro hz
    simp only [ItemRepo.DeleteOneById, ItemRepo.sqlDeleteOneById, ItemsTable, Prog.perform,
      Prog.bind_eq, Prog.pure_eq, Prog.bind, Prog.run, Handler.answer] at hz ⊢
    simp [hz, Prog.bind, Prog.run]

/-- Witness of C5: deleting the absent list 999. -/
theorem zero_rows_not_found_witness :
    ((ListRepo.DeleteOneById (some 2) 999).run Mock.zeroRows.handler ()).result
      = some (some .ErrListNotFound) ∧
    ((ListRepo.DeleteOneById (some 2) 999).run Mock.zeroRows.handler ()).trace
      = [.exec "DELETE FROM lists WHERE id = $1" [.int 999]] :=
  (zero_rows_not_found Mock.zeroRows.handler () (some 2) 999).2.2.1 rfl

/-! ## C6 -/

/-- C6: for every id and owner argument (nil included), UpdateOneById of both
repositories called with an input whose optional fields are all nil returns
the empty-update error, which in both repositories is the value
ErrItemEmptyRequest, and makes no call at all: no relational statement and no
cache call. -/
theorem empty_update_rejected {σ : Type} (h : Handler σ) (s : σ) (owner : Option Int)
    (id : Int) :
    ((ListRepo.UpdateOneById owner id ⟨none, none⟩).run h s).result
      = some (some .ErrItemEmptyRequest) ∧
    ((ListRepo.UpdateOneById owner id ⟨none, none⟩).run h s).trace = [] ∧
    ((ListRepo.UpdateOneById owner id ⟨none, none⟩).run h s).state = s ∧
    ((ItemRepo.UpdateOneById owner id ⟨none, none, none⟩).run h s).result
      = some (some .ErrItemEmptyRequest) ∧
    ((ItemRepo.UpdateOneById owner id ⟨none, none, none⟩).run h s).trace = [] ∧
    ((ItemRepo.UpdateOneById owner id ⟨none, none, none⟩).run h s).state = s := by
  simp [ListRepo.UpdateOneById, ListRepo.buildUpdate, ItemRepo.UpdateOneById,
    ItemRepo.buildUpdate, Id.run, Prog.pure_eq, Prog.run]

/-! ## C7 -/

/-- C7: a CreateUserList / CreateListItem whose transaction fails returns id 0
with the error of the failing step and makes no cache call.  The calls made
are: `BeginTx` alone when it fails; `BeginTx`, the entity insert and `Rollback`
when the entity insert fails; `BeginTx`, both inserts and `Rollback` when the
ownership-join insert fails; `BeginTx`, both inserts and `Commit` when the
commit fails.  The caller's entity is left as it was. -/
theorem create_failure_no_cache {σ : Type} (h : Handler σ) (s : σ) (owner : Int)
    (list : entity.List) (item : entity.Item) (e : Err) :
    (let ins := Call.txQueryRow ListRepo.sqlInsertList [.str list.Title, .str list.Description]
       .int 0
     let s1 := h.after .beginTx s
     let i := h.answer ins s1
     let s2 := h.after ins s1
     let link := Call.txExec ListRepo.sqlLinkUser [.int owner, .int i.dest]
     let s3 := h.after link s2
     let r := (ListRepo.CreateUserList owner list).run h s
     (h.answer .beginTx s = some e → r.result = some ((0, some e), list) ∧ r.trace = [.beginTx]) ∧
     (h.answer .beginTx s = none → i.err = some e →
        r.result = some ((0, some e), list) ∧ r.trace = [.beginTx, ins, .txRollback]) ∧
     (h.answer .beginTx s = none → i.err = none → h.answer link s2 = some e →
        r.result = some ((0, some e), list) ∧ r.trace = [.beginTx, ins, link, .txRollback]) ∧
     (h.answer .beginTx s = none → i.err = none → h.answer link s2 = none →
        h.answer .txCommit s3 = some e →
        r.result = some ((0, some e), list) ∧ r.trace = [.beginTx, ins, link, .txCommit])) ∧
    (let ins := Call.txQueryRow ItemRepo.sqlInsertItem [.str item.Title, .str item.Description]
       .int 0
     let s1 := h.after .beginTx s
     let i := h.answer ins s1
     let s2 := h.after ins s1
     let link := Call.txExec ItemRepo.sqlLinkList [.int owner, .int i.dest]
     let s3 := h.after link s2
     let r := (ItemRepo.CreateListItem owner item).run h s
     (h.answer .beginTx s = some e → r.result = some ((0, some e), item) ∧ r.trace = [.beginTx]) ∧
     (h.answer .beginTx s = none → i.err = some e →
        r.result = some ((0, some e), item) ∧ r.trace = [.beginTx, ins, .txRollback]) ∧
     (h.answer .beginTx s = none → i.err = none → h.answer link s2 = some e →
        r.result = some ((0, some e), item) ∧ r.trace = [.beginTx, ins, link, .txRollback]) ∧
     (h.answer .beginTx s = none → i.err = none → h.answer link s2 = none →
        h.answer .txCommit s3 = some e →
        r.result = some ((0, some e), item) ∧ r.trace = [.beginTx, ins, link, .txCommit])) := by
  constructor
  · simp only [ListRepo.CreateUserList, Prog.perform, Prog.bind_eq, Prog.pure_eq, Prog.bind,
      Prog.run, Handler.answer, Handler.after]
    refine ⟨?_, ?_, ?_, ?_⟩ <;> intros <;> simp_all [Prog.run, Prog.bind]
  · simp only [ItemRepo.CreateListItem, Prog.perform, Prog.bind_eq, Prog.pure_eq, Prog.bind,
      Prog.run, Handler.answer, Handler.after]
    refine ⟨?_, ?_, ?_, ?_⟩ <;> intros <;> simp_all [Prog.run, Prog.bind]

/-- Witness of C7: the ownership-join insert fails. -/
theorem create_failure_no_cache_witness :
    ((ListRepo.CreateUserList 123 ⟨0, "Grocery List", "A list of groceries"⟩).run
        Mock.linkFails.handler ()).result
      = some ((0, some (.other "sql: transaction has already been committed or rolled back")),
          ⟨0, "Grocery List", "A list of groceries"⟩) ∧
    ((ListRepo.CreateUserList 123 ⟨0, "Grocery List", "A list of groceries"⟩).run
        Mock.linkFails.handler ()).trace
      = [.beginTx,
         .txQueryRow ListRepo.sqlInsertList [.str "Grocery List", .str "A list of groceries"] .int 0,
         .txExec ListRepo.sqlLinkUser [.int 123, .int 1],
         .txRollback] :=
  (create_failure_no_cache Mock.linkFails.handler () 123 ⟨0, "Grocery List", "A list of groceries"⟩
    entity.Item.zero (.other "sql: transaction has already been committed or rolled back")).1.2.2.1
    rfl rfl rfl

/-! ## C8 -/

/-- C8: a CreateUserList / CreateListItem whose transaction commits returns the
id the entity insert generated and no error, has assigned that id to the
caller's entity, and after `Commit` makes exactly two calls, both on the
master: `Set` of the entity (with its new id) under `list_by_id:{id}` /
`item_by_id:{id}` with a TTL of five minutes, then `Delete` of
`user_lists:{userId}` / `list_items:{listId}`. -/
theorem create_commit_then_cache {σ : Type} (h : Handler σ) (s : σ) (owner : Int)
    (list : entity.List) (item : entity.Item) :
    (let ins := Call.txQueryRow ListRepo.sqlInsertList [.str list.Title, .str list.Description]
       .int 0
     let s1 := h.after .beginTx s
     let i := h.answer ins s1
     let s2 := h.after ins s1
     let link := Call.txExec ListRepo.sqlLinkUser [.int owner, .int i.dest]
     let s3 := h.after link s2
     let r := (ListRepo.CreateUserList owner list).run h s
     h.answer .beginTx s = none → i.err = none → h.answer link s2 = none →
     h.answer .txCommit s3 = none →
       r.result = some ((i.dest, none), { list with Id := i.dest }) ∧
       r.trace = [.beginTx, ins, link, .txCommit,
         .cacheSet .Master ("list_by_id:" ++ toString i.dest) .list { list with Id := i.dest }
           (5 * 60 * 1000000000),
         .cacheDelete .Master ("user_lists:" ++ toString owner)]) ∧
    (let ins := Call.txQueryRow ItemRepo.sqlInsertItem [.str item.Title, .str item.Description]
       .int 0
     let s1 := h.after .beginTx s
     let i := h.answer ins s1
     let s2 := h.after ins s1
     let link := Call.txExec ItemRepo.sqlLinkList [.int owner, .int i.dest]
     let s3 := h.after link s2
     let r := (ItemRepo.CreateListItem owner item).run h s
     h.answer .beginTx s = none → i.err = none → h.answer link s2 = none →
     h.answer .txCommit s3 = none →
       r.result = some ((i.dest, none), { item with Id := i.dest }) ∧
       r.trace = [.beginTx, ins, link, .txCommit,
         .cacheSet .Master ("item_by_id:" ++ toString i.dest) .item { item with Id := i.dest }
           (5 * 60 * 1000000000),
         .cacheDelete .Master ("list_items:" ++ toString owner)]) := by
  constructor
  · simp only [ListRepo.CreateUserList, Prog.perform, Prog.bind_eq, Prog.pure_eq, Prog.bind,
      Prog.run, Handler.answer, Handler.after, Sprintf_listById, Sprintf_userLists]
    intros
    simp_all [Prog.run, Prog.bind, cacheKeyListById, time.Minute]
    exact ⟨Sprintf_listById _, Sprintf_userLists _⟩
  · simp only [ItemRepo.CreateListItem, Prog.perform, Prog.bind_eq, Prog.pure_eq, Prog.bind,
      Prog.run, Handler.answer, Handler.after, Sprintf_itemById, Sprintf_listItems]
    intros
    simp_all [Prog.run, Prog.bind, cacheKeyItemById, time.Minute]
    exact ⟨Sprintf_itemById _, Sprintf_listItems _⟩

/-- Witness of C8: the `Success` case of TestCreateList. -/
theorem create_commit_then_cache_witness :
    ((ListRepo.CreateUserList 123 ⟨0, "Grocery List", "A list of groceries"⟩).run
        Mock.quiet.handler ()).result
      = some ((1, none), ⟨1, "Grocery List", "A list of groceries"⟩) ∧
    ((ListRepo.CreateUserList 123 ⟨0, "Grocery List", "A list of groceries"⟩).run
        Mock.quiet.handler ()).trace
      = [.beginTx,
         .txQueryRow ListRepo.sqlInsertList [.str "Grocery List", .str "A list of groceries"] .int 0,
         .txExec ListRepo.sqlLinkUser [.int 123, .int 1],
         .txCommit,
         .cacheSet .Master "list_by_id:1" .list ⟨1, "Grocery List", "A list of groceries"⟩
           (5 * 60 * 1000000000),
         .cacheDelete .Master "user_lists:123"] :=
  (create_commit_then_cache Mock.quiet.handler () 123 ⟨0, "Grocery List", "A list of groceries"⟩
    entity.Item.zero).1 rfl rfl rfl rfl

/-! ## C9 -/

/-- C9, at the failing input: the replica `Get` for `user_lists:1` fails on an
entry that decodes in part, the store has no list for user 1.
GetAllUserLists does not return the cache error, but it returns the two
half-decoded lists with a nil error and writes them to the master, whereas on
an absent key it returns the empty list: the destination the failed `Get` left
behind is reused by the fall-through to the store. -/
theorem get_error_differs_from_miss :
    ((ListRepo.GetAllUserLists 1).run Mock.halfDecoded.handler ()).result
      = some (some [⟨7, "x", ""⟩, ⟨0, "", ""⟩], none) ∧
    ((ListRepo.GetAllUserLists 1).run Mock.halfDecoded.handler ()).trace
      = [.cacheGet .Replica "user_lists:1" .lists [],
         .query ListRepo.sqlGetAllUserLists [.int 1] .list,
         .cacheSet .Master "user_lists:1" .lists [⟨7, "x", ""⟩, ⟨0, "", ""⟩]
           (5 * 60 * 1000000000)] ∧
    ((ListRepo.GetAllUserLists 1).run Mock.quiet.handler ()).result = some (some [], none) :=
  ⟨rfl, rfl, rfl⟩

/-! ## C10 -/

theorem Prog.Oblivious.run_eq {α σ τ : Type} {p : Prog α} (hp : p.Oblivious)
    (h1 : Handler σ) (h2 : Handler τ) (R : σ → τ → Prop)
    (hR : ∀ c a b, R a b → R (h1.after c a) (h2.after c b) ∧
      (c.isMasterWrite = false → h1.answer c a = h2.answer c b))
    (s1 : σ) (s2 : τ) (hs : R s1 s2) :
    (p.run h1 s1).result = (p.run h2 s2).result ∧ (p.run h1 s1).trace = (p.run h2 s2).trace := by
  induction hp generalizing s1 s2 with
  | ret a => simp [Prog.run]
  | panic => simp [Prog.run]
  | call c k hk hw ih =>
    simp only [Prog.run]
    obtain ⟨hR1, hR2⟩ := hR c s1 s2 hs
    have e : k (h1.resp c s1).1 = k (h2.resp c s2).1 := by
      cases hc : c.isMasterWrite with
      | true => exact hw hc _ _
      | false => exact congrArg k (hR2 hc)
    rw [e]
    have := ih (h2.resp c s2).1 (h1.resp c s1).2 (h2.resp c s2).2 hR1
    simp [this]

set_option maxHeartbeats 4000000 in
theorem Op.prog_oblivious (op : Op) : op.prog.Oblivious := by
  cases op with
  | CreateUserList u l =>
    simp only [Op.prog, ListRepo.CreateUserList, Prog.perform, Prog.bind_eq, Prog.pure_eq, Prog.bind]
    repeat (first
      | exact .ret _
      | exact .panic
      | refine .call _ _ (fun r => ?_) (by simp [Call.isMasterWrite])
      | split)
  | GetAllUserLists u =>
    simp only [Op.prog, ListRepo.GetAllUserLists, Prog.perform, Prog.bind_eq, Prog.pure_eq, Prog.bind]
    repeat (first
      | exact .ret _
      | exact .panic
      | refine .call _ _ (fun r => ?_) (by simp [Call.isMasterWrite])
      | split)
  | ListGetOneById i =>
    simp only [Op.prog, ListRepo.GetOneById, Prog.perform, Prog.bind_eq, Prog.pure_eq, Prog.bind]
    repeat (first
      | exact .ret _
      | exact .panic
      | refine .call _ _ (fun r => ?_) (by simp [Call.isMasterWrite])
      | split)
  | ListGetManyByIds is =>
    simp only [Op.prog, ListRepo.GetManyByIds, Prog.perform, Prog.bind_eq, Prog.pure_eq, Prog.bind]
    repeat (first
      | exact .ret _
      | exact .panic
      | refine .call _ _ (fun r => ?_) (by simp [Call.isMasterWrite])
      | split)
  | ListUpdateOneById u i x =>
    simp only [Op.prog, ListRepo.UpdateOneById, Prog.perform, Prog.bind_eq, Prog.pure_eq, Prog.bind]
    repeat (first
      | exact .ret _
      | exact .panic
      | refine .call _ _ (fun r => ?_) (by simp [Call.isMasterWrite])
      | split)
  | ListDeleteOneById u i =>
    simp only [Op.prog, ListRepo.DeleteOneById, Prog.perform, Prog.bind_eq, Prog.pure_eq, Prog.bind]
    repeat (first
      | exact .ret _
      | exact .panic
      | refine .call _ _ (fun r => ?_) (by simp [Call.isMasterWrite])
      | split)
  | IsUserOwnerOfList u i =>
    simp only [Op.prog, ListRepo.IsUserOwnerOfList, Prog.perform, Prog.bind_eq, Prog.pure_eq, Prog.bind]
    repeat (first
      | exact .ret _
      | exact .panic
      | refine .call _ _ (fun r => ?_) (by simp [Call.isMasterWrite])
      | split)
  | CreateListItem u l =>
    simp only [Op.prog, ItemRepo.CreateListItem, Prog.perform, Prog.bind_eq, Prog.pure_eq, Prog.bind]
    repeat (first
      | exact .ret _
      | exact .panic
      | refine .call _ _ (fun r => ?_) (by simp [Call.isMasterWrite])
      | split)
  | GetAllListItems u =>
    simp only [Op.prog, ItemRepo.GetAllListItems, Prog.perform, Prog.bind_eq, Prog.pure_eq, Prog.bind]
    repeat (first
      | exact .ret _
      | exact .panic
      | refine .call _ _ (fun r => ?_) (by simp [Call.isMasterWrite])
      | split)
  | ItemGetOneById i =>
    simp only [Op.prog, ItemRepo.GetOneById, Prog.perform, Prog.bind_eq, Prog.pure_eq, Prog.bind]
    repeat (first
      | exact .ret _
      | exact .panic
      | refine .call _ _ (fun r => ?_) (by simp [Call.isMasterWrite])
      | split)
  | ItemGetManyByIds is =>
    simp only [Op.prog, ItemRepo.GetManyByIds, Prog.perform, Prog.bind_eq, Prog.pure_eq, Prog.bind]
    repeat (first
      | exact .ret _
      | exact .panic
      | refine .call _ _ (fun r => ?_) (by simp [Call.isMasterWrite])
      | split)
  | ItemUpdateOneById u i x =>
    simp only [Op.prog, ItemRepo.UpdateOneById, Prog.perform, Prog.bind_eq, Prog.pure_eq, Prog.bind]
    repeat (first
      | exact .ret _
      | exact .panic
      | refine .call _ _ (fun r => ?_) (by simp [Call.isMasterWrite])
      | split)
  | ItemDeleteOneById u i =>
    simp only [Op.prog, ItemRepo.DeleteOneById, Prog.perform, Prog.bind_eq, Prog.pure_eq, Prog.bind]
    repeat (first
      | exact .ret _
      | exact .panic
      | refine .call _ _ (fun r => ?_) (by simp [Call.isMasterWrite])
      | split)
  | IsUserOwnerOfItem u i =>
    simp only [Op.prog, ItemRepo.IsUserOwnerOfItem, Prog.perform, Prog.bind_eq, Prog.pure_eq, Prog.bind]
    repeat (first
      | exact .ret _
      | exact .panic
      | refine .call _ _ (fun r => ?_) (by simp [Call.isMasterWrite])
      | split)

/-- C10: take any operation of ListRepo or ItemRepo and two sets of
collaborators whose states stay related by `R` along every call and which, in
related states, give the same answer to every call that is not a `Set` or
`Delete` on the master (to those they may answer differently, success on one
side and failure on the other).  Then the two runs return the same value and
error and make the same calls, relational statements included. -/
theorem result_independent_of_master_writes {σ τ : Type} (op : Op)
    (h1 : Handler σ) (h2 : Handler τ) (R : σ → τ → Prop)
    (hR : ∀ c a b, R a b → R (h1.after c a) (h2.after c b) ∧
      (c.isMasterWrite = false → h1.answer c a = h2.answer c b))
    (s1 : σ) (s2 : τ) (hs : R s1 s2) :
    (op.prog.run h1 s1).result = (op.prog.run h2 s2).result ∧
    (op.prog.run h1 s1).trace = (op.prog.run h2 s2).trace :=
  (Op.prog_oblivious op).run_eq h1 h2 R hR s1 s2 hs

/-- Witness of C10: creating a list with the master up and with the master
down. -/
theorem result_independent_of_master_writes_witness :
    ((Op.CreateUserList 123 ⟨0, "Grocery List", ""⟩).prog.run Mock.quiet.handler ()).result
      = ((Op.CreateUserList 123 ⟨0, "Grocery List", ""⟩).prog.run Mock.masterDown.handler ()).result ∧
    ((Op.CreateUserList 123 ⟨0, "Grocery List", ""⟩).prog.run Mock.quiet.handler ()).trace
      = ((Op.CreateUserList 123 ⟨0, "Grocery List", ""⟩).prog.run Mock.masterDown.handler ()).trace :=
  result_independent_of_master_writes (Op.CreateUserList 123 ⟨0, "Grocery List", ""⟩)
    Mock.quiet.handler Mock.masterDown.handler (fun _ _ => True)
    (fun c _ _ _ => ⟨trivial, by
      cases c with
      | cacheSet node key t v ttl => cases node <;> simp [Call.isMasterWrite]; rfl
      | cacheDelete node key => cases node <;> simp [Call.isMasterWrite]; rfl
      | _ => intro _; rfl⟩)
    () () trivial

/-! ## Call trees -/

theorem CallTree.pure_eq_ret {C : Type} {R : C → Type} {α : Type} (a : α) :
    (pure a : CallTree C R α) = CallTree.ret a := rfl

theorem CallTree.bind_eq_bind {C : Type} {R : C → Type} {α β : Type} (x : CallTree C R α)
    (f : α → CallTree C R β) : x >>= f = x.bind f := rfl

theorem Sprintf_d (n : Int) : Sprintf "%d" n = toString n := by
  apply String.ext
  simp [Sprintf, sprintfChars]

/-! ## The wiring -/

theorem wire_repo {σ τ β : Type} (repo : Handler σ)
    (client : CallTree.Handler esapi.Request esapi.Request.Resp τ)
    (producer : CallTree.Handler sarama.ProducerMessage sarama.ProducerMessage.Resp β)
    (op : Op) (d : Deployment σ τ β) :
    (wire repo client producer).resp (.repo op) d
      = ((op.prog.run repo d.world).result, { d with world := (op.prog.run repo d.world).state }) :=
  rfl

theorem wire_go {σ τ β : Type} (repo : Handler σ)
    (client : CallTree.Handler esapi.Request esapi.Request.Resp τ)
    (producer : CallTree.Handler sarama.ProducerMessage sarama.ProducerMessage.Resp β)
    (p : Publish) (d : Deployment σ τ β) :
    (wire repo client producer).resp (.go p) d
      = ((p.send.run producer d.broker).result,
         { d with broker := (p.send.run producer d.broker).state }) :=
  rfl

theorem Publish.send_run (p : Publish) (err : Option Err) (sent : List sarama.ProducerMessage) :
    (p.send.run (sarama.answering err) sent).result = some () ∧
    (p.send.run (sarama.answering err) sent).state = sent ++ p.sent := by
  cases p <;> cases err <;> exact ⟨rfl, rfl⟩

theorem wire_go_answering {σ τ : Type} (repo : Handler σ)
    (client : CallTree.Handler esapi.Request esapi.Request.Resp τ) (err : Option Err)
    (p : Publish) (d : Deployment σ τ (List sarama.ProducerMessage)) :
    (wire repo client (sarama.answering err)).resp (.go p) d
      = (some (), { d with broker := d.broker ++ p.sent }) := by
  rw [wire_go, (Publish.send_run p err d.broker).1, (Publish.send_run p err d.broker).2]

theorem wire_broker_independent {σ τ α : Type} (repo : Handler σ)
    (client : CallTree.Handler esapi.Request esapi.Request.Resp τ) (p : UseCase α)
    (e1 e2 : Option Err) (w : σ) (en : τ) (b1 b2 : List sarama.ProducerMessage) :
    (p.run (wire repo client (sarama.answering e1)) ⟨w, en, b1⟩).result
      = (p.run (wire repo client (sarama.answering e2)) ⟨w, en, b2⟩).result ∧
    (p.run (wire repo client (sarama.answering e1)) ⟨w, en, b1⟩).state.world
      = (p.run (wire repo client (sarama.answering e2)) ⟨w, en, b2⟩).state.world ∧
    (p.run (wire repo client (sarama.answering e1)) ⟨w, en, b1⟩).state.engine
      = (p.run (wire repo client (sarama.answering e2)) ⟨w, en, b2⟩).state.engine := by
  induction p generalizing w en b1 b2 with
  | ret a => exact ⟨rfl, rfl, rfl⟩
  | panic => exact ⟨rfl, rfl, rfl⟩
  | call c k ih =>
    cases c with
    | go q =>
      simp only [CallTree.run, wire_go_answering]
      exact ih () w en _ _
    | repo op =>
      simp only [CallTree.run, wire_repo]
      generalize op.prog.run repo w = r
      obtain ⟨_ | a, w1, t⟩ := r
      · exact ⟨rfl, rfl, rfl⟩
      · exact ih a w1 en b1 b2
    | ListSearchIds u t =>
      simp only [CallTree.run, wire]
      generalize (ListSearch.SearchIds u t).run client en = r
      obtain ⟨_ | a, en1, t⟩ := r
      · exact ⟨rfl, rfl, rfl⟩
      · exact ih a w en1 b1 b2
    | ListIndex u l =>
      simp only [CallTree.run, wire]
      generalize (ListSearch.Index u l).run client en = r
      obtain ⟨_ | a, en1, t⟩ := r
      · exact ⟨rfl, rfl, rfl⟩
      · exact ih a w en1 b1 b2
    | ListDelete i =>
      simp only [CallTree.run, wire]
      generalize (ListSearch.Delete i).run client en = r
      obtain ⟨_ | a, en1, t⟩ := r
      · exact ⟨rfl, rfl, rfl⟩
      · exact ih a w en1 b1 b2
    | ItemSearchIds u l dn t =>
      simp only [CallTree.run, wire]
      generalize (ItemSearch.SearchIds u l dn t).run client en = r
      obtain ⟨_ | a, en1, t⟩ := r
      · exact ⟨rfl, rfl, rfl⟩
      · exact ih a w en1 b1 b2
    | ItemIndex u l i =>
      simp only [CallTree.run, wire]
      generalize (ItemSearch.Index u l i).run client en = r
      obtain ⟨_ | a, en1, t⟩ := r
      · exact ⟨rfl, rfl, rfl⟩
      · exact ih a w en1 b1 b2
    | ItemDelete i =>
      simp only [CallTree.run, wire]
      generalize (ItemSearch.Delete i).run client en = r
      obtain ⟨_ | a, en1, t⟩ := r
      · exact ⟨rfl, rfl, rfl⟩
      · exact ih a w en1 b1 b2

/-! ## C11 -/

theorem Prog.Routed.trace {α σ : Type} {p : Prog α} (hp : p.Routed) (h : Handler σ) (s : σ) :
    ∀ c ∈ (p.run h s).trace, c.routed = true := by
  induction hp generalizing s with
  | ret a => simp [Prog.run]
  | panic => simp [Prog.run]
  | call c k hc hk ih =>
    intro d hd
    simp only [Prog.run, List.mem_cons] at hd
    rcases hd with rfl | hd
    · exact hc
    · exact ih _ _ d hd

theorem Redis.afterWrites_routed (trace : List Call) (r : Redis)
    (h : ∀ c ∈ trace, c.routed = true) : Redis.afterWrites .Replica trace r = r := by
  induction trace generalizing r with
  | nil => rfl
  | cons c rest ih =>
    have hc := h c (List.mem_cons_self _ _)
    have hr := fun r => ih r (fun d hd => h d (List.mem_cons_of_mem _ hd))
    cases c with
    | cacheSet node key t v ttl =>
      cases node
      · simpa [Redis.afterWrites] using hr r
      · simp [Call.routed] at hc
    | cacheDelete node key =>
      cases node
      · simpa [Redis.afterWrites] using hr r
      · simp [Call.routed] at hc
    | _ => simpa [Redis.afterWrites] using hr r

set_option maxHeartbeats 4000000 in
theorem Op.prog_routed (op : Op) : op.prog.Routed := by
  cases op <;>
    simp only [Op.prog, ListRepo.CreateUserList, ListRepo.GetAllUserLists, ListRepo.GetOneById,
      ListRepo.GetManyByIds, ListRepo.UpdateOneById, ListRepo.DeleteOneById,
      ListRepo.IsUserOwnerOfList, ItemRepo.CreateListItem, ItemRepo.GetAllListItems,
      ItemRepo.GetOneById, ItemRepo.GetManyByIds, ItemRepo.UpdateOneById, ItemRepo.DeleteOneById,
      ItemRepo.IsUserOwnerOfItem, Prog.perform, Prog.bind_eq, Prog.pure_eq, Prog.bind] <;>
    repeat (first
      | exact .ret _
      | exact .panic
      | refine .call _ _ rfl (fun r => ?_)
      | split)

/-- C11: whatever the collaborators answer, every cache call a ListRepo or
ItemRepo method makes is a `Get` on the replica or a `Set`/`Delete` on the
master (none of `Replica.Set`, `Replica.Delete`, `Master.Get` occurs in the
trace), and on a world of two Redis nodes and any store the replica holds after
the method what it held before. -/
theorem repository_leaves_replica_alone (op : Op) :
    (∀ (σ : Type) (h : Handler σ) (s : σ), ∀ c ∈ (op.prog.run h s).trace,
      (∀ key t dest, c ≠ .cacheGet .Master key t dest) ∧
      (∀ key t value ttl, c ≠ .cacheSet .Replica key t value ttl) ∧
      (∀ key, c ≠ .cacheDelete .Replica key)) ∧
    (∀ (σ : Type) (store : Handler σ) (w : World σ),
      (op.prog.run (World.handler store) w).state.replica = w.replica) := by
  refine ⟨fun σ h s c hc => ?_, fun σ store w => ?_⟩
  · have hr := (Op.prog_routed op).trace h s c hc
    refine ⟨?_, ?_, ?_⟩
    · rintro key t dest rfl
      simp [Call.routed] at hr
    · rintro key t value ttl rfl
      simp [Call.routed] at hr
    · rintro key rfl
      simp [Call.routed] at hr
  · have := World.run_node store op.prog w .Replica
    simp only [World.node] at this
    rw [this]
    exact Redis.afterWrites_routed _ _ ((Op.prog_routed op).trace _ _)

/-! ## C12 -/

/-- C12: IsUserOwnerOfList and IsUserOwnerOfItem make one call, `QueryRow` with
the ownership statement, and no cache call.  With `err` the error of that
query: the result is nil exactly when `err` is nil (a row was scanned); it is
ErrUserNotOwner when `err` is `sql.ErrNoRows`; any other `err` is returned as
it is, so ErrUserNotOwner is returned exactly when the query yields no rows or
hands back that very value.  ErrUserNotOwner differs from ErrListNotFound,
ErrItemNotFound and ErrUserNotFound, and on a world of two Redis nodes the
result is the same for all cache contents. -/
theorem ownership_check_bypasses_cache (userId id : Int) :
    (∀ (σ : Type) (h : Handler σ) (s : σ),
      (ListRepo.IsUserOwnerOfList userId id).run h s
        = ⟨some (match (h.answer (.queryRow ListRepo.sqlIsUserOwnerOfList
              [.int userId, .int id] .int 0) s).err with
            | none => none
            | some err => if err = .sqlErrNoRows then some .ErrUserNotOwner else some err),
           h.after (.queryRow ListRepo.sqlIsUserOwnerOfList [.int userId, .int id] .int 0) s,
           [.queryRow ListRepo.sqlIsUserOwnerOfList [.int userId, .int id] .int 0]⟩ ∧
      (ItemRepo.IsUserOwnerOfItem userId id).run h s
        = ⟨some (match (h.answer (.queryRow ItemRepo.sqlIsUserOwnerOfItem
              [.int userId, .int id] .int 0) s).err with
            | none => none
            | some err => if err = .sqlErrNoRows then some .ErrUserNotOwner else some err),
           h.after (.queryRow ItemRepo.sqlIsUserOwnerOfItem [.int userId, .int id] .int 0) s,
           [.queryRow ItemRepo.sqlIsUserOwnerOfItem [.int userId, .int id] .int 0]⟩) ∧
    (∀ err : Option Err,
      let result : Option Err := match err with
        | none => none
        | some err => if err = .sqlErrNoRows then some .ErrUserNotOwner else some err
      (result = none ↔ err = none) ∧
      (result = some .ErrUserNotOwner ↔ err = some .sqlErrNoRows ∨ err = some .ErrUserNotOwner) ∧
      (∀ e, err = some e → e ≠ .sqlErrNoRows → result = some e)) ∧
    (Err.ErrUserNotOwner ≠ .ErrListNotFound ∧ Err.ErrUserNotOwner ≠ .ErrItemNotFound ∧
      Err.ErrUserNotOwner ≠ .ErrUserNotFound) ∧
    (∀ (σ : Type) (store : Handler σ) (db : σ) (master replica master2 replica2 : Redis),
      ((ListRepo.IsUserOwnerOfList userId id).run (World.handler store)
          ⟨db, master, replica⟩).result
        = ((ListRepo.IsUserOwnerOfList userId id).run (World.handler store)
          ⟨db, master2, replica2⟩).result ∧
      ((ItemRepo.IsUserOwnerOfItem userId id).run (World.handler store)
          ⟨db, master, replica⟩).result
        = ((ItemRepo.IsUserOwnerOfItem userId id).run (World.handler store)
          ⟨db, master2, replica2⟩).result) := by
  refine ⟨fun σ h s => ⟨?_, ?_⟩, fun err => ?_, by decide, fun σ store db m r m2 r2 => ⟨?_, ?_⟩⟩
  · simp only [ListRepo.IsUserOwnerOfList, Prog.perform, Prog.bind_eq, Prog.pure_eq, Prog.bind,
      Prog.run, Handler.answer, Handler.after]
    generalize h.resp _ s = r
    obtain ⟨⟨d, _ | e⟩, s1⟩ := r
    · rfl
    · by_cases he : e = .sqlErrNoRows <;> simp [he, Prog.run]
  · simp only [ItemRepo.IsUserOwnerOfItem, Prog.perform, Prog.bind_eq, Prog.pure_eq, Prog.bind,
      Prog.run, Handler.answer, Handler.after]
    generalize h.resp _ s = r
    obtain ⟨⟨d, _ | e⟩, s1⟩ := r
    · rfl
    · by_cases he : e = .sqlErrNoRows <;> simp [he, Prog.run]
  · rcases err with _ | e
    · simp
    · by_cases he : e = .sqlErrNoRows
      · simp [he]
      · simp [he]
  · simp only [ListRepo.IsUserOwnerOfList, Prog.perform, Prog.bind_eq, Prog.pure_eq, Prog.bind,
      Prog.run, World.handler]
    generalize store.resp _ db = q
    obtain ⟨⟨d, _ | e⟩, s1⟩ := q
    · rfl
    · by_cases he : e = .sqlErrNoRows <;> simp [he, Prog.run]
  · simp only [ItemRepo.IsUserOwnerOfItem, Prog.perform, Prog.bind_eq, Prog.pure_eq, Prog.bind,
      Prog.run, World.handler]
    generalize store.resp _ db = q
    obtain ⟨⟨d, _ | e⟩, s1⟩ := q
    · rfl
    · by_cases he : e = .sqlErrNoRows <;> simp [he, Prog.run]

/-! ## C13 -/

/-- C13: for every behaviour of the collaborators, when the ownership check
(`IsUserOwnerOfList` for the list use cases and for ItemUseCase.Create and
GetAll, `IsUserOwnerOfItem` for the other item use cases) answers an error, the
use case returns that error with the zero id, the zero entity or the empty
list, and the check is its only call: no repository read or mutation and no
`go` of a producer method.  (The trace lists each call with its answer.) -/
theorem ownership_error_stops_use_case {σ : Type} (h : CallTree.Handler Port Port.Resp σ)
    (s s1 : σ) (userId listId itemId : Int) (e : Err) :
    (h.resp (.repo (.IsUserOwnerOfList userId listId)) s = (some (some e), s1) →
      (ListUseCase.GetOneById userId listId).run h s
        = ⟨some (entity.List.zero, some e), s1, [⟨.repo (.IsUserOwnerOfList userId listId), some (some e)⟩]⟩ ∧
      (∀ input, (ListUseCase.UpdateOneById userId listId input).run h s
        = ⟨some (some e), s1, [⟨.repo (.IsUserOwnerOfList userId listId), some (some e)⟩]⟩) ∧
      (ListUseCase.DeleteOneById userId listId).run h s
        = ⟨some (some e), s1, [⟨.repo (.IsUserOwnerOfList userId listId), some (some e)⟩]⟩ ∧
      (∀ item, (ItemUseCase.Create userId listId item).run h s
        = ⟨some ((0, some e), item), s1, [⟨.repo (.IsUserOwnerOfList userId listId), some (some e)⟩]⟩) ∧
      (ItemUseCase.GetAll userId listId).run h s
        = ⟨some (some [], some e), s1, [⟨.repo (.IsUserOwnerOfList userId listId), some (some e)⟩]⟩) ∧
    (h.resp (.repo (.IsUserOwnerOfItem userId itemId)) s = (some (some e), s1) →
      (ItemUseCase.GetOneById userId itemId).run h s
        = ⟨some (entity.Item.zero, some e), s1, [⟨.repo (.IsUserOwnerOfItem userId itemId), some (some e)⟩]⟩ ∧
      (∀ parent input, (ItemUseCase.UpdateOneById userId parent itemId input).run h s
        = ⟨some (some e), s1, [⟨.repo (.IsUserOwnerOfItem userId itemId), some (some e)⟩]⟩) ∧
      (∀ parent, (ItemUseCase.DeleteOneById userId parent itemId).run h s
        = ⟨some (some e), s1, [⟨.repo (.IsUserOwnerOfItem userId itemId), some (some e)⟩]⟩)) := by
  constructor
  · intro hr
    refine ⟨?_, fun input => ?_, ?_, fun item => ?_, ?_⟩ <;>
      simp [ListUseCase.GetOneById, ListUseCase.UpdateOneById, ListUseCase.DeleteOneById,
        ItemUseCase.Create, ItemUseCase.GetAll, Port.call, CallTree.perform, CallTree.bind_eq_bind,
        CallTree.pure_eq_ret, CallTree.bind, CallTree.run, hr]
  · intro hr
    refine ⟨?_, fun parent input => ?_, fun parent => ?_⟩ <;>
      simp [ItemUseCase.GetOneById, ItemUseCase.UpdateOneById, ItemUseCase.DeleteOneById,
        Port.call, CallTree.perform, CallTree.bind_eq_bind, CallTree.pure_eq_ret, CallTree.bind,
        CallTree.run, hr]

theorem ownership_error_stops_use_case_witness :
    ((ListUseCase.DeleteOneById 2 1).run (Deployment.handler Elastic.noMatch none)
        Deployment.groceries).result = some (some .ErrUserNotOwner) ∧
    ((ListUseCase.DeleteOneById 2 1).run (Deployment.handler Elastic.noMatch none)
        Deployment.groceries).trace
      = [⟨.repo (.IsUserOwnerOfList 2 1), some (some .ErrUserNotOwner)⟩] ∧
    ((ListUseCase.DeleteOneById 2 1).run (Deployment.handler Elastic.noMatch none)
        Deployment.groceries).state.broker = [] ∧
    ((ListUseCase.DeleteOneById 2 1).run (Deployment.handler Elastic.noMatch none)
        Deployment.groceries).state.world.db.tables.lists = [⟨1, "Groceries", ""⟩] := by
  have h := (ownership_error_stops_use_case (Deployment.handler Elastic.noMatch none)
    Deployment.groceries Deployment.groceries 2 1 0 .ErrUserNotOwner).1 rfl
  rw [h.2.2.1]
  exact ⟨rfl, rfl, rfl, rfl⟩

/-! ## C14 -/

theorem ListRepo.CreateUserList_assigns {σ : Type} (h : Handler σ) (s : σ) (userId : Int)
    (list : entity.List) (id : Int) (l : entity.List)
    (hr : ((ListRepo.CreateUserList userId list).run h s).result = some ((id, none), l)) :
    l = { list with Id := id } := by
  simp only [ListRepo.CreateUserList, Prog.perform, Prog.bind_eq, Prog.pure_eq, Prog.bind,
    Prog.run] at hr
  generalize h.resp .beginTx s = r1 at hr
  obtain ⟨_ | e1, s1⟩ := r1
  · simp only [Prog.bind, Prog.run] at hr
    generalize h.resp (.txQueryRow _ _ _ _) s1 = r2 at hr
    obtain ⟨⟨d, _ | e2⟩, s2⟩ := r2
    · simp only [Prog.bind, Prog.run] at hr
      generalize h.resp (.txExec _ _) s2 = r3 at hr
      obtain ⟨_ | e3, s3⟩ := r3
      · simp only [Prog.bind, Prog.run] at hr
        generalize h.resp .txCommit s3 = r4 at hr
        obtain ⟨_ | e4, s4⟩ := r4
        · simp [Prog.bind, Prog.run] at hr
          obtain ⟨rfl, rfl⟩ := hr
          rfl
        · simp [Prog.bind, Prog.run] at hr
      · simp [Prog.bind, Prog.run] at hr
    · simp [Prog.bind, Prog.run] at hr
  · simp [Prog.bind, Prog.run] at hr

theorem ItemRepo.CreateListItem_assigns {σ : Type} (h : Handler σ) (s : σ) (listId : Int)
    (item : entity.Item) (id : Int) (i : entity.Item)
    (hr : ((ItemRepo.CreateListItem listId item).run h s).result = some ((id, none), i)) :
    i = { item with Id := id } := by
  simp only [ItemRepo.CreateListItem, Prog.perform, Prog.bind_eq, Prog.pure_eq, Prog.bind,
    Prog.run] at hr
  generalize h.resp .beginTx s = r1 at hr
  obtain ⟨_ | e1, s1⟩ := r1
  · simp only [Prog.bind, Prog.run] at hr
    generalize h.resp (.txQueryRow _ _ _ _) s1 = r2 at hr
    obtain ⟨⟨d, _ | e2⟩, s2⟩ := r2
    · simp only [Prog.bind, Prog.run] at hr
      generalize h.resp (.txExec _ _) s2 = r3 at hr
      obtain ⟨_ | e3, s3⟩ := r3
      · simp only [Prog.bind, Prog.run] at hr
        generalize h.resp .txCommit s3 = r4 at hr
        obtain ⟨_ | e4, s4⟩ := r4
        · simp [Prog.bind, Prog.run] at hr
          obtain ⟨rfl, rfl⟩ := hr
          rfl
        · simp [Prog.bind, Prog.run] at hr
      · simp [Prog.bind, Prog.run] at hr
    · simp [Prog.bind, Prog.run] at hr
  · simp [Prog.bind, Prog.run] at hr

/-! ### The mutating use cases, call by call -/

theorem ListUseCase.UpdateOneById_run_list {σ τ : Type} (repo : Handler σ)
    (client : CallTree.Handler esapi.Request esapi.Request.Resp τ) (err : Option Err)
    (d : Deployment σ τ (List sarama.ProducerMessage))
    (userId listId : Int) (input : entity.UpdateListInput) :
    (∀ d1 d2,
      (wire repo client (sarama.answering err)).resp
          (.repo (.IsUserOwnerOfList userId listId)) d = (some none, d1) →
      (wire repo client (sarama.answering err)).resp
          (.repo (.ListUpdateOneById (some userId) listId input)) d1 = (some none, d2) →
      (ListUseCase.UpdateOneById userId listId input).run
          (wire repo client (sarama.answering err)) d
        = ⟨some none,
            ⟨d2.world, d2.engine, d.broker ++ [⟨"list_updated",
              some (.obj [("user_id", .num userId), ("list_id", .num listId)])⟩]⟩,
            [⟨.repo (.IsUserOwnerOfList userId listId), some none⟩,
             ⟨.repo (.ListUpdateOneById (some userId) listId input), some none⟩,
             ⟨.go (.ListUpdatedEvent userId listId), some ()⟩]⟩) ∧
    (∀ e d1 d2,
      (wire repo client (sarama.answering err)).resp
          (.repo (.IsUserOwnerOfList userId listId)) d = (some none, d1) →
      (wire repo client (sarama.answering err)).resp
          (.repo (.ListUpdateOneById (some userId) listId input)) d1 = (some (some e), d2) →
      (ListUseCase.UpdateOneById userId listId input).run
          (wire repo client (sarama.answering err)) d
        = ⟨some (some e), ⟨d2.world, d2.engine, d.broker⟩,
            [⟨.repo (.IsUserOwnerOfList userId listId), some none⟩,
             ⟨.repo (.ListUpdateOneById (some userId) listId input), some (some e)⟩]⟩) ∧
    (∀ e d1,
      (wire repo client (sarama.answering err)).resp
          (.repo (.IsUserOwnerOfList userId listId)) d = (some (some e), d1) →
      (ListUseCase.UpdateOneById userId listId input).run
          (wire repo client (sarama.answering err)) d
        = ⟨some (some e), ⟨d1.world, d1.engine, d.broker⟩,
            [⟨.repo (.IsUserOwnerOfList userId listId), some (some e)⟩]⟩) ∧
    (∀ d1 d2,
      (wire repo client (sarama.answering err)).resp
          (.repo (.IsUserOwnerOfList userId listId)) d = (some none, d1) →
      (wire repo client (sarama.answering err)).resp
          (.repo (.ListUpdateOneById (some userId) listId input)) d1 = (none, d2) →
      (ListUseCase.UpdateOneById userId listId input).run
          (wire repo client (sarama.answering err)) d
        = ⟨none, ⟨d2.world, d2.engine, d.broker⟩,
            [⟨.repo (.IsUserOwnerOfList userId listId), some none⟩,
             ⟨.repo (.ListUpdateOneById (some userId) listId input), none⟩]⟩) ∧
    (∀ d1,
      (wire repo client (sarama.answering err)).resp
          (.repo (.IsUserOwnerOfList userId listId)) d = (none, d1) →
      (ListUseCase.UpdateOneById userId listId input).run
          (wire repo client (sarama.answering err)) d
        = ⟨none, ⟨d1.world, d1.engine, d.broker⟩,
            [⟨.repo (.IsUserOwnerOfList userId listId), none⟩]⟩) := by
  refine ⟨fun d1 d2 hc hm => ?_, fun e d1 d2 hc hm => ?_, fun e d1 hc => ?_,
    fun d1 d2 hc hm => ?_, fun d1 hc => ?_⟩ <;>
    simp only [ListUseCase.UpdateOneById, Port.call, CallTree.perform, CallTree.bind_eq_bind,
      CallTree.pure_eq_ret, CallTree.bind, CallTree.run, wire_repo]
  · simp only [wire_repo] at hc
    revert hc hm
    generalize (Op.prog (.IsUserOwnerOfList userId listId)).run repo d.world = r1
    obtain ⟨a1, w1, t1⟩ := r1
    intro hc hm
    injection hc with h1 h2
    subst h2
    simp only at h1
    subst h1
    simp only [CallTree.bind, CallTree.run, wire_repo]
    simp only [wire_repo] at hm
    revert hm
    generalize (Op.prog (.ListUpdateOneById (some userId) listId input)).run repo w1 = r2
    obtain ⟨a2, w2, t2⟩ := r2
    intro hm
    injection hm with h3 h4
    subst h4
    simp only at h3
    subst h3
    simp only [CallTree.bind, CallTree.run, wire_go_answering]
    rfl
  · simp only [wire_repo] at hc
    revert hc hm
    generalize (Op.prog (.IsUserOwnerOfList userId listId)).run repo d.world = r1
    obtain ⟨a1, w1, t1⟩ := r1
    intro hc hm
    injection hc with h1 h2
    subst h2
    simp only at h1
    subst h1
    simp only [CallTree.bind, CallTree.run, wire_repo]
    simp only [wire_repo] at hm
    revert hm
    generalize (Op.prog (.ListUpdateOneById (some userId) listId input)).run repo w1 = r2
    obtain ⟨a2, w2, t2⟩ := r2
    intro hm
    injection hm with h3 h4
    subst h4
    simp only at h3
    subst h3
    simp only [CallTree.bind, CallTree.run]
  · simp only [wire_repo] at hc
    revert hc
    generalize (Op.prog (.IsUserOwnerOfList userId listId)).run repo d.world = r1
    obtain ⟨a1, w1, t1⟩ := r1
    intro hc
    injection hc with h1 h2
    subst h2
    simp only at h1
    subst h1
    simp only [CallTree.bind, CallTree.run]
  · simp only [wire_repo] at hc
    revert hc hm
    generalize (Op.prog (.IsUserOwnerOfList userId listId)).run repo d.world = r1
    obtain ⟨a1, w1, t1⟩ := r1
    intro hc hm
    injection hc with h1 h2
    subst h2
    simp only at h1
    subst h1
    simp only [CallTree.bind, CallTree.run, wire_repo]
    simp only [wire_repo] at hm
    revert hm
    generalize (Op.prog (.ListUpdateOneById (some userId) listId input)).run repo w1 = r2
    obtain ⟨a2, w2, t2⟩ := r2
    intro hm
    injection hm with h3 h4
    subst h4
    simp only at h3
    subst h3
    rfl
  · simp only [wire_repo] at hc
    revert hc
    generalize (Op.prog (.IsUserOwnerOfList userId listId)).run repo d.world = r1
    obtain ⟨a1, w1, t1⟩ := r1
    intro hc
    injection hc with h1 h2
    subst h2
    simp only at h1
    subst h1
    rfl

theorem ListUseCase.DeleteOneById_run_list {σ τ : Type} (repo : Handler σ)
    (client : CallTree.Handler esapi.Request esapi.Request.Resp τ) (err : Option Err)
    (d : Deployment σ τ (List sarama.ProducerMessage))
    (userId listId : Int) :
    (∀ d1 d2,
      (wire repo client (sarama.answering err)).resp
          (.repo (.IsUserOwnerOfList userId listId)) d = (some none, d1) →
      (wire repo client (sarama.answering err)).resp
          (.repo (.ListDeleteOneById (some userId) listId)) d1 = (some none, d2) →
      (ListUseCase.DeleteOneById userId listId).run
          (wire repo client (sarama.answering err)) d
        = ⟨some none,
            ⟨d2.world, d2.engine, d.broker ++ [⟨"list_deleted",
              some (.obj [("list_id", .num listId)])⟩]⟩,
            [⟨.repo (.IsUserOwnerOfList userId listId), some none⟩,
             ⟨.repo (.ListDeleteOneById (some userId) listId), some none⟩,
             ⟨.go (.ListDeletedEvent listId), some ()⟩]⟩) ∧
    (∀ e d1 d2,
      (wire repo client (sarama.answering err)).resp
          (.repo (.IsUserOwnerOfList userId listId)) d = (some none, d1) →
      (wire repo client (sarama.answering err)).resp
          (.repo (.ListDeleteOneById (some userId) listId)) d1 = (some (some e), d2) →
      (ListUseCase.DeleteOneById userId listId).run
          (wire repo client (sarama.answering err)) d
        = ⟨some (some e), ⟨d2.world, d2.engine, d.broker⟩,
            [⟨.repo (.IsUserOwnerOfList userId listId), some none⟩,
             ⟨.repo (.ListDeleteOneById (some userId) listId), some (some e)⟩]⟩) ∧
    (∀ e d1,
      (wire repo client (sarama.answering err)).resp
          (.repo (.IsUserOwnerOfList userId listId)) d = (some (some e), d1) →
      (ListUseCase.DeleteOneById userId listId).run
          (wire repo client (sarama.answering err)) d
        = ⟨some (some e), ⟨d1.world, d1.engine, d.broker⟩,
            [⟨.repo (.IsUserOwnerOfList userId listId), some (some e)⟩]⟩) ∧
    (∀ d1 d2,
      (wire repo client (sarama.answering err)).resp
          (.repo (.IsUserOwnerOfList userId listId)) d = (some none, d1) →
      (wire repo client (sarama.answering err)).resp
          (.repo (.ListDeleteOneById (some userId) listId)) d1 = (none, d2) →
      (ListUseCase.DeleteOneById userId listId).run
          (wire repo client (sarama.answering err)) d
        = ⟨none, ⟨d2.world, d2.engine, d.broker⟩,
            [⟨.repo (.IsUserOwnerOfList userId listId), some none⟩,
             ⟨.repo (.ListDeleteOneById (some userId) listId), none⟩]⟩) ∧
    (∀ d1,
      (wire repo client (sarama.answering err)).resp
          (.repo (.IsUserOwnerOfList userId listId)) d = (none, d1) →
      (ListUseCase.DeleteOneById userId listId).run
          (wire repo client (sarama.answering err)) d
        = ⟨none, ⟨d1.world, d1.engine, d.broker⟩,
            [⟨.repo (.IsUserOwnerOfList userId listId), none⟩]⟩) := by
  refine ⟨fun d1 d2 hc hm => ?_, fun e d1 d2 hc hm => ?_, fun e d1 hc => ?_,
    fun d1 d2 hc hm => ?_, fun d1 hc => ?_⟩ <;>
    simp only [ListUseCase.DeleteOneById, Port.call, CallTree.perform, CallTree.bind_eq_bind,
      CallTree.pure_eq_ret, CallTree.bind, CallTree.run, wire_repo]
  · simp only [wire_repo] at hc
    revert hc hm
    generalize (Op.prog (.IsUserOwnerOfList userId listId)).run repo d.world = r1
    obtain ⟨a1, w1, t1⟩ := r1
    intro hc hm
    injection hc with h1 h2
    subst h2
    simp only at h1
    subst h1
    simp only [CallTree.bind, CallTree.run, wire_repo]
    simp only [wire_repo] at hm
    revert hm
    generalize (Op.prog (.ListDeleteOneById (some userId) listId)).run repo w1 = r2
    obtain ⟨a2, w2, t2⟩ := r2
    intro hm
    injection hm with h3 h4
    subst h4
    simp only at h3
    subst h3
    simp only [CallTree.bind, CallTree.run, wire_go_answering]
    rfl
  · simp only [wire_repo] at hc
    revert hc hm
    generalize (Op.prog (.IsUserOwnerOfList userId listId)).run repo d.world = r1
    obtain ⟨a1, w1, t1⟩ := r1
    intro hc hm
    injection hc with h1 h2
    subst h2
    simp only at h1
    subst h1
    simp only [CallTree.bind, CallTree.run, wire_repo]
    simp only [wire_repo] at hm
    revert hm
    generalize (Op.prog (.ListDeleteOneById (some userId) listId)).run repo w1 = r2
    obtain ⟨a2, w2, t2⟩ := r2
    intro hm
    injection hm with h3 h4
    subst h4
    simp only at h3
    subst h3
    simp only [CallTree.bind, CallTree.run]
  · simp only [wire_repo] at hc
    revert hc
    generalize (Op.prog (.IsUserOwnerOfList userId listId)).run repo d.world = r1
    obtain ⟨a1, w1, t1⟩ := r1
    intro hc
    injection hc with h1 h2
    subst h2
    simp only at h1
    subst h1
    simp only [CallTree.bind, CallTree.run]
  · simp only [wire_repo] at hc
    revert hc hm
    generalize (Op.prog (.IsUserOwnerOfList userId listId)).run repo d.world = r1
    obtain ⟨a1, w1, t1⟩ := r1
    intro hc hm
    injection hc with h1 h2
    subst h2
    simp only at h1
    subst h1
    simp only [CallTree.bind, CallTree.run, wire_repo]
    simp only [wire_repo] at hm
    revert hm
    generalize (Op.prog (.ListDeleteOneById (some userId) listId)).run repo w1 = r2
    obtain ⟨a2, w2, t2⟩ := r2
    intro hm
    injection hm with h3 h4
    subst h4
    simp only at h3
    subst h3
    rfl
  · simp only [wire_repo] at hc
    revert hc
    generalize (Op.prog (.IsUserOwnerOfList userId listId)).run repo d.world = r1
    obtain ⟨a1, w1, t1⟩ := r1
    intro hc
    injection hc with h1 h2
    subst h2
    simp only at h1
    subst h1
    rfl

theorem ItemUseCase.UpdateOneById_run_item {σ τ : Type} (repo : Handler σ)
    (client : CallTree.Handler esapi.Request esapi.Request.Resp τ) (err : Option Err)
    (d : Deployment σ τ (List sarama.ProducerMessage))
    (userId listId itemId : Int) (input : entity.UpdateItemInput) :
    (∀ d1 d2,
      (wire repo client (sarama.answering err)).resp
          (.repo (.IsUserOwnerOfItem userId itemId)) d = (some none, d1) →
      (wire repo client (sarama.answering err)).resp
          (.repo (.ItemUpdateOneById (some listId) itemId input)) d1 = (some none, d2) →
      (ItemUseCase.UpdateOneById userId listId itemId input).run
          (wire repo client (sarama.answering err)) d
        = ⟨some none,
            ⟨d2.world, d2.engine, d.broker ++ [⟨"item_updated",
              some (.obj [("user_id", .num userId), ("list_id", .num listId),
              ("item_id", .num itemId)])⟩]⟩,
            [⟨.repo (.IsUserOwnerOfItem userId itemId), some none⟩,
             ⟨.repo (.ItemUpdateOneById (some listId) itemId input), some none⟩,
             ⟨.go (.ItemUpdatedEvent userId listId itemId), some ()⟩]⟩) ∧
    (∀ e d1 d2,
      (wire repo client (sarama.answering err)).resp
          (.repo (.IsUserOwnerOfItem userId itemId)) d = (some none, d1) →
      (wire repo client (sarama.answering err)).resp
          (.repo (.ItemUpdateOneById (some listId) itemId input)) d1 = (some (some e), d2) →
      (ItemUseCase.UpdateOneById userId listId itemId input).run
          (wire repo client (sarama.answering err)) d
        = ⟨some (some e), ⟨d2.world, d2.engine, d.broker⟩,
            [⟨.repo (.IsUserOwnerOfItem userId itemId), some none⟩,
             ⟨.repo (.ItemUpdateOneById (some listId) itemId input), some (some e)⟩]⟩) ∧
    (∀ e d1,
      (wire repo client (sarama.answering err)).resp
          (.repo (.IsUserOwnerOfItem userId itemId)) d = (some (some e), d1) →
      (ItemUseCase.UpdateOneById userId listId itemId input).run
          (wire repo client (sarama.answering err)) d
        = ⟨some (some e), ⟨d1.world, d1.engine, d.broker⟩,
            [⟨.repo (.IsUserOwnerOfItem userId itemId), some (some e)⟩]⟩) ∧
    (∀ d1 d2,
      (wire repo client (sarama.answering err)).resp
          (.repo (.IsUserOwnerOfItem userId itemId)) d = (some none, d1) →
      (wire repo client (sarama.answering err)).resp
          (.repo (.ItemUpdateOneById (some listId) itemId input)) d1 = (none, d2) →
      (ItemUseCase.UpdateOneById userId listId itemId input).run
          (wire repo client (sarama.answering err)) d
        = ⟨none, ⟨d2.world, d2.engine, d.broker⟩,
            [⟨.repo (.IsUserOwnerOfItem userId itemId), some none⟩,
             ⟨.repo (.ItemUpdateOneById (some listId) itemId input), none⟩]⟩) ∧
    (∀ d1,
      (wire repo client (sarama.answering err)).resp
          (.repo (.IsUserOwnerOfItem userId itemId)) d = (none, d1) →
      (ItemUseCase.UpdateOneById userId listId itemId input).run
          (wire repo client (sarama.answering err)) d
        = ⟨none, ⟨d1.world, d1.engine, d.broker⟩,
            [⟨.repo (.IsUserOwnerOfItem userId itemId), none⟩]⟩) := by
  refine ⟨fun d1 d2 hc hm => ?_, fun e d1 d2 hc hm => ?_, fun e d1 hc => ?_,
    fun d1 d2 hc hm => ?_, fun d1 hc => ?_⟩ <;>
    simp only [ItemUseCase.UpdateOneById, Port.call, CallTree.perform, CallTree.bind_eq_bind,
      CallTree.pure_eq_ret, CallTree.bind, CallTree.run, wire_repo]
  · simp only [wire_repo] at hc
    revert hc hm
    generalize (Op.prog (.IsUserOwnerOfItem userId itemId)).run repo d.world = r1
    obtain ⟨a1, w1, t1⟩ := r1
    intro hc hm
    injection hc with h1 h2
    subst h2
    simp only at h1
    subst h1
    simp only [CallTree.bind, CallTree.run, wire_repo]
    simp only [wire_repo] at hm
    revert hm
    generalize (Op.prog (.ItemUpdateOneById (some listId) itemId input)).run repo w1 = r2
    obtain ⟨a2, w2, t2⟩ := r2
    intro hm
    injection hm with h3 h4
    subst h4
    simp only at h3
    subst h3
    simp only [CallTree.bind, CallTree.run, wire_go_answering]
    rfl
  · simp only [wire_repo] at hc
    revert hc hm
    generalize (Op.prog (.IsUserOwnerOfItem userId itemId)).run repo d.world = r1
    obtain ⟨a1, w1, t1⟩ := r1
    intro hc hm
    injection hc with h1 h2
    subst h2
    simp only at h1
    subst h1
    simp only [CallTree.bind, CallTree.run, wire_repo]
    simp only [wire_repo] at hm
    revert hm
    generalize (Op.prog (.ItemUpdateOneById (some listId) itemId input)).run repo w1 = r2
    obtain ⟨a2, w2, t2⟩ := r2
    intro hm
    injection hm with h3 h4
    subst h4
    simp only at h3
    subst h3
    simp only [CallTree.bind, CallTree.run]
  · simp only [wire_repo] at hc
    revert hc
    generalize (Op.prog (.IsUserOwnerOfItem userId itemId)).run repo d.world = r1
    obtain ⟨a1, w1, t1⟩ := r1
    intro hc
    injection hc with h1 h2
    subst h2
    simp only at h1
    subst h1
    simp only [CallTree.bind, CallTree.run]
  · simp only [wire_repo] at hc
    revert hc hm
    generalize (Op.prog (.IsUserOwnerOfItem userId itemId)).run repo d.world = r1
    obtain ⟨a1, w1, t1⟩ := r1
    intro hc hm
    injection hc with h1 h2
    subst h2
    simp only at h1
    subst h1
    simp only [CallTree.bind, CallTree.run, wire_repo]
    simp only [wire_repo] at hm
    revert hm
    generalize (Op.prog (.ItemUpdateOneById (some listId) itemId input)).run repo w1 = r2
    obtain ⟨a2, w2, t2⟩ := r2
    intro hm
    injection hm with h3 h4
    subst h4
    simp only at h3
    subst h3
    rfl
  · simp only [wire_repo] at hc
    revert hc
    generalize (Op.prog (.IsUserOwnerOfItem userId itemId)).run repo d.world = r1
    obtain ⟨a1, w1, t1⟩ := r1
    intro hc
    injection hc with h1 h2
    subst h2
    simp only at h1
    subst h1
    rfl

theorem ItemUseCase.DeleteOneById_run_item {σ τ : Type} (repo : Handler σ)
    (client : CallTree.Handler esapi.Request esapi.Request.Resp τ) (err : Option Err)
    (d : Deployment σ τ (List sarama.ProducerMessage))
    (userId listId itemId : Int) :
    (∀ d1 d2,
      (wire repo client (sarama.answering err)).resp
          (.repo (.IsUserOwnerOfItem userId itemId)) d = (some none, d1) →
      (wire repo client (sarama.answering err)).resp
          (.repo (.ItemDeleteOneById (some listId) itemId)) d1 = (some none, d2) →
      (ItemUseCase.DeleteOneById userId listId itemId).run
          (wire repo client (sarama.answering err)) d
        = ⟨some none,
            ⟨d2.world, d2.engine, d.broker ++ [⟨"item_deleted",
              some (.obj [("item_id", .num itemId)])⟩]⟩,
            [⟨.repo (.IsUserOwnerOfItem userId itemId), some none⟩,
             ⟨.repo (.ItemDeleteOneById (some listId) itemId), some none⟩,
             ⟨.go (.ItemDeletedEvent itemId), some ()⟩]⟩) ∧
    (∀ e d1 d2,
      (wire repo client (sarama.answering err)).resp
          (.repo (.IsUserOwnerOfItem userId itemId)) d = (some none, d1) →
      (wire repo client (sarama.answering err)).resp
          (.repo (.ItemDeleteOneById (some listId) itemId)) d1 = (some (some e), d2) →
      (ItemUseCase.DeleteOneById userId listId itemId).run
          (wire repo client (sarama.answering err)) d
        = ⟨some (some e), ⟨d2.world, d2.engine, d.broker⟩,
            [⟨.repo (.IsUserOwnerOfItem userId itemId), some none⟩,
             ⟨.repo (.ItemDeleteOneById (some listId) itemId), some (some e)⟩]⟩) ∧
    (∀ e d1,
      (wire repo client (sarama.answering err)).resp
          (.repo (.IsUserOwnerOfItem userId itemId)) d = (some (some e), d1) →
      (ItemUseCase.DeleteOneById userId listId itemId).run
          (wire repo client (sarama.answering err)) d
        = ⟨some (some e), ⟨d1.world, d1.engine, d.broker⟩,
            [⟨.repo (.IsUserOwnerOfItem userId itemId), some (some e)⟩]⟩) ∧
    (∀ d1 d2,
      (wire repo client (sarama.answering err)).resp
          (.repo (.IsUserOwnerOfItem userId itemId)) d = (some none, d1) →
      (wire repo client (sarama.answering err)).resp
          (.repo (.ItemDeleteOneById (some listId) itemId)) d1 = (none, d2) →
      (ItemUseCase.DeleteOneById userId listId itemId).run
          (wire repo client (sarama.answering err)) d
        = ⟨none, ⟨d2.world, d2.engine, d.broker⟩,
            [⟨.repo (.IsUserOwnerOfItem userId itemId), some none⟩,
             ⟨.repo (.ItemDeleteOneById (some listId) itemId), none⟩]⟩) ∧
    (∀ d1,
      (wire repo client (sarama.answering err)).resp
          (.repo (.IsUserOwnerOfItem userId itemId)) d = (none, d1) →
      (ItemUseCase.DeleteOneById userId listId itemId).run
          (wire repo client (sarama.answering err)) d
        = ⟨none, ⟨d1.world, d1.engine, d.broker⟩,
            [⟨.repo (.IsUserOwnerOfItem userId itemId), none⟩]⟩) := by
  refine ⟨fun d1 d2 hc hm => ?_, fun e d1 d2 hc hm => ?_, fun e d1 hc => ?_,
    fun d1 d2 hc hm => ?_, fun d1 hc => ?_⟩ <;>
    simp only [ItemUseCase.DeleteOneById, Port.call, CallTree.perform, CallTree.bind_eq_bind,
      CallTree.pure_eq_ret, CallTree.bind, CallTree.run, wire_repo]
  · simp only [wire_repo] at hc
    revert hc hm
    generalize (Op.prog (.IsUserOwnerOfItem userId itemId)).run repo d.world = r1
    obtain ⟨a1, w1, t1⟩ := r1
    intro hc hm
    injection hc with h1 h2
    subst h2
    simp only at h1
    subst h1
    simp only [CallTree.bind, CallTree.run, wire_repo]
    simp only [wire_repo] at hm
    revert hm
    generalize (Op.prog (.ItemDeleteOneById (some listId) itemId)).run repo w1 = r2
    obtain ⟨a2, w2, t2⟩ := r2
    intro hm
    injection hm with h3 h4
    subst h4
    simp only at h3
    subst h3
    simp only [CallTree.bind, CallTree.run, wire_go_answering]
    rfl
  · simp only [wire_repo] at hc
    revert hc hm
    generalize (Op.prog (.IsUserOwnerOfItem userId itemId)).run repo d.world = r1
    obtain ⟨a1, w1, t1⟩ := r1
    intro hc hm
    injection hc with h1 h2
    subst h2
    simp only at h1
    subst h1
    simp only [CallTree.bind, CallTree.run, wire_repo]
    simp only [wire_repo] at hm
    revert hm
    generalize (Op.prog (.ItemDeleteOneById (some listId) itemId)).run repo w1 = r2
    obtain ⟨a2, w2, t2⟩ := r2
    intro hm
    injection hm with h3 h4
    subst h4
    simp only at h3
    subst h3
    simp only [CallTree.bind, CallTree.run]
  · simp only [wire_repo] at hc
    revert hc
    generalize (Op.prog (.IsUserOwnerOfItem userId itemId)).run repo d.world = r1
    obtain ⟨a1, w1, t1⟩ := r1
    intro hc
    injection hc with h1 h2
    subst h2
    simp only at h1
    subst h1
    simp only [CallTree.bind, CallTree.run]
  · simp only [wire_repo] at hc
    revert hc hm
    generalize (Op.prog (.IsUserOwnerOfItem userId itemId)).run repo d.world = r1
    obtain ⟨a1, w1, t1⟩ := r1
    intro hc hm
    injection hc with h1 h2
    subst h2
    simp only at h1
    subst h1
    simp only [CallTree.bind, CallTree.run, wire_repo]
    simp only [wire_repo] at hm
    revert hm
    generalize (Op.prog (.ItemDeleteOneById (some listId) itemId)).run repo w1 = r2
    obtain ⟨a2, w2, t2⟩ := r2
    intro hm
    injection hm with h3 h4
    subst h4
    simp only at h3
    subst h3
    rfl
  · simp only [wire_repo] at hc
    revert hc
    generalize (Op.prog (.IsUserOwnerOfItem userId itemId)).run repo d.world = r1
    obtain ⟨a1, w1, t1⟩ := r1
    intro hc
    injection hc with h1 h2
    subst h2
    simp only at h1
    subst h1
    rfl

theorem ListUseCase.DeleteOneByAdmin_run_list {σ τ : Type} (repo : Handler σ)
    (client : CallTree.Handler esapi.Request esapi.Request.Resp τ) (err : Option Err)
    (d : Deployment σ τ (List sarama.ProducerMessage))
    (listId : Int) :
    (∀ d1,
      (wire repo client (sarama.answering err)).resp
          (.repo (.ListDeleteOneById none listId)) d = (some none, d1) →
      (ListUseCase.DeleteOneByAdmin listId).run
          (wire repo client (sarama.answering err)) d
        = ⟨some none,
            ⟨d1.world, d1.engine, d.broker ++ [⟨"list_deleted",
              some (.obj [("list_id", .num listId)])⟩]⟩,
            [⟨.repo (.ListDeleteOneById none listId), some none⟩,
             ⟨.go (.ListDeletedEvent listId), some ()⟩]⟩) ∧
    (∀ e d1,
      (wire repo client (sarama.answering err)).resp
          (.repo (.ListDeleteOneById none listId)) d = (some (some e), d1) →
      (ListUseCase.DeleteOneByAdmin listId).run
          (wire repo client (sarama.answering err)) d
        = ⟨some (some e), ⟨d1.world, d1.engine, d.broker⟩,
            [⟨.repo (.ListDeleteOneById none listId), some (some e)⟩]⟩) ∧
    (∀ d1,
      (wire repo client (sarama.answering err)).resp
          (.repo (.ListDeleteOneById none listId)) d = (none, d1) →
      (ListUseCase.DeleteOneByAdmin listId).run
          (wire repo client (sarama.answering err)) d
        = ⟨none, ⟨d1.world, d1.engine, d.broker⟩,
            [⟨.repo (.ListDeleteOneById none listId), none⟩]⟩) := by
  refine ⟨fun d1 hm => ?_, fun e d1 hm => ?_, fun d1 hm => ?_⟩ <;>
    simp only [ListUseCase.DeleteOneByAdmin, Port.call, CallTree.perform, CallTree.bind_eq_bind,
      CallTree.pure_eq_ret, CallTree.bind, CallTree.run, wire_repo]
  · simp only [wire_repo] at hm
    revert hm
    generalize (Op.prog (.ListDeleteOneById none listId)).run repo d.world = r2
    obtain ⟨a2, w2, t2⟩ := r2
    intro hm
    injection hm with h3 h4
    subst h4
    simp only at h3
    subst h3
    simp only [CallTree.bind, CallTree.run, wire_go_answering]
    rfl
  · simp only [wire_repo] at hm
    revert hm
    generalize (Op.prog (.ListDeleteOneById none listId)).run repo d.world = r2
    obtain ⟨a2, w2, t2⟩ := r2
    intro hm
    injection hm with h3 h4
    subst h4
    simp only at h3
    subst h3
    simp only [CallTree.bind, CallTree.run]
  · simp only [wire_repo] at hm
    revert hm
    generalize (Op.prog (.ListDeleteOneById none listId)).run repo d.world = r2
    obtain ⟨a2, w2, t2⟩ := r2
    intro hm
    injection hm with h3 h4
    subst h4
    simp only at h3
    subst h3
    rfl

theorem ItemUseCase.DeleteOneByAdmin_run_item {σ τ : Type} (repo : Handler σ)
    (client : CallTree.Handler esapi.Request esapi.Request.Resp τ) (err : Option Err)
    (d : Deployment σ τ (List sarama.ProducerMessage))
    (itemId : Int) :
    (∀ d1,
      (wire repo client (sarama.answering err)).resp
          (.repo (.ItemDeleteOneById none itemId)) d = (some none, d1) →
      (ItemUseCase.DeleteOneByAdmin itemId).run
          (wire repo client (sarama.answering err)) d
        = ⟨some none,
            ⟨d1.world, d1.engine, d.broker ++ [⟨"item_deleted",
              some (.obj [("item_id", .num itemId)])⟩]⟩,
            [⟨.repo (.ItemDeleteOneById none itemId), some none⟩,
             ⟨.go (.ItemDeletedEvent itemId), some ()⟩]⟩) ∧
    (∀ e d1,
      (wire repo client (sarama.answering err)).resp
          (.repo (.ItemDeleteOneById none itemId)) d = (some (some e), d1) →
      (ItemUseCase.DeleteOneByAdmin itemId).run
          (wire repo client (sarama.answering err)) d
        = ⟨some (some e), ⟨d1.world, d1.engine, d.broker⟩,
            [⟨.repo (.ItemDeleteOneById none itemId), some (some e)⟩]⟩) ∧
    (∀ d1,
      (wire repo client (sarama.answering err)).resp
          (.repo (.ItemDeleteOneById none itemId)) d = (none, d1) →
      (ItemUseCase.DeleteOneByAdmin itemId).run
          (wire repo client (sarama.answering err)) d
        = ⟨none, ⟨d1.world, d1.engine, d.broker⟩,
            [⟨.repo (.ItemDeleteOneById none itemId), none⟩]⟩) := by
  refine ⟨fun d1 hm => ?_, fun e d1 hm => ?_, fun d1 hm => ?_⟩ <;>
    simp only [ItemUseCase.DeleteOneByAdmin, Port.call, CallTree.perform, CallTree.bind_eq_bind,
      CallTree.pure_eq_ret, CallTree.bind, CallTree.run, wire_repo]
  · simp only [wire_repo] at hm
    revert hm
    generalize (Op.prog (.ItemDeleteOneById none itemId)).run repo d.world = r2
    obtain ⟨a2, w2, t2⟩ := r2
    intro hm
    injection hm with h3 h4
    subst h4
    simp only at h3
    subst h3
    simp only [CallTree.bind, CallTree.run, wire_go_answering]
    rfl
  · simp only [wire_repo] at hm
    revert hm
    generalize (Op.prog (.ItemDeleteOneById none itemId)).run repo d.world = r2
    obtain ⟨a2, w2, t2⟩ := r2
    intro hm
    injection hm with h3 h4
    subst h4
    simp only at h3
    subst h3
    simp only [CallTree.bind, CallTree.run]
  · simp only [wire_repo] at hm
    revert hm
    generalize (Op.prog (.ItemDeleteOneById none itemId)).run repo d.world = r2
    obtain ⟨a2, w2, t2⟩ := r2
    intro hm
    injection hm with h3 h4
    subst h4
    simp only at h3
    subst h3
    rfl

theorem ListUseCase.Create_run_list {σ τ : Type} (repo : Handler σ)
    (client : CallTree.Handler esapi.Request esapi.Request.Resp τ) (err : Option Err)
    (d : Deployment σ τ (List sarama.ProducerMessage))
    (userId : Int) (list : entity.List) :
    (∀ id l d1,
      (wire repo client (sarama.answering err)).resp
          (.repo (.CreateUserList userId list)) d = (some ((id, none), l), d1) →
      l = { list with Id := id } ∧
      (ListUseCase.Create userId list).run (wire repo client (sarama.answering err)) d
        = ⟨some ((id, none), l),
            ⟨d1.world, d1.engine, d.broker ++ [⟨"list_created",
              some (.obj [("user_id", .num userId),
                ("list", .obj [("id", .num id), ("title", .str list.Title),
                  ("description", .str list.Description)])])⟩]⟩,
            [⟨.repo (.CreateUserList userId list), some ((id, none), l)⟩,
             ⟨.go (.ListCreatedEvent userId l), some ()⟩]⟩) ∧
    (∀ id e l d1,
      (wire repo client (sarama.answering err)).resp
          (.repo (.CreateUserList userId list)) d = (some ((id, some e), l), d1) →
      (ListUseCase.Create userId list).run (wire repo client (sarama.answering err)) d
        = ⟨some ((0, some e), l), ⟨d1.world, d1.engine, d.broker⟩,
            [⟨.repo (.CreateUserList userId list), some ((id, some e), l)⟩]⟩) ∧
    (∀ d1,
      (wire repo client (sarama.answering err)).resp
          (.repo (.CreateUserList userId list)) d = (none, d1) →
      (ListUseCase.Create userId list).run (wire repo client (sarama.answering err)) d
        = ⟨none, ⟨d1.world, d1.engine, d.broker⟩,
            [⟨.repo (.CreateUserList userId list), none⟩]⟩) := by
  refine ⟨fun id l d1 hm => ?_, fun id e l d1 hm => ?_, fun d1 hm => ?_⟩ <;>
    simp only [ListUseCase.Create, Port.call, CallTree.perform, CallTree.bind_eq_bind,
      CallTree.pure_eq_ret, CallTree.bind, CallTree.run, wire_repo]
  · have ha : ((Op.prog (.CreateUserList userId list)).run repo d.world).result
        = some ((id, none), l) → l = { list with Id := id } :=
      fun h => ListRepo.CreateUserList_assigns repo d.world userId list id l h
    simp only [wire_repo] at hm
    revert hm ha
    generalize (Op.prog (.CreateUserList userId list)).run repo d.world = r2
    obtain ⟨a2, w2, t2⟩ := r2
    intro hm ha
    injection hm with h3 h4
    subst h4
    simp only at h3 ha
    subst h3
    have hl := ha rfl
    subst hl
    simp only [CallTree.bind, CallTree.run, wire_go_answering]
    exact ⟨trivial, rfl⟩
  · simp only [wire_repo] at hm
    revert hm
    generalize (Op.prog (.CreateUserList userId list)).run repo d.world = r2
    obtain ⟨a2, w2, t2⟩ := r2
    intro hm
    injection hm with h3 h4
    subst h4
    simp only at h3
    subst h3
    simp only [CallTree.bind, CallTree.run]
  · simp only [wire_repo] at hm
    revert hm
    generalize (Op.prog (.CreateUserList userId list)).run repo d.world = r2
    obtain ⟨a2, w2, t2⟩ := r2
    intro hm
    injection hm with h3 h4
    subst h4
    simp only at h3
    subst h3
    rfl

theorem ItemUseCase.Create_run_item {σ τ : Type} (repo : Handler σ)
    (client : CallTree.Handler esapi.Request esapi.Request.Resp τ) (err : Option Err)
    (d : Deployment σ τ (List sarama.ProducerMessage))
    (userId listId : Int) (item : entity.Item) :
    (∀ id i d1 d2,
      (wire repo client (sarama.answering err)).resp
          (.repo (.IsUserOwnerOfList userId listId)) d = (some none, d1) →
      (wire repo client (sarama.answering err)).resp
          (.repo (.CreateListItem listId item)) d1 = (some ((id, none), i), d2) →
      i = { item with Id := id } ∧
      (ItemUseCase.Create userId listId item).run (wire repo client (sarama.answering err)) d
        = ⟨some ((id, none), i),
            ⟨d2.world, d2.engine, d.broker ++ [⟨"item_created",
              some (.obj [("user_id", .num userId), ("list_id", .num listId),
                ("item", .obj [("id", .num id), ("title", .str item.Title),
                  ("description", .str item.Description), ("done", .bool item.Done)])])⟩]⟩,
            [⟨.repo (.IsUserOwnerOfList userId listId), some none⟩,
             ⟨.repo (.CreateListItem listId item), some ((id, none), i)⟩,
             ⟨.go (.ItemCreatedEvent userId listId i), some ()⟩]⟩) ∧
    (∀ id e i d1 d2,
      (wire repo client (sarama.answering err)).resp
          (.repo (.IsUserOwnerOfList userId listId)) d = (some none, d1) →
      (wire repo client (sarama.answering err)).resp
          (.repo (.CreateListItem listId item)) d1 = (some ((id, some e), i), d2) →
      (ItemUseCase.Create userId listId item).run (wire repo client (sarama.answering err)) d
        = ⟨some ((0, some e), i), ⟨d2.world, d2.engine, d.broker⟩,
            [⟨.repo (.IsUserOwnerOfList userId listId), some none⟩,
             ⟨.repo (.CreateListItem listId item), some ((id, some e), i)⟩]⟩) ∧
    (∀ e d1,
      (wire repo client (sarama.answering err)).resp
          (.repo (.IsUserOwnerOfList userId listId)) d = (some (some e), d1) →
      (ItemUseCase.Create userId listId item).run (wire repo client (sarama.answering err)) d
        = ⟨some ((0, some e), item), ⟨d1.world, d1.engine, d.broker⟩,
            [⟨.repo (.IsUserOwnerOfList userId listId), some (some e)⟩]⟩) ∧
    (∀ d1 d2,
      (wire repo client (sarama.answering err)).resp
          (.repo (.IsUserOwnerOfList userId listId)) d = (some none, d1) →
      (wire repo client (sarama.answering err)).resp
          (.repo (.CreateListItem listId item)) d1 = (none, d2) →
      (ItemUseCase.Create userId listId item).run (wire repo client (sarama.answering err)) d
        = ⟨none, ⟨d2.world, d2.engine, d.broker⟩,
            [⟨.repo (.IsUserOwnerOfList userId listId), some none⟩,
             ⟨.repo (.CreateListItem listId item), none⟩]⟩) ∧
    (∀ d1,
      (wire repo client (sarama.answering err)).resp
          (.repo (.IsUserOwnerOfList userId listId)) d = (none, d1) →
      (ItemUseCase.Create userId listId item).run (wire repo client (sarama.answering err)) d
        = ⟨none, ⟨d1.world, d1.engine, d.broker⟩,
            [⟨.repo (.IsUserOwnerOfList userId listId), none⟩]⟩) := by
  refine ⟨fun id i d1 d2 hc hm => ?_, fun id e i d1 d2 hc hm => ?_, fun e d1 hc => ?_,
    fun d1 d2 hc hm => ?_, fun d1 hc => ?_⟩ <;>
    simp only [ItemUseCase.Create, Port.call, CallTree.perform, CallTree.bind_eq_bind,
      CallTree.pure_eq_ret, CallTree.bind, CallTree.run, wire_repo]
  · simp only [wire_repo] at hc
    revert hc hm
    generalize (Op.prog (.IsUserOwnerOfList userId listId)).run repo d.world = r1
    obtain ⟨a1, w1, t1⟩ := r1
    intro hc hm
    injection hc with h1 h2
    subst h2
    simp only at h1
    subst h1
    simp only [CallTree.bind, CallTree.run, wire_repo]
    have ha : ((Op.prog (.CreateListItem listId item)).run repo w1).result
        = some ((id, none), i) → i = { item with Id := id } :=
      fun h => ItemRepo.CreateListItem_assigns repo w1 listId item id i h
    simp only [wire_repo] at hm
    revert hm ha
    generalize (Op.prog (.CreateListItem listId item)).run repo w1 = r2
    obtain ⟨a2, w2, t2⟩ := r2
    intro hm ha
    injection hm with h3 h4
    subst h4
    simp only at h3 ha
    subst h3
    have hl := ha rfl
    subst hl
    simp only [CallTree.bind, CallTree.run, wire_go_answering]
    exact ⟨trivial, rfl⟩
  · simp only [wire_repo] at hc
    revert hc hm
    generalize (Op.prog (.IsUserOwnerOfList userId listId)).run repo d.world = r1
    obtain ⟨a1, w1, t1⟩ := r1
    intro hc hm
    injection hc with h1 h2
    subst h2
    simp only at h1
    subst h1
    simp only [CallTree.bind, CallTree.run, wire_repo]
    simp only [wire_repo] at hm
    revert hm
    generalize (Op.prog (.CreateListItem listId item)).run repo w1 = r2
    obtain ⟨a2, w2, t2⟩ := r2
    intro hm
    injection hm with h3 h4
    subst h4
    simp only at h3
    subst h3
    simp only [CallTree.bind, CallTree.run]
  · simp only [wire_repo] at hc
    revert hc
    generalize (Op.prog (.IsUserOwnerOfList userId listId)).run repo d.world = r1
    obtain ⟨a1, w1, t1⟩ := r1
    intro hc
    injection hc with h1 h2
    subst h2
    simp only at h1
    subst h1
    simp only [CallTree.bind, CallTree.run]
  · simp only [wire_repo] at hc
    revert hc hm
    generalize (Op.prog (.IsUserOwnerOfList userId listId)).run repo d.world = r1
    obtain ⟨a1, w1, t1⟩ := r1
    intro hc hm
    injection hc with h1 h2
    subst h2
    simp only at h1
    subst h1
    simp only [CallTree.bind, CallTree.run, wire_repo]
    simp only [wire_repo] at hm
    revert hm
    generalize (Op.prog (.CreateListItem listId item)).run repo w1 = r2
    obtain ⟨a2, w2, t2⟩ := r2
    intro hm
    injection hm with h3 h4
    subst h4
    simp only at h3
    subst h3
    rfl
  · simp only [wire_repo] at hc
    revert hc
    generalize (Op.prog (.IsUserOwnerOfList userId listId)).run repo d.world = r1
    obtain ⟨a1, w1, t1⟩ := r1
    intro hc
    injection hc with h1 h2
    subst h2
    simp only at h1
    subst h1
    rfl

/-- C14: on the wired layers, for every behaviour of the store, the caches and
the search client and every answer `err` of the broker's `SendMessage`, the
whole run of each mutating use case is fixed by the answers of the repository.
When the ownership check (where there is one) answers nil and the repository
mutation answers nil, the use case makes these calls and then starts a producer
method (`go`) exactly once, the one of the matching kind: its message goes to
the matching topic and holds, for Created, the owner id (and the list id for
an item) and the entity with the id the repository assigned, which is the id
the use case returns; for Updated the owner, list and entity ids only; for
Deleted the entity id only.  When the mutation answers an error, when the
ownership check answers an error, and when either call faults, the use case
starts no producer method and the broker is left as it was.  The value a use
case returns, and what it leaves in the store and the engine, is the same for
every answer of the broker. -/
theorem one_event_per_successful_mutation {σ τ : Type} (repo : Handler σ)
    (client : CallTree.Handler esapi.Request esapi.Request.Resp τ) (err : Option Err)
    (d : Deployment σ τ (List sarama.ProducerMessage)) (userId listId itemId : Int) :
    let h := wire repo client (sarama.answering err)
    (∀ list,
      (∀ id l d1,
        h.resp (.repo (.CreateUserList userId list)) d = (some ((id, none), l), d1) →
        l = { list with Id := id } ∧
        (ListUseCase.Create userId list).run h d
          = ⟨some ((id, none), l),
              ⟨d1.world, d1.engine, d.broker ++ [⟨"list_created",
                some (.obj [("user_id", .num userId),
                  ("list", .obj [("id", .num id), ("title", .str list.Title),
                    ("description", .str list.Description)])])⟩]⟩,
              [⟨.repo (.CreateUserList userId list), some ((id, none), l)⟩,
               ⟨.go (.ListCreatedEvent userId l), some ()⟩]⟩) ∧
      (∀ id e l d1,
        h.resp (.repo (.CreateUserList userId list)) d = (some ((id, some e), l), d1) →
        (ListUseCase.Create userId list).run h d
          = ⟨some ((0, some e), l), ⟨d1.world, d1.engine, d.broker⟩,
              [⟨.repo (.CreateUserList userId list), some ((id, some e), l)⟩]⟩) ∧
      (∀ d1,
        h.resp (.repo (.CreateUserList userId list)) d = (none, d1) →
        (ListUseCase.Create userId list).run h d
          = ⟨none, ⟨d1.world, d1.engine, d.broker⟩,
              [⟨.repo (.CreateUserList userId list), none⟩]⟩)) ∧
    (∀ input,
      (∀ d1 d2,
        h.resp (.repo (.IsUserOwnerOfList userId listId)) d = (some none, d1) →
        h.resp (.repo (.ListUpdateOneById (some userId) listId input)) d1 = (some none, d2) →
        (ListUseCase.UpdateOneById userId listId input).run h d
          = ⟨some none,
              ⟨d2.world, d2.engine, d.broker ++ [⟨"list_updated",
                some (.obj [("user_id", .num userId), ("list_id", .num listId)])⟩]⟩,
              [⟨.repo (.IsUserOwnerOfList userId listId), some none⟩,
               ⟨.repo (.ListUpdateOneById (some userId) listId input), some none⟩,
               ⟨.go (.ListUpdatedEvent userId listId), some ()⟩]⟩) ∧
      (∀ e d1 d2,
        h.resp (.repo (.IsUserOwnerOfList userId listId)) d = (some none, d1) →
        h.resp (.repo (.ListUpdateOneById (some userId) listId input)) d1 = (some (some e), d2) →
        (ListUseCase.UpdateOneById userId listId input).run h d
          = ⟨some (some e), ⟨d2.world, d2.engine, d.broker⟩,
              [⟨.repo (.IsUserOwnerOfList userId listId), some none⟩,
               ⟨.repo (.ListUpdateOneById (some userId) listId input), some (some e)⟩]⟩) ∧
      (∀ e d1,
        h.resp (.repo (.IsUserOwnerOfList userId listId)) d = (some (some e), d1) →
        (ListUseCase.UpdateOneById userId listId input).run h d
          = ⟨some (some e), ⟨d1.world, d1.engine, d.broker⟩,
              [⟨.repo (.IsUserOwnerOfList userId listId), some (some e)⟩]⟩) ∧
      (∀ d1 d2,
        h.resp (.repo (.IsUserOwnerOfList userId listId)) d = (some none, d1) →
        h.resp (.repo (.ListUpdateOneById (some userId) listId input)) d1 = (none, d2) →
        (ListUseCase.UpdateOneById userId listId input).run h d
          = ⟨none, ⟨d2.world, d2.engine, d.broker⟩,
              [⟨.repo (.IsUserOwnerOfList userId listId), some none⟩,
               ⟨.repo (.ListUpdateOneById (some userId) listId input), none⟩]⟩) ∧
      (∀ d1,
        h.resp (.repo (.IsUserOwnerOfList userId listId)) d = (none, d1) →
        (ListUseCase.UpdateOneById userId listId input).run h d
          = ⟨none, ⟨d1.world, d1.engine, d.broker⟩,
              [⟨.repo (.IsUserOwnerOfList userId listId), none⟩]⟩)) ∧
    ((∀ d1 d2,
        h.resp (.repo (.IsUserOwnerOfList userId listId)) d = (some none, d1) →
        h.resp (.repo (.ListDeleteOneById (some userId) listId)) d1 = (some none, d2) →
        (ListUseCase.DeleteOneById userId listId).run h d
          = ⟨some none,
              ⟨d2.world, d2.engine, d.broker ++ [⟨"list_deleted",
                some (.obj [("list_id", .num listId)])⟩]⟩,
              [⟨.repo (.IsUserOwnerOfList userId listId), some none⟩,
               ⟨.repo (.ListDeleteOneById (some userId) listId), some none⟩,
               ⟨.go (.ListDeletedEvent listId), some ()⟩]⟩) ∧
      (∀ e d1 d2,
        h.resp (.repo (.IsUserOwnerOfList userId listId)) d = (some none, d1) →
        h.resp (.repo (.ListDeleteOneById (some userId) listId)) d1 = (some (some e), d2) →
        (ListUseCase.DeleteOneById userId listId).run h d
          = ⟨some (some e), ⟨d2.world, d2.engine, d.broker⟩,
              [⟨.repo (.IsUserOwnerOfList userId listId), some none⟩,
               ⟨.repo (.ListDeleteOneById (some userId) listId), some (some e)⟩]⟩) ∧
      (∀ e d1,
        h.resp (.repo (.IsUserOwnerOfList userId listId)) d = (some (some e), d1) →
        (ListUseCase.DeleteOneById userId listId).run h d
          = ⟨some (some e), ⟨d1.world, d1.engine, d.broker⟩,
              [⟨.repo (.IsUserOwnerOfList userId listId), some (some e)⟩]⟩) ∧
      (∀ d1 d2,
        h.resp (.repo (.IsUserOwnerOfList userId listId)) d = (some none, d1) →
        h.resp (.repo (.ListDeleteOneById (some userId) listId)) d1 = (none, d2) →
        (ListUseCase.DeleteOneById userId listId).run h d
          = ⟨none, ⟨d2.world, d2.engine, d.broker⟩,
              [⟨.repo (.IsUserOwnerOfList userId listId), some none⟩,
               ⟨.repo (.ListDeleteOneById (some userId) listId), none⟩]⟩) ∧
      (∀ d1,
        h.resp (.repo (.IsUserOwnerOfList userId listId)) d = (none, d1) →
        (ListUseCase.DeleteOneById userId listId).run h d
          = ⟨none, ⟨d1.world, d1.engine, d.broker⟩,
              [⟨.repo (.IsUserOwnerOfList userId listId), none⟩]⟩)) ∧
    ((∀ d1,
        h.resp (.repo (.ListDeleteOneById none listId)) d = (some none, d1) →
        (ListUseCase.DeleteOneByAdmin listId).run h d
          = ⟨some none,
              ⟨d1.world, d1.engine, d.broker ++ [⟨"list_deleted",
                some (.obj [("list_id", .num listId)])⟩]⟩,
              [⟨.repo (.ListDeleteOneById none listId), some none⟩,
               ⟨.go (.ListDeletedEvent listId), some ()⟩]⟩) ∧
      (∀ e d1,
        h.resp (.repo (.ListDeleteOneById none listId)) d = (some (some e), d1) →
        (ListUseCase.DeleteOneByAdmin listId).run h d
          = ⟨some (some e), ⟨d1.world, d1.engine, d.broker⟩,
              [⟨.repo (.ListDeleteOneById none listId), some (some e)⟩]⟩) ∧
      (∀ d1,
        h.resp (.repo (.ListDeleteOneById none listId)) d = (none, d1) →
        (ListUseCase.DeleteOneByAdmin listId).run h d
          = ⟨none, ⟨d1.world, d1.engine, d.broker⟩,
              [⟨.repo (.ListDeleteOneById none listId), none⟩]⟩)) ∧
    (∀ item,
      (∀ id i d1 d2,
        h.resp (.repo (.IsUserOwnerOfList userId listId)) d = (some none, d1) →
        h.resp (.repo (.CreateListItem listId item)) d1 = (some ((id, none), i), d2) →
        i = { item with Id := id } ∧
        (ItemUseCase.Create userId listId item).run h d
          = ⟨some ((id, none), i),
              ⟨d2.world, d2.engine, d.broker ++ [⟨"item_created",
                some (.obj [("user_id", .num userId), ("list_id", .num listId),
                  ("item", .obj [("id", .num id), ("title", .str item.Title),
                    ("description", .str item.Description), ("done", .bool item.Done)])])⟩]⟩,
              [⟨.repo (.IsUserOwnerOfList userId listId), some none⟩,
               ⟨.repo (.CreateListItem listId item), some ((id, none), i)⟩,
               ⟨.go (.ItemCreatedEvent userId listId i), some ()⟩]⟩) ∧
      (∀ id e i d1 d2,
        h.resp (.repo (.IsUserOwnerOfList userId listId)) d = (some none, d1) →
        h.resp (.repo (.CreateListItem listId item)) d1 = (some ((id, some e), i), d2) →
        (ItemUseCase.Create userId listId item).run h d
          = ⟨some ((0, some e), i), ⟨d2.world, d2.engine, d.broker⟩,
              [⟨.repo (.IsUserOwnerOfList userId listId), some none⟩,
               ⟨.repo (.CreateListItem listId item), some ((id, some e), i)⟩]⟩) ∧
      (∀ e d1,
        h.resp (.repo (.IsUserOwnerOfList userId listId)) d = (some (some e), d1) →
        (ItemUseCase.Create userId listId item).run h d
          = ⟨some ((0, some e), item), ⟨d1.world, d1.engine, d.broker⟩,
              [⟨.repo (.IsUserOwnerOfList userId listId), some (some e)⟩]⟩) ∧
      (∀ d1 d2,
        h.resp (.repo (.IsUserOwnerOfList userId listId)) d = (some none, d1) →
        h.resp (.repo (.CreateListItem listId item)) d1 = (none, d2) →
        (ItemUseCase.Create userId listId item).run h d
          = ⟨none, ⟨d2.world, d2.engine, d.broker⟩,
              [⟨.repo (.IsUserOwnerOfList userId listId), some none⟩,
               ⟨.repo (.CreateListItem listId item), none⟩]⟩) ∧
      (∀ d1,
        h.resp (.repo (.IsUserOwnerOfList userId listId)) d = (none, d1) →
        (ItemUseCase.Create userId listId item).run h d
          = ⟨none, ⟨d1.world, d1.engine, d.broker⟩,
              [⟨.repo (.IsUserOwnerOfList userId listId), none⟩]⟩)) ∧
    (∀ input,
      (∀ d1 d2,
        h.resp (.repo (.IsUserOwnerOfItem userId itemId)) d = (some none, d1) →
        h.resp (.repo (.ItemUpdateOneById (some listId) itemId input)) d1 = (some none, d2) →
        (ItemUseCase.UpdateOneById userId listId itemId input).run h d
          = ⟨some none,
              ⟨d2.world, d2.engine, d.broker ++ [⟨"item_updated",
                some (.obj [("user_id", .num userId), ("list_id", .num listId),
              ("item_id", .num itemId)])⟩]⟩,
              [⟨.repo (.IsUserOwnerOfItem userId itemId), some none⟩,
               ⟨.repo (.ItemUpdateOneById (some listId) itemId input), some none⟩,
               ⟨.go (.ItemUpdatedEvent userId listId itemId), some ()⟩]⟩) ∧
      (∀ e d1 d2,
        h.resp (.repo (.IsUserOwnerOfItem userId itemId)) d = (some none, d1) →
        h.resp (.repo (.ItemUpdateOneById (some listId) itemId input)) d1 = (some (some e), d2) →
        (ItemUseCase.UpdateOneById userId listId itemId input).run h d
          = ⟨some (some e), ⟨d2.world, d2.engine, d.broker⟩,
              [⟨.repo (.IsUserOwnerOfItem userId itemId), some none⟩,
               ⟨.repo (.ItemUpdateOneById (some listId) itemId input), some (some e)⟩]⟩) ∧
      (∀ e d1,
        h.resp (.repo (.IsUserOwnerOfItem userId itemId)) d = (some (some e), d1) →
        (ItemUseCase.UpdateOneById userId listId itemId input).run h d
          = ⟨some (some e), ⟨d1.world, d1.engine, d.broker⟩,
              [⟨.repo (.IsUserOwnerOfItem userId itemId), some (some e)⟩]⟩) ∧
      (∀ d1 d2,
        h.resp (.repo (.IsUserOwnerOfItem userId itemId)) d = (some none, d1) →
        h.resp (.repo (.ItemUpdateOneById (some listId) itemId input)) d1 = (none, d2) →
        (ItemUseCase.UpdateOneById userId listId itemId input).run h d
          = ⟨none, ⟨d2.world, d2.engine, d.broker⟩,
              [⟨.repo (.IsUserOwnerOfItem userId itemId), some none⟩,
               ⟨.repo (.ItemUpdateOneById (some listId) itemId input), none⟩]⟩) ∧
      (∀ d1,
        h.resp (.repo (.IsUserOwnerOfItem userId itemId)) d = (none, d1) →
        (ItemUseCase.UpdateOneById userId listId itemId input).run h d
          = ⟨none, ⟨d1.world, d1.engine, d.broker⟩,
              [⟨.repo (.IsUserOwnerOfItem userId itemId), none⟩]⟩)) ∧
    ((∀ d1 d2,
        h.resp (.repo (.IsUserOwnerOfItem userId itemId)) d = (some none, d1) →
        h.resp (.repo (.ItemDeleteOneById (some listId) itemId)) d1 = (some none, d2) →
        (ItemUseCase.DeleteOneById userId listId itemId).run h d
          = ⟨some none,
              ⟨d2.world, d2.engine, d.broker ++ [⟨"item_deleted",
                some (.obj [("item_id", .num itemId)])⟩]⟩,
              [⟨.repo (.IsUserOwnerOfItem userId itemId), some none⟩,
               ⟨.repo (.ItemDeleteOneById (some listId) itemId), some none⟩,
               ⟨.go (.ItemDeletedEvent itemId), some ()⟩]⟩) ∧
      (∀ e d1 d2,
        h.resp (.repo (.IsUserOwnerOfItem userId itemId)) d = (some none, d1) →
        h.resp (.repo (.ItemDeleteOneById (some listId) itemId)) d1 = (some (some e), d2) →
        (ItemUseCase.DeleteOneById userId listId itemId).run h d
          = ⟨some (some e), ⟨d2.world, d2.engine, d.broker⟩,
              [⟨.repo (.IsUserOwnerOfItem userId itemId), some none⟩,
               ⟨.repo (.ItemDeleteOneById (some listId) itemId), some (some e)⟩]⟩) ∧
      (∀ e d1,
        h.resp (.repo (.IsUserOwnerOfItem userId itemId)) d = (some (some e), d1) →
        (ItemUseCase.DeleteOneById userId listId itemId).run h d
          = ⟨some (some e), ⟨d1.world, d1.engine, d.broker⟩,
              [⟨.repo (.IsUserOwnerOfItem userId itemId), some (some e)⟩]⟩) ∧
      (∀ d1 d2,
        h.resp (.repo (.IsUserOwnerOfItem userId itemId)) d = (some none, d1) →
        h.resp (.repo (.ItemDeleteOneById (some listId) itemId)) d1 = (none, d2) →
        (ItemUseCase.DeleteOneById userId listId itemId).run h d
          = ⟨none, ⟨d2.world, d2.engine, d.broker⟩,
              [⟨.repo (.IsUserOwnerOfItem userId itemId), some none⟩,
               ⟨.repo (.ItemDeleteOneById (some listId) itemId), none⟩]⟩) ∧
      (∀ d1,
        h.resp (.repo (.IsUserOwnerOfItem userId itemId)) d = (none, d1) →
        (ItemUseCase.DeleteOneById userId listId itemId).run h d
          = ⟨none, ⟨d1.world, d1.engine, d.broker⟩,
              [⟨.repo (.IsUserOwnerOfItem userId itemId), none⟩]⟩)) ∧
    ((∀ d1,
        h.resp (.repo (.ItemDeleteOneById none itemId)) d = (some none, d1) →
        (ItemUseCase.DeleteOneByAdmin itemId).run h d
          = ⟨some none,
              ⟨d1.world, d1.engine, d.broker ++ [⟨"item_deleted",
                some (.obj [("item_id", .num itemId)])⟩]⟩,
              [⟨.repo (.ItemDeleteOneById none itemId), some none⟩,
               ⟨.go (.ItemDeletedEvent itemId), some ()⟩]⟩) ∧
      (∀ e d1,
        h.resp (.repo (.ItemDeleteOneById none itemId)) d = (some (some e), d1) →
        (ItemUseCase.DeleteOneByAdmin itemId).run h d
          = ⟨some (some e), ⟨d1.world, d1.engine, d.broker⟩,
              [⟨.repo (.ItemDeleteOneById none itemId), some (some e)⟩]⟩) ∧
      (∀ d1,
        h.resp (.repo (.ItemDeleteOneById none itemId)) d = (none, d1) →
        (ItemUseCase.DeleteOneByAdmin itemId).run h d
          = ⟨none, ⟨d1.world, d1.engine, d.broker⟩,
              [⟨.repo (.ItemDeleteOneById none itemId), none⟩]⟩)) ∧
    (∀ (α : Type) (p : UseCase α) (err2 : Option Err) (sent2 : List sarama.ProducerMessage),
      (p.run h d).result
        = (p.run (wire repo client (sarama.answering err2))
            ⟨d.world, d.engine, sent2⟩).result ∧
      (p.run h d).state.world
        = (p.run (wire repo client (sarama.answering err2))
            ⟨d.world, d.engine, sent2⟩).state.world ∧
      (p.run h d).state.engine
        = (p.run (wire repo client (sarama.answering err2))
            ⟨d.world, d.engine, sent2⟩).state.engine) := by
  intro h
  exact ⟨fun list => ListUseCase.Create_run_list repo client err d userId list,
    fun input => ListUseCase.UpdateOneById_run_list repo client err d userId listId input,
    ListUseCase.DeleteOneById_run_list repo client err d userId listId,
    ListUseCase.DeleteOneByAdmin_run_list repo client err d listId,
    fun item => ItemUseCase.Create_run_item repo client err d userId listId item,
    fun input => ItemUseCase.UpdateOneById_run_item repo client err d userId listId itemId input,
    ItemUseCase.DeleteOneById_run_item repo client err d userId listId itemId,
    ItemUseCase.DeleteOneByAdmin_run_item repo client err d itemId,
    fun α p err2 sent2 => wire_broker_independent repo client p err err2 d.world d.engine _ _⟩

/-- Witness of C14, with a broker whose `SendMessage` fails.  On an empty
deployment user 1 creates `Groceries`: the repository assigns id 1, one
ListCreated event with the stored list goes out on `list_created`, and the use
case returns id 1.  Where user 1 owns list 1, user 1 renames it: one
ListUpdated event goes out on `list_updated`.  Where item 1 exists, an admin
deletes it: one ItemDeleted event goes out on `item_deleted`. -/
theorem one_event_per_successful_mutation_witness :
    (ListUseCase.Create 1 ⟨0, "Groceries", ""⟩).run
        (Deployment.handler Elastic.noMatch (some (.other "kafka: broker down")))
        ⟨⟨Postgres.empty, Redis.empty, Redis.empty⟩, Elastic.empty, []⟩
      = ⟨some ((1, none), ⟨1, "Groceries", ""⟩),
          ⟨((Op.prog (.CreateUserList 1 ⟨0, "Groceries", ""⟩)).run
              (World.handler Postgres.handler) ⟨Postgres.empty, Redis.empty, Redis.empty⟩).state,
            Elastic.empty,
            [⟨"list_created", some (.obj [("user_id", .num 1),
              ("list", .obj [("id", .num 1), ("title", .str "Groceries"),
                ("description", .str "")])])⟩]⟩,
          [⟨.repo (.CreateUserList 1 ⟨0, "Groceries", ""⟩),
              some ((1, none), ⟨1, "Groceries", ""⟩)⟩,
           ⟨.go (.ListCreatedEvent 1 ⟨1, "Groceries", ""⟩), some ()⟩]⟩ ∧
    ((ListUseCase.UpdateOneById 1 1 ⟨some "Food", none⟩).run
        (Deployment.handler Elastic.noMatch (some (.other "kafka: broker down")))
        Deployment.groceries).trace
      = [⟨.repo (.IsUserOwnerOfList 1 1), some none⟩,
         ⟨.repo (.ListUpdateOneById (some 1) 1 ⟨some "Food", none⟩), some none⟩,
         ⟨.go (.ListUpdatedEvent 1 1), some ()⟩] ∧
    ((ListUseCase.UpdateOneById 1 1 ⟨some "Food", none⟩).run
        (Deployment.handler Elastic.noMatch (some (.other "kafka: broker down")))
        Deployment.groceries).state.broker
      = [⟨"list_updated", some (.obj [("user_id", .num 1), ("list_id", .num 1)])⟩] ∧
    ((ItemUseCase.DeleteOneByAdmin 1).run
        (Deployment.handler Elastic.noMatch (some (.other "kafka: broker down")))
        Deployment.milk).trace
      = [⟨.repo (.ItemDeleteOneById none 1), some none⟩,
         ⟨.go (.ItemDeletedEvent 1), some ()⟩] ∧
    ((ItemUseCase.DeleteOneByAdmin 1).run
        (Deployment.handler Elastic.noMatch (some (.other "kafka: broker down")))
        Deployment.milk).state.broker
      = [⟨"item_deleted", some (.obj [("item_id", .num 1)])⟩] :=
  have h1 := ((one_event_per_successful_mutation (World.handler Postgres.handler)
    (Elastic.handler Elastic.noMatch) (some (.other "kafka: broker down"))
    ⟨⟨Postgres.empty, Redis.empty, Redis.empty⟩, Elastic.empty, []⟩ 1 0 0).1
      ⟨0, "Groceries", ""⟩).1 1 ⟨1, "Groceries", ""⟩ _ rfl
  have h2 := ((one_event_per_successful_mutation (World.handler Postgres.handler)
    (Elastic.handler Elastic.noMatch) (some (.other "kafka: broker down")) Deployment.groceries
    1 1 0).2.1 ⟨some "Food", none⟩).1 _ _ rfl rfl
  have h3 := (one_event_per_successful_mutation (World.handler Postgres.handler)
    (Elastic.handler Elastic.noMatch) (some (.other "kafka: broker down")) Deployment.milk
    0 0 1).2.2.2.2.2.2.2.1.1 _ rfl
  ⟨h1.2, congrArg CallTree.Run.trace h2, congrArg (fun r => r.state.broker) h2,
    congrArg CallTree.Run.trace h3, congrArg (fun r => r.state.broker) h3⟩

/-! ## C15 -/

/-- C15: for every behaviour of the collaborators.  HandleCreated makes one
call, `Index` with the event's owner id (and list id for an item) and the
entity held in the event, and returns its answer; it does not call the
repository.  HandleUpdated calls the repository's GetOneById with the event's
entity id; when that returns an error it returns the error and calls nothing
else; otherwise it calls `Index` with the event's owner id (and list id) and
the entity just read, and returns the answer.  HandleDeleted makes one call,
`Delete` with the event's entity id, and returns its answer.  An answer of the
index is returned as it is, nil or error. -/
theorem handlers_index_what_they_are_given {σ : Type} (h : CallTree.Handler Port Port.Resp σ)
    (s : σ) :
    (∀ (m : entity.ListCreatedEvent) a s1,
      h.resp (.ListIndex m.UserId m.List) s = (some a, s1) →
      (ListUseCase.HandleCreated m).run h s
        = ⟨some a, s1, [⟨.ListIndex m.UserId m.List, some a⟩]⟩) ∧
    (∀ (m : entity.ListUpdatedEvent) list e s1,
      h.resp (.repo (.ListGetOneById m.ListId)) s = (some (list, some e), s1) →
      (ListUseCase.HandleUpdated m).run h s
        = ⟨some (some e), s1, [⟨.repo (.ListGetOneById m.ListId), some (list, some e)⟩]⟩) ∧
    (∀ (m : entity.ListUpdatedEvent) list s1 a s2,
      h.resp (.repo (.ListGetOneById m.ListId)) s = (some (list, none), s1) →
      h.resp (.ListIndex m.UserId list) s1 = (some a, s2) →
      (ListUseCase.HandleUpdated m).run h s
        = ⟨some a, s2, [⟨.repo (.ListGetOneById m.ListId), some (list, none)⟩,
            ⟨.ListIndex m.UserId list, some a⟩]⟩) ∧
    (∀ (m : entity.ListDeletedEvent) a s1,
      h.resp (.ListDelete m.ListId) s = (some a, s1) →
      (ListUseCase.HandleDeleted m).run h s = ⟨some a, s1, [⟨.ListDelete m.ListId, some a⟩]⟩) ∧
    (∀ (m : entity.ItemCreatedEvent) a s1,
      h.resp (.ItemIndex m.UserId m.ListId m.Item) s = (some a, s1) →
      (ItemUseCase.HandleCreated m).run h s
        = ⟨some a, s1, [⟨.ItemIndex m.UserId m.ListId m.Item, some a⟩]⟩) ∧
    (∀ (m : entity.ItemUpdatedEvent) item e s1,
      h.resp (.repo (.ItemGetOneById m.ItemId)) s = (some (item, some e), s1) →
      (ItemUseCase.HandleUpdated m).run h s
        = ⟨some (some e), s1, [⟨.repo (.ItemGetOneById m.ItemId), some (item, some e)⟩]⟩) ∧
    (∀ (m : entity.ItemUpdatedEvent) item s1 a s2,
      h.resp (.repo (.ItemGetOneById m.ItemId)) s = (some (item, none), s1) →
      h.resp (.ItemIndex m.UserId m.ListId item) s1 = (some a, s2) →
      (ItemUseCase.HandleUpdated m).run h s
        = ⟨some a, s2, [⟨.repo (.ItemGetOneById m.ItemId), some (item, none)⟩,
            ⟨.ItemIndex m.UserId m.ListId item, some a⟩]⟩) ∧
    (∀ (m : entity.ItemDeletedEvent) a s1,
      h.resp (.ItemDelete m.ItemId) s = (some a, s1) →
      (ItemUseCase.HandleDeleted m).run h s = ⟨some a, s1, [⟨.ItemDelete m.ItemId, some a⟩]⟩) := by
  refine ⟨?_, ?_, ?_, ?_, ?_, ?_, ?_, ?_⟩
  · intro m a s1 h1
    cases a <;>
      simp [ListUseCase.HandleCreated, Port.call, CallTree.perform, CallTree.bind_eq_bind,
        CallTree.pure_eq_ret, CallTree.bind, CallTree.run, h1]
  · intro m list e s1 h1
    simp [ListUseCase.HandleUpdated, Port.call, CallTree.perform, CallTree.bind_eq_bind,
      CallTree.pure_eq_ret, CallTree.bind, CallTree.run, h1]
  · intro m list s1 a s2 h1 h2
    cases a <;>
      simp [ListUseCase.HandleUpdated, Port.call, CallTree.perform, CallTree.bind_eq_bind,
        CallTree.pure_eq_ret, CallTree.bind, CallTree.run, h1, h2]
  · intro m a s1 h1
    cases a <;>
      simp [ListUseCase.HandleDeleted, Port.call, CallTree.perform, CallTree.bind_eq_bind,
        CallTree.pure_eq_ret, CallTree.bind, CallTree.run, h1]
  · intro m a s1 h1
    cases a <;>
      simp [ItemUseCase.HandleCreated, Port.call, CallTree.perform, CallTree.bind_eq_bind,
        CallTree.pure_eq_ret, CallTree.bind, CallTree.run, h1]
  · intro m item e s1 h1
    simp [ItemUseCase.HandleUpdated, Port.call, CallTree.perform, CallTree.bind_eq_bind,
      CallTree.pure_eq_ret, CallTree.bind, CallTree.run, h1]
  · intro m item s1 a s2 h1 h2
    cases a <;>
      simp [ItemUseCase.HandleUpdated, Port.call, CallTree.perform, CallTree.bind_eq_bind,
        CallTree.pure_eq_ret, CallTree.bind, CallTree.run, h1, h2]
  · intro m a s1 h1
    cases a <;>
      simp [ItemUseCase.HandleDeleted, Port.call, CallTree.perform, CallTree.bind_eq_bind,
        CallTree.pure_eq_ret, CallTree.bind, CallTree.run, h1]

/-- Witness of C15: in the deployment whose store holds list 1 only, an Updated
event for list 7 is answered with ErrListNotFound by the read; the handler
returns it and the engine is not called. -/
theorem handlers_index_what_they_are_given_witness :
    ((ListUseCase.HandleUpdated ⟨1, 7⟩).run (Deployment.handler Elastic.noMatch none)
        Deployment.groceries).result = some (some .ErrListNotFound) ∧
    ((ListUseCase.HandleUpdated ⟨1, 7⟩).run (Deployment.handler Elastic.noMatch none)
        Deployment.groceries).calls = [.repo (.ListGetOneById 7)] := by
  have h := (handlers_index_what_they_are_given (Deployment.handler Elastic.noMatch none)
    Deployment.groceries).2.1 ⟨1, 7⟩ entity.List.zero .ErrListNotFound Deployment.groceries rfl
  rw [h]
  exact ⟨rfl, rfl⟩

/-! ## C16 -/

theorem ListUseCase.HandleDeleted_engine_list {σ τ β : Type} (repo : Handler σ)
    (client : CallTree.Handler esapi.Request esapi.Request.Resp τ)
    (producer : CallTree.Handler sarama.ProducerMessage sarama.ProducerMessage.Resp β)
    (d : Deployment σ τ β) (m : entity.ListDeletedEvent) :
    ((ListUseCase.HandleDeleted m).run (wire repo client producer) d).state.engine
      = ((ListSearch.Delete m.ListId).run client d.engine).state := by
  simp only [ListUseCase.HandleDeleted, Port.call, CallTree.perform, CallTree.bind_eq_bind,
    CallTree.pure_eq_ret, CallTree.bind, CallTree.run, wire]
  generalize (ListSearch.Delete m.ListId).run client d.engine = r
  obtain ⟨_ | _ | e, en, t⟩ := r <;> rfl

theorem ItemUseCase.HandleDeleted_engine_item {σ τ β : Type} (repo : Handler σ)
    (client : CallTree.Handler esapi.Request esapi.Request.Resp τ)
    (producer : CallTree.Handler sarama.ProducerMessage sarama.ProducerMessage.Resp β)
    (d : Deployment σ τ β) (m : entity.ItemDeletedEvent) :
    ((ItemUseCase.HandleDeleted m).run (wire repo client producer) d).state.engine
      = ((ItemSearch.Delete m.ItemId).run client d.engine).state := by
  simp only [ItemUseCase.HandleDeleted, Port.call, CallTree.perform, CallTree.bind_eq_bind,
    CallTree.pure_eq_ret, CallTree.bind, CallTree.run, wire]
  generalize (ItemSearch.Delete m.ItemId).run client d.engine = r
  obtain ⟨_ | _ | e, en, t⟩ := r <;> rfl

theorem ListUseCase.HandleCreated_engine_list {σ τ β : Type} (repo : Handler σ)
    (client : CallTree.Handler esapi.Request esapi.Request.Resp τ)
    (producer : CallTree.Handler sarama.ProducerMessage sarama.ProducerMessage.Resp β)
    (d : Deployment σ τ β) (m : entity.ListCreatedEvent) :
    ((ListUseCase.HandleCreated m).run (wire repo client producer) d).state.engine
      = ((ListSearch.Index m.UserId m.List).run client d.engine).state := by
  simp only [ListUseCase.HandleCreated, Port.call, CallTree.perform, CallTree.bind_eq_bind,
    CallTree.pure_eq_ret, CallTree.bind, CallTree.run, wire]
  generalize (ListSearch.Index m.UserId m.List).run client d.engine = r
  obtain ⟨_ | _ | e, en, t⟩ := r <;> rfl

theorem ItemUseCase.HandleCreated_engine_item {σ τ β : Type} (repo : Handler σ)
    (client : CallTree.Handler esapi.Request esapi.Request.Resp τ)
    (producer : CallTree.Handler sarama.ProducerMessage sarama.ProducerMessage.Resp β)
    (d : Deployment σ τ β) (m : entity.ItemCreatedEvent) :
    ((ItemUseCase.HandleCreated m).run (wire repo client producer) d).state.engine
      = ((ItemSearch.Index m.UserId m.ListId m.Item).run client d.engine).state := by
  simp only [ItemUseCase.HandleCreated, Port.call, CallTree.perform, CallTree.bind_eq_bind,
    CallTree.pure_eq_ret, CallTree.bind, CallTree.run, wire]
  generalize (ItemSearch.Index m.UserId m.ListId m.Item).run client d.engine = r
  obtain ⟨_ | _ | e, en, t⟩ := r <;> rfl

theorem ListSearch.Delete_removes_list (matching : Elastic → String → Bytes → List String)
    (es : Elastic) (id : Int) :
    ((ListSearch.Delete id).run (Elastic.handler matching) es).state "lists" (toString id)
      = none := by
  simp only [ListSearch.Delete, esapi.Request.call, CallTree.perform, CallTree.bind_eq_bind,
    CallTree.pure_eq_ret, CallTree.bind, CallTree.run, Elastic.handler, CallTree.Handler.total,
    Sprintf_d, listIndexName]
  cases h : es "lists" (toString id) <;> simp [h, Elastic.remove]

theorem ItemSearch.Delete_removes_item (matching : Elastic → String → Bytes → List String)
    (es : Elastic) (id : Int) :
    ((ItemSearch.Delete id).run (Elastic.handler matching) es).state "items" (toString id)
      = none := by
  simp only [ItemSearch.Delete, esapi.Request.call, CallTree.perform, CallTree.bind_eq_bind,
    CallTree.pure_eq_ret, CallTree.bind, CallTree.run, Elastic.handler, CallTree.Handler.total,
    Sprintf_d, itemIndexName]
  cases h : es "items" (toString id) <;> simp [h, Elastic.remove]

theorem ListSearch.Index_stores_list (matching : Elastic → String → Bytes → List String)
    (es : Elastic) (userId : Int) (list : entity.List) :
    ((ListSearch.Index userId list).run (Elastic.handler matching) es).state "lists"
        (toString list.Id) = some (ListSearch.document userId list) := by
  simp [ListSearch.Index, esapi.Request.call, CallTree.perform, CallTree.bind_eq_bind,
    CallTree.pure_eq_ret, CallTree.bind, CallTree.run, Elastic.handler, CallTree.Handler.total,
    Sprintf_d, listIndexName, Elastic.put]

theorem ItemSearch.Index_stores_item (matching : Elastic → String → Bytes → List String)
    (es : Elastic) (userId listId : Int) (item : entity.Item) :
    ((ItemSearch.Index userId listId item).run (Elastic.handler matching) es).state "items"
        (toString item.Id) = some (ItemSearch.document userId listId item) := by
  simp [ItemSearch.Index, esapi.Request.call, CallTree.perform, CallTree.bind_eq_bind,
    CallTree.pure_eq_ret, CallTree.bind, CallTree.run, Elastic.handler, CallTree.Handler.total,
    Sprintf_d, itemIndexName, Elastic.put]

/-- C16: from every state of the store, the caches and the engine, and whatever
the store and caches answer, handling a Created event for the entity with a
given id, then an Updated event and then a Deleted event for that id leaves the
engine without a document under that id: index `lists` (`items` for an item),
document id the decimal rendering of the id.  After the Created event the
document is there; Index and Delete name it by the same text,
`fmt.Sprintf("%d", id)`.  The engine is the model, which serves every
request. -/
theorem created_updated_deleted_leaves_no_document {σ β : Type} (repo : Handler σ)
    (matching : Elastic → String → Bytes → List String)
    (producer : CallTree.Handler sarama.ProducerMessage sarama.ProducerMessage.Resp β)
    (d : Deployment σ Elastic β) (id : Int) :
    (∀ (owner owner2 : Int) (title description : String),
      let handle := wire repo (Elastic.handler matching) producer
      let d1 := ((ListUseCase.HandleCreated ⟨owner, ⟨id, title, description⟩⟩).run handle d).state
      let d2 := ((ListUseCase.HandleUpdated ⟨owner2, id⟩).run handle d1).state
      let d3 := ((ListUseCase.HandleDeleted ⟨id⟩).run handle d2).state
      d1.engine "lists" (toString id)
        = some (ListSearch.document owner ⟨id, title, description⟩) ∧
      d3.engine "lists" (toString id) = none) ∧
    (∀ (owner owner2 parent parent2 : Int) (title description : String) (done : Bool),
      let handle := wire repo (Elastic.handler matching) producer
      let d1 := ((ItemUseCase.HandleCreated ⟨owner, parent, ⟨id, title, description, done⟩⟩).run
        handle d).state
      let d2 := ((ItemUseCase.HandleUpdated ⟨owner2, parent2, id⟩).run handle d1).state
      let d3 := ((ItemUseCase.HandleDeleted ⟨id⟩).run handle d2).state
      d1.engine "items" (toString id)
        = some (ItemSearch.document owner parent ⟨id, title, description, done⟩) ∧
      d3.engine "items" (toString id) = none) ∧
    (∀ (τ : Type) (client : CallTree.Handler esapi.Request esapi.Request.Resp τ) (s : τ)
        (owner parent : Int) (list : entity.List) (item : entity.Item),
      ((ListSearch.Index owner list).run client s).calls
        = [.Index "lists" (some (ListSearch.document owner list)) (toString list.Id) "true"] ∧
      ((ListSearch.Delete id).run client s).calls = [.Delete "lists" (toString id)] ∧
      ((ItemSearch.Index owner parent item).run client s).calls
        = [.Index "items" (some (ItemSearch.document owner parent item)) (toString item.Id)
            "true"] ∧
      ((ItemSearch.Delete id).run client s).calls = [.Delete "items" (toString id)]) := by
  refine ⟨fun owner owner2 title description => ?_,
    fun owner owner2 parent parent2 title description done => ?_,
    fun τ client s owner parent list item => ⟨?_, ?_, ?_, ?_⟩⟩
  · intro handle d1 d2 d3
    refine ⟨?_, ?_⟩
    · simp only [d1, handle, ListUseCase.HandleCreated_engine_list]
      exact ListSearch.Index_stores_list matching d.engine owner ⟨id, title, description⟩
    · simp only [d3, handle, ListUseCase.HandleDeleted_engine_list]
      exact ListSearch.Delete_removes_list matching _ id
  · intro handle d1 d2 d3
    refine ⟨?_, ?_⟩
    · simp only [d1, handle, ItemUseCase.HandleCreated_engine_item]
      exact ItemSearch.Index_stores_item matching d.engine owner parent ⟨id, title, description, done⟩
    · simp only [d3, handle, ItemUseCase.HandleDeleted_engine_item]
      exact ItemSearch.Delete_removes_item matching _ id
  · simp only [ListSearch.Index, esapi.Request.call, CallTree.perform, CallTree.bind_eq_bind,
      CallTree.pure_eq_ret, CallTree.bind, CallTree.run, Sprintf_d, listIndexName]
    generalize client.resp _ s = r
    obtain ⟨_ | a, s1⟩ := r <;> simp [CallTree.Run.calls, Sprintf_d]
  · simp only [ListSearch.Delete, esapi.Request.call, CallTree.perform, CallTree.bind_eq_bind,
      CallTree.pure_eq_ret, CallTree.bind, CallTree.run, Sprintf_d, listIndexName]
    generalize client.resp _ s = r
    obtain ⟨_ | a, s1⟩ := r <;> simp [CallTree.Run.calls, Sprintf_d]
  · simp only [ItemSearch.Index, esapi.Request.call, CallTree.perform, CallTree.bind_eq_bind,
      CallTree.pure_eq_ret, CallTree.bind, CallTree.run, Sprintf_d, itemIndexName]
    generalize client.resp _ s = r
    obtain ⟨_ | a, s1⟩ := r <;> simp [CallTree.Run.calls, Sprintf_d]
  · simp only [ItemSearch.Delete, esapi.Request.call, CallTree.perform, CallTree.bind_eq_bind,
      CallTree.pure_eq_ret, CallTree.bind, CallTree.run, Sprintf_d, itemIndexName]
    generalize client.resp _ s = r
    obtain ⟨_ | a, s1⟩ := r <;> simp [CallTree.Run.calls, Sprintf_d]

/-! ## C17 -/

/-- C17 as stated fails: on an engine without documents, where `Delete` is
answered 404 not-found, ListSearch.Delete and ItemSearch.Delete return an
error; and on an engine that holds list 7, the first Delete returns nil and the
second one an error. -/
theorem delete_of_absent_document_is_an_error :
    Elastic.empty "lists" "7" = none ∧
    ((ListSearch.Delete 7).run (Elastic.handler Elastic.noMatch) Elastic.empty).result
      = some (some (.other "error response from Elasticsearch: [404]")) ∧
    ((ItemSearch.Delete 7).run (Elastic.handler Elastic.noMatch) Elastic.empty).result
      = some (some (.other "error response from Elasticsearch: [404]")) ∧
    ((ListSearch.Delete 7).run (Elastic.handler Elastic.noMatch)
        (Elastic.empty.put "lists" "7" (ListSearch.document 1 ⟨7, "Groceries", ""⟩))).result
      = some none ∧
    ((ListSearch.Delete 7).run (Elastic.handler Elastic.noMatch)
        ((ListSearch.Delete 7).run (Elastic.handler Elastic.noMatch)
          (Elastic.empty.put "lists" "7" (ListSearch.document 1 ⟨7, "Groceries", ""⟩))).state).result
      = some (some (.other "error response from Elasticsearch: [404]")) := by
  refine ⟨rfl, ?_, ?_, ?_, ?_⟩ <;> decide

theorem checkAnswer_nil (text : String) (answer : Except Err esapi.Response) :
    checkAnswer text answer = none ↔ ∃ res, answer = .ok res ∧ res.StatusCode ≤ 299 := by
  rcases answer with e | res
  · simp [checkAnswer]
  · simp [checkAnswer, esapi.Response.IsError]

theorem esapi.Response.String_404 (body : Bytes) :
    "error response from Elasticsearch: " ++ (⟨404, body⟩ : esapi.Response).String
      = "error response from Elasticsearch: [404]" := by
  show "error response from Elasticsearch: " ++ ("[" ++ toString 404 ++ "]") = _
  decide

/-- C17 amended: ListSearch.Delete and ItemSearch.Delete make one request,
`Delete` of the document named by the decimal id, and return nil exactly when
the client answers it with a response whose status is at most 299.  A 404
not-found answer is returned as the error `error response from Elasticsearch:
[404]`.  So on the model engine a Delete of an absent document returns that
error and leaves the engine as it was, and of two Deletes of one id the second
returns it, whatever the first returned; after either, the engine holds no
document under the id. -/
theorem delete_is_nil_only_on_success_status (id : Int) :
    (∀ (τ : Type) (client : CallTree.Handler esapi.Request esapi.Request.Resp τ) (s : τ),
      (((ListSearch.Delete id).run client s).result = some none ↔
        ∃ res, (client.resp (.Delete "lists" (toString id)) s).1 = some (.ok res) ∧
          res.StatusCode ≤ 299) ∧
      (((ItemSearch.Delete id).run client s).result = some none ↔
        ∃ res, (client.resp (.Delete "items" (toString id)) s).1 = some (.ok res) ∧
          res.StatusCode ≤ 299) ∧
      (∀ body, (client.resp (.Delete "lists" (toString id)) s).1 = some (.ok ⟨404, body⟩) →
        ((ListSearch.Delete id).run client s).result
          = some (some (.other "error response from Elasticsearch: [404]"))) ∧
      (∀ body, (client.resp (.Delete "items" (toString id)) s).1 = some (.ok ⟨404, body⟩) →
        ((ItemSearch.Delete id).run client s).result
          = some (some (.other "error response from Elasticsearch: [404]")))) ∧
    (∀ (matching : Elastic → String → Bytes → List String) (es : Elastic),
      (es "lists" (toString id) = none →
        ((ListSearch.Delete id).run (Elastic.handler matching) es).result
          = some (some (.other "error response from Elasticsearch: [404]")) ∧
        ((ListSearch.Delete id).run (Elastic.handler matching) es).state = es) ∧
      (es "items" (toString id) = none →
        ((ItemSearch.Delete id).run (Elastic.handler matching) es).result
          = some (some (.other "error response from Elasticsearch: [404]")) ∧
        ((ItemSearch.Delete id).run (Elastic.handler matching) es).state = es) ∧
      ((ListSearch.Delete id).run (Elastic.handler matching)
          ((ListSearch.Delete id).run (Elastic.handler matching) es).state).result
        = some (some (.other "error response from Elasticsearch: [404]")) ∧
      ((ItemSearch.Delete id).run (Elastic.handler matching)
          ((ItemSearch.Delete id).run (Elastic.handler matching) es).state).result
        = some (some (.other "error response from Elasticsearch: [404]")) ∧
      ((ListSearch.Delete id).run (Elastic.handler matching) es).state "lists" (toString id)
        = none ∧
      ((ItemSearch.Delete id).run (Elastic.handler matching) es).state "items" (toString id)
        = none) := by
  have hL : ∀ (matching : Elastic → String → Bytes → List String) (es : Elastic),
      es "lists" (toString id) = none →
      (ListSearch.Delete id).run (Elastic.handler matching) es
        = ⟨some (some (.other "error response from Elasticsearch: [404]")), es,
            [⟨.Delete "lists" (Sprintf "%d" id), some (.ok ⟨404, some (.obj [
              ("_id", .str (Sprintf "%d" id)), ("result", .str "not_found")])⟩)⟩]⟩ := by
    intro matching es h
    rw [← Sprintf_d] at h
    simp [ListSearch.Delete, esapi.Request.call, CallTree.perform, CallTree.bind_eq_bind,
      CallTree.pure_eq_ret, CallTree.bind, CallTree.run, Elastic.handler, CallTree.Handler.total,
      listIndexName, h, checkAnswer, esapi.Response.IsError, esapi.Response.String]
    rfl
  have hI : ∀ (matching : Elastic → String → Bytes → List String) (es : Elastic),
      es "items" (toString id) = none →
      (ItemSearch.Delete id).run (Elastic.handler matching) es
        = ⟨some (some (.other "error response from Elasticsearch: [404]")), es,
            [⟨.Delete "items" (Sprintf "%d" id), some (.ok ⟨404, some (.obj [
              ("_id", .str (Sprintf "%d" id)), ("result", .str "not_found")])⟩)⟩]⟩ := by
    intro matching es h
    rw [← Sprintf_d] at h
    simp [ItemSearch.Delete, esapi.Request.call, CallTree.perform, CallTree.bind_eq_bind,
      CallTree.pure_eq_ret, CallTree.bind, CallTree.run, Elastic.handler, CallTree.Handler.total,
      itemIndexName, h, checkAnswer, esapi.Response.IsError, esapi.Response.String]
    rfl
  refine ⟨fun τ client s => ?_, fun matching es => ⟨fun h => ?_, fun h => ?_, ?_, ?_,
    ListSearch.Delete_removes_list matching es id, ItemSearch.Delete_removes_item matching es id⟩⟩
  · rw [← Sprintf_d]
    simp only [ListSearch.Delete, ItemSearch.Delete, esapi.Request.call, CallTree.perform,
      CallTree.bind_eq_bind, CallTree.pure_eq_ret, CallTree.bind, CallTree.run, listIndexName,
      itemIndexName]
    generalize client.resp (.Delete "lists" _) s = r1
    generalize client.resp (.Delete "items" _) s = r2
    obtain ⟨_ | a1, s1⟩ := r1 <;> obtain ⟨_ | a2, s2⟩ := r2 <;>
      simp [checkAnswer_nil] <;> intros <;>
      simp_all [checkAnswer, esapi.Response.IsError, esapi.Response.String_404]
  · rw [hL matching es h]
    exact ⟨rfl, rfl⟩
  · rw [hI matching es h]
    exact ⟨rfl, rfl⟩
  · rw [hL matching _ (ListSearch.Delete_removes_list matching es id)]
  · rw [hI matching _ (ItemSearch.Delete_removes_item matching es id)]

/-! ## C18 -/

theorem ListRepo.sqlGetManyByIds_head_list (n : Nat) :
    (ListRepo.sqlGetManyByIds n).data.take 54
      = "SELECT id, title, description FROM lists WHERE id IN (".data := by
  simp only [ListRepo.sqlGetManyByIds, String.data_append, List.append_assoc]
  rw [← List.append_assoc, ← List.append_assoc]
  exact List.take_left' (by decide)

theorem ItemRepo.sqlGetManyByIds_head_item (n : Nat) :
    (ItemRepo.sqlGetManyByIds n).data.take 60
      = "SELECT id, title, description, done FROM items WHERE id IN (".data := by
  simp only [ItemRepo.sqlGetManyByIds, String.data_append, List.append_assoc]
  rw [← List.append_assoc, ← List.append_assoc]
  exact List.take_left' (by decide)

theorem ne_of_head {q : String} {k : Nat} {head : List Char} (hq : q.data.take k = head)
    (t : String) (ht : t.data.take k ≠ head) : ¬ q = t :=
  fun h => ht (h ▸ hq)

theorem ne_some_of_head {q : String} {k : Nat} {head : List Char} (hq : q.data.take k = head)
    (o : Option String) (ho : (o.map fun t => t.data.take k) ≠ some head) : ¬ o = some q :=
  fun h => ho (by rw [h]; simp [hq])

theorem Stmt.recognize_listGetManyByIds (n : Nat) :
    Stmt.recognize (ListRepo.sqlGetManyByIds n) n = some .ListGetManyByIds := by
  have hq := ListRepo.sqlGetManyByIds_head_list n
  unfold Stmt.recognize
  repeat (first
    | rw [if_neg (ne_of_head hq _ (by decide))]
    | rw [if_neg (ne_some_of_head hq _ (by decide))])
  rw [if_pos rfl]

theorem Stmt.recognize_itemGetManyByIds (n : Nat) :
    Stmt.recognize (ItemRepo.sqlGetManyByIds n) n = some .ItemGetManyByIds := by
  have hq := ItemRepo.sqlGetManyByIds_head_item n
  have h1 : (ItemRepo.sqlGetManyByIds n).data.take 30
      = ("SELECT id, title, description, done FROM items WHERE id IN (".data).take 30 := by
    rw [← hq, List.take_take]
    rfl
  have h2 : (ListRepo.sqlGetManyByIds n).data.take 30
      = ("SELECT id, title, description FROM lists WHERE id IN (".data).take 30 := by
    rw [← ListRepo.sqlGetManyByIds_head_list n, List.take_take]
    rfl
  have hne : ¬ ItemRepo.sqlGetManyByIds n = ListRepo.sqlGetManyByIds n := by
    intro h
    rw [h, h2] at h1
    revert h1
    decide
  unfold Stmt.recognize
  repeat (first
    | rw [if_neg (ne_of_head hq _ (by decide))]
    | rw [if_neg (ne_some_of_head hq _ (by decide))])
  rw [if_neg hne, if_pos rfl]

theorem argInts_convert (ids : List Int) : argInts (ConvertToInterfaceSlice ids) = some ids := by
  induction ids with
  | nil => rfl
  | cons i rest ih =>
    simp only [ConvertToInterfaceSlice, List.map_cons, argInts] at ih ⊢
    rw [ih]
    rfl

theorem ListRepo.GetManyByIds_stored_lists (w : World Postgres) (ids : List Int) :
    ((ListRepo.GetManyByIds ids).run (World.handler Postgres.handler) w).result
      = some (some (w.db.tables.lists.filter fun l => ids.contains l.Id), none) ∧
    ((ListRepo.GetManyByIds ids).run (World.handler Postgres.handler) w).state = w := by
  simp only [ListRepo.GetManyByIds, Prog.perform, Prog.bind_eq, Prog.pure_eq, Prog.bind]
  split
  · rename_i h
    have : ids = [] := List.length_eq_zero.mp h
    subst this
    simp [Prog.run]
  · have hlen : (ConvertToInterfaceSlice ids).length = ids.length := by
      simp [ConvertToInterfaceSlice]
    have hq : w.db.query (ListRepo.sqlGetManyByIds ids.length) (ConvertToInterfaceSlice ids) .list
        = .ok ⟨(w.db.tables.lists.filter fun l => ids.contains l.Id).map .ok, none⟩ := by
      simp only [Postgres.query, hlen, Stmt.recognize_listGetManyByIds, argInts_convert]
    simp [Prog.run, World.resp_query, Prog.bind, hq, scanAll_ok]

theorem ItemRepo.GetManyByIds_stored_items (w : World Postgres) (ids : List Int) :
    ((ItemRepo.GetManyByIds ids).run (World.handler Postgres.handler) w).result
      = some (some (w.db.tables.items.filter fun i => ids.contains i.Id), none) ∧
    ((ItemRepo.GetManyByIds ids).run (World.handler Postgres.handler) w).state = w := by
  simp only [ItemRepo.GetManyByIds, Prog.perform, Prog.bind_eq, Prog.pure_eq, Prog.bind]
  split
  · rename_i h
    have : ids = [] := List.length_eq_zero.mp h
    subst this
    simp [Prog.run]
  · have hlen : (ConvertToInterfaceSlice ids).length = ids.length := by
      simp [ConvertToInterfaceSlice]
    have hq : w.db.query (ItemRepo.sqlGetManyByIds ids.length) (ConvertToInterfaceSlice ids) .item
        = .ok ⟨(w.db.tables.items.filter fun i => ids.contains i.Id).map .ok, none⟩ := by
      simp only [Postgres.query, hlen, Stmt.recognize_itemGetManyByIds, argInts_convert]
    simp [Prog.run, World.resp_query, Prog.bind, hq, scanAll_ok]

/-- C18 as stated fails: when the engine still holds the document of list 7 and
the store holds no such list, SearchIds returns the id 7 and
ListUseCase.Search returns no entity for it, and no error. -/
theorem search_drops_id_without_row :
    Deployment.staleIndex.world.db.tables.lists = [] ∧
    ((ListSearch.SearchIds 1 "Groceries").run (Elastic.handler Elastic.selects7)
        Deployment.staleIndex.engine).result = some (some [7], none) ∧
    ((ListUseCase.Search 1 "Groceries").run (Deployment.handler Elastic.selects7 none)
        Deployment.staleIndex).result = some (some [], none) ∧
    ((ListUseCase.Search 1 "Groceries").run (Deployment.handler Elastic.selects7 none)
        Deployment.staleIndex).calls
      = [.ListSearchIds 1 "Groceries", .repo (.ListGetManyByIds [7])] := by
  refine ⟨rfl, ?_, ?_, rfl⟩ <;> decide

/-- C18 amended: ListUseCase.Search and ItemUseCase.Search call SearchIds once;
when it returns an error they return the empty list with that error and do not
call the repository; otherwise they call GetManyByIds once with the ids
returned and return its result.  On the model store that result is, without
error, the stored entities whose id is among the ids returned, each once and in
storage order: an id without a row yields no entity. -/
theorem search_returns_stored_entities_among_ids {τ β : Type}
    (client : CallTree.Handler esapi.Request esapi.Request.Resp τ)
    (producer : CallTree.Handler sarama.ProducerMessage sarama.ProducerMessage.Resp β)
    (d : Deployment (World Postgres) τ β) (userId : Int) (listId : Option Int)
    (done : Option Bool) (searchText : String) :
    (∀ (σ : Type) (h : CallTree.Handler Port Port.Resp σ) (s : σ),
      (∀ ids e s1, h.resp (.ListSearchIds userId searchText) s = (some (ids, some e), s1) →
        (ListUseCase.Search userId searchText).run h s
          = ⟨some (some [], some e), s1,
              [⟨.ListSearchIds userId searchText, some (ids, some e)⟩]⟩) ∧
      (∀ ids s1 a s2, h.resp (.ListSearchIds userId searchText) s = (some (ids, none), s1) →
        h.resp (.repo (.ListGetManyByIds (ids.getD []))) s1 = (some a, s2) →
        (ListUseCase.Search userId searchText).run h s
          = ⟨some a, s2, [⟨.ListSearchIds userId searchText, some (ids, none)⟩,
              ⟨.repo (.ListGetManyByIds (ids.getD [])), some a⟩]⟩) ∧
      (∀ ids e s1,
        h.resp (.ItemSearchIds userId listId done searchText) s = (some (ids, some e), s1) →
        (ItemUseCase.Search userId listId done searchText).run h s
          = ⟨some (some [], some e), s1,
              [⟨.ItemSearchIds userId listId done searchText, some (ids, some e)⟩]⟩) ∧
      (∀ ids s1 a s2,
        h.resp (.ItemSearchIds userId listId done searchText) s = (some (ids, none), s1) →
        h.resp (.repo (.ItemGetManyByIds (ids.getD []))) s1 = (some a, s2) →
        (ItemUseCase.Search userId listId done searchText).run h s
          = ⟨some a, s2, [⟨.ItemSearchIds userId listId done searchText, some (ids, none)⟩,
              ⟨.repo (.ItemGetManyByIds (ids.getD [])), some a⟩]⟩)) ∧
    (∀ ids,
      ⟨.ListSearchIds userId searchText, some (ids, none)⟩
        ∈ ((ListUseCase.Search userId searchText).run
            (wire (World.handler Postgres.handler) client producer) d).trace →
      ((ListUseCase.Search userId searchText).run
          (wire (World.handler Postgres.handler) client producer) d).result
        = some (some (d.world.db.tables.lists.filter fun l => (ids.getD []).contains l.Id),
            none)) ∧
    (∀ ids,
      ⟨.ItemSearchIds userId listId done searchText, some (ids, none)⟩
        ∈ ((ItemUseCase.Search userId listId done searchText).run
            (wire (World.handler Postgres.handler) client producer) d).trace →
      ((ItemUseCase.Search userId listId done searchText).run
          (wire (World.handler Postgres.handler) client producer) d).result
        = some (some (d.world.db.tables.items.filter fun i => (ids.getD []).contains i.Id),
            none)) := by
  refine ⟨fun σ h s => ⟨?_, ?_, ?_, ?_⟩, fun ids => ?_, fun ids => ?_⟩
  · intro ids e s1 h1
    simp [ListUseCase.Search, Port.call, CallTree.perform, CallTree.bind_eq_bind, CallTree.pure_eq_ret,
      CallTree.bind, CallTree.run, h1]
  · intro ids s1 a s2 h1 h2
    simp [ListUseCase.Search, Port.call, CallTree.perform, CallTree.bind_eq_bind, CallTree.pure_eq_ret,
      CallTree.bind, CallTree.run, h1, h2]
  · intro ids e s1 h1
    simp [ItemUseCase.Search, Port.call, CallTree.perform, CallTree.bind_eq_bind, CallTree.pure_eq_ret,
      CallTree.bind, CallTree.run, h1]
  · intro ids s1 a s2 h1 h2
    simp [ItemUseCase.Search, Port.call, CallTree.perform, CallTree.bind_eq_bind, CallTree.pure_eq_ret,
      CallTree.bind, CallTree.run, h1, h2]
  · simp only [ListUseCase.Search, Port.call, CallTree.perform, CallTree.bind_eq_bind,
      CallTree.pure_eq_ret, CallTree.bind, CallTree.run, wire]
    generalize (ListSearch.SearchIds userId searchText).run client d.engine = r1
    obtain ⟨_ | ⟨ids1, _ | e⟩, en, t⟩ := r1
    · simp
    · simp only [CallTree.bind, CallTree.run, Op.prog]
      obtain ⟨h1, h2⟩ := ListRepo.GetManyByIds_stored_lists d.world (ids1.getD [])
      rw [h1]
      intro h
      simp at h
      cases h
      rfl
    · simp [CallTree.run]
      intro h
      cases h
  · simp only [ItemUseCase.Search, Port.call, CallTree.perform, CallTree.bind_eq_bind,
      CallTree.pure_eq_ret, CallTree.bind, CallTree.run, wire]
    generalize (ItemSearch.SearchIds userId listId done searchText).run client d.engine = r1
    obtain ⟨_ | ⟨ids1, _ | e⟩, en, t⟩ := r1
    · simp
    · simp only [CallTree.bind, CallTree.run, Op.prog]
      obtain ⟨h1, h2⟩ := ItemRepo.GetManyByIds_stored_items d.world (ids1.getD [])
      rw [h1]
      intro h
      simp at h
      cases h
      rfl
    · simp [CallTree.run]
      intro h
      cases h

/-! ## C19 -/

theorem readHits_trace {τ : Type} (collect : List JSON → List Int → Option (List Int))
    (answer : Except Err esapi.Response)
    (client : CallTree.Handler esapi.Request esapi.Request.Resp τ) (s : τ) :
    ((readHits collect answer).run client s).trace = [] := by
  unfold readHits
  repeat (first
    | rfl
    | split)

/-- C19: for all arguments and every client, each SearchIds makes one request,
`Search` on its index (`lists`, `items`) with total-hit tracking, whose body
has the members `_source` = `["id"]` and `query.bool` with `must` and
`filter`.  `must` is the single clause `multi_match` of the search text with
fuzziness `AUTO` over the fields `title^2` and `description`.  `filter` starts
with the term `userId` = the caller's id; for ItemSearch it goes on with the
term `listId` exactly when `listId` is non-nil and then the term `done` exactly
when `done` is non-nil; it holds nothing else. -/
theorem search_query_is_scoped_to_owner (userId : Int) (listId : Option Int) (done : Option Bool)
    (searchText : String) :
    (∀ (τ : Type) (client : CallTree.Handler esapi.Request esapi.Request.Resp τ) (s : τ),
      ((ListSearch.SearchIds userId searchText).run client s).calls
        = [.Search "lists" (some (ListSearch.searchQuery userId searchText)) true] ∧
      ((ItemSearch.SearchIds userId listId done searchText).run client s).calls
        = [.Search "items" (some (ItemSearch.body userId listId done searchText)) true]) ∧
    ListSearch.searchQuery userId searchText
      = .obj [("_source", .arr [.str "id"]),
          ("query", .obj [("bool", .obj [
            ("filter", .arr [.obj [("term", .obj [("userId", .num userId)])]]),
            ("must", .arr [.obj [("multi_match", .obj [
              ("fields", .arr [.str "title^2", .str "description"]),
              ("fuzziness", .str "AUTO"),
              ("query", .str searchText)])]])])])] ∧
    ItemSearch.body userId listId done searchText
      = .obj [("_source", .arr [.str "id"]),
          ("query", .obj [("bool", .obj [
            ("filter", .arr (ItemSearch.filter userId listId done)),
            ("must", .arr [.obj [("multi_match", .obj [
              ("fields", .arr [.str "title^2", .str "description"]),
              ("fuzziness", .str "AUTO"),
              ("query", .str searchText)])]])])])] ∧
    ItemSearch.filter userId listId done
      = [.obj [("term", .obj [("userId", .num userId)])]]
        ++ (listId.toList.map fun l => .obj [("term", .obj [("listId", .num l)])])
        ++ (done.toList.map fun b => .obj [("term", .obj [("done", .bool b)])]) ∧
    (∀ l, JSON.obj [("term", .obj [("listId", .num l)])] ∈ ItemSearch.filter userId listId done
      ↔ listId = some l) ∧
    (∀ b, JSON.obj [("term", .obj [("done", .bool b)])] ∈ ItemSearch.filter userId listId done
      ↔ done = some b) ∧
    (∀ u, JSON.obj [("term", .obj [("userId", .num u)])] ∈ ItemSearch.filter userId listId done
      ↔ u = userId) := by
  refine ⟨fun τ client s => ⟨?_, ?_⟩, rfl, rfl, ?_, ?_, ?_, ?_⟩
  · simp only [ListSearch.SearchIds, esapi.Request.call, CallTree.perform, CallTree.bind_eq_bind,
      CallTree.bind, CallTree.run, listIndexName]
    generalize client.resp _ s = r
    obtain ⟨_ | a, s1⟩ := r <;> simp [CallTree.Run.calls, readHits_trace]
  · simp only [ItemSearch.SearchIds, esapi.Request.call, CallTree.perform, CallTree.bind_eq_bind,
      CallTree.bind, CallTree.run, itemIndexName]
    generalize client.resp _ s = r
    obtain ⟨_ | a, s1⟩ := r <;> simp [CallTree.Run.calls, readHits_trace]
  · cases listId <;> cases done <;> rfl
  · intro l
    cases listId <;> cases done <;> simp [ItemSearch.filter, eq_comm]
  · intro b
    cases listId <;> cases done <;> simp [ItemSearch.filter, eq_comm]
  · intro u
    cases listId <;> cases done <;> simp [ItemSearch.filter, eq_comm]

/-! ## C20 -/

theorem KafkaConsumer.loop_run {σ : Type} (f : (c : Bytes) → σ → handlerResp c × σ)
    (topic : String) (messages : List sarama.ConsumerMessage) (logged : List String) (s : σ) :
    ((KafkaConsumer.loop topic messages logged).run (CallTree.Handler.total f) s).calls
      = messages.map (·.Value) ∧
    ((KafkaConsumer.loop topic messages logged).run (CallTree.Handler.total f) s).result
      = some (logged ++
          ((KafkaConsumer.loop topic messages logged).run (CallTree.Handler.total f)
              s).trace.filterMap fun x =>
            match x.2 with
            | some (some e) =>
              some ("error handling message from topic " ++ topic ++ ": " ++ e.Error)
            | _ => none) := by
  induction messages generalizing logged s with
  | nil => simp [KafkaConsumer.loop, CallTree.pure_eq_ret, CallTree.run, CallTree.Run.calls]
  | cons m rest ih =>
    simp only [KafkaConsumer.loop, CallTree.perform, CallTree.bind_eq_bind, CallTree.bind,
      CallTree.run, CallTree.Handler.total]
    rcases h : (f m.Value s).1 with _ | e
    · have := ih logged (f m.Value s).2
      simp only [CallTree.Run.calls, CallTree.Handler.total] at this ⊢
      simp [this.1, this.2]
    · have := ih (logged ++ ["error handling message from topic " ++ topic ++ ": " ++ e.Error])
        (f m.Value s).2
      simp only [CallTree.Run.calls, CallTree.Handler.total] at this ⊢
      simp [this.1, this.2]

/-- C20: for every handler function, every topic and every finite sequence of
messages delivered on a partition, the loop that Subscribe starts on the
partition consumer runs to the end of the sequence and calls the handler with
the value of each message, once each and in arrival order, whether or not
earlier calls returned an error; each error is logged, once.  Subscribe itself,
on a topic with one partition, opens that partition at the newest offset and
starts the loop on it. -/
theorem consumer_loop_handles_every_message {σ : Type}
    (f : (c : Bytes) → σ → handlerResp c × σ) (topic : String)
    (messages : List sarama.ConsumerMessage) (s : σ) :
    ((KafkaConsumer.loop topic messages []).run (CallTree.Handler.total f) s).calls
      = messages.map (·.Value) ∧
    ((KafkaConsumer.loop topic messages []).run (CallTree.Handler.total f) s).result
      = some (((KafkaConsumer.loop topic messages []).run (CallTree.Handler.total f)
          s).trace.filterMap fun x =>
            match x.2 with
            | some (some e) =>
              some ("error handling message from topic " ++ topic ++ ": " ++ e.Error)
            | _ => none) ∧
    (∀ (τ : Type) (client : CallTree.Handler sarama.ConsumerCall sarama.ConsumerCall.Resp τ)
        (t t1 t2 t3 : τ) (partition : Int) (pc : Nat),
      client.resp (.Partitions topic) t = (some (.ok [partition]), t1) →
      client.resp (.ConsumePartition topic partition sarama.OffsetNewest) t1
        = (some (.ok pc), t2) →
      client.resp (.go pc) t2 = (some (), t3) →
      ((KafkaConsumer.Subscribe topic).run client t).calls
        = [.Partitions topic, .ConsumePartition topic partition (-1), .go pc] ∧
      ((KafkaConsumer.Subscribe topic).run client t).result = some none) := by
  refine ⟨(KafkaConsumer.loop_run f topic messages [] s).1, ?_, ?_⟩
  · simpa using (KafkaConsumer.loop_run f topic messages [] s).2
  · intro τ client t t1 t2 t3 partition pc h1 h2 h3
    simp only [sarama.OffsetNewest] at h2
    simp [KafkaConsumer.Subscribe, KafkaConsumer.subscribeEach, sarama.ConsumerCall.call,
      CallTree.perform, CallTree.bind_eq_bind, CallTree.pure_eq_ret, CallTree.bind, CallTree.run, h1, h2,
      h3, CallTree.Run.calls, sarama.OffsetNewest]

/-- Witness of C20: three messages arrive and the handler fails on the second;
the handler is called with all three values in order and one line is logged. -/
theorem consumer_loop_handles_every_message_witness :
    ((KafkaConsumer.loop "list_created"
        [⟨some (.num 1), 10⟩, ⟨some (.num 2), 11⟩, ⟨some (.num 3), 12⟩] []).run
        (CallTree.Handler.total failsOnTwo) 0).calls
      = [some (.num 1), some (.num 2), some (.num 3)] ∧
    ((KafkaConsumer.loop "list_created"
        [⟨some (.num 1), 10⟩, ⟨some (.num 2), 11⟩, ⟨some (.num 3), 12⟩] []).run
        (CallTree.Handler.total failsOnTwo) 0).result
      = some ["error handling message from topic list_created: cannot handle 2"] ∧
    ((KafkaConsumer.loop "list_created"
        [⟨some (.num 1), 10⟩, ⟨some (.num 2), 11⟩, ⟨some (.num 3), 12⟩] []).run
        (CallTree.Handler.total failsOnTwo) 0).state = 3 :=
  ⟨(consumer_loop_handles_every_message failsOnTwo "list_created"
      [⟨some (.num 1), 10⟩, ⟨some (.num 2), 11⟩, ⟨some (.num 3), 12⟩] 0).1,
   by decide, rfl⟩

/-! ## C21 -/

/-- C21 as stated fails: after user 1 has created `Groceries` (id 1) and the
replica has caught up, both reads of list 1 return the created list and both
are answered by the replica: the trace of each is the one `Get`, and the store
receives no entity query for the two reads rather than exactly one.  Through
the use case a read returns the list as well, after the ownership query, which
goes to the store. -/
theorem reads_after_create_never_query_store :
    ((ListRepo.GetOneById 1).run (World.handler Postgres.handler) World.created).result
      = some (⟨1, "Groceries", ""⟩, none) ∧
    ((ListRepo.GetOneById 1).run (World.handler Postgres.handler) World.created).trace
      = [.cacheGet .Replica "list_by_id:1" .list entity.List.zero] ∧
    ((ListRepo.GetOneById 1).run (World.handler Postgres.handler)
        ((Op.ListGetOneById 1).step World.created)).result
      = some (⟨1, "Groceries", ""⟩, none) ∧
    ((ListRepo.GetOneById 1).run (World.handler Postgres.handler)
        ((Op.ListGetOneById 1).step World.created)).trace
      = [.cacheGet .Replica "list_by_id:1" .list entity.List.zero] ∧
    ((ListUseCase.GetOneById 1 1).run (Deployment.handler Elastic.noMatch none)
        ⟨World.created, Elastic.empty, []⟩).result = some (⟨1, "Groceries", ""⟩, none) ∧
    ((ListUseCase.GetOneById 1 1).run (Deployment.handler Elastic.noMatch none)
        ⟨World.created, Elastic.empty, []⟩).calls
      = [.repo (.IsUserOwnerOfList 1 1), .repo (.ListGetOneById 1)] ∧
    ((ListRepo.IsUserOwnerOfList 1 1).run (World.handler Postgres.handler) World.created).trace
      = [.queryRow ListRepo.sqlIsUserOwnerOfList [.int 1, .int 1] .int 0] := by
  refine ⟨by decide, rfl, by decide, rfl, by decide, rfl, rfl⟩

theorem ListRepo.CreateUserList_populates {σ : Type} (store : Handler σ) (w : World σ)
    (userId : Int) (list : entity.List) (id : Int) (after : entity.List)
    (hc : ((ListRepo.CreateUserList userId list).run (World.handler store) w).result
      = some ((id, none), after)) :
    ((ListRepo.CreateUserList userId list).run (World.handler store) w).state.master
      (Sprintf cacheKeyListById.Pattern id) = some (.list { list with Id := id }) := by
  revert hc
  simp only [World.run_master]
  generalize World.handler store = h
  simp only [ListRepo.CreateUserList, Prog.perform, Prog.bind_eq, Prog.pure_eq, Prog.bind,
    Prog.run]
  generalize h.resp _ w = r1
  obtain ⟨_ | e, s1⟩ := r1 <;> simp only [Prog.run, Prog.bind]
  swap
  · simp
  generalize h.resp _ s1 = r2
  obtain ⟨⟨d, _ | e⟩, s2⟩ := r2 <;> simp only [Prog.run, Prog.bind]
  swap
  · simp
  generalize h.resp _ s2 = r3
  obtain ⟨_ | e, s3⟩ := r3 <;> simp only [Prog.run, Prog.bind]
  swap
  · simp
  generalize h.resp _ s3 = r4
  obtain ⟨_ | e, s4⟩ := r4 <;> simp only [Prog.run, Prog.bind]
  swap
  · simp
  intro hr
  simp at hr
  obtain ⟨rfl, rfl⟩ := hr
  simp [Redis.afterWrites, RedisCache.Set, RedisCache.Delete, Redis.set_apply, Redis.del_apply,
    keyListById_ne_UserLists, json.Marshal]

theorem ListRepo.GetOneById_hit {σ : Type} (store : Handler σ) (w : World σ) (id : Int)
    (l : entity.List) (hw : w.replica (Sprintf cacheKeyListById.Pattern id) = some (.list l)) :
    (ListRepo.GetOneById id).run (World.handler store) w
      = ⟨some (l, none), w,
          [.cacheGet .Replica (Sprintf cacheKeyListById.Pattern id) .list entity.List.zero]⟩ := by
  simp only [ListRepo.GetOneById, Prog.perform, Prog.bind_eq, Prog.pure_eq, Prog.bind, Prog.run,
    World.resp_cacheGet, World.node, RedisCache.Get, hw, json.Unmarshal]

/-- C21 amended: for any store, after a CreateUserList that succeeded with id
`id` and once the replica has taken over the master's content, a GetOneById of
`id` returns the created list (the caller's list with that id) and no error,
its only call is the `Get` of `list_by_id:{id}` on the replica, and it leaves
store and caches as they were; the same holds for the read after it.  The store
receives no entity query for the two reads. -/
theorem reads_after_create_hit_cache {σ : Type} (store : Handler σ) (w : World σ)
    (userId : Int) (list : entity.List) (id : Int) (after : entity.List)
    (hc : ((ListRepo.CreateUserList userId list).run (World.handler store) w).result
      = some ((id, none), after)) :
    let w1 := ((ListRepo.CreateUserList userId list).run (World.handler store) w).state.replicate
    let first := (ListRepo.GetOneById id).run (World.handler store) w1
    let second := (ListRepo.GetOneById id).run (World.handler store) first.state.replicate
    first = ⟨some ({ list with Id := id }, none), w1,
        [.cacheGet .Replica (Sprintf cacheKeyListById.Pattern id) .list entity.List.zero]⟩ ∧
    second = ⟨some ({ list with Id := id }, none), w1,
        [.cacheGet .Replica (Sprintf cacheKeyListById.Pattern id) .list entity.List.zero]⟩ ∧
    Sprintf cacheKeyListById.Pattern id = "list_by_id:" ++ toString id := by
  intro w1 first second
  have hm := ListRepo.CreateUserList_populates store w userId list id after hc
  have h1 : first = ⟨some ({ list with Id := id }, none), w1,
      [.cacheGet .Replica (Sprintf cacheKeyListById.Pattern id) .list entity.List.zero]⟩ :=
    ListRepo.GetOneById_hit store w1 id _ hm
  refine ⟨h1, ?_, Sprintf_listById id⟩
  have h2 : first.state.replicate = w1 := by rw [h1]; rfl
  simp only [second, h2]
  exact ListRepo.GetOneById_hit store w1 id _ hm

/-- Witness of C21 amended: user 1 creates `Groceries` on an empty store. -/
theorem reads_after_create_hit_cache_witness :
    ((ListRepo.CreateUserList 1 ⟨0, "Groceries", ""⟩).run (World.handler Postgres.handler)
        ⟨Postgres.empty, Redis.empty, Redis.empty⟩).result
      = some ((1, none), ⟨1, "Groceries", ""⟩) ∧
    (ListRepo.GetOneById 1).run (World.handler Postgres.handler) World.created
      = ⟨some (⟨1, "Groceries", ""⟩, none), World.created,
          [.cacheGet .Replica (Sprintf cacheKeyListById.Pattern 1) .list entity.List.zero]⟩ :=
  ⟨by decide,
   (reads_after_create_hit_cache Postgres.handler ⟨Postgres.empty, Redis.empty, Redis.empty⟩ 1
      ⟨0, "Groceries", ""⟩ 1 ⟨1, "Groceries", ""⟩ (by decide)).1⟩

/-! ## C22 -/

theorem v1.Handler.GetListById_error {σ : Type} (h : CallTree.Handler Service Service.Resp σ)
    (s s1 : σ) (c : gin.Context) (userId listId : Int) (list : entity.List) (e : Err)
    (hu : middleware.GetUserId c = (userId, none))
    (hp : strconv.Atoi (c.Param "id") = some listId)
    (hr : h.resp (.ListGetOneById userId listId) s = (some (list, some e), s1)) :
    (v1.Handler.GetListById c).run h s
      = ⟨some (if e = .ErrUserNotOwner ∨ e = .ErrListNotFound then
            utils.NewErrorResponse 404 "List not found"
              [("listId", "The requested list does not exist")]
          else utils.NewErrorResponse 500 "Failed to retrieve list"
            [("database", "Error during list retrieval")]), s1,
          [⟨.ListGetOneById userId listId, some (list, some e)⟩]⟩ := by
  simp only [v1.Handler.GetListById]
  generalize middleware.GetUserId c = u at hu
  subst hu
  generalize strconv.Atoi (c.Param "id") = a at hp
  subst hp
  simp only [Service.call, CallTree.perform, CallTree.bind_eq_bind, CallTree.pure_eq_ret,
    CallTree.bind, CallTree.run, hr, Option.isSome_none, Bool.false_eq_true, if_false]
  by_cases he : e = .ErrUserNotOwner ∨ e = .ErrListNotFound <;>
    simp [he, CallTree.run, http.StatusNotFound, http.StatusInternalServerError]

theorem v1.Handler.UpdateList_error {σ : Type} (h : CallTree.Handler Service Service.Resp σ)
    (s s1 : σ) (c : gin.Context) (userId listId : Int) (input : entity.UpdateListInput) (e : Err)
    (hu : middleware.GetUserId c = (userId, none))
    (hp : strconv.Atoi (c.Param "id") = some listId)
    (hb : c.BindJSON entity.UpdateListInput.into ⟨none, none⟩ = .ok input)
    (hv : input.Validate = none)
    (hr : h.resp (.ListUpdateOneById userId listId input) s = (some (some e), s1)) :
    (v1.Handler.UpdateList c).run h s
      = ⟨some (if e = .ErrUserNotOwner ∨ e = .ErrListNotFound then
            utils.NewErrorResponse 404 "List not found"
              [("listId", "The requested list does not exist")]
          else utils.NewErrorResponse 500 "Failed to update list"
            [("database", "Error during list update")]), s1,
          [⟨.ListUpdateOneById userId listId input, some (some e)⟩]⟩ := by
  simp only [v1.Handler.UpdateList]
  generalize middleware.GetUserId c = u at hu
  subst hu
  generalize strconv.Atoi (c.Param "id") = a at hp
  subst hp
  generalize c.BindJSON entity.UpdateListInput.into ⟨none, none⟩ = b at hb
  subst hb
  simp only [Service.call, CallTree.perform, CallTree.bind_eq_bind, CallTree.pure_eq_ret,
    CallTree.bind, CallTree.run, hr, Option.isSome_none, Bool.false_eq_true, if_false, hv]
  by_cases he : e = .ErrUserNotOwner ∨ e = .ErrListNotFound <;>
    simp [he, CallTree.run, http.StatusNotFound, http.StatusInternalServerError]

theorem v1.Handler.DeleteList_error {σ : Type} (h : CallTree.Handler Service Service.Resp σ)
    (s s1 : σ) (c : gin.Context) (userId listId : Int) (e : Err)
    (hu : middleware.GetUserId c = (userId, none))
    (hp : strconv.Atoi (c.Param "id") = some listId)
    (hr : h.resp (.ListDeleteOneById userId listId) s = (some (some e), s1)) :
    (v1.Handler.DeleteList c).run h s
      = ⟨some (if e = .ErrUserNotOwner ∨ e = .ErrListNotFound then
            utils.NewErrorResponse 404 "List not found"
              [("listId", "The requested list does not exist")]
          else utils.NewErrorResponse 500 "Failed to delete list"
            [("database", "Error during list deletion")]), s1,
          [⟨.ListDeleteOneById userId listId, some (some e)⟩]⟩ := by
  simp only [v1.Handler.DeleteList]
  generalize middleware.GetUserId c = u at hu
  subst hu
  generalize strconv.Atoi (c.Param "id") = a at hp
  subst hp
  simp only [Service.call, CallTree.perform, CallTree.bind_eq_bind, CallTree.pure_eq_ret,
    CallTree.bind, CallTree.run, hr, Option.isSome_none, Bool.false_eq_true, if_false]
  by_cases he : e = .ErrUserNotOwner ∨ e = .ErrListNotFound <;>
    simp [he, CallTree.run, http.StatusNotFound, http.StatusInternalServerError]

theorem v1.Handler.GetItemById_error {σ : Type} (h : CallTree.Handler Service Service.Resp σ)
    (s s1 : σ) (c : gin.Context) (userId itemId : Int) (item : entity.Item) (e : Err)
    (hu : middleware.GetUserId c = (userId, none))
    (hp : strconv.Atoi (c.Param "id") = some itemId)
    (hr : h.resp (.ItemGetOneById userId itemId) s = (some (item, some e), s1)) :
    (v1.Handler.GetItemById c).run h s
      = ⟨some (if e = .ErrUserNotOwner ∨ e = .ErrItemNotFound then
            utils.NewErrorResponse 404 "Item not found"
              [("itemId", "The requested item does not exist")]
          else utils.NewErrorResponse 500 "Failed to retrieve item"
            [("database", "Error during item retrieval")]), s1,
          [⟨.ItemGetOneById userId itemId, some (item, some e)⟩]⟩ := by
  simp only [v1.Handler.GetItemById]
  generalize middleware.GetUserId c = u at hu
  subst hu
  generalize strconv.Atoi (c.Param "id") = a at hp
  subst hp
  simp only [Service.call, CallTree.perform, CallTree.bind_eq_bind, CallTree.pure_eq_ret,
    CallTree.bind, CallTree.run, hr, Option.isSome_none, Bool.false_eq_true, if_false]
  by_cases he : e = .ErrUserNotOwner ∨ e = .ErrItemNotFound <;>
    simp [he, CallTree.run, http.StatusNotFound, http.StatusInternalServerError]

theorem v1.Handler.UpdateItem_error {σ : Type} (h : CallTree.Handler Service Service.Resp σ)
    (s s1 : σ) (c : gin.Context) (userId listId itemId : Int) (input : entity.UpdateItemInput) (e : Err)
    (hu : middleware.GetUserId c = (userId, none))
    (hp : strconv.Atoi (c.Param "id") = some itemId)
    (hq : utils.ParseRequiredParamAsInt c "list_id" = (listId, none))
    (hb : c.BindJSON entity.UpdateItemInput.into ⟨none, none, none⟩ = .ok input)
    (hv : input.Validate = none)
    (hr : h.resp (.ItemUpdateOneById userId listId itemId input) s = (some (some e), s1)) :
    (v1.Handler.UpdateItem c).run h s
      = ⟨some (if e = .ErrUserNotOwner ∨ e = .ErrItemNotFound then
            utils.NewErrorResponse 404 "Item not found"
              [("itemId", "The requested item does not exist")]
          else utils.NewErrorResponse 500 "Failed to update item"
            [("database", "Error during item update")]), s1,
          [⟨.ItemUpdateOneById userId listId itemId input, some (some e)⟩]⟩ := by
  simp only [v1.Handler.UpdateItem]
  generalize middleware.GetUserId c = u at hu
  subst hu
  generalize strconv.Atoi (c.Param "id") = a at hp
  subst hp
  generalize utils.ParseRequiredParamAsInt c "list_id" = q at hq
  subst hq
  generalize c.BindJSON entity.UpdateItemInput.into ⟨none, none, none⟩ = b at hb
  subst hb
  simp only [Service.call, CallTree.perform, CallTree.bind_eq_bind, CallTree.pure_eq_ret,
    CallTree.bind, CallTree.run, hr, Option.isSome_none, Bool.false_eq_true, if_false, hv]
  by_cases he : e = .ErrUserNotOwner ∨ e = .ErrItemNotFound <;>
    simp [he, CallTree.run, http.StatusNotFound, http.StatusInternalServerError]

theorem v1.Handler.DeleteItem_error {σ : Type} (h : CallTree.Handler Service Service.Resp σ)
    (s s1 : σ) (c : gin.Context) (userId listId itemId : Int) (e : Err)
    (hu : middleware.GetUserId c = (userId, none))
    (hp : strconv.Atoi (c.Param "id") = some itemId)
    (hq : utils.ParseRequiredParamAsInt c "list_id" = (listId, none))
    (hr : h.resp (.ItemDeleteOneById userId listId itemId) s = (some (some e), s1)) :
    (v1.Handler.DeleteItem c).run h s
      = ⟨some (if e = .ErrUserNotOwner ∨ e = .ErrItemNotFound then
            utils.NewErrorResponse 404 "Item not found"
              [("itemId", "The requested item does not exist")]
          else utils.NewErrorResponse 500 "Failed to delete item"
            [("database", "Error during item deletion")]), s1,
          [⟨.ItemDeleteOneById userId listId itemId, some (some e)⟩]⟩ := by
  simp only [v1.Handler.DeleteItem]
  generalize middleware.GetUserId c = u at hu
  subst hu
  generalize strconv.Atoi (c.Param "id") = a at hp
  subst hp
  generalize utils.ParseRequiredParamAsInt c "list_id" = q at hq
  subst hq
  simp only [Service.call, CallTree.perform, CallTree.bind_eq_bind, CallTree.pure_eq_ret,
    CallTree.bind, CallTree.run, hr, Option.isSome_none, Bool.false_eq_true, if_false]
  by_cases he : e = .ErrUserNotOwner ∨ e = .ErrItemNotFound <;>
    simp [he, CallTree.run, http.StatusNotFound, http.StatusInternalServerError]

/-- C22: for every behaviour of the use cases and every request that reaches
the use case (the user id is in the context, the path and query parameters are
integers, the body binds and validates).  When the use case of GetListById,
UpdateList, DeleteList, GetItemById, UpdateItem or DeleteItem returns an error,
the handler makes no other call and its response is determined by the error
alone: for ErrUserNotOwner and for the entity's NotFound error it is the same
response, status 404 with the same body; for every other error it is status
500 with one fixed body per handler, whatever the error and its text.  The
sample request reaches the use case in all six handlers. -/
theorem not_owner_answered_like_not_found {σ : Type}
    (h : CallTree.Handler Service Service.Resp σ) (s : σ) (c : gin.Context) :
    let answer := fun (code : Int) (message key text : String) =>
      gin.Outcome.Respond code (.obj [("status", .str "error"), ("message", .str message),
        ("errors", .obj [(key, .str text)])]) true
    let listAnswer := fun (e : Err) (message text : String) =>
      if e = .ErrUserNotOwner ∨ e = .ErrListNotFound then
        answer 404 "List not found" "listId" "The requested list does not exist"
      else answer 500 message "database" text
    let itemAnswer := fun (e : Err) (message text : String) =>
      if e = .ErrUserNotOwner ∨ e = .ErrItemNotFound then
        answer 404 "Item not found" "itemId" "The requested item does not exist"
      else answer 500 message "database" text
    (∀ userId listId list e s1,
      middleware.GetUserId c = (userId, none) →
      strconv.Atoi (c.Param "id") = some listId →
      h.resp (.ListGetOneById userId listId) s = (some (list, some e), s1) →
      (v1.Handler.GetListById c).run h s
        = ⟨some (listAnswer e "Failed to retrieve list" "Error during list retrieval"), s1,
            [⟨.ListGetOneById userId listId, some (list, some e)⟩]⟩) ∧
    (∀ userId listId input e s1,
      middleware.GetUserId c = (userId, none) →
      strconv.Atoi (c.Param "id") = some listId →
      c.BindJSON entity.UpdateListInput.into ⟨none, none⟩ = .ok input →
      input.Validate = none →
      h.resp (.ListUpdateOneById userId listId input) s = (some (some e), s1) →
      (v1.Handler.UpdateList c).run h s
        = ⟨some (listAnswer e "Failed to update list" "Error during list update"), s1,
            [⟨.ListUpdateOneById userId listId input, some (some e)⟩]⟩) ∧
    (∀ userId listId e s1,
      middleware.GetUserId c = (userId, none) →
      strconv.Atoi (c.Param "id") = some listId →
      h.resp (.ListDeleteOneById userId listId) s = (some (some e), s1) →
      (v1.Handler.DeleteList c).run h s
        = ⟨some (listAnswer e "Failed to delete list" "Error during list deletion"), s1,
            [⟨.ListDeleteOneById userId listId, some (some e)⟩]⟩) ∧
    (∀ userId itemId item e s1,
      middleware.GetUserId c = (userId, none) →
      strconv.Atoi (c.Param "id") = some itemId →
      h.resp (.ItemGetOneById userId itemId) s = (some (item, some e), s1) →
      (v1.Handler.GetItemById c).run h s
        = ⟨some (itemAnswer e "Failed to retrieve item" "Error during item retrieval"), s1,
            [⟨.ItemGetOneById userId itemId, some (item, some e)⟩]⟩) ∧
    (∀ userId listId itemId input e s1,
      middleware.GetUserId c = (userId, none) →
      strconv.Atoi (c.Param "id") = some itemId →
      utils.ParseRequiredParamAsInt c "list_id" = (listId, none) →
      c.BindJSON entity.UpdateItemInput.into ⟨none, none, none⟩ = .ok input →
      input.Validate = none →
      h.resp (.ItemUpdateOneById userId listId itemId input) s = (some (some e), s1) →
      (v1.Handler.UpdateItem c).run h s
        = ⟨some (itemAnswer e "Failed to update item" "Error during item update"), s1,
            [⟨.ItemUpdateOneById userId listId itemId input, some (some e)⟩]⟩) ∧
    (∀ userId listId itemId e s1,
      middleware.GetUserId c = (userId, none) →
      strconv.Atoi (c.Param "id") = some itemId →
      utils.ParseRequiredParamAsInt c "list_id" = (listId, none) →
      h.resp (.ItemDeleteOneById userId listId itemId) s = (some (some e), s1) →
      (v1.Handler.DeleteItem c).run h s
        = ⟨some (itemAnswer e "Failed to delete item" "Error during item deletion"), s1,
            [⟨.ItemDeleteOneById userId listId itemId, some (some e)⟩]⟩) ∧
    (∀ message text, listAnswer .ErrUserNotOwner message text
        = listAnswer .ErrListNotFound message text ∧
      itemAnswer .ErrUserNotOwner message text = itemAnswer .ErrItemNotFound message text) ∧
    (∀ e1 e2 message text, e1 ≠ .ErrUserNotOwner → e1 ≠ .ErrListNotFound →
      e2 ≠ .ErrUserNotOwner → e2 ≠ .ErrListNotFound →
      listAnswer e1 message text = answer 500 message "database" text ∧
      listAnswer e1 message text = listAnswer e2 message text) ∧
    (∀ e1 e2 message text, e1 ≠ .ErrUserNotOwner → e1 ≠ .ErrItemNotFound →
      e2 ≠ .ErrUserNotOwner → e2 ≠ .ErrItemNotFound →
      itemAnswer e1 message text = answer 500 message "database" text ∧
      itemAnswer e1 message text = itemAnswer e2 message text) ∧
    (∀ e,
      (v1.Handler.GetListById gin.Context.sample).run (Service.failing e) ()
        = ⟨some (listAnswer e "Failed to retrieve list" "Error during list retrieval"), (),
            [⟨.ListGetOneById 1 5, some (entity.List.zero, some e)⟩]⟩ ∧
      (v1.Handler.UpdateList gin.Context.sample).run (Service.failing e) ()
        = ⟨some (listAnswer e "Failed to update list" "Error during list update"), (),
            [⟨.ListUpdateOneById 1 5 ⟨some "Oat milk", none⟩, some (some e)⟩]⟩ ∧
      (v1.Handler.DeleteList gin.Context.sample).run (Service.failing e) ()
        = ⟨some (listAnswer e "Failed to delete list" "Error during list deletion"), (),
            [⟨.ListDeleteOneById 1 5, some (some e)⟩]⟩ ∧
      (v1.Handler.GetItemById gin.Context.sample).run (Service.failing e) ()
        = ⟨some (itemAnswer e "Failed to retrieve item" "Error during item retrieval"), (),
            [⟨.ItemGetOneById 1 5, some (entity.Item.zero, some e)⟩]⟩ ∧
      (v1.Handler.UpdateItem gin.Context.sample).run (Service.failing e) ()
        = ⟨some (itemAnswer e "Failed to update item" "Error during item update"), (),
            [⟨.ItemUpdateOneById 1 3 5 ⟨some "Oat milk", none, none⟩, some (some e)⟩]⟩ ∧
      (v1.Handler.DeleteItem gin.Context.sample).run (Service.failing e) ()
        = ⟨some (itemAnswer e "Failed to delete item" "Error during item deletion"), (),
            [⟨.ItemDeleteOneById 1 3 5, some (some e)⟩]⟩) := by
  intro answer listAnswer itemAnswer
  have ha : ∀ (code : Int) (message key text : String),
      utils.NewErrorResponse code message [(key, text)] = answer code message key text := by
    intro code message key text
    rfl
  refine ⟨?_, ?_, ?_, ?_, ?_, ?_, ?_, ?_, ?_, fun e => ⟨?_, ?_, ?_, ?_, ?_, ?_⟩⟩
  · intro userId listId list e s1 hu hp hr
    rw [v1.Handler.GetListById_error h s s1 c userId listId list e hu hp hr, ha, ha]
  · intro userId listId input e s1 hu hp hb hv hr
    rw [v1.Handler.UpdateList_error h s s1 c userId listId input e hu hp hb hv hr, ha, ha]
  · intro userId listId e s1 hu hp hr
    rw [v1.Handler.DeleteList_error h s s1 c userId listId e hu hp hr, ha, ha]
  · intro userId itemId item e s1 hu hp hr
    rw [v1.Handler.GetItemById_error h s s1 c userId itemId item e hu hp hr, ha, ha]
  · intro userId listId itemId input e s1 hu hp hq hb hv hr
    rw [v1.Handler.UpdateItem_error h s s1 c userId listId itemId input e hu hp hq hb hv hr,
      ha, ha]
  · intro userId listId itemId e s1 hu hp hq hr
    rw [v1.Handler.DeleteItem_error h s s1 c userId listId itemId e hu hp hq hr, ha, ha]
  · intro message text
    simp [listAnswer, itemAnswer]
  · intro e1 e2 message text h1 h2 h3 h4
    simp [listAnswer, h1, h2, h3, h4]
  · intro e1 e2 message text h1 h2 h3 h4
    simp [itemAnswer, h1, h2, h3, h4]
  · rw [v1.Handler.GetListById_error (Service.failing e) () () gin.Context.sample
      1 5 entity.List.zero e rfl rfl rfl, ha, ha]
  · rw [v1.Handler.UpdateList_error (Service.failing e) () () gin.Context.sample
      1 5 ⟨some "Oat milk", none⟩ e rfl rfl rfl rfl rfl, ha, ha]
  · rw [v1.Handler.DeleteList_error (Service.failing e) () () gin.Context.sample
      1 5 e rfl rfl rfl, ha, ha]
  · rw [v1.Handler.GetItemById_error (Service.failing e) () () gin.Context.sample
      1 5 entity.Item.zero e rfl rfl rfl, ha, ha]
  · rw [v1.Handler.UpdateItem_error (Service.failing e) () () gin.Context.sample
      1 3 5 ⟨some "Oat milk", none, none⟩ e rfl rfl rfl rfl rfl rfl, ha, ha]
  · rw [v1.Handler.DeleteItem_error (Service.failing e) () () gin.Context.sample
      1 3 5 e rfl rfl rfl rfl, ha, ha]

/-! ## C23 -/

/-- C23: AppAuth.Validate(appId, appKey, accessType) is true exactly when
accessType is "private" and the pair is the configured private pair, or
accessType is "public" and the pair is the configured public pair; for any
other accessType it is false; for private access the result is the same
whatever the public credentials are.  The handler of middleware.AppAuth
answers 401 and aborts, so that the next handler does not run, when either
header is empty or Validate is false; otherwise it calls the next handler
and writes nothing. -/
theorem app_auth_validates_by_access_type (a : appauth.AppAuth)
    (appId appKey accessType : String) :
    (a.Validate appId appKey accessType = true ↔
      (accessType = "private" ∧ appId = a.privateAppId ∧ appKey = a.privateAppKey) ∨
      (accessType = "public" ∧ appId = a.appId ∧ appKey = a.appKey)) ∧
    (accessType ≠ "private" → accessType ≠ "public" →
      a.Validate appId appKey accessType = false) ∧
    (∀ publicId publicKey,
      (appauth.New publicId publicKey a.privateAppId a.privateAppKey).Validate appId appKey
          "private"
        = a.Validate appId appKey "private") ∧
    (∀ (c : gin.Context) (Validate : String → String → String → Bool),
      (c.GetHeader "appId" = "" ∨ c.GetHeader "appKey" = "" ∨
          Validate (c.GetHeader "appId") (c.GetHeader "appKey") accessType = false) →
        (middleware.AppAuth accessType Validate c).runsNext = false ∧
        ∃ text, middleware.AppAuth accessType Validate c
          = .Respond 401 (.obj [("error", .str text)]) true) ∧
    (∀ (c : gin.Context) (Validate : String → String → String → Bool),
      c.GetHeader "appId" ≠ "" → c.GetHeader "appKey" ≠ "" →
        Validate (c.GetHeader "appId") (c.GetHeader "appKey") accessType = true →
        middleware.AppAuth accessType Validate c = .Next c.Keys) := by
  refine ⟨?_, ?_, ?_, ?_, ?_⟩
  · simp only [appauth.AppAuth.Validate, appauth.PrivateAccess, appauth.PublicAccess]
    by_cases h1 : accessType = "private"
    · subst h1
      simp
      constructor <;> (rintro ⟨h3, h4⟩; exact ⟨h3.symm, h4.symm⟩)
    · by_cases h2 : accessType = "public"
      · subst h2
        simp
        constructor <;> (rintro ⟨h3, h4⟩; exact ⟨h3.symm, h4.symm⟩)
      · simp [h1, h2]
  · intro h1 h2
    simp [appauth.AppAuth.Validate, appauth.PrivateAccess, appauth.PublicAccess, h1, h2]
  · intro publicId publicKey
    simp [appauth.AppAuth.Validate, appauth.New, appauth.PrivateAccess]
  · intro c Validate h
    simp only [middleware.AppAuth, middleware.HeaderAppID, middleware.HeaderAppKey,
      http.StatusUnauthorized]
    by_cases he : (c.GetHeader "appId" = "" || c.GetHeader "appKey" = "") = true
    · rw [if_pos he]
      exact ⟨rfl, _, rfl⟩
    · rw [if_neg he]
      have hv : Validate (c.GetHeader "appId") (c.GetHeader "appKey") accessType = false := by
        rcases h with h | h | h
        · simp [h] at he
        · simp [h] at he
        · exact h
      simp only [hv]
      exact ⟨rfl, _, rfl⟩
  · intro c Validate h1 h2 hv
    simp [middleware.AppAuth, middleware.HeaderAppID, middleware.HeaderAppKey, h1, h2, hv]

/-! ## C24 -/

theorem strings.splitChars_ne_nil (sep : Char) (l : List Char) : strings.splitChars sep l ≠ [] := by
  cases l with
  | nil => simp [strings.splitChars]
  | cons c cs =>
    simp only [strings.splitChars]
    split
    · simp
    · split <;> simp

theorem strings.splitChars_length (sep : Char) (l : List Char) :
    (strings.splitChars sep l).length = l.count sep + 1 := by
  induction l with
  | nil => simp [strings.splitChars]
  | cons c cs ih =>
    simp only [strings.splitChars]
    by_cases hc : c = sep
    · subst hc
      simp [ih]
    · rw [if_neg hc]
      have hne := strings.splitChars_ne_nil sep cs
      revert ih hne
      generalize strings.splitChars sep cs = r
      intro ih hne
      cases r with
      | nil => exact absurd rfl hne
      | cons p ps =>
        have : (c == sep) = false := by simpa using hc
        simp [List.count_cons, this] at ih ⊢
        exact ih

theorem strings.splitChars_none (sep : Char) (l : List Char) (h : sep ∉ l) :
    strings.splitChars sep l = [l] := by
  induction l with
  | nil => rfl
  | cons c cs ih =>
    simp only [List.mem_cons, not_or] at h
    simp only [strings.splitChars]
    rw [if_neg (fun e => h.1 e.symm), ih h.2]

theorem strings.splitChars_append (sep : Char) (a b : List Char) (h : sep ∉ a) :
    strings.splitChars sep (a ++ sep :: b) = a :: strings.splitChars sep b := by
  induction a with
  | nil => simp [strings.splitChars]
  | cons c cs ih =>
    simp only [List.mem_cons, not_or] at h
    simp only [List.cons_append, strings.splitChars]
    rw [if_neg (fun e => h.1 e.symm)]
    have ih2 := ih h.2
    simp only [List.append_eq] at ih2 ⊢
    rw [ih2]

theorem strings.Split_two (first token : String) (h1 : ' ' ∉ first.data)
    (h2 : ' ' ∉ token.data) : strings.Split (first ++ " " ++ token) ' ' = [first, token] := by
  have hd : (first ++ " " ++ token).data = first.data ++ ' ' :: token.data := by
    simp [String.data_append]
  simp only [strings.Split, hd]
  rw [strings.splitChars_append _ _ _ h1, strings.splitChars_none _ _ h2]
  rfl

theorem middleware.Authentication_parts {σ : Type} (h : CallTree.Handler Service Service.Resp σ)
    (s : σ) (c : gin.Context) (first token : String)
    (hs : strings.Split (c.GetHeader "Authorization") ' ' = [first, token]) :
    (middleware.Authentication c).run h s
      = match h.resp (.ParseToken token) s with
        | (none, s1) => ⟨none, s1, [⟨.ParseToken token, none⟩]⟩
        | (some (userId, some e), s1) =>
          ⟨some (utils.NewErrorResponse 401 "Unauthorized" [("token", e.Error)]), s1,
            [⟨.ParseToken token, some (userId, some e)⟩]⟩
        | (some (userId, none), s1) =>
          ⟨some (.Next (c.Set "userId" (.int userId)).Keys), s1,
            [⟨.ParseToken token, some (userId, none)⟩]⟩ := by
  have hne : c.GetHeader "Authorization" ≠ "" := by
    intro h0
    rw [h0] at hs
    have h1 : strings.Split "" ' ' = [""] := rfl
    rw [h1] at hs
    simp at hs
  simp only [middleware.Authentication, middleware.AuthorizationHeader, hne, hs, if_false,
    Service.call, CallTree.perform, CallTree.bind_eq_bind, CallTree.pure_eq_ret, CallTree.bind,
    CallTree.run, http.StatusUnauthorized, middleware.UserIdCtx]
  generalize h.resp (.ParseToken token) s = r
  obtain ⟨_ | ⟨userId, _ | e⟩, s1⟩ := r <;> simp [CallTree.run, CallTree.bind]

/-- C24: for every behaviour of ParseToken.  With an empty Authorization
header the middleware aborts with 401 and the error text `empty auth header`;
with a header that does not split on single spaces into exactly two parts it
aborts with 401 and `invalid auth header`; in both cases ParseToken is not
called.  With two parts it calls ParseToken once, on the second part: on an
error it aborts with 401 and the error message, otherwise it calls the next
handler with `userId` set to the value ParseToken returned.  The next handler
runs exactly in the last case, and the run is the same for any two requests
whose headers differ in the first part only. -/
theorem authentication_admits_accepted_tokens_only {σ : Type}
    (h : CallTree.Handler Service Service.Resp σ) (s : σ) (c : gin.Context) :
    let header := c.GetHeader "Authorization"
    let r := (middleware.Authentication c).run h s
    let denied := fun (text : String) => gin.Outcome.Respond 401
      (.obj [("status", .str "error"), ("message", .str "Unauthorized"),
        ("errors", .obj [("token", .str text)])]) true
    (header = "" → r = ⟨some (denied "empty auth header"), s, []⟩) ∧
    (header ≠ "" → (strings.Split header ' ').length ≠ 2 →
      r = ⟨some (denied "invalid auth header"), s, []⟩) ∧
    (∀ first token userId e s1, strings.Split header ' ' = [first, token] →
      h.resp (.ParseToken token) s = (some (userId, some e), s1) →
      r = ⟨some (denied e.Error), s1, [⟨.ParseToken token, some (userId, some e)⟩]⟩) ∧
    (∀ first token userId s1, strings.Split header ' ' = [first, token] →
      h.resp (.ParseToken token) s = (some (userId, none), s1) →
      r = ⟨some (.Next (c.Set "userId" (.int userId)).Keys), s1,
            [⟨.ParseToken token, some (userId, none)⟩]⟩ ∧
      (c.Set "userId" (.int userId)).Keys "userId" = some (.int userId)) ∧
    (r.result.map gin.Outcome.runsNext = some true ↔
      header ≠ "" ∧ ∃ first token userId s1, strings.Split header ' ' = [first, token] ∧
        h.resp (.ParseToken token) s = (some (userId, none), s1)) ∧
    (∀ (c2 : gin.Context) first first2 token, c2.Keys = c.Keys →
      strings.Split header ' ' = [first, token] →
      strings.Split (c2.GetHeader "Authorization") ' ' = [first2, token] →
      (middleware.Authentication c2).run h s = r) ∧
    (∀ first token : String, ' ' ∉ first.data → ' ' ∉ token.data →
      strings.Split (first ++ " " ++ token) ' ' = [first, token]) ∧
    (strings.Split header ' ').length = header.data.count ' ' + 1 := by
  intro header r denied
  have hempty : header = "" → r = ⟨some (denied "empty auth header"), s, []⟩ := by
    intro h0
    simp only [r, middleware.Authentication, middleware.AuthorizationHeader]
    simp only [header] at h0
    simp [h0, CallTree.pure_eq_ret, CallTree.run, denied, utils.NewErrorResponse,
      utils.ErrorResponse.json, http.StatusUnauthorized, utils.statusError]
  have hinvalid : header ≠ "" → (strings.Split header ' ').length ≠ 2 →
      r = ⟨some (denied "invalid auth header"), s, []⟩ := by
    intro h0 hl
    simp only [header] at h0 hl
    simp only [r, middleware.Authentication, middleware.AuthorizationHeader, h0, if_false]
    revert hl
    generalize strings.Split (c.GetHeader "Authorization") ' ' = parts
    intro hl
    match parts, hl with
    | [], _ => rfl
    | [_], _ => rfl
    | [_, _], hl => exact absurd rfl hl
    | _ :: _ :: _ :: _, _ => rfl
  refine ⟨hempty, hinvalid, ?_, ?_, ?_, ?_, strings.Split_two, ?_⟩
  · intro first token userId e s1 hs hr
    simp only [r, middleware.Authentication_parts h s c first token hs, hr]
    rfl
  · intro first token userId s1 hs hr
    refine ⟨?_, by simp [gin.Context.Set]⟩
    simp only [r, middleware.Authentication_parts h s c first token hs, hr]
  · constructor
    · intro hn
      by_cases h0 : header = ""
      · rw [hempty h0] at hn
        simp [denied, gin.Outcome.runsNext] at hn
      by_cases hl : (strings.Split header ' ').length = 2
      swap
      · rw [hinvalid h0 hl] at hn
        simp [denied, gin.Outcome.runsNext] at hn
      refine ⟨h0, ?_⟩
      obtain ⟨first, token, hs⟩ : ∃ first token, strings.Split header ' ' = [first, token] := by
        match strings.Split header ' ', hl with
        | [a, b], _ => exact ⟨a, b, rfl⟩
      refine ⟨first, token, ?_⟩
      simp only [r, middleware.Authentication_parts h s c first token hs] at hn
      revert hn
      generalize h.resp (.ParseToken token) s = a
      obtain ⟨_ | ⟨userId, _ | e⟩, s1⟩ := a
      · simp
      · intro _
        exact ⟨userId, s1, hs, rfl⟩
      · simp [utils.NewErrorResponse, gin.Outcome.runsNext]
    · rintro ⟨_, first, token, userId, s1, hs, hr⟩
      simp only [r, middleware.Authentication_parts h s c first token hs, hr]
      rfl
  · intro c2 first first2 token hk hs hs2
    simp only [r, middleware.Authentication_parts h s c first token hs,
      middleware.Authentication_parts h s c2 first2 token hs2, gin.Context.Set, hk]
  · simp [strings.Split, strings.splitChars_length]

/-! ## C25 -/

theorem ListRepo.buildUpdate_spec_list (id : Int) (input : entity.UpdateListInput) :
    ListRepo.buildUpdate id input
      = if (Spec.listColumns input) = [] then none
        else some (Spec.updateStatement "lists" (Spec.listColumns input), (Spec.listValues input) ++ [.int id]) := by
  rcases input with ⟨_ | t, _ | d⟩ <;>
    simp [ListRepo.buildUpdate, Id.run, Spec.listColumns, Spec.listValues] <;> decide

theorem ItemRepo.buildUpdate_spec_item (id : Int) (input : entity.UpdateItemInput) :
    ItemRepo.buildUpdate id input
      = if (Spec.itemColumns input) = [] then none
        else some (Spec.updateStatement "items" (Spec.itemColumns input), (Spec.itemValues input) ++ [.int id]) := by
  rcases input with ⟨_ | t, _ | d, _ | b⟩ <;>
    simp [ItemRepo.buildUpdate, Id.run, Spec.itemColumns, Spec.itemValues] <;> decide

/-- C25: for every update input, id and owner argument, and every behaviour of
the collaborators: when at least one field is non-nil the first call of
UpdateOneById is `Exec` of the statement `UPDATE lists SET ` (`items` for an
item) followed by one clause `<column> = $k` for each non-nil field, in the
order title, description, done, numbered from 1 without gaps and joined by
`, `, followed by ` WHERE id = $(n+1)`, with the pointed-to values in the same
order followed by the id as arguments: n + 1 arguments for n + 1
placeholders.  When no field is set there is no call. -/
theorem update_statement_matches_fields {σ : Type} (h : Handler σ) (s : σ) (owner : Option Int)
    (id : Int) :
    (∀ input : entity.UpdateListInput,
      ((ListRepo.UpdateOneById owner id input).run h s).trace.head?
        = (if (Spec.listColumns input) = [] then none
           else some (.exec (Spec.updateStatement "lists" (Spec.listColumns input))
             ((Spec.listValues input) ++ [.int id]))) ∧
      ((Spec.listValues input) ++ [Arg.int id]).length = (Spec.listColumns input).length + 1 ∧
      ((Spec.listColumns input) = [] ↔ input.Title = none ∧ input.Description = none)) ∧
    (∀ input : entity.UpdateItemInput,
      ((ItemRepo.UpdateOneById owner id input).run h s).trace.head?
        = (if (Spec.itemColumns input) = [] then none
           else some (.exec (Spec.updateStatement "items" (Spec.itemColumns input))
             ((Spec.itemValues input) ++ [.int id]))) ∧
      ((Spec.itemValues input) ++ [Arg.int id]).length = (Spec.itemColumns input).length + 1 ∧
      ((Spec.itemColumns input) = [] ↔ input.Title = none ∧ input.Description = none ∧ input.Done = none)) ∧
    Spec.updateStatement "items" ["title", "done"]
      = "UPDATE items SET title = $1, done = $2 WHERE id = $3" := by
  refine ⟨fun input => ⟨?_, ?_, ?_⟩, fun input => ⟨?_, ?_, ?_⟩, by decide⟩
  · have hb := ListRepo.buildUpdate_spec_list id input
    by_cases hc : (Spec.listColumns input) = []
    · rw [if_pos hc] at hb ⊢
      simp [ListRepo.UpdateOneById, hb, Prog.pure_eq, Prog.run]
    · rw [if_neg hc] at hb ⊢
      simp only [ListRepo.UpdateOneById, hb, Prog.perform, Prog.bind_eq, Prog.pure_eq, Prog.bind,
        Prog.run]
      rfl
  · rcases input with ⟨_ | t, _ | d⟩ <;> rfl
  · rcases input with ⟨_ | t, _ | d⟩ <;>
      simp [Spec.listColumns]
  · have hb := ItemRepo.buildUpdate_spec_item id input
    by_cases hc : (Spec.itemColumns input) = []
    · rw [if_pos hc] at hb ⊢
      simp [ItemRepo.UpdateOneById, hb, Prog.pure_eq, Prog.run]
    · rw [if_neg hc] at hb ⊢
      simp only [ItemRepo.UpdateOneById, hb, Prog.perform, Prog.bind_eq, Prog.pure_eq, Prog.bind,
        Prog.run]
      rfl
  · rcases input with ⟨_ | t, _ | d, _ | b⟩ <;> rfl
  · rcases input with ⟨_ | t, _ | d, _ | b⟩ <;>
      simp [Spec.itemColumns]

/-! ## C26 -/

theorem Sprintf_dollar (n : Nat) : Sprintf "$%d" ((n : Int) + 1) = "$" ++ toString (n + 1) := by
  apply String.ext
  have h : ((n : Int) + 1) = Int.ofNat (n + 1) := rfl
  rw [h]
  simp [Sprintf, sprintfChars]
  rfl

theorem CreatePlaceholders_spec (n : Nat) : CreatePlaceholders n = Spec.placeholders n := by
  unfold CreatePlaceholders Spec.placeholders
  congr 1
  have hc : ((List.range n : List Nat) : List Int) = List.map Int.ofNat (List.range n) := by
    simp [List.map_eq_flatMap]
  rw [hc, List.map_map]
  apply List.map_congr_left
  intro i _
  exact Sprintf_dollar i

/-- C26: for every behaviour of the collaborators.  GetManyByIds of an empty id
list returns an empty list and no error without any call.  For n >= 1 ids it
makes one call, `Query` of the statement whose IN list is
CreatePlaceholders(n) = `$1, $2, ..., $n`, with the n ids in input order as
arguments, and no cache call.  A query error is returned with a nil list; when
every row scans, the rows are returned in row order; the first scan error is
returned with a nil list. -/
theorem getManyByIds_queries_once {σ : Type} (h : Handler σ) (s : σ) :
    ((ListRepo.GetManyByIds []).run h s = ⟨some (some [], none), s, []⟩ ∧
      (ItemRepo.GetManyByIds []).run h s = ⟨some (some [], none), s, []⟩) ∧
    (∀ (id : Int) (rest : List Int),
      ((ListRepo.GetManyByIds (id :: rest)).run h s).trace
        = [.query (ListRepo.sqlGetManyByIds (rest.length + 1))
            (ConvertToInterfaceSlice (id :: rest)) .list] ∧
      ((ItemRepo.GetManyByIds (id :: rest)).run h s).trace
        = [.query (ItemRepo.sqlGetManyByIds (rest.length + 1))
            (ConvertToInterfaceSlice (id :: rest)) .item] ∧
      (∀ e, h.answer (.query (ListRepo.sqlGetManyByIds (rest.length + 1))
            (ConvertToInterfaceSlice (id :: rest)) .list) s = .error e →
        ((ListRepo.GetManyByIds (id :: rest)).run h s).result = some (none, some e)) ∧
      (∀ (rows : List entity.List) err, h.answer (.query (ListRepo.sqlGetManyByIds (rest.length + 1))
            (ConvertToInterfaceSlice (id :: rest)) .list) s = .ok ⟨rows.map .ok, err⟩ →
        ((ListRepo.GetManyByIds (id :: rest)).run h s).result = some (some rows, none)) ∧
      (∀ (rows : List entity.List) e later err, h.answer (.query (ListRepo.sqlGetManyByIds (rest.length + 1))
            (ConvertToInterfaceSlice (id :: rest)) .list) s
          = .ok ⟨rows.map .ok ++ .error e :: later, err⟩ →
        ((ListRepo.GetManyByIds (id :: rest)).run h s).result = some (none, some e)) ∧
      (∀ e, h.answer (.query (ItemRepo.sqlGetManyByIds (rest.length + 1))
            (ConvertToInterfaceSlice (id :: rest)) .item) s = .error e →
        ((ItemRepo.GetManyByIds (id :: rest)).run h s).result = some (none, some e)) ∧
      (∀ (rows : List entity.Item) err, h.answer (.query (ItemRepo.sqlGetManyByIds (rest.length + 1))
            (ConvertToInterfaceSlice (id :: rest)) .item) s = .ok ⟨rows.map .ok, err⟩ →
        ((ItemRepo.GetManyByIds (id :: rest)).run h s).result = some (some rows, none)) ∧
      (∀ (rows : List entity.Item) e later err, h.answer (.query (ItemRepo.sqlGetManyByIds (rest.length + 1))
            (ConvertToInterfaceSlice (id :: rest)) .item) s
          = .ok ⟨rows.map .ok ++ .error e :: later, err⟩ →
        ((ItemRepo.GetManyByIds (id :: rest)).run h s).result = some (none, some e))) ∧
    (∀ n : Nat,
      ListRepo.sqlGetManyByIds n
        = "SELECT id, title, description FROM lists WHERE id IN (" ++ Spec.placeholders n ++ ")" ∧
      ItemRepo.sqlGetManyByIds n
        = "SELECT id, title, description, done FROM items WHERE id IN ("
            ++ Spec.placeholders n ++ ")") ∧
    (∀ ids : List Int, ConvertToInterfaceSlice ids = ids.map Arg.int ∧
      (ConvertToInterfaceSlice ids).length = ids.length) ∧
    Spec.placeholders 3 = "$1, $2, $3" := by
  refine ⟨⟨rfl, rfl⟩, fun id rest => ?_, fun n => ?_, fun ids => ⟨rfl, by simp [ConvertToInterfaceSlice]⟩,
    by decide⟩
  · simp only [ListRepo.GetManyByIds, ItemRepo.GetManyByIds, Prog.perform, Prog.bind_eq,
      Prog.pure_eq, Prog.bind, Prog.run, Handler.answer, List.length_cons]
    generalize h.resp (.query (ListRepo.sqlGetManyByIds _) _ .list) s = r1
    generalize h.resp (.query (ItemRepo.sqlGetManyByIds _) _ .item) s = r2
    obtain ⟨a1, s1⟩ := r1
    obtain ⟨a2, s2⟩ := r2
    refine ⟨?_, ?_, ?_, ?_, ?_, ?_, ?_, ?_⟩
    · rcases a1 with e | rows
      · rfl
      · simp only [Prog.run]
        cases scanAll rows.scans [] <;> rfl
    · rcases a2 with e | rows
      · rfl
      · simp only [Prog.run]
        cases scanAll rows.scans [] <;> rfl
    · rintro e rfl
      rfl
    · rintro rows err rfl
      simp [scanAll_ok, Prog.run]
    · rintro rows e later err rfl
      simp [scanAll_error, Prog.run]
    · rintro e rfl
      rfl
    · rintro rows err rfl
      simp [scanAll_ok, Prog.run]
    · rintro rows e later err rfl
      simp [scanAll_error, Prog.run]
  · rw [← CreatePlaceholders_spec]
    exact ⟨rfl, rfl⟩

/-! ## C27 -/

/-- C27 as stated fails: user 1 owns list 1 and item 1 in it, and no list 42
exists; UpdateOneById and DeleteOneById of item 1 called with list id 42
succeed.  The update leaves the item in list 1, invalidates `list_items:42`
and publishes an ItemUpdated event carrying list id 42, and HandleUpdated
(run once the replica has caught up) writes 42 into the search document. -/
theorem item_mutation_accepts_foreign_list_id :
    World.milk.db.tables.lists_items = [(1, 1)] ∧
    World.milk.db.tables.lists.map (fun l => l.Id) = [1] ∧
    ((ItemUseCase.UpdateOneById 1 42 1 ⟨some "Oat milk", none, none⟩).run
        (Deployment.handler Elastic.noMatch none) Deployment.milk).result = some none ∧
    ((ItemUseCase.UpdateOneById 1 42 1 ⟨some "Oat milk", none, none⟩).run
        (Deployment.handler Elastic.noMatch none) Deployment.milk).state.world.db.tables.lists_items
      = [(1, 1)] ∧
    ((ItemUseCase.UpdateOneById 1 42 1 ⟨some "Oat milk", none, none⟩).run
        (Deployment.handler Elastic.noMatch none) Deployment.milk).published
      = [.ItemUpdatedEvent 1 42 1] ∧
    ((ItemRepo.UpdateOneById (some 42) 1 ⟨some "Oat milk", none, none⟩).run
        (World.handler Postgres.handler) World.milk).trace.filter Call.isCache
      = [.cacheDelete .Master "item_by_id:1", .cacheDelete .Master "list_items:42"] ∧
    ((ItemUseCase.HandleUpdated ⟨1, 42, 1⟩).run (Deployment.handler Elastic.noMatch none)
        ⟨((ItemUseCase.UpdateOneById 1 42 1 ⟨some "Oat milk", none, none⟩).run
          (Deployment.handler Elastic.noMatch none) Deployment.milk).state.world.replicate,
         Elastic.empty, []⟩).state.engine "items" "1"
      = some (ItemSearch.document 1 42 ⟨1, "Oat milk", "", false⟩) ∧
    ((ItemUseCase.DeleteOneById 1 42 1).run
        (Deployment.handler Elastic.noMatch none) Deployment.milk).result = some none := by
  refine ⟨by decide, by decide, by decide, by decide, by decide, rfl, rfl, by decide⟩

theorem ItemRepo.UpdateOneById_listId {σ : Type} (store : Handler σ) (w : World σ)
    (listId other itemId : Int) (input : entity.UpdateItemInput) :
    ((ItemRepo.UpdateOneById (some listId) itemId input).run (World.handler store) w).result
      = ((ItemRepo.UpdateOneById (some other) itemId input).run (World.handler store) w).result ∧
    ((ItemRepo.UpdateOneById (some listId) itemId input).run (World.handler store) w).state.db
      = ((ItemRepo.UpdateOneById (some other) itemId input).run (World.handler store) w).state.db ∧
    (((ItemRepo.UpdateOneById (some listId) itemId input).run (World.handler store) w).result
        = some none →
      ((ItemRepo.UpdateOneById (some listId) itemId input).run (World.handler store) w).state.master
        (Sprintf cacheKeyListItems.Pattern listId) = none) := by
  simp only [ItemRepo.UpdateOneById]
  cases ItemRepo.buildUpdate itemId input with
  | none => simp [Prog.pure_eq, Prog.run]
  | some qa =>
    obtain ⟨q, a⟩ := qa
    simp only [Prog.perform, Prog.bind_eq, Prog.pure_eq, Prog.bind, Prog.run, World.handler]
    generalize store.resp (.exec q a) w.db = r
    obtain ⟨e | e | n, s1⟩ := r
    · simp [Prog.run, Prog.bind]
    · simp [Prog.run, Prog.bind]
    · by_cases hn : n = 0
      · simp [Prog.run, Prog.bind, hn]
      · simp [Prog.run, Prog.bind, hn, RedisCache.Delete, World.setNode, World.node,
          Redis.del_apply]

theorem ItemRepo.DeleteOneById_listId {σ : Type} (store : Handler σ) (w : World σ)
    (listId other itemId : Int) :
    ((ItemRepo.DeleteOneById (some listId) itemId).run (World.handler store) w).result
      = ((ItemRepo.DeleteOneById (some other) itemId).run (World.handler store) w).result ∧
    ((ItemRepo.DeleteOneById (some listId) itemId).run (World.handler store) w).state.db
      = ((ItemRepo.DeleteOneById (some other) itemId).run (World.handler store) w).state.db ∧
    (((ItemRepo.DeleteOneById (some listId) itemId).run (World.handler store) w).result
        = some none →
      ((ItemRepo.DeleteOneById (some listId) itemId).run (World.handler store) w).state.master
        (Sprintf cacheKeyListItems.Pattern listId) = none) := by
  simp only [ItemRepo.DeleteOneById, Prog.perform, Prog.bind_eq, Prog.pure_eq, Prog.bind,
    Prog.run, World.handler]
  generalize store.resp (.exec ItemRepo.sqlDeleteOneById [.int itemId]) w.db = r
  obtain ⟨e | e | n, s1⟩ := r
  · simp [Prog.run, Prog.bind]
  · simp [Prog.run, Prog.bind]
  · by_cases hn : n = 0
    · simp [Prog.run, Prog.bind, hn]
    · simp [Prog.run, Prog.bind, hn, RedisCache.Delete, World.setNode, World.node,
        Redis.del_apply, Prog.pure_eq, Prog.bind_eq]

/-- C27 amended: whenever ItemUseCase.UpdateOneById(userId, listId, itemId,
input) or ItemUseCase.DeleteOneById(userId, listId, itemId) succeeds, the
caller-supplied listId is the one passed on to the repository, whose
`list_items:{listId}` key is then absent from the master, and is the list id
carried by the ItemUpdated event; it is not compared with the item's parent
list: for every store, the value returned and the content of the store
afterwards are the same for every other list id. -/
theorem item_mutation_takes_list_id_as_given {σ τ : Type} (store : Handler σ)
    (client : CallTree.Handler esapi.Request esapi.Request.Resp τ) (err : Option Err)
    (d : Deployment (World σ) τ (List sarama.ProducerMessage))
    (userId listId other itemId : Int) (input : entity.UpdateItemInput) :
    let h := wire (World.handler store) client (sarama.answering err)
    let upd := fun l => (ItemUseCase.UpdateOneById userId l itemId input).run h d
    let del := fun l => (ItemUseCase.DeleteOneById userId l itemId).run h d
    (upd listId).result = (upd other).result ∧
    (upd listId).state.world.db = (upd other).state.world.db ∧
    (del listId).result = (del other).result ∧
    (del listId).state.world.db = (del other).state.world.db ∧
    ((upd listId).result = some none →
      (upd listId).calls = [.repo (.IsUserOwnerOfItem userId itemId),
        .repo (.ItemUpdateOneById (some listId) itemId input),
        .go (.ItemUpdatedEvent userId listId itemId)] ∧
      (upd listId).state.world.master (Sprintf cacheKeyListItems.Pattern listId) = none ∧
      (upd listId).state.broker = d.broker ++ [⟨"item_updated",
        some (.obj [("user_id", .num userId), ("list_id", .num listId),
          ("item_id", .num itemId)])⟩]) ∧
    ((del listId).result = some none →
      (del listId).calls = [.repo (.IsUserOwnerOfItem userId itemId),
        .repo (.ItemDeleteOneById (some listId) itemId),
        .go (.ItemDeletedEvent itemId)] ∧
      (del listId).state.world.master (Sprintf cacheKeyListItems.Pattern listId) = none) ∧
    Sprintf cacheKeyListItems.Pattern listId = "list_items:" ++ toString listId := by
  intro h upd del
  have hu := fun w1 => ItemRepo.UpdateOneById_listId store w1 listId other itemId input
  have hd := fun w1 => ItemRepo.DeleteOneById_listId store w1 listId other itemId
  simp only [upd, del, h, ItemUseCase.UpdateOneById, ItemUseCase.DeleteOneById, Port.call,
    CallTree.perform, CallTree.bind_eq_bind, CallTree.pure_eq_ret, CallTree.bind, CallTree.run,
    wire_repo, Op.prog]
  generalize (ItemRepo.IsUserOwnerOfItem userId itemId).run (World.handler store) d.world = r0
  obtain ⟨_ | _ | e, w1, t1⟩ := r0
  · simp [CallTree.run, CallTree.Run.calls, Sprintf_listItems]
  · specialize hu w1
    specialize hd w1
    simp only [CallTree.run, CallTree.bind, wire_repo, Op.prog]
    revert hu hd
    generalize (ItemRepo.UpdateOneById (some listId) itemId input).run (World.handler store) w1
      = u1
    generalize (ItemRepo.UpdateOneById (some other) itemId input).run (World.handler store) w1
      = u2
    generalize (ItemRepo.DeleteOneById (some listId) itemId).run (World.handler store) w1 = d1
    generalize (ItemRepo.DeleteOneById (some other) itemId).run (World.handler store) w1 = d2
    obtain ⟨ur, us, ut⟩ := u1
    obtain ⟨ur2, us2, ut2⟩ := u2
    obtain ⟨dr, ds, dt⟩ := d1
    obtain ⟨dr2, ds2, dt2⟩ := d2
    rintro ⟨rfl, hu2, hu3⟩ ⟨rfl, hd2, hd3⟩
    simp only at hu2 hu3 hd2 hd3
    refine ⟨?_, ?_, ?_, ?_, ?_, ?_, Sprintf_listItems listId⟩
    · obtain _ | _ | e := ur <;> simp [CallTree.run, CallTree.bind, wire_go_answering]
    · obtain _ | _ | e := ur <;> simp [CallTree.run, CallTree.bind, wire_go_answering, hu2]
    · obtain _ | _ | e := dr <;> simp [CallTree.run, CallTree.bind, wire_go_answering]
    · obtain _ | _ | e := dr <;> simp [CallTree.run, CallTree.bind, wire_go_answering, hd2]
    · obtain _ | _ | e := ur <;>
        simp [CallTree.run, CallTree.bind, wire_go_answering, CallTree.Run.calls]
      exact ⟨hu3 rfl, rfl⟩
    · obtain _ | _ | e := dr <;>
        simp [CallTree.run, CallTree.bind, wire_go_answering, CallTree.Run.calls]
      exact hd3 rfl
  · simp [CallTree.run, CallTree.Run.calls, Sprintf_listItems]

/-! ## C28 -/

/-- C28 fails: when the engine answers with status 200 and a JSON object that
has no `hits` member, or whose `hits` is not an object, or whose `hits.hits`
holds an element that is not an object, both SearchIds methods end in a
run-time panic (`none`): the type assertions
`result["hits"].(map[string]interface{})` and `hit.(map[string]interface{})`
are made without `ok`.  Only a `hits.hits` that is not an array, and a hit
without a usable `_source`, are handled: the first returns an error, the
second is skipped. -/
theorem searchIds_faults_on_malformed_hits (userId : Int) (listId : Option Int)
    (done : Option Bool) (searchText : String) :
    ((ListSearch.SearchIds userId searchText).run
        (esapi.answering (.ok ⟨200, some (.obj [])⟩)) ()).result = none ∧
    ((ItemSearch.SearchIds userId listId done searchText).run
        (esapi.answering (.ok ⟨200, some (.obj [])⟩)) ()).result = none ∧
    ((ListSearch.SearchIds userId searchText).run
        (esapi.answering (.ok ⟨200, some (.obj [("hits", .arr [])])⟩)) ()).result = none ∧
    ((ItemSearch.SearchIds userId listId done searchText).run
        (esapi.answering (.ok ⟨200, some (.obj [("hits", .arr [])])⟩)) ()).result = none ∧
    ((ListSearch.SearchIds userId searchText).run
        (esapi.answering (.ok ⟨200, some (.obj [("hits", .obj [("hits", .arr [.num 1])])])⟩))
        ()).result = none ∧
    ((ItemSearch.SearchIds userId listId done searchText).run
        (esapi.answering (.ok ⟨200, some (.obj [("hits", .obj [("hits", .arr [.num 1])])])⟩))
        ()).result = none ∧
    ((ListSearch.SearchIds userId searchText).run
        (esapi.answering (.ok ⟨200, some (.obj [("hits", .obj [("hits", .num 1)])])⟩))
        ()).result = some (none, some (.other "error parsing hits from search response")) ∧
    ((ItemSearch.SearchIds userId listId done searchText).run
        (esapi.answering (.ok ⟨200, some (.obj [("hits", .obj [("hits", .num 1)])])⟩))
        ()).result = some (none, some (.other "error parsing hits from search response")) ∧
    ((ListSearch.SearchIds userId searchText).run
        (esapi.answering (.ok ⟨200, some (.obj [("hits", .obj [("hits", .arr [
          .obj [("_source", .num 1)], .obj [("_source", .obj [("id", .num 7)])]])])])⟩))
        ()).result = some (some [7], none) ∧
    ((ItemSearch.SearchIds userId listId done searchText).run
        (esapi.answering (.ok ⟨200, some (.obj [("hits", .obj [("hits", .arr [
          .obj [("_source", .num 1)], .obj [("_source", .obj [("id", .num 7)])]])])])⟩))
        ()).result = some (some [7], none) := by
  refine ⟨rfl, rfl, rfl, rfl, rfl, rfl, rfl, rfl, rfl, rfl⟩

/-! ## C29 -/

/-- C29 fails for lists: for the UpdateListInput with both fields nil,
UpdateListInput.Validate returns ErrListEmptyRequest while
ListRepo.UpdateOneById, for every owner, id and behaviour of the collaborators,
returns ErrItemEmptyRequest, a different error value.  The two agree on which
inputs are empty, and ItemRepo.UpdateOneById and UpdateItemInput.Validate agree
on the inputs and on the value. -/
theorem list_empty_update_error_differs {σ : Type} (h : Handler σ) (s : σ) (owner : Option Int)
    (id : Int) :
    (entity.UpdateListInput.Validate ⟨none, none⟩ = some .ErrListEmptyRequest ∧
      ((ListRepo.UpdateOneById owner id ⟨none, none⟩).run h s).result
        = some (some .ErrItemEmptyRequest) ∧
      Err.ErrItemEmptyRequest ≠ Err.ErrListEmptyRequest) ∧
    (∀ input : entity.UpdateListInput,
      (input.Validate ≠ none ↔ ListRepo.buildUpdate id input = none) ∧
      (input.Validate ≠ none ↔ input.Title = none ∧ input.Description = none)) ∧
    (∀ input : entity.UpdateItemInput,
      (input.Validate ≠ none ↔ ItemRepo.buildUpdate id input = none) ∧
      (input.Validate ≠ none ↔ input.Title = none ∧ input.Description = none ∧ input.Done = none) ∧
      (input.Validate ≠ none →
        ((ItemRepo.UpdateOneById owner id input).run h s).result = some input.Validate)) := by
  refine ⟨⟨rfl, ?_, by decide⟩, fun input => ?_, fun input => ?_⟩
  · simp [ListRepo.UpdateOneById, ListRepo.buildUpdate, Id.run, Prog.pure_eq, Prog.run]
  · rcases input with ⟨_ | t, _ | d⟩ <;>
      simp [entity.UpdateListInput.Validate, ListRepo.buildUpdate, Id.run]
  · rcases input with ⟨_ | t, _ | d, _ | b⟩ <;>
      simp [entity.UpdateItemInput.Validate, ItemRepo.buildUpdate, Id.run, ItemRepo.UpdateOneById,
        Prog.pure_eq, Prog.run]

/-! ## C30 -/

theorem json.names_tags :
    json.names "id" "id" = true ∧ json.names "title" "id" = false ∧
    json.names "title" "title" = true ∧ json.names "description" "id" = false ∧
    json.names "description" "title" = false ∧ json.names "description" "description" = true ∧
    json.names "done" "id" = false ∧ json.names "done" "title" = false ∧
    json.names "done" "description" = false ∧ json.names "done" "done" = true ∧
    json.names "user_id" "user_id" = true ∧ json.names "list" "user_id" = false ∧
    json.names "list" "list" = true ∧ json.names "list_id" "user_id" = false ∧
    json.names "list_id" "list_id" = true ∧ json.names "item" "user_id" = false ∧
    json.names "item" "list_id" = false ∧ json.names "item" "item" = true ∧
    json.names "item_id" "user_id" = false ∧ json.names "item_id" "list_id" = false ∧
    json.names "item_id" "item_id" = true := by
  decide

theorem entity.List.into_json_List (list : entity.List) :
    entity.List.into entity.List.zero list.json = .ok list := by
  obtain ⟨h1, h2, h3, h4, h5, h6, -⟩ := json.names_tags
  simp [entity.List.into, json.intoStruct, entity.List.json, json.intoInt,
    json.intoString, entity.List.zero, List.foldlM, bind, Except.bind, pure, Except.pure,
    h1, h2, h3, h4, h5, h6]

theorem entity.Item.into_json_Item (item : entity.Item) :
    entity.Item.into entity.Item.zero item.json = .ok item := by
  obtain ⟨h1, h2, h3, h4, h5, h6, h7, h8, h9, h10, -⟩ := json.names_tags
  simp [entity.Item.into, json.intoStruct, entity.Item.json, json.intoInt,
    json.intoString, json.intoBool, entity.Item.zero, List.foldlM, bind, Except.bind, pure,
    Except.pure, h1, h2, h3, h4, h5, h6, h7, h8, h9, h10]

theorem entity.ListCreatedEvent.into_json_ListCreatedEvent (m : entity.ListCreatedEvent) :
    json.UnmarshalBytes entity.ListCreatedEvent.into ⟨0, entity.List.zero⟩ (some m.json)
      = .ok m := by
  obtain ⟨-, -, -, -, -, -, -, -, -, -, h1, h2, h3, -⟩ := json.names_tags
  simp [json.UnmarshalBytes, entity.ListCreatedEvent.into, json.intoStruct,
    entity.ListCreatedEvent.json, json.intoInt, List.foldlM, bind, Except.bind,
    pure, Except.pure, entity.List.into_json_List, h1, h2, h3]

theorem entity.ListUpdatedEvent.into_json_ListUpdatedEvent (m : entity.ListUpdatedEvent) :
    json.UnmarshalBytes entity.ListUpdatedEvent.into ⟨0, 0⟩ (some m.json) = .ok m := by
  obtain ⟨-, -, -, -, -, -, -, -, -, -, h1, -, -, h2, h3, -⟩ := json.names_tags
  simp [json.UnmarshalBytes, entity.ListUpdatedEvent.into, json.intoStruct,
    entity.ListUpdatedEvent.json, json.intoInt, List.foldlM, bind, Except.bind,
    pure, Except.pure, h1, h2, h3]

theorem entity.ListDeletedEvent.into_json_ListDeletedEvent (m : entity.ListDeletedEvent) :
    json.UnmarshalBytes entity.ListDeletedEvent.into ⟨0⟩ (some m.json) = .ok m := by
  obtain ⟨-, -, -, -, -, -, -, -, -, -, -, -, -, -, h3, -⟩ := json.names_tags
  simp [json.UnmarshalBytes, entity.ListDeletedEvent.into, json.intoStruct,
    entity.ListDeletedEvent.json, json.intoInt, List.foldlM, bind, Except.bind,
    pure, Except.pure, h3]

theorem entity.ItemCreatedEvent.into_json_ItemCreatedEvent (m : entity.ItemCreatedEvent) :
    json.UnmarshalBytes entity.ItemCreatedEvent.into ⟨0, 0, entity.Item.zero⟩ (some m.json)
      = .ok m := by
  obtain ⟨-, -, -, -, -, -, -, -, -, -, h1, -, -, h2, h3, h4, h5, h6, -⟩ := json.names_tags
  simp [json.UnmarshalBytes, entity.ItemCreatedEvent.into, json.intoStruct,
    entity.ItemCreatedEvent.json, json.intoInt, List.foldlM, bind, Except.bind,
    pure, Except.pure, entity.Item.into_json_Item, h1, h2, h3, h4, h5, h6]

theorem entity.ItemUpdatedEvent.into_json_ItemUpdatedEvent (m : entity.ItemUpdatedEvent) :
    json.UnmarshalBytes entity.ItemUpdatedEvent.into ⟨0, 0, 0⟩ (some m.json) = .ok m := by
  obtain ⟨-, -, -, -, -, -, -, -, -, -, h1, -, -, h2, h3, -, -, -, h4, h5, h6⟩ :=
    json.names_tags
  simp [json.UnmarshalBytes, entity.ItemUpdatedEvent.into, json.intoStruct,
    entity.ItemUpdatedEvent.json, json.intoInt, List.foldlM, bind, Except.bind,
    pure, Except.pure, h1, h2, h3, h4, h5, h6]

theorem entity.ItemDeletedEvent.into_json_ItemDeletedEvent (m : entity.ItemDeletedEvent) :
    json.UnmarshalBytes entity.ItemDeletedEvent.into ⟨0⟩ (some m.json) = .ok m := by
  obtain ⟨-, -, -, -, -, -, -, -, -, -, -, -, -, -, -, -, -, -, -, -, h6⟩ := json.names_tags
  simp [json.UnmarshalBytes, entity.ItemDeletedEvent.into, json.intoStruct,
    entity.ItemDeletedEvent.json, json.intoInt, List.foldlM, bind, Except.bind,
    pure, Except.pure, h6]

theorem Consumer.handleListCreated_decoded {σ : Type} (h : CallTree.Handler Service Service.Resp σ)
    (s : σ) (m : entity.ListCreatedEvent) :
    (Consumer.handleListCreated (some m.json)).run h s
      = ⟨(h.resp (.ListHandleCreated m) s).1, (h.resp (.ListHandleCreated m) s).2,
          [⟨.ListHandleCreated m, (h.resp (.ListHandleCreated m) s).1⟩]⟩ := by
  simp only [Consumer.handleListCreated, entity.ListCreatedEvent.into_json_ListCreatedEvent, Service.call, CallTree.perform,
    CallTree.bind_eq_bind, CallTree.pure_eq_ret, CallTree.bind, CallTree.run]
  generalize h.resp (.ListHandleCreated m) s = r
  obtain ⟨_ | _ | e, s1⟩ := r <;> rfl

theorem Consumer.handleListCreated_undecoded {σ : Type}
    (h : CallTree.Handler Service Service.Resp σ) (s : σ) (msgBytes : Bytes) (e : Err)
    (hd : json.UnmarshalBytes entity.ListCreatedEvent.into ⟨0, entity.List.zero⟩ msgBytes = .error e) :
    (Consumer.handleListCreated msgBytes).run h s = ⟨some (some e), s, []⟩ := by
  simp only [Consumer.handleListCreated, hd, CallTree.pure_eq_ret, CallTree.run]

theorem Consumer.handleListUpdated_decoded {σ : Type} (h : CallTree.Handler Service Service.Resp σ)
    (s : σ) (m : entity.ListUpdatedEvent) :
    (Consumer.handleListUpdated (some m.json)).run h s
      = ⟨(h.resp (.ListHandleUpdated m) s).1, (h.resp (.ListHandleUpdated m) s).2,
          [⟨.ListHandleUpdated m, (h.resp (.ListHandleUpdated m) s).1⟩]⟩ := by
  simp only [Consumer.handleListUpdated, entity.ListUpdatedEvent.into_json_ListUpdatedEvent, Service.call, CallTree.perform,
    CallTree.bind_eq_bind, CallTree.pure_eq_ret, CallTree.bind, CallTree.run]
  generalize h.resp (.ListHandleUpdated m) s = r
  obtain ⟨_ | _ | e, s1⟩ := r <;> rfl

theorem Consumer.handleListUpdated_undecoded {σ : Type}
    (h : CallTree.Handler Service Service.Resp σ) (s : σ) (msgBytes : Bytes) (e : Err)
    (hd : json.UnmarshalBytes entity.ListUpdatedEvent.into ⟨0, 0⟩ msgBytes = .error e) :
    (Consumer.handleListUpdated msgBytes).run h s = ⟨some (some e), s, []⟩ := by
  simp only [Consumer.handleListUpdated, hd, CallTree.pure_eq_ret, CallTree.run]

theorem Consumer.handleListDeleted_decoded {σ : Type} (h : CallTree.Handler Service Service.Resp σ)
    (s : σ) (m : entity.ListDeletedEvent) :
    (Consumer.handleListDeleted (some m.json)).run h s
      = ⟨(h.resp (.ListHandleDeleted m) s).1, (h.resp (.ListHandleDeleted m) s).2,
          [⟨.ListHandleDeleted m, (h.resp (.ListHandleDeleted m) s).1⟩]⟩ := by
  simp only [Consumer.handleListDeleted, entity.ListDeletedEvent.into_json_ListDeletedEvent, Service.call, CallTree.perform,
    CallTree.bind_eq_bind, CallTree.pure_eq_ret, CallTree.bind, CallTree.run]
  generalize h.resp (.ListHandleDeleted m) s = r
  obtain ⟨_ | _ | e, s1⟩ := r <;> rfl

theorem Consumer.handleListDeleted_undecoded {σ : Type}
    (h : CallTree.Handler Service Service.Resp σ) (s : σ) (msgBytes : Bytes) (e : Err)
    (hd : json.UnmarshalBytes entity.ListDeletedEvent.into ⟨0⟩ msgBytes = .error e) :
    (Consumer.handleListDeleted msgBytes).run h s = ⟨some (some e), s, []⟩ := by
  simp only [Consumer.handleListDeleted, hd, CallTree.pure_eq_ret, CallTree.run]

theorem Consumer.handleItemCreated_decoded {σ : Type} (h : CallTree.Handler Service Service.Resp σ)
    (s : σ) (m : entity.ItemCreatedEvent) :
    (Consumer.handleItemCreated (some m.json)).run h s
      = ⟨(h.resp (.ItemHandleCreated m) s).1, (h.resp (.ItemHandleCreated m) s).2,
          [⟨.ItemHandleCreated m, (h.resp (.ItemHandleCreated m) s).1⟩]⟩ := by
  simp only [Consumer.handleItemCreated, entity.ItemCreatedEvent.into_json_ItemCreatedEvent, Service.call, CallTree.perform,
    CallTree.bind_eq_bind, CallTree.pure_eq_ret, CallTree.bind, CallTree.run]
  generalize h.resp (.ItemHandleCreated m) s = r
  obtain ⟨_ | _ | e, s1⟩ := r <;> rfl

theorem Consumer.handleItemCreated_undecoded {σ : Type}
    (h : CallTree.Handler Service Service.Resp σ) (s : σ) (msgBytes : Bytes) (e : Err)
    (hd : json.UnmarshalBytes entity.ItemCreatedEvent.into ⟨0, 0, entity.Item.zero⟩ msgBytes = .error e) :
    (Consumer.handleItemCreated msgBytes).run h s = ⟨some (some e), s, []⟩ := by
  simp only [Consumer.handleItemCreated, hd, CallTree.pure_eq_ret, CallTree.run]

theorem Consumer.handleItemUpdated_decoded {σ : Type} (h : CallTree.Handler Service Service.Resp σ)
    (s : σ) (m : entity.ItemUpdatedEvent) :
    (Consumer.handleItemUpdated (some m.json)).run h s
      = ⟨(h.resp (.ItemHandleUpdated m) s).1, (h.resp (.ItemHandleUpdated m) s).2,
          [⟨.ItemHandleUpdated m, (h.resp (.ItemHandleUpdated m) s).1⟩]⟩ := by
  simp only [Consumer.handleItemUpdated, entity.ItemUpdatedEvent.into_json_ItemUpdatedEvent, Service.call, CallTree.perform,
    CallTree.bind_eq_bind, CallTree.pure_eq_ret, CallTree.bind, CallTree.run]
  generalize h.resp (.ItemHandleUpdated m) s = r
  obtain ⟨_ | _ | e, s1⟩ := r <;> rfl

theorem Consumer.handleItemUpdated_undecoded {σ : Type}
    (h : CallTree.Handler Service Service.Resp σ) (s : σ) (msgBytes : Bytes) (e : Err)
    (hd : json.UnmarshalBytes entity.ItemUpdatedEvent.into ⟨0, 0, 0⟩ msgBytes = .error e) :
    (Consumer.handleItemUpdated msgBytes).run h s = ⟨some (some e), s, []⟩ := by
  simp only [Consumer.handleItemUpdated, hd, CallTree.pure_eq_ret, CallTree.run]

theorem Consumer.handleItemDeleted_decoded {σ : Type} (h : CallTree.Handler Service Service.Resp σ)
    (s : σ) (m : entity.ItemDeletedEvent) :
    (Consumer.handleItemDeleted (some m.json)).run h s
      = ⟨(h.resp (.ItemHandleDeleted m) s).1, (h.resp (.ItemHandleDeleted m) s).2,
          [⟨.ItemHandleDeleted m, (h.resp (.ItemHandleDeleted m) s).1⟩]⟩ := by
  simp only [Consumer.handleItemDeleted, entity.ItemDeletedEvent.into_json_ItemDeletedEvent, Service.call, CallTree.perform,
    CallTree.bind_eq_bind, CallTree.pure_eq_ret, CallTree.bind, CallTree.run]
  generalize h.resp (.ItemHandleDeleted m) s = r
  obtain ⟨_ | _ | e, s1⟩ := r <;> rfl

theorem Consumer.handleItemDeleted_undecoded {σ : Type}
    (h : CallTree.Handler Service Service.Resp σ) (s : σ) (msgBytes : Bytes) (e : Err)
    (hd : json.UnmarshalBytes entity.ItemDeletedEvent.into ⟨0⟩ msgBytes = .error e) :
    (Consumer.handleItemDeleted msgBytes).run h s = ⟨some (some e), s, []⟩ := by
  simp only [Consumer.handleItemDeleted, hd, CallTree.pure_eq_ret, CallTree.run]

/-- C30: for every behaviour of the use cases and every event of each of the
six kinds.  The producer method hands the broker one message, on the topic of
the kind, holding the encoded event; Init subscribes exactly one handler to
that topic; that handler, given the bytes of the message, calls the matching
Handle method of the use case exactly once, with a message equal to the event,
and returns what it returned.  Given bytes that do not decode into its event
struct, each handler returns the decoding error and calls nothing; text that
is not JSON and an object whose id is a string do not decode. -/
theorem consumer_decodes_what_producer_encodes {σ : Type}
    (h : CallTree.Handler Service Service.Resp σ) (s : σ) :
    (∀ (userId : Int) (list : entity.List),
      (Publish.ListCreatedEvent userId list).sent
        = [⟨"list_created", some (entity.ListCreatedEvent.json ⟨userId, list⟩)⟩] ∧
      Consumer.subscribed "list_created" = [.handleListCreated] ∧
      (Consumer.Method.handleListCreated.handle (some (entity.ListCreatedEvent.json ⟨userId, list⟩))).run h s
        = ⟨(h.resp (.ListHandleCreated ⟨userId, list⟩) s).1, (h.resp (.ListHandleCreated ⟨userId, list⟩) s).2,
            [⟨.ListHandleCreated ⟨userId, list⟩, (h.resp (.ListHandleCreated ⟨userId, list⟩) s).1⟩]⟩) ∧
    (∀ (userId listId : Int),
      (Publish.ListUpdatedEvent userId listId).sent
        = [⟨"list_updated", some (entity.ListUpdatedEvent.json ⟨userId, listId⟩)⟩] ∧
      Consumer.subscribed "list_updated" = [.handleListUpdated] ∧
      (Consumer.Method.handleListUpdated.handle (some (entity.ListUpdatedEvent.json ⟨userId, listId⟩))).run h s
        = ⟨(h.resp (.ListHandleUpdated ⟨userId, listId⟩) s).1, (h.resp (.ListHandleUpdated ⟨userId, listId⟩) s).2,
            [⟨.ListHandleUpdated ⟨userId, listId⟩, (h.resp (.ListHandleUpdated ⟨userId, listId⟩) s).1⟩]⟩) ∧
    (∀ (listId : Int),
      (Publish.ListDeletedEvent listId).sent
        = [⟨"list_deleted", some (entity.ListDeletedEvent.json ⟨listId⟩)⟩] ∧
      Consumer.subscribed "list_deleted" = [.handleListDeleted] ∧
      (Consumer.Method.handleListDeleted.handle (some (entity.ListDeletedEvent.json ⟨listId⟩))).run h s
        = ⟨(h.resp (.ListHandleDeleted ⟨listId⟩) s).1, (h.resp (.ListHandleDeleted ⟨listId⟩) s).2,
            [⟨.ListHandleDeleted ⟨listId⟩, (h.resp (.ListHandleDeleted ⟨listId⟩) s).1⟩]⟩) ∧
    (∀ (userId listId : Int) (item : entity.Item),
      (Publish.ItemCreatedEvent userId listId item).sent
        = [⟨"item_created", some (entity.ItemCreatedEvent.json ⟨userId, listId, item⟩)⟩] ∧
      Consumer.subscribed "item_created" = [.handleItemCreated] ∧
      (Consumer.Method.handleItemCreated.handle (some (entity.ItemCreatedEvent.json ⟨userId, listId, item⟩))).run h s
        = ⟨(h.resp (.ItemHandleCreated ⟨userId, listId, item⟩) s).1, (h.resp (.ItemHandleCreated ⟨userId, listId, item⟩) s).2,
            [⟨.ItemHandleCreated ⟨userId, listId, item⟩, (h.resp (.ItemHandleCreated ⟨userId, listId, item⟩) s).1⟩]⟩) ∧
    (∀ (userId listId itemId : Int),
      (Publish.ItemUpdatedEvent userId listId itemId).sent
        = [⟨"item_updated", some (entity.ItemUpdatedEvent.json ⟨userId, listId, itemId⟩)⟩] ∧
      Consumer.subscribed "item_updated" = [.handleItemUpdated] ∧
      (Consumer.Method.handleItemUpdated.handle (some (entity.ItemUpdatedEvent.json ⟨userId, listId, itemId⟩))).run h s
        = ⟨(h.resp (.ItemHandleUpdated ⟨userId, listId, itemId⟩) s).1, (h.resp (.ItemHandleUpdated ⟨userId, listId, itemId⟩) s).2,
            [⟨.ItemHandleUpdated ⟨userId, listId, itemId⟩, (h.resp (.ItemHandleUpdated ⟨userId, listId, itemId⟩) s).1⟩]⟩) ∧
    (∀ (itemId : Int),
      (Publish.ItemDeletedEvent itemId).sent
        = [⟨"item_deleted", some (entity.ItemDeletedEvent.json ⟨itemId⟩)⟩] ∧
      Consumer.subscribed "item_deleted" = [.handleItemDeleted] ∧
      (Consumer.Method.handleItemDeleted.handle (some (entity.ItemDeletedEvent.json ⟨itemId⟩))).run h s
        = ⟨(h.resp (.ItemHandleDeleted ⟨itemId⟩) s).1, (h.resp (.ItemHandleDeleted ⟨itemId⟩) s).2,
            [⟨.ItemHandleDeleted ⟨itemId⟩, (h.resp (.ItemHandleDeleted ⟨itemId⟩) s).1⟩]⟩) ∧
    (∀ msgBytes e,
      json.UnmarshalBytes entity.ListCreatedEvent.into ⟨0, entity.List.zero⟩ msgBytes = .error e →
      (Consumer.Method.handleListCreated.handle msgBytes).run h s = ⟨some (some e), s, []⟩) ∧
    (∀ msgBytes e,
      json.UnmarshalBytes entity.ListUpdatedEvent.into ⟨0, 0⟩ msgBytes = .error e →
      (Consumer.Method.handleListUpdated.handle msgBytes).run h s = ⟨some (some e), s, []⟩) ∧
    (∀ msgBytes e,
      json.UnmarshalBytes entity.ListDeletedEvent.into ⟨0⟩ msgBytes = .error e →
      (Consumer.Method.handleListDeleted.handle msgBytes).run h s = ⟨some (some e), s, []⟩) ∧
    (∀ msgBytes e,
      json.UnmarshalBytes entity.ItemCreatedEvent.into ⟨0, 0, entity.Item.zero⟩ msgBytes = .error e →
      (Consumer.Method.handleItemCreated.handle msgBytes).run h s = ⟨some (some e), s, []⟩) ∧
    (∀ msgBytes e,
      json.UnmarshalBytes entity.ItemUpdatedEvent.into ⟨0, 0, 0⟩ msgBytes = .error e →
      (Consumer.Method.handleItemUpdated.handle msgBytes).run h s = ⟨some (some e), s, []⟩) ∧
    (∀ msgBytes e,
      json.UnmarshalBytes entity.ItemDeletedEvent.into ⟨0⟩ msgBytes = .error e →
      (Consumer.Method.handleItemDeleted.handle msgBytes).run h s = ⟨some (some e), s, []⟩) ∧
    (∃ e, json.UnmarshalBytes entity.ItemCreatedEvent.into ⟨0, 0, entity.Item.zero⟩ none
      = .error e) ∧
    (∃ e, json.UnmarshalBytes entity.ItemCreatedEvent.into ⟨0, 0, entity.Item.zero⟩
        (some (.obj [("user_id", .num 1), ("list_id", .num 1),
          ("item", .obj [("id", .str "7")])]))
      = .error e) := by
  refine ⟨?_, ?_, ?_, ?_, ?_, ?_, ?_, ?_, ?_, ?_, ?_, ?_, ⟨_, rfl⟩, ⟨_, rfl⟩⟩
  · intro userId list
    exact ⟨rfl, by decide, Consumer.handleListCreated_decoded h s ⟨userId, list⟩⟩
  · intro userId listId
    exact ⟨rfl, by decide, Consumer.handleListUpdated_decoded h s ⟨userId, listId⟩⟩
  · intro listId
    exact ⟨rfl, by decide, Consumer.handleListDeleted_decoded h s ⟨listId⟩⟩
  · intro userId listId item
    exact ⟨rfl, by decide, Consumer.handleItemCreated_decoded h s ⟨userId, listId, item⟩⟩
  · intro userId listId itemId
    exact ⟨rfl, by decide, Consumer.handleItemUpdated_decoded h s ⟨userId, listId, itemId⟩⟩
  · intro itemId
    exact ⟨rfl, by decide, Consumer.handleItemDeleted_decoded h s ⟨itemId⟩⟩
  · intro msgBytes e hd
    exact Consumer.handleListCreated_undecoded h s msgBytes e hd
  · intro msgBytes e hd
    exact Consumer.handleListUpdated_undecoded h s msgBytes e hd
  · intro msgBytes e hd
    exact Consumer.handleListDeleted_undecoded h s msgBytes e hd
  · intro msgBytes e hd
    exact Consumer.handleItemCreated_undecoded h s msgBytes e hd
  · intro msgBytes e hd
    exact Consumer.handleItemUpdated_undecoded h s msgBytes e hd
  · intro msgBytes e hd
    exact Consumer.handleItemDeleted_undecoded h s msgBytes e hd
